import Mathlib

/-!
L-SMASH Works index builder (`common/lwindex.c`): a shallow embedding

Conventions of the embedding.

* C arrays are lists; `info[i]` on a zero-initialised array is `getD i zero`,
  a write `info[i].f = v` is `List.set`.  Record arrays are 1-origin, slot 0
  is the zeroed sentinel, exactly as in the source.
* `int64_t` timestamps are integers, `AV_NOPTS_VALUE` is `-2^63`.  Where the
  source does arithmetic on timestamps the result is reduced to the signed
  64-bit range with `wrap_int64`.
* `lw_seek_flags` is a bit mask over five distinct `SEEK_*` bits; it is
  embedded as a record of five booleans (`x |= F` sets a field, `x &= ~F`
  clears it, `x & F` reads it).
* Library calls are inputs: `qsort` is any function meeting its contract
  (`qsort_t`), allocation results are boolean oracles.
-/

namespace Lwindex

/-! ## Constants of libavutil / libavformat / libavcodec -/

/-- The `AV_NOPTS_VALUE` of libavutil: `INT64_MIN`. -/
def AV_NOPTS_VALUE : Int := -9223372036854775808

/-- The `AV_PICTURE_TYPE_I` of libavutil. -/
def AV_PICTURE_TYPE_I : Int := 1

/-- The `AV_PICTURE_TYPE_B` of libavutil. -/
def AV_PICTURE_TYPE_B : Int := 3

/-- The `AVFMT_NO_BYTE_SEEK` bit of libavformat. -/
def AVFMT_NO_BYTE_SEEK : Nat := 0x8000

/-- The `AV_PKT_FLAG_KEY` bit of libavcodec. -/
def AV_PKT_FLAG_KEY : Nat := 0x0001

/-- The `AV_PKT_DATA_NEW_EXTRADATA` side data type of libavcodec. -/
def AV_PKT_DATA_NEW_EXTRADATA : Nat := 1

/-- The `INT32_MAX` of `stdint.h`. -/
def INT32_MAX : Nat := 2147483647

/-- Reduction of a mathematical integer to the value an `int64_t` holds. -/
def wrap_int64 (x : Int) : Int := (x + 2 ^ 63) % 2 ^ 64 - 2 ^ 63

/-- Reduction of a natural number to the value a `uint32_t` holds. -/
def wrap_uint32 (x : Nat) : Nat := x % 2 ^ 32

/-- Reduction of a mathematical integer to the value an `int` (32 bits) holds. -/
def wrap_int32 (x : Int) : Int := (x + 2 ^ 31) % 2 ^ 32 - 2 ^ 31

/-- Codec identifiers the indexer distinguishes; every other `AVCodecID`
value is `other n`. -/
inductive AVCodecID where
  | AV_CODEC_ID_NONE
  | AV_CODEC_ID_MPEG1VIDEO
  | AV_CODEC_ID_MPEG2VIDEO
  | AV_CODEC_ID_VC1
  | AV_CODEC_ID_WMV3
  | AV_CODEC_ID_DVVIDEO
  | other (n : Nat)
deriving DecidableEq

/-! ## Data model -/

/-- Modelled from the spec: the record type `video_frame_info_t` (declared in
`lwlibav_video.h`), with the fields the data model of the spec lists. -/
structure video_frame_info_t where
  pts : Int
  dts : Int
  file_offset : Int
  sample_number : Nat
  extradata_index : Int
  pict_type : Int
  keyframe : Nat
  is_leading : Nat
deriving DecidableEq

/-- A zero-initialised record (`lw_malloc_zero`, `memset`). -/
def video_frame_info_zero : video_frame_info_t :=
  { pts := 0, dts := 0, file_offset := 0, sample_number := 0,
    extradata_index := 0, pict_type := 0, keyframe := 0, is_leading := 0 }

/-- The local type `video_timestamp_t` of `lwindex.c`. -/
structure video_timestamp_t where
  pts : Int
  dts : Int
deriving DecidableEq

/-- Modelled from the spec: the `SEEK_*` bits of `lw_seek_flags` (declared in
`lwlibav_dec.h`), five distinct bits, one boolean per bit. -/
structure lw_seek_flags_t where
  SEEK_DTS_BASED : Bool
  SEEK_PTS_BASED : Bool
  SEEK_POS_BASED : Bool
  SEEK_POS_CORRECTION : Bool
  SEEK_PTS_GENERATED : Bool
deriving DecidableEq

/-- Modelled from the spec: the fields of `lwlibav_file_handler_t` (declared in
`lwlibav_dec.h`) that the seek-method deciders read. -/
structure lwlibav_file_handler_t where
  format_name : String
  format_flags : Nat

/-- Modelled from the spec: the fields of `lwlibav_video_decode_handler_t`
(declared in `lwlibav_video.h`) that the seek-method decider and the PTS
reconstructor use.  `order_converter` is `none` for the NULL pointer, otherwise
the array of `decoding_to_presentation` numbers, slot 0 included. -/
structure lwlibav_video_decode_handler_t where
  frame_list : List video_frame_info_t
  frame_count : Nat
  keyframe_list : List Nat
  order_converter : Option (List Nat)
  lw_seek_flags : lw_seek_flags_t
  codec_id : AVCodecID

/-- The array read `info[i]`. -/
def info_at (info : List video_frame_info_t) (i : Nat) : video_frame_info_t :=
  info.getD i video_frame_info_zero

/-- The array write `info[i].pts = v`. -/
def set_pts (info : List video_frame_info_t) (i : Nat) (v : Int) :
    List video_frame_info_t :=
  info.set i { info_at info i with pts := v }

/-- The array write `info[i].keyframe = v`. -/
def set_keyframe (info : List video_frame_info_t) (i : Nat) (v : Nat) :
    List video_frame_info_t :=
  info.set i { info_at info i with keyframe := v }

/-- The array write `info[i].is_leading = v`. -/
def set_is_leading (info : List video_frame_info_t) (i : Nat) (v : Nat) :
    List video_frame_info_t :=
  info.set i { info_at info i with is_leading := v }

/-! ## Sorting -/

/-- The function `compare_pts`: the sign of the 64-bit difference. -/
def compare_pts (a b : video_frame_info_t) : Int :=
  let diff := wrap_int64 (a.pts - b.pts)
  if diff > 0 then 1 else (if diff = 0 then 0 else -1)

/-- The function `compare_dts`: the sign of the 64-bit difference. -/
def compare_dts (a b : video_timestamp_t) : Int :=
  let diff := wrap_int64 (a.dts - b.dts)
  if diff > 0 then 1 else (if diff = 0 then 0 else -1)

/-- A comparison function is consistent on a list when `cmp a b ≤ 0` is total
and transitive on the members of the list. -/
def cmp_consistent {α : Type} (cmp : α → α → Int) (l : List α) : Prop :=
  (∀ a ∈ l, ∀ b ∈ l, cmp a b ≤ 0 ∨ cmp b a ≤ 0) ∧
  (∀ a ∈ l, ∀ b ∈ l, ∀ c ∈ l, cmp a b ≤ 0 → cmp b c ≤ 0 → cmp a c ≤ 0)

/-- The contract of the C library `qsort`: the array is rearranged, and when
the comparison function is consistent on it the result is in ascending order.
Nothing is promised about the order of elements that compare equal. -/
structure qsort_t where
  run : {α : Type} → (α → α → Int) → List α → List α
  perm : ∀ {α : Type} (cmp : α → α → Int) (l : List α), (run cmp l).Perm l
  sorted : ∀ {α : Type} (cmp : α → α → Int) (l : List α), cmp_consistent cmp l →
    (run cmp l).Pairwise (fun a b => cmp a b ≤ 0)

/-- Insertion of one element into an ascending list. -/
def ordered_insert {α : Type} (cmp : α → α → Int) (a : α) : List α → List α
  | [] => [a]
  | b :: l => if cmp a b ≤ 0 then a :: b :: l else b :: ordered_insert cmp a l

/-- Insertion sort, one implementation of the `qsort` contract. -/
def insertion_sort {α : Type} (cmp : α → α → Int) : List α → List α
  | [] => []
  | a :: l => ordered_insert cmp a (insertion_sort cmp l)

/-- The call `qsort( &base[1], count, ... )` on an array given as a list:
slots `1..count` are sorted, the others stay. -/
def qsort_from_1 {α : Type} (q : qsort_t) (cmp : α → α → Int) (base : List α)
    (count : Nat) : List α :=
  base.take 1 ++ q.run cmp ((base.drop 1).take count) ++ base.drop (count + 1)

/-- The function `sort_presentation_order`, called on `&info[1]`. -/
def sort_presentation_order (q : qsort_t) (info : List video_frame_info_t)
    (sample_count : Nat) : List video_frame_info_t :=
  qsort_from_1 q compare_pts info sample_count

/-- The function `sort_decoding_order`, called on `&timestamp[1]`. -/
def sort_decoding_order (q : qsort_t) (timestamp : List video_timestamp_t)
    (sample_count : Nat) : List video_timestamp_t :=
  qsort_from_1 q compare_dts timestamp sample_count

/-! ## Seek-method decider (video) and PTS reconstructor -/

/-- The function `check_frame_reordering`. -/
def check_frame_reordering (info : List video_frame_info_t) (sample_count : Nat) : Bool :=
  (List.range' 2 (sample_count - 1)).any
    (fun i => decide ((info_at info i).pts < (info_at info (i - 1)).pts))

/-- The function `lineup_seek_base_candidates`. -/
def lineup_seek_base_candidates (lwhp : lwlibav_file_handler_t) : lw_seek_flags_t :=
  if lwhp.format_name = "mpeg" ∨ lwhp.format_name = "mpegts" then
    { SEEK_DTS_BASED := true, SEEK_PTS_BASED := true, SEEK_POS_BASED := true,
      SEEK_POS_CORRECTION := true, SEEK_PTS_GENERATED := false }
  else
    { SEEK_DTS_BASED := true, SEEK_PTS_BASED := true, SEEK_POS_BASED := false,
      SEEK_POS_CORRECTION := true, SEEK_PTS_GENERATED := false }

/-- Loop state of the first loop of `mpeg12_video_vc1_genarate_pts`. -/
structure genarate_pts_state where
  info : List video_frame_info_t
  reordered_stream : Bool
  num_consecutive_b : Nat

/-- One iteration (index `i`) of the first loop of
`mpeg12_video_vc1_genarate_pts`. -/
def genarate_pts_step (s : genarate_pts_state) (i : Nat) : genarate_pts_state :=
  if (info_at s.info i).pict_type = AV_PICTURE_TYPE_B then
    { info := set_pts s.info i (info_at s.info i).dts,
      reordered_stream := true,
      num_consecutive_b := s.num_consecutive_b + 1 }
  else
    { info := if i > s.num_consecutive_b + 1
              then set_pts s.info (i - s.num_consecutive_b - 1) (info_at s.info i).dts
              else s.info,
      reordered_stream := s.reordered_stream,
      num_consecutive_b := 0 }

/-- The loop `for( i = frame_count; i && *last_pts >= info[i].dts; i-- )` that
looks for a duplicate of the last anchor's PTS; `last_pts` points at
`info[flush_number].pts`. -/
def check_duplicated_pts (flush_number : Nat) :
    Nat → List video_frame_info_t → List video_frame_info_t
  | 0, info => info
  | i + 1, info =>
    if (info_at info flush_number).pts ≥ (info_at info (i + 1)).dts then
      check_duplicated_pts flush_number i
        (if (info_at info flush_number).pts = (info_at info (i + 1)).pts ∧ i + 1 ≠ flush_number
         then set_pts info flush_number AV_NOPTS_VALUE
         else info)
    else info

/-- One iteration of the loop that marks leading pictures; the state is the
array and `last_keyframe_pts`. -/
def check_leading_step (s : List video_frame_info_t × Int) (i : Nat) :
    List video_frame_info_t × Int :=
  let info1 :=
    if (info_at s.1 i).pts ≠ AV_NOPTS_VALUE ∧ s.2 ≠ AV_NOPTS_VALUE ∧ (info_at s.1 i).pts < s.2
    then set_is_leading s.1 i 1 else s.1
  (info1, if (info_at info1 i).keyframe ≠ 0 then (info_at info1 i).pts else s.2)

/-- The block of `mpeg12_video_vc1_genarate_pts` under "Check if any duplicated
PTS": the PTS of the last anchor (`*last_pts`, at `info[flush_number]`) is
unset when another record has it, and an unset one is estimated. -/
def estimate_last_pts (info : List video_frame_info_t) (frame_count flush_number : Nat) :
    List video_frame_info_t :=
  let info1 :=
    if (info_at info flush_number).pts ≠ AV_NOPTS_VALUE
    then check_duplicated_pts flush_number frame_count info
    else info
  if (info_at info1 flush_number).pts = AV_NOPTS_VALUE then
    let duration :=
      wrap_int64 ((info_at info1 frame_count).dts - (info_at info1 (frame_count - 1)).dts)
    set_pts info1 flush_number (wrap_int64 ((info_at info1 frame_count).dts + duration))
  else info1

/-- The loop of `mpeg12_video_vc1_genarate_pts` under "Check leading
B-pictures". -/
def check_leading (info : List video_frame_info_t) (frame_count : Nat) :
    List video_frame_info_t :=
  ((List.range' 1 frame_count).foldl check_leading_step (info, AV_NOPTS_VALUE)).1

/-- The loop `for( i = 1; i <= count; i++ ) info[i].pts = info[i].dts;`. -/
def copy_dts_to_pts (info : List video_frame_info_t) (count : Nat) :
    List video_frame_info_t :=
  (List.range' 1 count).foldl (fun l i => set_pts l i (info_at l i).dts) info

/-- The function `mpeg12_video_vc1_genarate_pts`, as a function on the frame
list (`vdhp->frame_list`) and `vdhp->frame_count`. -/
def genarate_pts_list (info0 : List video_frame_info_t) (frame_count : Nat) :
    List video_frame_info_t :=
  let s := (List.range' 1 frame_count).foldl genarate_pts_step
    { info := info0, reordered_stream := false, num_consecutive_b := 0 }
  if s.reordered_stream ∧ s.num_consecutive_b ≠ frame_count then
    check_leading
      (estimate_last_pts s.info frame_count (frame_count - s.num_consecutive_b)) frame_count
  else copy_dts_to_pts s.info frame_count

/-- The function `mpeg12_video_vc1_genarate_pts`. -/
def mpeg12_video_vc1_genarate_pts (vdhp : lwlibav_video_decode_handler_t) :
    lwlibav_video_decode_handler_t :=
  { vdhp with frame_list := genarate_pts_list vdhp.frame_list vdhp.frame_count }

/-- The loop of `decide_video_seek_method` that clears `SEEK_PTS_BASED` when a
record has no PTS. -/
def drop_pts_based (flags : lw_seek_flags_t) (info : List video_frame_info_t)
    (sample_count : Nat) : lw_seek_flags_t :=
  if (List.range' 1 sample_count).any (fun i => decide ((info_at info i).pts = AV_NOPTS_VALUE))
  then { flags with SEEK_PTS_BASED := false } else flags

/-- The statement of `decide_video_seek_method` that clears `SEEK_DTS_BASED`:
the first DTS is unset, or (loop from `i = 2`) a later one is unset or not
greater than its predecessor. -/
def drop_dts_based (flags : lw_seek_flags_t) (info : List video_frame_info_t)
    (sample_count : Nat) : lw_seek_flags_t :=
  if (info_at info 1).dts = AV_NOPTS_VALUE then { flags with SEEK_DTS_BASED := false }
  else if (List.range' 2 (sample_count - 1)).any
      (fun i => decide ((info_at info i).dts = AV_NOPTS_VALUE
                        ∨ (info_at info i).dts ≤ (info_at info (i - 1)).dts))
  then { flags with SEEK_DTS_BASED := false } else flags

/-- The statement of `decide_video_seek_method` that clears
`SEEK_POS_CORRECTION`: the first offset is -1, or (loop from `i = 1`) an offset
is -1 or not greater than its predecessor. -/
def drop_pos_correction (flags : lw_seek_flags_t) (info : List video_frame_info_t)
    (sample_count : Nat) : lw_seek_flags_t :=
  if (info_at info 1).file_offset = -1 then { flags with SEEK_POS_CORRECTION := false }
  else if (List.range' 1 sample_count).any
      (fun i => decide ((info_at info i).file_offset = -1
                        ∨ (info_at info i).file_offset ≤ (info_at info (i - 1)).file_offset))
  then { flags with SEEK_POS_CORRECTION := false } else flags

/-- The statement of `decide_video_seek_method` that clears `SEEK_POS_BASED`:
the format cannot seek by byte, or every record has offset -1
(`error_count` is a `uint32_t`). -/
def drop_pos_based (lwhp : lwlibav_file_handler_t) (flags : lw_seek_flags_t)
    (info : List video_frame_info_t) (sample_count : Nat) : lw_seek_flags_t :=
  if flags.SEEK_POS_BASED then
    if lwhp.format_flags &&& AVFMT_NO_BYTE_SEEK ≠ 0 then { flags with SEEK_POS_BASED := false }
    else
      let error_count := (List.range' 1 sample_count).foldl
        (fun n i => wrap_uint32 (n + (if (info_at info i).file_offset = -1 then 1 else 0))) 0
      if error_count = sample_count then { flags with SEEK_POS_BASED := false } else flags
  else flags

/-- The part of `decide_video_seek_method` under "Decide seek base": the
candidate flags minus the ones the scanned records rule out. -/
def decide_seek_base (lwhp : lwlibav_file_handler_t) (info : List video_frame_info_t)
    (sample_count : Nat) : lw_seek_flags_t :=
  drop_pos_based lwhp
    (drop_pos_correction
      (drop_dts_based
        (drop_pts_based (lineup_seek_base_candidates lwhp) info sample_count)
        info sample_count)
      info sample_count)
    info sample_count

/-- The first statement of a keyframe pass of `decide_video_seek_method`:
`info[ info[1].sample_number ].keyframe &= (axis != unset)`. -/
def unique_keyframe_first (axis : video_frame_info_t → Int) (unset : Int)
    (info : List video_frame_info_t) : List video_frame_info_t :=
  let j := (info_at info 1).sample_number
  set_keyframe info j
    ((info_at info j).keyframe &&& (if axis (info_at info j) ≠ unset then 1 else 0))

/-- One iteration (index `i`) of a keyframe pass of `decide_video_seek_method`;
`axis` is `file_offset`, `pts` or `dts` and `unset` is `-1` or `AV_NOPTS_VALUE`. -/
def unique_keyframe_step (axis : video_frame_info_t → Int) (unset : Int)
    (info : List video_frame_info_t) (i : Nat) : List video_frame_info_t :=
  let j := (info_at info i).sample_number
  let k := (info_at info (i - 1)).sample_number
  if axis (info_at info j) = unset then set_keyframe info j 0
  else if axis (info_at info j) = axis (info_at info k)
  then set_keyframe (set_keyframe info k 0) j 0
  else info

/-- A whole keyframe pass along one axis. -/
def unique_keyframe_pass (axis : video_frame_info_t → Int) (unset : Int)
    (info : List video_frame_info_t) (sample_count : Nat) : List video_frame_info_t :=
  (List.range' 2 (sample_count - 1)).foldl (unique_keyframe_step axis unset)
    (unique_keyframe_first axis unset info)

/-- The part of `decide_video_seek_method` under the comment "Treat video frames
with unique value as keyframe": the pass along the axis of highest priority. -/
def treat_unique_as_keyframe (flags : lw_seek_flags_t) (info : List video_frame_info_t)
    (sample_count : Nat) : List video_frame_info_t :=
  if flags.SEEK_POS_BASED then
    unique_keyframe_pass (fun r => r.file_offset) (-1) info sample_count
  else if flags.SEEK_PTS_BASED then
    unique_keyframe_pass (fun r => r.pts) AV_NOPTS_VALUE info sample_count
  else if flags.SEEK_DTS_BASED then
    unique_keyframe_pass (fun r => r.dts) AV_NOPTS_VALUE info sample_count
  else info

/-- The last loop of `decide_video_seek_method`:
`keyframe_list[ info[i].sample_number ] = info[i].keyframe`. -/
def setup_keyframe_list (info : List video_frame_info_t) (keyframe_list : List Nat)
    (sample_count : Nat) : List Nat :=
  (List.range' 1 sample_count).foldl
    (fun kl i => kl.set (info_at info i).sample_number (info_at info i).keyframe) keyframe_list

/-- The `timestamp` array of `decide_video_seek_method` before it is sorted:
slot 0 zeroed, slot `i` holding `(i, info[i].sample_number)`. -/
def make_timestamp (info : List video_frame_info_t) (sample_count : Nat) :
    List video_timestamp_t :=
  { pts := 0, dts := 0 } ::
    (List.range' 1 sample_count).map
      (fun (i : Nat) => { pts := Int.ofNat i, dts := Int.ofNat (info_at info i).sample_number })

/-- The `order_converter` array read off the sorted `timestamp` array:
`order_converter[i].decoding_to_presentation = (uint32_t)timestamp[i].pts`. -/
def make_order_converter (timestamp : List video_timestamp_t) (sample_count : Nat) :
    List Nat :=
  0 :: (List.range' 1 sample_count).map
    (fun i => ((timestamp.getD i { pts := 0, dts := 0 }).pts % 2 ^ 32).toNat)

/-- The part of `decide_video_seek_method` from its start to the end of the
block "Generate PTS from DTS": the seek base is decided and, for MPEG-1/2 Video,
VC-1 and WMV3 with DTS but without PTS, the PTS are generated.  The boolean is
the local variable `no_pts_loss`. -/
def construct_timestamps (lwhp : lwlibav_file_handler_t)
    (vdhp : lwlibav_video_decode_handler_t) (sample_count : Nat) :
    Bool × lwlibav_video_decode_handler_t :=
  let flags := decide_seek_base lwhp vdhp.frame_list sample_count
  if (flags.SEEK_DTS_BASED && !flags.SEEK_PTS_BASED
      && (vdhp.codec_id = AVCodecID.AV_CODEC_ID_MPEG1VIDEO
          || vdhp.codec_id = AVCodecID.AV_CODEC_ID_MPEG2VIDEO
          || vdhp.codec_id = AVCodecID.AV_CODEC_ID_VC1
          || vdhp.codec_id = AVCodecID.AV_CODEC_ID_WMV3)) = true
  then
    (true, { mpeg12_video_vc1_genarate_pts vdhp with
             lw_seek_flags := { flags with SEEK_PTS_GENERATED := true } })
  else (flags.SEEK_PTS_BASED, { vdhp with lw_seek_flags := flags })

/-- The end of `decide_video_seek_method`: the keyframe pass, the set-up of
`keyframe_list`, and `return 0`. -/
def finish_keyframes (vdhp : lwlibav_video_decode_handler_t) (sample_count : Nat) :
    Int × lwlibav_video_decode_handler_t :=
  let info := treat_unique_as_keyframe vdhp.lw_seek_flags vdhp.frame_list sample_count
  (0, { vdhp with frame_list := info,
                  keyframe_list := setup_keyframe_list info vdhp.keyframe_list sample_count })

/-- The function `decide_video_seek_method`.  The two booleans are the results
of the two `lw_malloc_zero` calls (`true` for a non-NULL pointer); the returned
integer is the return value of the C function. -/
def decide_video_seek_method (q : qsort_t) (order_converter_alloc timestamp_alloc : Bool)
    (lwhp : lwlibav_file_handler_t) (vdhp : lwlibav_video_decode_handler_t)
    (sample_count : Nat) : Int × lwlibav_video_decode_handler_t :=
  let no_pts_loss := (construct_timestamps lwhp vdhp sample_count).1
  let vdhp1 := (construct_timestamps lwhp vdhp sample_count).2
  if (no_pts_loss && check_frame_reordering vdhp1.frame_list sample_count) = true then
    if order_converter_alloc = false then (-1, { vdhp1 with order_converter := none })
    else if timestamp_alloc = false then
      (-1, { vdhp1 with
             frame_list := sort_presentation_order q vdhp1.frame_list sample_count,
             order_converter := some (List.replicate (sample_count + 1) 0) })
    else
      let info := sort_presentation_order q vdhp1.frame_list sample_count
      let timestamp := sort_decoding_order q (make_timestamp info sample_count) sample_count
      finish_keyframes
        { vdhp1 with frame_list := info,
                     order_converter := some (make_order_converter timestamp sample_count) }
        sample_count
  else if vdhp1.lw_seek_flags.SEEK_DTS_BASED = true then
    finish_keyframes
      { vdhp1 with frame_list := copy_dts_to_pts vdhp1.frame_list sample_count } sample_count
  else finish_keyframes vdhp1 sample_count

/-- Insertion sort meets the `qsort` contract, so the contract is not empty. -/
def insertion_qsort : qsort_t where
  run := fun cmp l => insertion_sort cmp l
  perm := by
    intro α cmp l
    have hins : ∀ (a : α) (l : List α), (ordered_insert cmp a l).Perm (a :: l) := by
      intro a l
      induction l with
      | nil => exact List.Perm.refl _
      | cons b l ih =>
        simp only [ordered_insert]
        split
        · exact List.Perm.refl _
        · exact (List.Perm.cons b ih).trans (List.Perm.swap a b l)
    induction l with
    | nil => exact List.Perm.refl _
    | cons a l ih => exact (hins a _).trans (List.Perm.cons a ih)
  sorted := by
    intro α cmp l
    have hins : ∀ (a : α) (l : List α), (ordered_insert cmp a l).Perm (a :: l) := by
      intro a l
      induction l with
      | nil => exact List.Perm.refl _
      | cons b l ih =>
        simp only [ordered_insert]
        split
        · exact List.Perm.refl _
        · exact (List.Perm.cons b ih).trans (List.Perm.swap a b l)
    have hsort : ∀ (l : List α), (insertion_sort cmp l).Perm l := by
      intro l
      induction l with
      | nil => exact List.Perm.refl _
      | cons a l ih => exact (hins a _).trans (List.Perm.cons a ih)
    have hord : ∀ (a : α) (l : List α), cmp_consistent cmp (a :: l) →
        l.Pairwise (fun x y => cmp x y ≤ 0) →
        (ordered_insert cmp a l).Pairwise (fun x y => cmp x y ≤ 0) := by
      intro a l
      induction l with
      | nil => intro _ _; simp [ordered_insert]
      | cons b l ih =>
        intro hc hp
        have hb : ∀ x ∈ l, cmp b x ≤ 0 := (List.pairwise_cons.mp hp).1
        have hl : l.Pairwise (fun x y => cmp x y ≤ 0) := (List.pairwise_cons.mp hp).2
        simp only [ordered_insert]
        split
        · rename_i hab
          refine List.pairwise_cons.mpr ⟨?_, hp⟩
          intro x hx
          rcases List.mem_cons.mp hx with rfl | hx
          · exact hab
          · exact hc.2 a (by simp) b (by simp) x (by simp [hx]) hab (hb x hx)
        · rename_i hab
          refine List.pairwise_cons.mpr ⟨?_, ?_⟩
          · intro x hx
            have hx2 : x ∈ a :: l := (hins a l).subset hx
            rcases List.mem_cons.mp hx2 with rfl | hx3
            · rcases hc.1 x (by simp) b (by simp) with h | h
              · exact absurd h hab
              · exact h
            · exact hb x hx3
          · refine ih ⟨?_, ?_⟩ hl
            · intro x hx y hy
              exact hc.1 x (by
                rcases List.mem_cons.mp hx with h | h
                · simp [h]
                · simp [h]) y (by
                rcases List.mem_cons.mp hy with h | h
                · simp [h]
                · simp [h])
            · intro x hx y hy z hz
              exact hc.2 x (by
                rcases List.mem_cons.mp hx with h | h
                · simp [h]
                · simp [h]) y (by
                rcases List.mem_cons.mp hy with h | h
                · simp [h]
                · simp [h]) z (by
                rcases List.mem_cons.mp hz with h | h
                · simp [h]
                · simp [h])
    induction l with
    | nil => intro _; simp [insertion_sort]
    | cons a l ih =>
      intro hc
      have hcl : cmp_consistent cmp l :=
        ⟨fun x hx y hy => hc.1 x (List.mem_cons_of_mem _ hx) y (List.mem_cons_of_mem _ hy),
         fun x hx y hy z hz => hc.2 x (List.mem_cons_of_mem _ hx) y (List.mem_cons_of_mem _ hy)
            z (List.mem_cons_of_mem _ hz)⟩
      have hmem : ∀ x, x ∈ a :: insertion_sort cmp l → x ∈ a :: l := by
        intro x hx
        rcases List.mem_cons.mp hx with h | h
        · simp [h]
        · exact List.mem_cons_of_mem _ ((hsort l).subset h)
      exact hord a (insertion_sort cmp l)
        ⟨fun x hx y hy => hc.1 x (hmem x hx) y (hmem y hy),
         fun x hx y hy z hz => hc.2 x (hmem x hx) y (hmem y hy) z (hmem z hz)⟩ (ih hcl)

/-! ## Predicates used by the proofs -/

/-- Invariant of the first loop of `mpeg12_video_vc1_genarate_pts` after `n`
iterations: picture types and DTS are untouched, the last `num_consecutive_b`
records are B-pictures preceded by an anchor, and every B-picture seen so far
has `pts == dts`. -/
def gen_inv (info0 : List video_frame_info_t) (n : Nat) (s : genarate_pts_state) : Prop :=
  s.info.length = info0.length ∧
  (∀ j, (info_at s.info j).pict_type = (info_at info0 j).pict_type
        ∧ (info_at s.info j).dts = (info_at info0 j).dts) ∧
  s.num_consecutive_b ≤ n ∧
  (∀ j, n - s.num_consecutive_b < j → j ≤ n →
        (info_at info0 j).pict_type = AV_PICTURE_TYPE_B) ∧
  (1 ≤ n - s.num_consecutive_b →
        (info_at info0 (n - s.num_consecutive_b)).pict_type ≠ AV_PICTURE_TYPE_B) ∧
  (∀ j, 1 ≤ j → j ≤ n → j < info0.length → (info_at info0 j).pict_type = AV_PICTURE_TYPE_B →
        (info_at s.info j).pts = (info_at info0 j).dts)

/-- The fields of a record that neither the PTS reconstructor nor the
seek-method decider writes. -/
def view_static (r : video_frame_info_t) : Int × Int × Nat × Int × Int :=
  (r.dts, r.file_offset, r.sample_number, r.extradata_index, r.pict_type)

/-- The fields of a record that the keyframe passes leave alone. -/
def view_ts (r : video_frame_info_t) : Int × Int × Int × Nat × Int × Int × Nat :=
  (r.pts, r.dts, r.file_offset, r.sample_number, r.extradata_index, r.pict_type, r.is_leading)

/-! ## Scenario inputs -/

/-- A record as `create_index` stores it for one packet. -/
def scenario_record (pts dts file_offset : Int) (sample_number : Nat) (pict_type : Int)
    (keyframe : Nat) : video_frame_info_t :=
  { pts := pts, dts := dts, file_offset := file_offset, sample_number := sample_number,
    extradata_index := 0, pict_type := pict_type, keyframe := keyframe, is_leading := 0 }

/-- A decode handler as `create_index` sets it up before it calls the decider:
`keyframe_list` is the copy of the keyframe fields, no `order_converter`. -/
def scenario_handler (records : List video_frame_info_t) (codec_id : AVCodecID) :
    lwlibav_video_decode_handler_t :=
  { frame_list := video_frame_info_zero :: records,
    frame_count := records.length,
    keyframe_list := (video_frame_info_zero :: records).map (fun r => r.keyframe),
    order_converter := none,
    lw_seek_flags := { SEEK_DTS_BASED := false, SEEK_PTS_BASED := false,
                       SEEK_POS_BASED := false, SEEK_POS_CORRECTION := false,
                       SEEK_PTS_GENERATED := false },
    codec_id := codec_id }

/-- Scenario: MPEG-2 video, decode order I P B B P, dts 0..4, no PTS. -/
def scenario_ibbp : lwlibav_video_decode_handler_t :=
  scenario_handler
    [ scenario_record AV_NOPTS_VALUE 0 1000 1 1 1,
      scenario_record AV_NOPTS_VALUE 1 2000 2 2 0,
      scenario_record AV_NOPTS_VALUE 2 3000 3 3 0,
      scenario_record AV_NOPTS_VALUE 3 4000 4 3 0,
      scenario_record AV_NOPTS_VALUE 4 5000 5 2 0 ]
    AVCodecID.AV_CODEC_ID_MPEG2VIDEO

/-- Scenario: three I/P records with monotone PTS and DTS at byte offsets
0, 100 and 200. -/
def scenario_offsets_from_zero : lwlibav_video_decode_handler_t :=
  scenario_handler
    [ scenario_record 0 0 0 1 1 1,
      scenario_record 10 10 100 2 2 0,
      scenario_record 20 20 200 3 2 0 ]
    (AVCodecID.other 28)

/-- Scenario: three keyframes of an MPEG program stream whose first and third
packets report the same byte offset. -/
def scenario_repeated_offset : lwlibav_video_decode_handler_t :=
  scenario_handler
    [ scenario_record 0 0 5 1 1 1,
      scenario_record 10 10 7 2 1 1,
      scenario_record 20 20 5 3 1 1 ]
    (AVCodecID.other 28)

/-- Scenario: two records whose PTS are more than `2^63` apart. -/
def scenario_far_apart_pts : lwlibav_video_decode_handler_t :=
  scenario_handler
    [ scenario_record 9223372036854775807 0 100 1 1 1,
      scenario_record (-2) 10 200 2 1 1 ]
    (AVCodecID.other 28)

/-- Scenario: three records with PTS 30, 10, 20 (the first is displayed last). -/
def scenario_reordered : lwlibav_video_decode_handler_t :=
  scenario_handler
    [ scenario_record 30 0 100 1 1 1,
      scenario_record 10 10 200 2 2 0,
      scenario_record 20 20 300 3 2 0 ]
    (AVCodecID.other 28)

/-- A container format other than `mpeg` / `mpegts`, able to seek by byte. -/
def scenario_mp4 : lwlibav_file_handler_t := { format_name := "mp4", format_flags := 0 }

/-- The MPEG program stream format. -/
def scenario_mpeg : lwlibav_file_handler_t := { format_name := "mpeg", format_flags := 0 }

/-- The MPEG transport stream format. -/
def scenario_mpegts : lwlibav_file_handler_t := { format_name := "mpegts", format_flags := 0 }

/-- The axis the keyframe pass of `decide_video_seek_method` walks: the byte
offset if `SEEK_POS_BASED` is set, else the PTS if `SEEK_PTS_BASED` is set,
else the DTS if `SEEK_DTS_BASED` is set; `none` when no flag is left. -/
def trusted_axis (flags : lw_seek_flags_t) : Option (video_frame_info_t → Int) :=
  if flags.SEEK_POS_BASED then some (fun r => r.file_offset)
  else if flags.SEEK_PTS_BASED then some (fun r => r.pts)
  else if flags.SEEK_DTS_BASED then some (fun r => r.dts)
  else none

/-- Scenario: three keyframes in decode order, the last two with the same
PTS and the same DTS. -/
def scenario_equal_pts : lwlibav_video_decode_handler_t :=
  scenario_handler
    [ scenario_record 0 0 100 1 1 1,
      scenario_record 10 10 200 2 1 1,
      scenario_record 10 10 300 3 1 1 ]
    (AVCodecID.other 28)

/-! ## Extradata tracker -/

/-- The record type `lwlibav_extradata_t`, with the fields that
`alloc_extradata_entries` initialises.  `extradata` is `none` for the NULL
pointer and otherwise the bytes of the buffer it points to. -/
structure lwlibav_extradata_t where
  extradata : Option (List Nat)
  extradata_size : Int
  codec_id : AVCodecID
  codec_tag : Nat
  width : Int
  height : Int
  pixel_format : Int
  channel_layout : Nat
  sample_format : Int
  sample_rate : Int
  bits_per_sample : Int
  block_align : Int
deriving DecidableEq

/-- The handler type `lwlibav_extradata_handler_t`: `entry_count` is the length
of `entries`. -/
structure lwlibav_extradata_handler_t where
  current_index : Int
  entries : List lwlibav_extradata_t
deriving DecidableEq

/-- The field `entry_count` of the handler. -/
def entry_count (list : lwlibav_extradata_handler_t) : Int := Int.ofNat list.entries.length

/-- The handler inside a zero-initialised `lwindex_helper_t`. -/
def extradata_handler_zero : lwlibav_extradata_handler_t :=
  { current_index := 0, entries := [] }

/-- An entry as the loop of `alloc_extradata_entries` initialises it
(`AV_PIX_FMT_NONE` and `AV_SAMPLE_FMT_NONE` are -1). -/
def extradata_entry_init : lwlibav_extradata_t :=
  { extradata := none, extradata_size := 0, codec_id := AVCodecID.AV_CODEC_ID_NONE,
    codec_tag := 0, width := 0, height := 0, pixel_format := -1, channel_layout := 0,
    sample_format := -1, sample_rate := 0, bits_per_sample := 0, block_align := 0 }

/-- The initialiser `lwlibav_extradata_t current = { extradata, extradata_size }`:
the other members are zero. -/
def extradata_current (extradata : Option (List Nat)) (extradata_size : Int) :
    lwlibav_extradata_t :=
  { extradata := extradata, extradata_size := extradata_size,
    codec_id := AVCodecID.AV_CODEC_ID_NONE, codec_tag := 0, width := 0, height := 0,
    pixel_format := 0, channel_layout := 0, sample_format := 0, sample_rate := 0,
    bits_per_sample := 0, block_align := 0 }

/-- One element of `AVPacket.side_data`. -/
structure AVPacketSideData where
  data : Option (List Nat)
  size : Int
  type : Nat

/-- The fields of `AVPacket` that the indexer reads. -/
structure AVPacket where
  pts : Int
  dts : Int
  pos : Int
  stream_index : Int
  flags : Nat
  data : Option (List Nat)
  size : Int
  side_data : List AVPacketSideData

/-- The fields of `AVCodecContext` that the extradata tracker reads. -/
structure AVCodecContext where
  extradata : Option (List Nat)
  extradata_size : Int

/-- The fields of `AVStream` that the extradata tracker reads.  `parser_split`
is `stream->parser->parser->split`, `none` when a pointer on that path is NULL;
the function gets `pkt->data` and `pkt->size`. -/
structure AVStream where
  codec : AVCodecContext
  parser_split : Option (Option (List Nat) → Int → Int)

/-- The bytes a `(pointer, size)` pair denotes: the first `size` bytes of the
buffer, nothing for the NULL pointer. -/
def blob_bytes (e : lwlibav_extradata_t) : List Nat :=
  (e.extradata.getD []).take e.extradata_size.toNat

/-- The call `memcmp( a, b, n )` as a boolean: `true` when the result is not 0. -/
def memcmp_ne (a b : Option (List Nat)) (n : Int) : Bool :=
  decide ((a.getD []).take n.toNat ≠ (b.getD []).take n.toNat)

/-- The function `alloc_extradata_entries`; `realloc_ok` is the outcome of
`realloc`.  On success the list has `count` entries, the new ones initialised. -/
def alloc_extradata_entries (realloc_ok : Bool) (exhp : lwlibav_extradata_handler_t)
    (count : Nat) : Option lwlibav_extradata_handler_t :=
  if realloc_ok then
    some { exhp with
      entries := exhp.entries ++ List.replicate (count - exhp.entries.length) extradata_entry_init }
  else none

/-- The statements of `append_extradata_if_new` that copy the candidate into the
entry at index `i`, which `alloc_extradata_entries` has just initialised;
`malloc_ok` is the outcome of `av_malloc`.  The boolean is `false` for
`return -1`: the size is already stored then and the pointer is NULL.  The zero
padding behind the copy is not modelled. -/
def copy_extradata (malloc_ok : Bool) (list : lwlibav_extradata_handler_t) (i : Nat)
    (current : lwlibav_extradata_t) : Bool × lwlibav_extradata_handler_t :=
  if current.extradata.isSome ∧ current.extradata_size > 0 then
    let entry := list.entries.getD i extradata_entry_init
    let entry_sized := { entry with extradata_size := current.extradata_size }
    if malloc_ok then
      let entry_copied := { entry_sized with extradata := some (blob_bytes current) }
      (true, { list with entries := list.entries.set i entry_copied })
    else
      (false, { list with entries := list.entries.set i { entry_sized with extradata := none } })
  else (true, list)

/-- The loop of `append_extradata_if_new` over `pkt->side_data`: the first
element of type `AV_PKT_DATA_NEW_EXTRADATA`.  (The call of
`av_packet_get_side_data` before it stores the same size.) -/
def find_new_extradata (pkt : AVPacket) : Option AVPacketSideData :=
  pkt.side_data.find? (fun (sd : AVPacketSideData) => sd.type == AV_PKT_DATA_NEW_EXTRADATA)

/-- The candidate `current` of `append_extradata_if_new` before the split is
tried: the side data if there is one, else the extradata of the codec context. -/
def current_before_split (stream : AVStream) (pkt : AVPacket) : lwlibav_extradata_t :=
  match find_new_extradata pkt with
  | some sd => extradata_current sd.data sd.size
  | none => extradata_current stream.codec.extradata stream.codec.extradata_size

/-- The pointer test `current.extradata == ctx->extradata`: it holds when no
side data was taken, or when both pointers are NULL (a side data buffer is never
the buffer of the codec context). -/
def current_is_context_extradata (stream : AVStream) (pkt : AVPacket) : Bool :=
  match find_new_extradata pkt with
  | some sd => sd.data.isNone && stream.codec.extradata.isNone
  | none => true

/-- The first part of `append_extradata_if_new`, up to the statement
`if( list->entry_count == 0 )`: the candidate `current` is taken from the codec
context, from a side data of type `AV_PKT_DATA_NEW_EXTRADATA`, or from the
packet by the parser's `split`.  The result is `none` where the function
returns `list->current_index` early. -/
def import_extradata (list : lwlibav_extradata_handler_t) (stream : AVStream)
    (pkt : AVPacket) : Option lwlibav_extradata_t :=
  if pkt.flags &&& AV_PKT_FLAG_KEY = 0 ∧ entry_count list > 0 then none
  else if current_is_context_extradata stream pkt = true then
    match stream.parser_split with
    | some split =>
      if split pkt.data pkt.size > 0
      then some (extradata_current pkt.data (split pkt.data pkt.size))
      else if entry_count list > 0 then none
      else some (current_before_split stream pkt)
    | none => some (current_before_split stream pkt)
  else some (current_before_split stream pkt)

/-- The loop of `append_extradata_if_new` that looks for the candidate among the
entries other than the current one: the first index that matches. -/
def find_same_extradata (list : lwlibav_extradata_handler_t)
    (current : lwlibav_extradata_t) : Option Nat :=
  (List.range list.entries.length).find? (fun i =>
    decide (Int.ofNat i ≠ list.current_index)
    && decide (current.extradata_size
        = (list.entries.getD i extradata_entry_init).extradata_size)
    && (decide (current.extradata_size = 0)
        || !memcmp_ne current.extradata (list.entries.getD i extradata_entry_init).extradata
              current.extradata_size))

/-- The second part of `append_extradata_if_new`, from
`if( list->entry_count == 0 )` to the end, for the candidate `current`. -/
def register_extradata (realloc_ok malloc_ok : Bool) (list : lwlibav_extradata_handler_t)
    (current : lwlibav_extradata_t) : Int × lwlibav_extradata_handler_t :=
  if entry_count list = 0 then
    match alloc_extradata_entries realloc_ok list 1 with
    | none => (-1, list)
    | some list1 =>
      let list2 := { list1 with current_index := 0 }
      let r := copy_extradata malloc_ok list2 0 current
      if r.1 then (r.2.current_index, r.2) else (-1, r.2)
  else
    let entry := list.entries.getD list.current_index.toNat extradata_entry_init
    if current.extradata_size ≠ entry.extradata_size
        ∨ memcmp_ne current.extradata entry.extradata current.extradata_size = true then
      match find_same_extradata list current with
      | some i => (Int.ofNat i, { list with current_index := Int.ofNat i })
      | none =>
        match alloc_extradata_entries realloc_ok list (list.entries.length + 1) with
        | none => (-1, list)
        | some list1 =>
          let r := copy_extradata malloc_ok list1 list.entries.length current
          if r.1 then
            (entry_count r.2 - 1, { r.2 with current_index := entry_count r.2 - 1 })
          else (-1, r.2)
    else (list.current_index, list)

/-- The function `append_extradata_if_new`.  The list is
`((lwindex_helper_t *)stream->codec->opaque)->exh`; the two booleans are the
outcomes of `realloc` and `av_malloc`.  The result is the return value, the list
and the packet as the function leaves them; no statement writes to `*pkt`. -/
def append_extradata_if_new (realloc_ok malloc_ok : Bool)
    (list : lwlibav_extradata_handler_t) (stream : AVStream) (pkt : AVPacket) :
    Int × lwlibav_extradata_handler_t × AVPacket :=
  match import_extradata list stream pkt with
  | none => (list.current_index, list, pkt)
  | some current =>
    let r := register_extradata realloc_ok malloc_ok list current
    (r.1, r.2, pkt)

/-- One call of `append_extradata_if_new` as `create_index` issues it. -/
structure extradata_call where
  realloc_ok : Bool
  malloc_ok : Bool
  stream : AVStream
  pkt : AVPacket

/-- The calls of `append_extradata_if_new` that `create_index` makes for the
packets of one stream, in order: the scan stops at the first negative return
value (`goto fail_index`).  The result is the last return value (0 before any
call) and the list. -/
def run_extradata_calls (list : lwlibav_extradata_handler_t) :
    List extradata_call → Int × lwlibav_extradata_handler_t
  | [] => (0, list)
  | c :: cs =>
    let r := append_extradata_if_new c.realloc_ok c.malloc_ok list c.stream c.pkt
    if r.1 < 0 then (r.1, r.2.1)
    else
      match cs with
      | [] => (r.1, r.2.1)
      | _ :: _ => run_extradata_calls r.2.1 cs

/-- Two entries hold the same blob: equal size and equal bytes. -/
def same_blob (a b : lwlibav_extradata_t) : Prop :=
  a.extradata_size = b.extradata_size ∧ blob_bytes a = blob_bytes b

/-- A `(pointer, size)` pair is a readable buffer: the size is not negative and
not beyond the bytes behind the pointer (so it is 0 for the NULL pointer). -/
def valid_buffer (extradata : Option (List Nat)) (extradata_size : Int) : Prop :=
  0 ≤ extradata_size ∧ extradata_size ≤ Int.ofNat (extradata.getD []).length

/-- The buffers the tracker may read for one call are readable, and `split`
returns at most the packet size. -/
def valid_extradata_call (c : extradata_call) : Prop :=
  valid_buffer c.stream.codec.extradata c.stream.codec.extradata_size
  ∧ (∀ sd ∈ c.pkt.side_data, valid_buffer sd.data sd.size)
  ∧ valid_buffer c.pkt.data c.pkt.size
  ∧ (∀ split, c.stream.parser_split = some split → split c.pkt.data c.pkt.size ≤ c.pkt.size)

/-- An entry as a successful call leaves it: empty (NULL, 0), or the copy of a
non-empty blob with its size. -/
def stored_entry (e : lwlibav_extradata_t) : Prop :=
  (e.extradata = none ∧ e.extradata_size = 0)
  ∨ (∃ b : List Nat, e.extradata = some b ∧ e.extradata_size = Int.ofNat b.length ∧ 0 < b.length)

/-- Invariant of the tracker between calls: the entries are well-formed and
pairwise different blobs, and `current_index` points into a non-empty list. -/
def tracker_inv (list : lwlibav_extradata_handler_t) : Prop :=
  (∀ e ∈ list.entries, stored_entry e)
  ∧ list.entries.Pairwise (fun a b => ¬ same_blob a b)
  ∧ 0 ≤ list.current_index
  ∧ (list.entries ≠ [] → list.current_index.toNat < list.entries.length)

/-! ## Audio length accounting in `create_index` -/

/-- Modelled from the spec: the record type `audio_frame_info_t` (declared in
`lwlibav_audio.h`), with the fields the data model of the spec lists. -/
structure audio_frame_info_t where
  pts : Int
  dts : Int
  file_offset : Int
  sample_number : Nat
  extradata_index : Int
  sample_rate : Int
  length : Int
  keyframe : Nat
deriving DecidableEq

/-- A zero-initialised audio record. -/
def audio_frame_info_zero : audio_frame_info_t :=
  { pts := 0, dts := 0, file_offset := 0, sample_number := 0, extradata_index := 0,
    sample_rate := 0, length := 0, keyframe := 0 }

/-- The fields of `lwindex_helper_t` that `get_audio_frame_length` uses:
whether `parser_ctx` is not NULL, and `delay_count` (a `uint32_t`). -/
structure audio_helper_t where
  parser_ctx : Bool
  delay_count : Nat
deriving DecidableEq

/-- What the libraries report for one audio packet: `parser_ctx->duration`,
`audio_ctx->frame_size`, and the net effect of the decoding loop of
`get_audio_frame_length` (whether a frame came out, and the sum of
`nb_samples` over the frames that did). -/
structure audio_probe_t where
  duration : Int
  frame_size : Int
  output_audio : Bool
  nb_samples : Int
deriving DecidableEq

/-- The function `get_audio_frame_length`: the frame length, and the helper as
the function leaves it. -/
def get_audio_frame_length (helper : audio_helper_t) (probe : audio_probe_t) :
    Int × audio_helper_t :=
  let frame_length :=
    if helper.parser_ctx then probe.duration
    else if helper.delay_count = 0 then probe.frame_size else 0
  if frame_length = 0 then
    if probe.output_audio then (frame_length + probe.nb_samples, helper)
    else (-1, { parser_ctx := false, delay_count := wrap_uint32 (helper.delay_count + 1) })
  else (frame_length, helper)

/-- The audio packet of the elected stream as the accounting sees it: the
timestamps and position of the packet, the extradata index, the sample rate of
the codec context and the report of the libraries. -/
structure audio_packet_t where
  pts : Int
  dts : Int
  pos : Int
  extradata_index : Int
  sample_rate : Int
  probe : audio_probe_t
deriving DecidableEq

/-- The local variables of `create_index` for audio: `audio_duration`
(`uint64_t`), `audio_sample_count` (`uint32_t`), the array `audio_info` (a
zero-initialised array, grown on demand, as a total function of the index),
`constant_frame_length`, the helper of the elected stream.  `written` is not in
the source: it records, in order, the indices `i` of the writes
`audio_info[i].length = ...`. -/
structure audio_scan_t where
  audio_duration : Nat
  audio_sample_count : Nat
  audio_info : Nat → audio_frame_info_t
  constant_frame_length : Bool
  helper : audio_helper_t
  written : List Nat

/-- The state before the first packet; `parser_ctx` tells whether
`get_index_helper` has set up a parser for the stream. -/
def audio_scan_init (parser_ctx : Bool) : audio_scan_t :=
  { audio_duration := 0, audio_sample_count := 0, audio_info := fun _ => audio_frame_info_zero,
    constant_frame_length := true, helper := { parser_ctx := parser_ctx, delay_count := 0 },
    written := [] }

/-- The statements `audio_info[n].length = frame_length;` and the update of
`constant_frame_length` that follows it. -/
def set_audio_length (s : audio_scan_t) (n : Nat) (frame_length : Int) : audio_scan_t :=
  { s with
    audio_info := Function.update s.audio_info n { s.audio_info n with length := frame_length },
    constant_frame_length :=
      if n > 1 ∧ frame_length ≠
          (Function.update s.audio_info n { s.audio_info n with length := frame_length }
            (n - 1)).length
      then false else s.constant_frame_length,
    written := s.written ++ [n] }

/-- The addition `audio_duration += frame_length` on a `uint64_t`. -/
def add_audio_duration (audio_duration : Nat) (frame_length : Int) : Nat :=
  ((Int.ofNat audio_duration + frame_length) % 2 ^ 64).toNat

/-- The statements under "Set up audio frame info": the record of the packet
is filled in (its `length` and `keyframe` are not written here), and when the
frame length is known it goes to the record `audio_sample_count - delay_count`
(a `uint32_t` difference). -/
def setup_audio_frame_info (s : audio_scan_t) (pkt : audio_packet_t) (frame_length : Int) :
    audio_scan_t :=
  let count := wrap_uint32 (s.audio_sample_count + 1)
  let s1 := { s with
    audio_sample_count := count,
    audio_info := Function.update s.audio_info count
      { s.audio_info count with
        pts := pkt.pts, dts := pkt.dts, file_offset := pkt.pos, sample_number := count,
        extradata_index := pkt.extradata_index, sample_rate := pkt.sample_rate } }
  if frame_length ≠ -1 ∧ count > s.helper.delay_count then
    set_audio_length s1 (wrap_uint32 (count + 2 ^ 32 - s.helper.delay_count)) frame_length
  else s1

/-- The block `if( pkt.stream_index == adhp->stream_index )` of the packet loop
of `create_index`, for an audio packet of the elected stream with frame length
`frame_length`, as far as it concerns the records. -/
def account_audio_packet (s : audio_scan_t) (pkt : audio_packet_t) (frame_length : Int) :
    audio_scan_t :=
  let audio_duration :=
    if frame_length ≠ -1 then add_audio_duration s.audio_duration frame_length
    else s.audio_duration
  if audio_duration ≤ INT32_MAX then
    setup_audio_frame_info { s with audio_duration := audio_duration } pkt frame_length
  else { s with audio_duration := audio_duration }

/-- The body of the packet loop of `create_index` for one audio packet of the
elected stream: `get_audio_frame_length`, then the accounting. -/
def audio_packet_step (s : audio_scan_t) (pkt : audio_packet_t) : audio_scan_t :=
  account_audio_packet
    { s with helper := (get_audio_frame_length s.helper pkt.probe).2 } pkt
    (get_audio_frame_length s.helper pkt.probe).1

/-- What the decoder answers to one null packet after the end of the file:
whether the call succeeded (returned `>= 0`), `decode_complete`, and
`nb_samples` of the frame. -/
structure audio_flush_t where
  ok : Bool
  decode_complete : Bool
  nb_samples : Int
deriving DecidableEq

/-- The frame length of a flush: `decode_complete ? nb_samples : 0`. -/
def flush_frame_length (f : audio_flush_t) : Int :=
  if f.decode_complete then f.nb_samples else 0

/-- One iteration (index `i`) of the loop "Flush if decoding is delayed" for the
elected stream; the boolean of the state is set by `break`. -/
def audio_flush_step (flush : Nat → audio_flush_t) (s : audio_scan_t × Bool) (i : Nat) :
    audio_scan_t × Bool :=
  if s.2 then s
  else if (flush i).ok then
    if add_audio_duration s.1.audio_duration (flush_frame_length (flush i)) > INT32_MAX then
      ({ s.1 with
         audio_duration :=
           add_audio_duration s.1.audio_duration (flush_frame_length (flush i)) }, true)
    else
      (set_audio_length
        { s.1 with
          audio_duration :=
            add_audio_duration s.1.audio_duration (flush_frame_length (flush i)) }
        (wrap_uint32 (s.1.audio_sample_count + 2 ^ 32 - s.1.helper.delay_count + i))
        (flush_frame_length (flush i)),
       false)
  else s

/-- The state of the accounting after the packets `packets` of the elected
stream. -/
def scan_audio_packets (parser_ctx : Bool) (packets : List audio_packet_t) : audio_scan_t :=
  packets.foldl audio_packet_step (audio_scan_init parser_ctx)

/-- The state of the accounting after `j` iterations of the flush loop. -/
def flush_audio (s : audio_scan_t) (flush : Nat → audio_flush_t) (j : Nat) :
    audio_scan_t × Bool :=
  (List.range' 1 j).foldl (audio_flush_step flush) (s, false)

/-- The audio accounting of `create_index` for the elected stream: the packet
loop over its packets, then the flush loop `for( i = 1; i <= delay_count; i++ )`
with the decoder's answers `flush 1`, `flush 2`, ... -/
def create_index_audio (parser_ctx : Bool) (packets : List audio_packet_t)
    (flush : Nat → audio_flush_t) : audio_scan_t :=
  (flush_audio (scan_audio_packets parser_ctx packets) flush
    (scan_audio_packets parser_ctx packets).helper.delay_count).1

/-- The sum of `audio_info[i].length` over the records `1..m`. -/
def audio_length_sum (s : audio_scan_t) (m : Nat) : Int :=
  ((List.range' 1 m).map (fun i => (s.audio_info i).length)).sum

/-- The values reported for a packet fit a non-negative C `int`. -/
def sane_probe (p : audio_probe_t) : Prop :=
  (0 ≤ p.duration ∧ p.duration ≤ Int.ofNat INT32_MAX)
  ∧ (0 ≤ p.frame_size ∧ p.frame_size ≤ Int.ofNat INT32_MAX)
  ∧ (0 ≤ p.nb_samples ∧ p.nb_samples ≤ Int.ofNat INT32_MAX)

/-- The running `audio_duration` never exceeds `INT32_MAX`: not after any
packet, and not after any of the flushes. -/
def audio_within_clamp (parser_ctx : Bool) (packets : List audio_packet_t)
    (flush : Nat → audio_flush_t) : Prop :=
  (∀ n, n ≤ packets.length →
    (scan_audio_packets parser_ctx (packets.take n)).audio_duration ≤ INT32_MAX)
  ∧ (∀ j, j ≤ (scan_audio_packets parser_ctx packets).helper.delay_count →
    (flush_audio (scan_audio_packets parser_ctx packets) flush j).1.audio_duration ≤ INT32_MAX)

/-- Invariant of the audio accounting after `n` packets (and, with `n` the
number of packets plus the flushes done, during the flush loop): the records
`1..n - delay_count` have received their length, in this order and once each,
and these lengths add up to `audio_duration`. -/
def audio_inv (s : audio_scan_t) (n : Nat) : Prop :=
  s.helper.delay_count ≤ n
  ∧ s.written = List.range' 1 (n - s.helper.delay_count)
  ∧ audio_length_sum s (n - s.helper.delay_count) = Int.ofNat s.audio_duration

/-! ## Scenario inputs for the extradata tracker and the audio accounting -/

/-- Scenario: a stream whose codec context holds the extradata `[1, 2]`;
`parser_split` is the `split` of its parser, if any. -/
def scenario_stream (parser_split : Option (Option (List Nat) → Int → Int)) : AVStream :=
  { codec := { extradata := some [1, 2], extradata_size := 2 }, parser_split := parser_split }

/-- Scenario: a packet of one byte with the given flags and side data. -/
def scenario_packet (flags : Nat) (side_data : List AVPacketSideData) : AVPacket :=
  { pts := 0, dts := 0, pos := 0, stream_index := 0, flags := flags, data := some [9],
    size := 1, side_data := side_data }

/-- Scenario: the call for a key-flagged packet without side data on a stream
without a parser; the candidate is the extradata of the codec context. -/
def scenario_call_context : extradata_call :=
  { realloc_ok := true, malloc_ok := true, stream := scenario_stream none,
    pkt := scenario_packet AV_PKT_FLAG_KEY [] }

/-- Scenario: the call for a key-flagged packet that carries the new extradata
`[3]` as side data. -/
def scenario_call_side_data : extradata_call :=
  { realloc_ok := true, malloc_ok := true, stream := scenario_stream none,
    pkt := scenario_packet AV_PKT_FLAG_KEY
      [{ data := some [3], size := 1, type := AV_PKT_DATA_NEW_EXTRADATA }] }

/-- Scenario: a `split` that finds no extradata in the packet. -/
def scenario_split_nothing : Option (List Nat) → Int → Int := fun _ _ => 0

/-- Scenario: a list with the single entry `[1, 2]`, which is the current one. -/
def scenario_one_entry : lwlibav_extradata_handler_t :=
  { current_index := 0,
    entries := [{ extradata_entry_init with extradata := some [1, 2], extradata_size := 2 }] }

/-- Scenario: an audio packet for which the libraries report `probe`. -/
def scenario_audio_packet (probe : audio_probe_t) : audio_packet_t :=
  { pts := 0, dts := 0, pos := 0, extradata_index := 0, sample_rate := 48000, probe := probe }

/-- Scenario: three audio packets of a stream without a parser and with
`frame_size` 0; the decoder gives no frame for the first one and a frame of
1024 samples for each of the other two. -/
def scenario_audio_packets : List audio_packet_t :=
  [ scenario_audio_packet { duration := 0, frame_size := 0, output_audio := false, nb_samples := 0 },
    scenario_audio_packet { duration := 0, frame_size := 0, output_audio := true, nb_samples := 1024 },
    scenario_audio_packet { duration := 0, frame_size := 0, output_audio := true, nb_samples := 1024 } ]

/-- Scenario: every flush gives a complete frame of 512 samples. -/
def scenario_audio_flush : Nat → audio_flush_t :=
  fun _ => { ok := true, decode_complete := true, nb_samples := 512 }

/-- Scenario: the calls of a scan whose packets bring the extradata of the codec
context, then `[3]` as side data, then that of the codec context again. -/
def scenario_calls : List extradata_call :=
  [scenario_call_context, scenario_call_side_data, scenario_call_context]

/-- Scenario: three I/P records in an MP4 file whose PTS (5, 15, 25) and DTS
(0, 10, 20) are both set and both increasing. -/
def scenario_pts_ahead_of_dts : lwlibav_video_decode_handler_t :=
  scenario_handler
    [ scenario_record 5 0 100 1 1 1,
      scenario_record 15 10 200 2 2 0,
      scenario_record 25 20 300 3 2 0 ]
    (AVCodecID.other 28)

/-- The test of `decide_video_seek_method` that guards the block "Generate PTS
from DTS", on the flags left by the pruning: DTS kept, PTS dropped, and the codec
is MPEG-1 Video, MPEG-2 Video, VC-1 or WMV3. -/
def generates_pts (flags : lw_seek_flags_t) (codec_id : AVCodecID) : Bool :=
  flags.SEEK_DTS_BASED && !flags.SEEK_PTS_BASED
    && (codec_id = AVCodecID.AV_CODEC_ID_MPEG1VIDEO
        || codec_id = AVCodecID.AV_CODEC_ID_MPEG2VIDEO
        || codec_id = AVCodecID.AV_CODEC_ID_VC1
        || codec_id = AVCodecID.AV_CODEC_ID_WMV3)

/-! ## Seek-method decider (audio) -/

/-- Modelled from the spec: the fields of `lwlibav_audio_decode_handler_t`
(declared in `lwlibav_audio.h`) that the audio seek-method decider and
`calculate_av_gap` use. -/
structure lwlibav_audio_decode_handler_t where
  frame_list : List audio_frame_info_t
  frame_count : Nat
  lw_seek_flags : lw_seek_flags_t

/-- The array read `info[i]` on audio records. -/
def audio_info_at (info : List audio_frame_info_t) (i : Nat) : audio_frame_info_t :=
  info.getD i audio_frame_info_zero

/-- The array write `info[i].keyframe = v` on audio records. -/
def set_audio_keyframe (info : List audio_frame_info_t) (i : Nat) (v : Nat) :
    List audio_frame_info_t :=
  info.set i { audio_info_at info i with keyframe := v }

/-- The array write `info[i].pts = v` on audio records. -/
def set_audio_pts (info : List audio_frame_info_t) (i : Nat) (v : Int) :
    List audio_frame_info_t :=
  info.set i { audio_info_at info i with pts := v }

/-- The first loop of `decide_audio_seek_method`: `SEEK_PTS_BASED` is cleared
when a record has no PTS. -/
def audio_drop_pts_based (flags : lw_seek_flags_t) (info : List audio_frame_info_t)
    (sample_count : Nat) : lw_seek_flags_t :=
  if (List.range' 1 sample_count).any
      (fun i => decide ((audio_info_at info i).pts = AV_NOPTS_VALUE))
  then { flags with SEEK_PTS_BASED := false } else flags

/-- The second loop of `decide_audio_seek_method`: `SEEK_DTS_BASED` is cleared
when a record has no DTS. -/
def audio_drop_dts_based (flags : lw_seek_flags_t) (info : List audio_frame_info_t)
    (sample_count : Nat) : lw_seek_flags_t :=
  if (List.range' 1 sample_count).any
      (fun i => decide ((audio_info_at info i).dts = AV_NOPTS_VALUE))
  then { flags with SEEK_DTS_BASED := false } else flags

/-- The statement of `decide_audio_seek_method` that clears `SEEK_POS_BASED`:
the format cannot seek by byte, or every record has offset -1 (`error_count` is
a `uint32_t`). -/
def audio_drop_pos_based (lwhp : lwlibav_file_handler_t) (flags : lw_seek_flags_t)
    (info : List audio_frame_info_t) (sample_count : Nat) : lw_seek_flags_t :=
  if flags.SEEK_POS_BASED then
    if lwhp.format_flags &&& AVFMT_NO_BYTE_SEEK ≠ 0 then { flags with SEEK_POS_BASED := false }
    else
      let error_count := (List.range' 1 sample_count).foldl
        (fun n i => wrap_uint32 (n + (if (audio_info_at info i).file_offset = -1 then 1 else 0))) 0
      if error_count = sample_count then { flags with SEEK_POS_BASED := false } else flags
  else flags

/-- The flags `decide_audio_seek_method` decides on: the candidates minus the
ones the records rule out. -/
def decide_audio_seek_base (lwhp : lwlibav_file_handler_t) (info : List audio_frame_info_t)
    (sample_count : Nat) : lw_seek_flags_t :=
  audio_drop_pos_based lwhp
    (audio_drop_dts_based
      (audio_drop_pts_based (lineup_seek_base_candidates lwhp) info sample_count)
      info sample_count)
    info sample_count

/-- The loop `for( i = 1; i <= sample_count; i++ ) info[i].pts = info[i].dts;`
of `decide_audio_seek_method`. -/
def audio_copy_dts_to_pts (info : List audio_frame_info_t) (count : Nat) :
    List audio_frame_info_t :=
  (List.range' 1 count).foldl (fun l i => set_audio_pts l i (audio_info_at l i).dts) info

/-- One iteration (index `i`) of a keyframe pass of `decide_audio_seek_method`;
`axis` is `file_offset`, `pts` or `dts` and `unset` is `-1` or `AV_NOPTS_VALUE`. -/
def audio_keyframe_step (axis : audio_frame_info_t → Int) (unset : Int)
    (info : List audio_frame_info_t) (i : Nat) : List audio_frame_info_t :=
  if axis (audio_info_at info i) = unset then set_audio_keyframe info i 0
  else if axis (audio_info_at info i) = axis (audio_info_at info (i - 1))
  then set_audio_keyframe (set_audio_keyframe info (i - 1) 0) i 0
  else set_audio_keyframe info i 1

/-- A whole keyframe pass of `decide_audio_seek_method` along one axis:
`info[1].keyframe = (axis != unset)`, then the loop from `i = 2`. -/
def audio_keyframe_pass (axis : audio_frame_info_t → Int) (unset : Int)
    (info : List audio_frame_info_t) (sample_count : Nat) : List audio_frame_info_t :=
  (List.range' 2 (sample_count - 1)).foldl (audio_keyframe_step axis unset)
    (set_audio_keyframe info 1 (if axis (audio_info_at info 1) ≠ unset then 1 else 0))

/-- The part of `decide_audio_seek_method` under "Treat audio frames with unique
value as a keyframe": the pass along the axis of highest priority, or
`keyframe = 1` everywhere when no axis is left. -/
def audio_treat_unique_as_keyframe (flags : lw_seek_flags_t)
    (info : List audio_frame_info_t) (sample_count : Nat) : List audio_frame_info_t :=
  if flags.SEEK_POS_BASED then
    audio_keyframe_pass (fun r => r.file_offset) (-1) info sample_count
  else if flags.SEEK_PTS_BASED then
    audio_keyframe_pass (fun r => r.pts) AV_NOPTS_VALUE info sample_count
  else if flags.SEEK_DTS_BASED then
    audio_keyframe_pass (fun r => r.dts) AV_NOPTS_VALUE info sample_count
  else (List.range' 1 sample_count).foldl (fun l i => set_audio_keyframe l i 1) info

/-- The function `decide_audio_seek_method`. -/
def decide_audio_seek_method (lwhp : lwlibav_file_handler_t)
    (adhp : lwlibav_audio_decode_handler_t) (sample_count : Nat) :
    lwlibav_audio_decode_handler_t :=
  let flags := decide_audio_seek_base lwhp adhp.frame_list sample_count
  let info :=
    if (!flags.SEEK_PTS_BASED && flags.SEEK_DTS_BASED) = true
    then audio_copy_dts_to_pts adhp.frame_list sample_count
    else adhp.frame_list
  { adhp with lw_seek_flags := flags,
              frame_list := audio_treat_unique_as_keyframe flags info sample_count }

/-- The axis the keyframe pass of `decide_audio_seek_method` walks, with the
value that means "unset" on it; `none` when no flag is left. -/
def audio_trusted_axis (flags : lw_seek_flags_t) :
    Option ((audio_frame_info_t → Int) × Int) :=
  if flags.SEEK_POS_BASED then some (fun r => r.file_offset, -1)
  else if flags.SEEK_PTS_BASED then some (fun r => r.pts, AV_NOPTS_VALUE)
  else if flags.SEEK_DTS_BASED then some (fun r => r.dts, AV_NOPTS_VALUE)
  else none

/-- An audio record as `create_index` stores it for one packet. -/
def scenario_audio_record (pts dts file_offset : Int) (sample_number : Nat) (keyframe : Nat) :
    audio_frame_info_t :=
  { pts := pts, dts := dts, file_offset := file_offset, sample_number := sample_number,
    extradata_index := 0, sample_rate := 48000, length := 1024, keyframe := keyframe }

/-- Scenario: four audio records of an MP4 file with PTS 0, 10, 10, 20 and
without DTS on the second one. -/
def scenario_audio : lwlibav_audio_decode_handler_t :=
  { frame_list := [ audio_frame_info_zero,
                    scenario_audio_record 0 0 100 1 0,
                    scenario_audio_record 10 AV_NOPTS_VALUE 200 2 1,
                    scenario_audio_record 10 20 300 3 1,
                    scenario_audio_record 20 30 (-1) 4 0 ],
    frame_count := 4,
    lw_seek_flags := { SEEK_DTS_BASED := false, SEEK_PTS_BASED := false,
                       SEEK_POS_BASED := false, SEEK_POS_CORRECTION := false,
                       SEEK_PTS_GENERATED := false } }

/-! ## The audio/video gap -/

/-- The `AVRational` of libavutil. -/
structure AVRational where
  num : Int
  den : Int
deriving DecidableEq

/-- The first video timestamp `calculate_av_gap` picks: `frame_list[1].pts` if
`SEEK_PTS_BASED` is set, else `frame_list[1].dts`. -/
def first_video_ts (vdhp : lwlibav_video_decode_handler_t) : Int :=
  if vdhp.lw_seek_flags.SEEK_PTS_BASED then (info_at vdhp.frame_list 1).pts
  else (info_at vdhp.frame_list 1).dts

/-- The timestamp of audio record `i` that `calculate_av_gap` looks at: the PTS
if `SEEK_PTS_BASED` is set, else the DTS. -/
def audio_trusted_ts (adhp : lwlibav_audio_decode_handler_t) (i : Nat) : Int :=
  if adhp.lw_seek_flags.SEEK_PTS_BASED then (audio_info_at adhp.frame_list i).pts
  else (audio_info_at adhp.frame_list i).dts

/-- The search of `calculate_av_gap` for the first valid audio timestamp:
`audio_ts_number`, or `none` when it stays 0. -/
def first_audio_ts_number (adhp : lwlibav_audio_decode_handler_t) : Option Nat :=
  if adhp.lw_seek_flags.SEEK_PTS_BASED then
    (List.range' 1 adhp.frame_count).find?
      (fun i => decide ((audio_info_at adhp.frame_list i).pts ≠ AV_NOPTS_VALUE))
  else
    (List.range' 1 adhp.frame_count).find?
      (fun i => decide ((audio_info_at adhp.frame_list i).dts ≠ AV_NOPTS_VALUE))

/-- The loop of `calculate_av_gap` under "Estimate the first audio timestamp if
invalid", from the state `(i, delay_count, audio_ts)`; the first argument bounds
the number of iterations (`frame_count` is enough, `i` grows by one each time and
stays below `frame_count`).  `rescale` is `av_rescale_q`. -/
def estimate_first_audio_ts (rescale : Int → AVRational → AVRational → Int)
    (info : List audio_frame_info_t) (frame_count audio_ts_number : Nat)
    (audio_sample_base audio_time_base : AVRational) : Nat → Nat → Nat → Int → Int
  | 0, _, _, audio_ts => audio_ts
  | fuel + 1, i, delay_count, audio_ts =>
    if i < min (wrap_uint32 (audio_ts_number + delay_count)) frame_count then
      if (audio_info_at info i).length ≠ -1 then
        estimate_first_audio_ts rescale info frame_count audio_ts_number audio_sample_base
          audio_time_base fuel (i + 1) delay_count
          (wrap_int64
            (audio_ts - rescale (audio_info_at info i).length audio_sample_base audio_time_base))
      else
        estimate_first_audio_ts rescale info frame_count audio_ts_number audio_sample_base
          audio_time_base fuel (i + 1) (wrap_uint32 (delay_count + 1)) audio_ts
    else audio_ts

/-- The function `calculate_av_gap`; `rescale` is `av_rescale_q`. -/
def calculate_av_gap (rescale : Int → AVRational → AVRational → Int)
    (vdhp : lwlibav_video_decode_handler_t) (adhp : lwlibav_audio_decode_handler_t)
    (video_time_base audio_time_base : AVRational) (sample_rate : Int) : Int :=
  let video_ts := first_video_ts vdhp
  if video_ts = AV_NOPTS_VALUE then 0
  else
    match first_audio_ts_number adhp with
    | none => 0
    | some audio_ts_number =>
      let audio_sample_base : AVRational := { num := 1, den := sample_rate }
      let audio_ts := estimate_first_audio_ts rescale adhp.frame_list adhp.frame_count
        audio_ts_number audio_sample_base audio_time_base adhp.frame_count 1 0
        (audio_trusted_ts adhp audio_ts_number)
      if video_ts ≠ 0 ∨ audio_ts ≠ 0 then
        wrap_int64 (rescale audio_ts audio_time_base audio_sample_base
          - rescale video_ts video_time_base audio_sample_base)
      else 0

/-- The timestamp of the first audio sample as the specification words it: the
first valid audio timestamp `at` (at index `k`) minus the durations of the
records `1..k-1`, each converted from `1/R` into the audio time base; the
subtraction is done in `int64_t`. -/
def first_audio_sample_ts (rescale : Int → AVRational → AVRational → Int)
    (adhp : lwlibav_audio_decode_handler_t) (audio_time_base : AVRational) (sample_rate : Int)
    (k : Nat) : Int :=
  wrap_int64 (audio_trusted_ts adhp k
    - ((List.range' 1 (k - 1)).map (fun i =>
        rescale (audio_info_at adhp.frame_list i).length { num := 1, den := sample_rate }
          audio_time_base)).sum)

/-- Scenario: a rescale function for time bases with numerator 1,
`a * (bq.num * cq.den) / (bq.den * cq.num)` rounded down. -/
def scenario_rescale (a : Int) (bq cq : AVRational) : Int :=
  a * (bq.num * cq.den) / (bq.den * cq.num)

/-- Scenario: three audio records of 1024 samples at 48 kHz in the time base
1/48000; only the third has a PTS (4096). -/
def scenario_audio_late_pts : lwlibav_audio_decode_handler_t :=
  { frame_list := [ audio_frame_info_zero,
                    scenario_audio_record AV_NOPTS_VALUE AV_NOPTS_VALUE 100 1 1,
                    scenario_audio_record AV_NOPTS_VALUE AV_NOPTS_VALUE 200 2 1,
                    scenario_audio_record 4096 4096 300 3 1 ],
    frame_count := 3,
    lw_seek_flags := { SEEK_DTS_BASED := false, SEEK_PTS_BASED := false,
                       SEEK_POS_BASED := false, SEEK_POS_CORRECTION := false,
                       SEEK_PTS_GENERATED := false } }

/-! ## The EBDU assembler -/

/-- The fields of `lwindex_helper_t` that `make_vc1_ebdu` uses: the bytes of
`helper->buffer` (none for the NULL pointer) and `helper->buffer_size`. -/
structure ebdu_helper_t where
  buffer : List Nat
  buffer_size : Int
deriving DecidableEq

/-- The call `av_realloc( buffer, size )` when it succeeds: a block of `size`
bytes that starts with the old content; the bytes behind it are indeterminate
and given by `fresh`. -/
def av_realloc_bytes (fresh : Nat → Nat) (buffer : List Nat) (size : Nat) : List Nat :=
  (List.range size).map (fun i => if i < buffer.length then buffer.getD i 0 else fresh i)

/-- The call `memcpy( data + offset, src, n )` with `src` holding `n` bytes. -/
def memcpy_at (data : List Nat) (offset : Nat) (src : List Nat) : List Nat :=
  (List.range src.length).foldl (fun d i => d.set (offset + i) (src.getD i 0)) data

/-- The call `memset( data + offset, 0, n )`. -/
def memset_zero_at (data : List Nat) (offset n : Nat) : List Nat :=
  (List.range n).foldl (fun d i => d.set (offset + i) 0) data

/-- One iteration of the loop `while( pos < end )` of `make_vc1_ebdu`; the state
is the buffer `data` and `*size`, `pos` is the index of `pos` in the payload. -/
def rbdu_to_ebdu_step (payload : List Nat) (s : List Nat × Nat) (pos : Nat) :
    List Nat × Nat :=
  let s1 :=
    if payload.getD (pos - 2) 0 = 0x00 ∧ payload.getD (pos - 1) 0 = 0x00
        ∧ payload.getD pos 0 ≤ 0x03
    then (s.1.set s.2 0x03, s.2 + 1) else s
  (s1.1.set s1.2 (payload.getD pos 0), s1.2 + 1)

/-- The branch "RBDU to EBDU" of `make_vc1_ebdu`: `*size = 4`, the first two
payload bytes are copied unchecked, then the loop. -/
def rbdu_to_ebdu (payload : List Nat) (data : List Nat) : List Nat × Nat :=
  let s0 : List Nat × Nat := (data, 4)
  let s1 := if 0 < payload.length then (s0.1.set s0.2 (payload.getD 0 0), s0.2 + 1) else s0
  let s2 := if 1 < payload.length then (s1.1.set s1.2 (payload.getD 1 0), s1.2 + 1) else s1
  (List.range' 2 (payload.length - 2)).foldl (rbdu_to_ebdu_step payload) s2

/-- The function `make_vc1_ebdu`.  `padding` is `FF_INPUT_BUFFER_PADDING_SIZE`,
`realloc_ok` the outcome of `av_realloc` and `fresh` the content of newly
allocated bytes; the payload is the `pkt->size` bytes at `pkt->data`.  The
result is `none` for `return NULL`, otherwise the returned buffer, `*size` and
the helper. -/
def make_vc1_ebdu (padding : Nat) (realloc_ok : Bool) (fresh : Nat → Nat)
    (helper : ebdu_helper_t) (pkt : AVPacket) (bdu_type : Nat) (is_vc1 : Bool) :
    Option (List Nat × Nat × ebdu_helper_t) :=
  let payload := (pkt.data.getD []).take pkt.size.toNat
  let buffer_size : Int := wrap_int32 ((1 + (if is_vc1 then 0 else 1)) * wrap_int32 (pkt.size + 4))
  let grown : Option ebdu_helper_t :=
    if helper.buffer_size < wrap_int32 (buffer_size + Int.ofNat padding) then
      if realloc_ok then
        some { buffer := av_realloc_bytes fresh helper.buffer
                 (wrap_int32 (buffer_size + Int.ofNat padding)).toNat,
               buffer_size := wrap_int32 (buffer_size + Int.ofNat padding) }
      else none
    else some helper
  match grown with
  | none => none
  | some helper1 =>
    let data0 := (((helper1.buffer.set 0 0x00).set 1 0x00).set 2 0x01).set 3 bdu_type
    let r : List Nat × Nat :=
      if is_vc1 then (memcpy_at data0 4 payload, (wrap_int32 (pkt.size + 4)).toNat)
      else rbdu_to_ebdu payload data0
    let data := memset_zero_at r.1 r.2 padding
    some (data, r.2, { helper1 with buffer := data })

/-- The EBDU as the specification defines it: the start code
`00 00 01 bdu_type`, then the payload verbatim when `is_vc1` is set, and
otherwise the payload with a `03` inserted before each byte at position
`i >= 2` that is `<= 03` and whose two preceding payload bytes are both `00`. -/
def ebdu_reference (payload : List Nat) (bdu_type : Nat) (is_vc1 : Bool) : List Nat :=
  [0x00, 0x00, 0x01, bdu_type] ++
    (if is_vc1 then payload
     else (List.range payload.length).flatMap (fun i =>
       if 2 ≤ i ∧ payload.getD i 0 ≤ 0x03 ∧ payload.getD (i - 1) 0 = 0x00
          ∧ payload.getD (i - 2) 0 = 0x00
       then [0x03, payload.getD i 0] else [payload.getD i 0]))

/-- Scenario: a packet with the payload `00 00 00 00 01 05 00 00 03`. -/
def scenario_rbdu_packet : AVPacket :=
  { pts := 0, dts := 0, pos := 0, stream_index := 0, flags := 0,
    data := some [0, 0, 0, 0, 1, 5, 0, 0, 3], size := 9, side_data := [] }

/-- Scenario: a helper without a buffer. -/
def scenario_ebdu_helper : ebdu_helper_t := { buffer := [], buffer_size := 0 }

/-! ## The active-stream marker lines of the index file -/

/-- The conversion `%+011d` of `fprintf` applied to an `int`: the sign (`+`
also for values that are not negative), then the decimal digits of the
magnitude, with zeros between sign and digits up to the field width of 11
characters. -/
def format_plus_011d (n : Int) : List Char :=
  (if n < 0 then '-' else '+')
    :: (List.replicate (11 - 1 - (Nat.toDigits 10 n.natAbs).length) '0'
        ++ Nat.toDigits 10 n.natAbs)

/-- The line
`fprintf( index, "<ActiveVideoStreamIndex>%+011d</ActiveVideoStreamIndex>\n", n )`. -/
def active_video_stream_index_line (n : Int) : List Char :=
  "<ActiveVideoStreamIndex>".toList ++ format_plus_011d n
    ++ "</ActiveVideoStreamIndex>".toList ++ [Char.ofNat 10]

/-- The line
`fprintf( index, "<ActiveAudioStreamIndex>%+011d</ActiveAudioStreamIndex>\n", n )`. -/
def active_audio_stream_index_line (n : Int) : List Char :=
  "<ActiveAudioStreamIndex>".toList ++ format_plus_011d n
    ++ "</ActiveAudioStreamIndex>".toList ++ [Char.ofNat 10]

/-- The statements `fseek( index, pos, SEEK_SET ); fprintf( index, ... );` on a
file given by its characters: the characters printed replace those of the file
from `pos` on. -/
def fprintf_at (file : List Char) (pos : Nat) (printed : List Char) : List Char :=
  file.take pos ++ printed ++ file.drop (pos + printed.length)

/-! ## The index file and the video part of `create_index` -/

/-- The `AVMEDIA_TYPE_VIDEO` of libavutil. -/
def AVMEDIA_TYPE_VIDEO : Int := 0

/-- The `AVMEDIA_TYPE_AUDIO` of libavutil. -/
def AVMEDIA_TYPE_AUDIO : Int := 1

/-- The `AV_PIX_FMT_NONE` of libavutil. -/
def AV_PIX_FMT_NONE : Int := -1

/-- The `AVCOL_SPC_NB` of libavutil, the number of colour spaces: not the
colour space of any stream. -/
def AVCOL_SPC_NB : Int := 9

/-- Modelled from the spec: the fields of `lwlibav_option_t` (declared in
`lwindex.h`) that the indexer reads for the election of streams. -/
structure lwlibav_option_t where
  force_video : Bool
  force_video_index : Int
  force_audio : Bool
  force_audio_index : Int
  av_sync : Bool
deriving DecidableEq

/-- The values of the first line of a packet entry of the index file,
`Index=%d,Type=%d,Codec=%d,TimeBase=%d/%d,POS=%lld,PTS=%lld,DTS=%lld,EDI=%d`.
The codec number stands for the `AVCodecID` it denotes. -/
structure packet_line_t where
  stream_index : Int
  codec_type : Int
  codec_id : AVCodecID
  time_base : AVRational
  pos : Int
  pts : Int
  dts : Int
  extradata_index : Int
deriving DecidableEq

/-- A line of the index file, given by the values that `fprintf` prints into it
and `sscanf` reads back from it (the text of a line is not modelled: a line of
one kind is exactly what the `sscanf` or `strncmp` for that kind accepts).  The
name of a pixel or sample format stands for the format number it denotes.  By
an extradata entry stand the bytes behind its line, `none` when the file ends
before `Size` bytes and the line feed have been read.  The two malformed lines
start like a `StreamIndexEntries` or an `ExtraDataList` line without the three
numbers; `other` is any line that starts with none of the tags and that no
`sscanf` reads in full. -/
inductive index_line where
  | input_file_path (path : String)
  | libav_reader_index (format_flags : Nat) (format_name : String)
  | active_video_stream_index (n : Int)
  | active_audio_stream_index (n : Int)
  | packet (hdr : packet_line_t)
  | video (pict_type key width height pix_fmt colorspace : Int)
  | audio (channels : Int) (layout : Nat) (sample_rate sample_fmt bits_per_sample
      frame_length : Int)
  | end_libav_reader_index
  | stream_index_entries (stream_index codec_type index_entries_count : Int)
  | index_entry (pos timestamp : Int) (flags : Nat) (size distance : Int)
  | end_stream_index_entries
  | extradata_list (stream_index codec_type entry_count : Int)
  | video_extradata (size : Int) (codec_id : AVCodecID) (codec_tag : Nat)
      (width height pix_fmt bits_per_sample : Int) (bytes : Option (List Nat))
  | audio_extradata (size : Int) (codec_id : AVCodecID) (codec_tag : Nat) (layout : Nat)
      (sample_rate sample_fmt bits_per_sample block_align : Int) (bytes : Option (List Nat))
  | end_extradata_list
  | end_libav_reader_index_file
  | malformed_stream_index_entries
  | malformed_extradata_list
  | other (text : String)
deriving DecidableEq

/-- What `get_picture_type` finds in the helper of the stream and gets from the
parser and the decoder for one packet: whether `helper->parser_ctx` is set,
`own_parser` (here `parser_owned`), `vc1_wmv3`, `mpeg12_video`, whether
`make_vc1_ebdu` returns a buffer, `parser_ctx->pict_type` after the parse, and
`picture->pict_type` after the decoding. -/
structure picture_probe_t where
  parser_ctx : Bool
  parser_owned : Bool
  vc1_wmv3 : Int
  mpeg12_video : Bool
  ebdu_ok : Bool
  parser_pict_type : Int
  decoded_pict_type : Int
deriving DecidableEq

/-- The function `get_picture_type`: the return value and `pkt->flags` as the
function leaves them. -/
def get_picture_type (probe : picture_probe_t) (flags : Nat) : Int × Nat :=
  if probe.parser_ctx = false then (0, flags)
  else if probe.parser_owned = true ∧ probe.vc1_wmv3 = 2 ∧ probe.ebdu_ok = false then (-1, flags)
  else if (probe.mpeg12_video = true ∨ probe.vc1_wmv3 ≠ 0)
      ∧ flags &&& AV_PKT_FLAG_KEY ≠ 0
      ∧ probe.parser_pict_type ≠ AV_PICTURE_TYPE_I then
    (probe.decoded_pict_type,
     if probe.decoded_pict_type ≠ AV_PICTURE_TYPE_I
     then flags - (flags &&& AV_PKT_FLAG_KEY) else flags)
  else (probe.parser_pict_type, flags)

/-- One video packet as the packet loop of `create_index` sees it after
`append_extradata_if_new`: the fields of the packet, `extradata_index`, the
fields of the codec context of its stream, the time base of the stream, and
what `get_picture_type` will find. -/
structure video_packet_t where
  stream_index : Int
  pts : Int
  dts : Int
  pos : Int
  flags : Nat
  extradata_index : Int
  codec_id : AVCodecID
  width : Int
  height : Int
  pix_fmt : Int
  colorspace : Int
  time_base : AVRational
  picture : picture_probe_t
deriving DecidableEq

/-- The variables of `create_index` that the video part of the packet loop
uses: `vdhp->stream_index`, `adhp->dv_in_avi`, `vdhp->codec_id`,
`video_resolution`, `video_sample_count` (a `uint32_t`), `last_keyframe_pts`,
the array `video_info` (zero-initialised and grown on demand, as a total
function of the index; the part `realloc` adds is taken to be zero), the
dimensions and colour space kept in `vdhp`, the number in the
`ActiveVideoStreamIndex` line of the index file and the packet lines printed
so far.  `sources` is not in the source: it records, for the records
`1..video_sample_count`, the stream index of the packet behind each. -/
structure video_scan_t where
  stream_index : Int
  dv_in_avi : Int
  codec_id : AVCodecID
  video_resolution : Int
  video_sample_count : Nat
  last_keyframe_pts : Int
  video_info : Nat → video_frame_info_t
  max_width : Int
  max_height : Int
  initial_width : Int
  initial_height : Int
  initial_colorspace : Int
  active_video_stream_index : Int
  lines : List index_line
  sources : List Int

/-- The state of the video part when the packet loop starts:
`lwlibav_construct_index` has set `vdhp->stream_index` to -1, `create_index`
has set `adhp->dv_in_avi` to -1 for the format "avi" and to 0 otherwise and has
printed the marker line with -1. -/
def video_scan_init (format_name : String) : video_scan_t :=
  { stream_index := -1, dv_in_avi := if format_name = "avi" then -1 else 0,
    codec_id := AVCodecID.AV_CODEC_ID_NONE, video_resolution := 0, video_sample_count := 0,
    last_keyframe_pts := AV_NOPTS_VALUE, video_info := fun _ => video_frame_info_zero,
    max_width := 0, max_height := 0, initial_width := 0, initial_height := 0,
    initial_colorspace := 0, active_video_stream_index := -1, lines := [], sources := [] }

/-- The product `pkt_ctx->width * pkt_ctx->height`, an `int`. -/
def pixel_count (pkt : video_packet_t) : Int := wrap_int32 (pkt.width * pkt.height)

/-- The statements under "Update active video stream": the marker line is
rewritten, the records `0..video_sample_count` are zeroed (`memset`) and the
election variables are reset. -/
def update_active_video_stream (s : video_scan_t) (pkt : video_packet_t) : video_scan_t :=
  { s with
    active_video_stream_index := pkt.stream_index,
    video_info := fun i => if i ≤ s.video_sample_count then video_frame_info_zero
                           else s.video_info i,
    codec_id := pkt.codec_id,
    stream_index := pkt.stream_index,
    video_resolution := pixel_count pkt,
    video_sample_count := 0,
    last_keyframe_pts := AV_NOPTS_VALUE,
    max_width := pkt.width, max_height := pkt.height,
    initial_width := pkt.width, initial_height := pkt.height,
    initial_colorspace := pkt.colorspace,
    sources := [] }

/-- The test of `create_index` that guards "Update active video stream". -/
def elects_video_stream (opt : lwlibav_option_t) (dv_in_avi_init : Bool) (s : video_scan_t)
    (pkt : video_packet_t) : Bool :=
  dv_in_avi_init
  || (!opt.force_video
      && (decide (s.stream_index = -1)
          || (decide (pkt.stream_index ≠ s.stream_index)
              && decide (pixel_count pkt > s.video_resolution))))
  || (opt.force_video && decide (s.stream_index = -1)
      && decide (pkt.stream_index = opt.force_video_index))

/-- The statements under "Set video frame info if this stream is active", for a
packet of the active stream with picture type `pict_type` and flags `flags`. -/
def set_video_frame_info (s : video_scan_t) (pkt : video_packet_t) (pict_type : Int)
    (flags : Nat) : video_scan_t :=
  let count := wrap_uint32 (s.video_sample_count + 1)
  let is_key : Bool := decide (flags &&& AV_PKT_FLAG_KEY ≠ 0)
  let old := s.video_info count
  let record : video_frame_info_t :=
    { old with
      pts := pkt.pts, dts := pkt.dts, file_offset := pkt.pos, sample_number := count,
      extradata_index := pkt.extradata_index, pict_type := pict_type,
      is_leading :=
        if pkt.pts ≠ AV_NOPTS_VALUE ∧ s.last_keyframe_pts ≠ AV_NOPTS_VALUE
            ∧ pkt.pts < s.last_keyframe_pts then 1 else old.is_leading,
      keyframe := if is_key then 1 else old.keyframe }
  { s with
    video_sample_count := count,
    video_info := Function.update s.video_info count record,
    last_keyframe_pts := if is_key then pkt.pts else s.last_keyframe_pts,
    max_width := if s.max_width < pkt.width then pkt.width else s.max_width,
    max_height := if s.max_height < pkt.height then pkt.height else s.max_height,
    sources := s.sources ++ [pkt.stream_index] }

/-- The two lines `create_index` prints for a video packet. -/
def video_packet_lines (pkt : video_packet_t) (pict_type : Int) (flags : Nat) :
    List index_line :=
  [ index_line.packet
      { stream_index := pkt.stream_index, codec_type := AVMEDIA_TYPE_VIDEO,
        codec_id := pkt.codec_id, time_base := pkt.time_base, pos := pkt.pos, pts := pkt.pts,
        dts := pkt.dts, extradata_index := pkt.extradata_index },
    index_line.video pict_type (if flags &&& AV_PKT_FLAG_KEY ≠ 0 then 1 else 0)
      pkt.width pkt.height pkt.pix_fmt pkt.colorspace ]

/-- The lines `print_index` appends to the index file. -/
def print_index_lines (s : video_scan_t) (printed : List index_line) : video_scan_t :=
  { s with lines := s.lines ++ printed }

/-- The part of the packet loop of `create_index` for a video packet from the
test for DV in AVI to the end of "Update active video stream". -/
def elect_video_stream (opt : lwlibav_option_t) (s : video_scan_t) (pkt : video_packet_t) :
    video_scan_t :=
  let dv_in_avi_init : Bool :=
    decide (s.dv_in_avi = -1) && decide (s.stream_index = -1)
      && decide (pkt.codec_id = AVCodecID.AV_CODEC_ID_DVVIDEO) && !opt.force_audio
  let s1 := if dv_in_avi_init then { s with dv_in_avi := 1, stream_index := pkt.stream_index }
            else s
  if elects_video_stream opt dv_in_avi_init s1 pkt
  then update_active_video_stream s1 pkt else s1

/-- The body of the packet loop of `create_index` for one video packet, from the
test for DV in AVI to the lines printed into the index file; `none` stands for
`goto fail_index`.  (The update of the extradata entry and the growth of the
array by `realloc` are not modelled.) -/
def create_index_video_packet (opt : lwlibav_option_t) (s : video_scan_t)
    (pkt : video_packet_t) : Option video_scan_t :=
  if (get_picture_type pkt.picture pkt.flags).1 < 0 then none
  else
    some (print_index_lines
      (if pkt.stream_index = (elect_video_stream opt s pkt).stream_index
       then set_video_frame_info (elect_video_stream opt s pkt) pkt
              (get_picture_type pkt.picture pkt.flags).1 (get_picture_type pkt.picture pkt.flags).2
       else elect_video_stream opt s pkt)
      (video_packet_lines pkt (get_picture_type pkt.picture pkt.flags).1
        (get_picture_type pkt.picture pkt.flags).2))

/-- The packet loop of `create_index` over video packets; `none` stands for
`goto fail_index`. -/
def create_index_video (opt : lwlibav_option_t) (s : video_scan_t) :
    List video_packet_t → Option video_scan_t
  | [] => some s
  | pkt :: pkts =>
    match create_index_video_packet opt s pkt with
    | none => none
    | some s1 => create_index_video opt s1 pkts

/-- Invariant of the video part of the packet loop of `create_index` after `n`
video packets, outside the DV-in-AVI case: every accumulated record comes from
the elected stream, a stream is elected once a packet has been seen, at most
`n` records are accumulated and the array is zero behind them. -/
def video_scan_inv (s : video_scan_t) (n : Nat) : Prop :=
  s.dv_in_avi ≠ -1
  ∧ (∀ x ∈ s.sources, x = s.stream_index)
  ∧ -1 ≤ s.stream_index
  ∧ (1 ≤ n → 0 ≤ s.stream_index)
  ∧ s.video_sample_count ≤ n
  ∧ ∀ i, s.video_sample_count < i → s.video_info i = video_frame_info_zero

/-- Scenario: a video packet of stream `stream_index` with the given size,
key-flagged, of a stream without a parser. -/
def scenario_video_packet (stream_index pts : Int) (width height : Int) : video_packet_t :=
  { stream_index := stream_index, pts := pts, dts := pts, pos := 1000 + pts,
    flags := AV_PKT_FLAG_KEY, extradata_index := 0, codec_id := AVCodecID.other 28,
    width := width, height := height, pix_fmt := 0, colorspace := 2,
    time_base := { num := 1, den := 1000 },
    picture := { parser_ctx := false, parser_owned := false, vc1_wmv3 := 0,
                 mpeg12_video := false, ebdu_ok := true, parser_pict_type := 0,
                 decoded_pict_type := 0 } }

/-- Scenario: no stream is forced. -/
def scenario_option : lwlibav_option_t :=
  { force_video := false, force_video_index := -1, force_audio := false,
    force_audio_index := -1, av_sync := false }

/-- Scenario: the state of the video part after one packet of stream 0 with
640x480 pixels in an MP4 file. -/
def scenario_scan_first : video_scan_t :=
  (create_index_video scenario_option (video_scan_init "mp4")
    [scenario_video_packet 0 0 640 480]).getD (video_scan_init "mp4")

/-- Scenario: the state after a further packet, of stream 1 with 1920x1080
pixels. -/
def scenario_scan_second : video_scan_t :=
  (create_index_video_packet scenario_option scenario_scan_first
    (scenario_video_packet 1 40 1920 1080)).getD (video_scan_init "mp4")

/-! ## The reader of the index file, `parse_index` -/

/-- How `parse_index`, or a part of it, ends: it goes on with a value, it leaves
through `fail_parsing` (or through a `return -1` before that label exists), or
it reads or writes through a NULL pointer. -/
inductive parse_result (α : Type) where
  | done (a : α)
  | fail_parsing
  | null_dereference

/-- Sequencing: the second part runs when the first one goes on. -/
def parse_result.and_then {α β : Type} (r : parse_result α) (f : α → parse_result β) :
    parse_result β :=
  match r with
  | parse_result.done a => f a
  | parse_result.fail_parsing => parse_result.fail_parsing
  | parse_result.null_dereference => parse_result.null_dereference

/-- The outcomes of the allocations of `parse_index` and of the decider it
calls, one per call site, `true` for a non-NULL pointer: `lw_malloc_zero` for
`lwhp->file_path`, for `video_info`, for `audio_info` and for `video_info` in
the DV-in-AVI case, the two `realloc` (by the new number of elements),
`av_malloc` of `index_entries`, `alloc_extradata_entries`, `av_malloc` of an
extradata buffer, `lw_malloc_zero` for `keyframe_list`, and the two allocations
of `decide_video_seek_method`. -/
structure parse_alloc_t where
  file_path : Bool
  video_info : Bool
  audio_info : Bool
  dv_video_info : Bool
  video_realloc : Nat → Bool
  audio_realloc : Nat → Bool
  index_entries : Bool
  extradata_entries : Bool
  extradata : Bool
  keyframe_list : Bool
  order_converter : Bool
  timestamp : Bool

/-- The variables of `parse_index`: the fields of the handlers it reads and
writes (`vdhp->stream_index`, `adhp->stream_index`, `adhp->dv_in_avi`, the two
`codec_id`, `vdhp->initial_pix_fmt`, `vdhp->initial_colorspace`, the initial
and maximal dimensions, `adhp->exh.delay_count`, the two
`index_entries_count`, `lwhp->format_name`, `lwhp->format_flags`) and its
locals (`active_video_index`, `active_audio_index`, the arrays `video_info` and
`audio_info`, `none` for the NULL pointer and otherwise a total function of the
index whose part behind the allocated elements is taken to be zero, their
element counts, the sample counts, `last_keyframe_pts`, the two time bases,
`audio_sample_rate`, `constant_frame_length`, `audio_duration`).  The fields of
`aohp` are left out. -/
structure index_parse_t where
  format_name : String
  format_flags : Nat
  active_video_index : Int
  active_audio_index : Int
  video_stream_index : Int
  audio_stream_index : Int
  dv_in_avi : Int
  video_codec_id : AVCodecID
  audio_codec_id : AVCodecID
  initial_pix_fmt : Int
  initial_colorspace : Int
  initial_width : Int
  initial_height : Int
  max_width : Int
  max_height : Int
  video_info : Option (Nat → video_frame_info_t)
  video_info_count : Nat
  video_sample_count : Nat
  last_keyframe_pts : Int
  video_time_base : AVRational
  audio_info : Option (Nat → audio_frame_info_t)
  audio_info_count : Nat
  audio_sample_count : Nat
  audio_sample_rate : Int
  constant_frame_length : Bool
  audio_duration : Nat
  audio_time_base : AVRational
  delay_count : Nat
  video_index_entries_count : Int
  audio_index_entries_count : Int

/-- Handlers filled with zero bytes, as `parse_index` may get them from its
caller; the locals have the values of the state before the record loop with no
stream. -/
def index_parse_zero : index_parse_t :=
  { format_name := "", format_flags := 0, active_video_index := -1, active_audio_index := -1,
    video_stream_index := 0, audio_stream_index := 0, dv_in_avi := 0,
    video_codec_id := AVCodecID.AV_CODEC_ID_NONE, audio_codec_id := AVCodecID.AV_CODEC_ID_NONE,
    initial_pix_fmt := 0, initial_colorspace := 0, initial_width := 0, initial_height := 0,
    max_width := 0, max_height := 0, video_info := none, video_info_count := 2 ^ 16,
    video_sample_count := 0, last_keyframe_pts := AV_NOPTS_VALUE,
    video_time_base := { num := 0, den := 0 }, audio_info := none, audio_info_count := 2 ^ 16,
    audio_sample_count := 0, audio_sample_rate := 0, constant_frame_length := true,
    audio_duration := 0, audio_time_base := { num := 0, den := 0 }, delay_count := 0,
    video_index_entries_count := 0, audio_index_entries_count := 0 }

/-- The variables of `parse_index` when the record loop starts, for the header
values `format_flags`, `format_name`, `active_video_index` and
`active_audio_index` and successful allocations: the stream indexes are set
from the options or from the file, the arrays are allocated for the stream
indexes that are not negative and the locals are initialised.  `h` holds the
handlers as the caller passes them. -/
def parse_index_init (opt : lwlibav_option_t) (h : index_parse_t) (format_flags : Nat)
    (format_name : String) (active_video_index active_audio_index : Int) : index_parse_t :=
  { h with
    format_name := format_name, format_flags := format_flags,
    active_video_index := active_video_index,
    active_audio_index := active_audio_index,
    dv_in_avi := if format_name = "avi" then -1 else 0,
    video_stream_index :=
      if opt.force_video then opt.force_video_index else active_video_index,
    audio_stream_index :=
      if opt.force_audio then opt.force_audio_index else active_audio_index,
    video_info_count := 2 ^ 16, audio_info_count := 2 ^ 16,
    video_info :=
      if (if opt.force_video then opt.force_video_index else active_video_index) ≥ 0
      then some (fun _ => video_frame_info_zero) else none,
    audio_info :=
      if (if opt.force_audio then opt.force_audio_index else active_audio_index) ≥ 0
      then some (fun _ => audio_frame_info_zero) else none,
    video_codec_id := AVCodecID.AV_CODEC_ID_NONE,
    audio_codec_id := AVCodecID.AV_CODEC_ID_NONE,
    initial_pix_fmt := AV_PIX_FMT_NONE, initial_colorspace := AVCOL_SPC_NB,
    video_sample_count := 0, last_keyframe_pts := AV_NOPTS_VALUE,
    audio_sample_count := 0, audio_sample_rate := 0, constant_frame_length := true,
    audio_duration := 0, video_time_base := { num := 0, den := 0 },
    audio_time_base := { num := 0, den := 0 } }

/-- The part of `parse_index` before the record loop: the four header lines are
read (`target_opens` tells whether `fopen( file_path, "rb" )` succeeds), the
stream indexes are set, the arrays are allocated and the locals initialised.
The result comes with the lines not yet read. -/
def parse_index_header (alloc : parse_alloc_t) (target_opens : Bool) (opt : lwlibav_option_t)
    (h : index_parse_t) (file : List index_line) :
    parse_result (index_parse_t × List index_line) :=
  match file with
  | index_line.input_file_path _ :: index_line.libav_reader_index format_flags format_name
      :: index_line.active_video_stream_index active_video_index
      :: index_line.active_audio_stream_index active_audio_index :: rest =>
    if target_opens = false then parse_result.fail_parsing
    else if alloc.file_path = false then parse_result.fail_parsing
    else if (if opt.force_video then opt.force_video_index else active_video_index) ≥ 0
        ∧ alloc.video_info = false then parse_result.fail_parsing
    else if (if opt.force_audio then opt.force_audio_index else active_audio_index) ≥ 0
        ∧ alloc.audio_info = false then parse_result.fail_parsing
    else
      parse_result.done
        (parse_index_init opt h format_flags format_name active_video_index active_audio_index,
         rest)
  | _ => parse_result.fail_parsing

/-- The test `(key | width | height) || pict_type == -1 || colorspace !=
AVCOL_SPC_NB` of `parse_index`: the bitwise OR of integers is non-zero exactly
when one of them is. -/
def accepts_video_line (pict_type key width height colorspace : Int) : Bool :=
  decide (key ≠ 0 ∨ width ≠ 0 ∨ height ≠ 0) || decide (pict_type = -1)
    || decide (colorspace ≠ AVCOL_SPC_NB)

/-- The statements of `parse_index` under that test: the dimensions, the pixel
format, the colour space and the time base are taken over, and the record
`++video_sample_count` of the array `info` is filled in. -/
def parse_video_record (s : index_parse_t) (info : Nat → video_frame_info_t)
    (hdr : packet_line_t) (pict_type key width height pix_fmt colorspace : Int) :
    index_parse_t :=
  let first : Bool := decide (s.initial_width = 0 ∨ s.initial_height = 0)
  let count := wrap_uint32 (s.video_sample_count + 1)
  let old := info count
  let record : video_frame_info_t :=
    { old with
      pts := hdr.pts, dts := hdr.dts, file_offset := hdr.pos, sample_number := count,
      extradata_index := hdr.extradata_index, pict_type := pict_type,
      is_leading :=
        if hdr.pts ≠ AV_NOPTS_VALUE ∧ s.last_keyframe_pts ≠ AV_NOPTS_VALUE
            ∧ hdr.pts < s.last_keyframe_pts then 1 else old.is_leading,
      keyframe := if key ≠ 0 then 1 else old.keyframe }
  { s with
    initial_width := if first then width else s.initial_width,
    initial_height := if first then height else s.initial_height,
    max_width := if first then width
                 else if s.max_width < width then width else s.max_width,
    max_height := if first then height
                  else if s.max_height < width then height else s.max_height,
    initial_pix_fmt := if s.initial_pix_fmt = AV_PIX_FMT_NONE then pix_fmt
                       else s.initial_pix_fmt,
    initial_colorspace := if s.initial_colorspace = AVCOL_SPC_NB then colorspace
                          else s.initial_colorspace,
    video_time_base := if s.video_time_base.num = 0 ∨ s.video_time_base.den = 0
                       then hdr.time_base else s.video_time_base,
    video_sample_count := count,
    video_info := some (Function.update info count record),
    last_keyframe_pts := if key ≠ 0 then hdr.pts else s.last_keyframe_pts }

/-- The test for DV in AVI that `parse_index` makes at a video packet line. -/
def parse_dv_in_avi (alloc : parse_alloc_t) (opt : lwlibav_option_t) (s : index_parse_t)
    (hdr : packet_line_t) : parse_result index_parse_t :=
  if s.dv_in_avi = -1 ∧ hdr.codec_id = AVCodecID.AV_CODEC_ID_DVVIDEO ∧ opt.force_audio = false
  then
    if s.video_stream_index = -1 then
      if alloc.dv_video_info then
        parse_result.done { s with dv_in_avi := 1, video_stream_index := hdr.stream_index,
                                   video_info := some (fun _ => video_frame_info_zero) }
      else parse_result.fail_parsing
    else parse_result.done { s with dv_in_avi := 1 }
  else parse_result.done s

/-- The growth of `video_info` by `realloc` at the end of the block of a video
line of the elected stream. -/
def grow_video_info (alloc : parse_alloc_t) (s : index_parse_t) : parse_result index_parse_t :=
  if wrap_uint32 (s.video_sample_count + 1) = s.video_info_count then
    if alloc.video_realloc (wrap_uint32 (2 * s.video_info_count)) then
      parse_result.done { s with video_info_count := wrap_uint32 (2 * s.video_info_count) }
    else parse_result.fail_parsing
  else parse_result.done s

/-- The block of the record loop of `parse_index` for a packet line `hdr` of
type video, after the second line `line` of the entry has been read. -/
def parse_video_line (alloc : parse_alloc_t) (opt : lwlibav_option_t) (s : index_parse_t)
    (hdr : packet_line_t) (line : index_line) : parse_result index_parse_t :=
  (parse_dv_in_avi alloc opt s hdr).and_then fun s1 =>
    if hdr.stream_index ≠ s1.video_stream_index then parse_result.done s1
    else
      match line with
      | index_line.video pict_type key width height pix_fmt colorspace =>
        (if accepts_video_line pict_type key width height colorspace then
           match s1.video_info with
           | none => parse_result.null_dereference
           | some info =>
             parse_result.done
               (parse_video_record
                 { s1 with video_codec_id :=
                     if s1.video_codec_id = AVCodecID.AV_CODEC_ID_NONE then hdr.codec_id
                     else s1.video_codec_id }
                 info hdr pict_type key width height pix_fmt colorspace)
         else
           parse_result.done
             { s1 with video_codec_id :=
                 if s1.video_codec_id = AVCodecID.AV_CODEC_ID_NONE then hdr.codec_id
                 else s1.video_codec_id }).and_then (grow_video_info alloc)
      | _ => parse_result.fail_parsing

/-- The statements `audio_info[n].length = frame_length;`, the update of
`constant_frame_length` and `audio_duration += frame_length;` of `parse_index`. -/
def parse_audio_length (s : index_parse_t) (info : Nat → audio_frame_info_t) (n : Nat)
    (frame_length : Int) : index_parse_t :=
  { s with
    audio_info := some (Function.update info n { info n with length := frame_length }),
    constant_frame_length :=
      if n > 1 ∧ frame_length ≠
          (Function.update info n { info n with length := frame_length } (n - 1)).length
      then false else s.constant_frame_length,
    audio_duration := add_audio_duration s.audio_duration frame_length }

/-- One turn of the loop `for( i = 1; i <= delay_count; i++ )` of `parse_index`;
the frame number is a `uint32_t`. -/
def parse_audio_delayed (frame_length : Int) (r : parse_result index_parse_t) (i : Nat) :
    parse_result index_parse_t :=
  r.and_then fun s =>
    if ((Int.ofNat s.audio_sample_count - Int.ofNat s.delay_count + Int.ofNat i) % 2 ^ 32).toNat
        > s.audio_sample_count then parse_result.fail_parsing
    else
      match s.audio_info with
      | none => parse_result.null_dereference
      | some info =>
        parse_result.done (parse_audio_length s info
          ((Int.ofNat s.audio_sample_count - Int.ofNat s.delay_count + Int.ofNat i)
            % 2 ^ 32).toNat frame_length)

/-- The statements of `parse_index` that fill in the record
`++audio_sample_count` of the array `info`. -/
def parse_audio_record (s : index_parse_t) (info : Nat → audio_frame_info_t)
    (hdr : packet_line_t) (sample_rate : Int) : index_parse_t :=
  { s with
    audio_sample_rate := if s.audio_sample_rate = 0 then sample_rate else s.audio_sample_rate,
    audio_time_base := if s.audio_time_base.num = 0 ∨ s.audio_time_base.den = 0
                       then hdr.time_base else s.audio_time_base,
    audio_sample_count := wrap_uint32 (s.audio_sample_count + 1),
    audio_info := some (Function.update info (wrap_uint32 (s.audio_sample_count + 1))
      { info (wrap_uint32 (s.audio_sample_count + 1)) with
        pts := hdr.pts, dts := hdr.dts, file_offset := hdr.pos,
        sample_number := wrap_uint32 (s.audio_sample_count + 1),
        extradata_index := hdr.extradata_index, sample_rate := sample_rate }) }

/-- The growth of `audio_info` by `realloc`. -/
def grow_audio_info (alloc : parse_alloc_t) (s : index_parse_t) : parse_result index_parse_t :=
  if wrap_uint32 (s.audio_sample_count + 1) = s.audio_info_count then
    if alloc.audio_realloc (wrap_uint32 (2 * s.audio_info_count)) then
      parse_result.done { s with audio_info_count := wrap_uint32 (2 * s.audio_info_count) }
    else parse_result.fail_parsing
  else parse_result.done s

/-- The end of the block of an audio line: a line with `Length=-1` counts as a
delay, any other length goes to the record `audio_sample_count - delay_count`. -/
def parse_audio_frame_length (s : index_parse_t) (frame_length : Int) :
    parse_result index_parse_t :=
  if frame_length = -1 then
    parse_result.done { s with delay_count := wrap_uint32 (s.delay_count + 1) }
  else if s.audio_sample_count > s.delay_count then
    match s.audio_info with
    | none => parse_result.null_dereference
    | some info =>
      parse_result.done
        (parse_audio_length s info (s.audio_sample_count - s.delay_count) frame_length)
  else parse_result.done s

/-- The block of the record loop of `parse_index` for a packet line `hdr` of
type audio, after the second line `line` of the entry has been read. -/
def parse_audio_line (alloc : parse_alloc_t) (s : index_parse_t) (hdr : packet_line_t)
    (line : index_line) : parse_result index_parse_t :=
  if hdr.stream_index ≠ s.audio_stream_index then parse_result.done s
  else
    match line with
    | index_line.audio channels layout sample_rate _ bits_per_sample frame_length =>
      ((if (channels ≠ 0 ∨ layout ≠ 0 ∨ sample_rate ≠ 0 ∨ bits_per_sample ≠ 0)
            ∧ s.audio_duration ≤ INT32_MAX then
          match s.audio_info with
          | none => parse_result.null_dereference
          | some info =>
            parse_result.done
              (parse_audio_record
                { s with audio_codec_id :=
                    if s.audio_codec_id = AVCodecID.AV_CODEC_ID_NONE then hdr.codec_id
                    else s.audio_codec_id }
                info hdr sample_rate)
        else
          (List.range' 1 s.delay_count).foldl (parse_audio_delayed frame_length)
            (parse_result.done
              { s with audio_codec_id :=
                  if s.audio_codec_id = AVCodecID.AV_CODEC_ID_NONE then hdr.codec_id
                  else s.audio_codec_id })).and_then (grow_audio_info alloc)).and_then
        fun s1 => parse_audio_frame_length s1 frame_length
    | _ => parse_result.fail_parsing

/-- The record loop `while( fgets( buf, sizeof(buf), index ) )` of
`parse_index` on the lines not yet read; `buf` is the line last read.  The
result comes with `buf` and the lines not yet read when the loop is left:
at the end of the file `buf` is unchanged, at `break` it holds the line that
is no packet line. -/
def parse_packet_lines (alloc : parse_alloc_t) (opt : lwlibav_option_t) :
    index_parse_t → index_line → List index_line →
    parse_result (index_parse_t × index_line × List index_line)
  | s, buf, [] => parse_result.done (s, buf, [])
  | s, _, index_line.packet hdr :: rest =>
    if hdr.codec_type = AVMEDIA_TYPE_VIDEO then
      match rest with
      | [] => parse_result.fail_parsing
      | line :: rest1 =>
        match parse_video_line alloc opt s hdr line with
        | parse_result.done s1 => parse_packet_lines alloc opt s1 line rest1
        | parse_result.fail_parsing => parse_result.fail_parsing
        | parse_result.null_dereference => parse_result.null_dereference
    else if hdr.codec_type = AVMEDIA_TYPE_AUDIO then
      match rest with
      | [] => parse_result.fail_parsing
      | line :: rest1 =>
        match parse_audio_line alloc s hdr line with
        | parse_result.done s1 => parse_packet_lines alloc opt s1 line rest1
        | parse_result.fail_parsing => parse_result.fail_parsing
        | parse_result.null_dereference => parse_result.null_dereference
    else parse_packet_lines alloc opt s (index_line.packet hdr) rest
  | s, _, line :: rest => parse_result.done (s, line, rest)

/-- The part of `parse_index` from its start to the end of the record loop.
`buf` stands for the contents of the uninitialised array `buf`. -/
def parse_index_records (alloc : parse_alloc_t) (target_opens : Bool) (opt : lwlibav_option_t)
    (h : index_parse_t) (buf : index_line) (file : List index_line) :
    parse_result (index_parse_t × index_line × List index_line) :=
  (parse_index_header alloc target_opens opt h file).and_then fun x =>
    parse_packet_lines alloc opt x.1 buf x.2

/-- The loop over the `POS=...,TS=...` lines of a `StreamIndexEntries` block of
the elected stream: at most `n` entries are read, a line that is no entry ends
the loop (`break`), and the end of the file behind an entry is a failure. -/
def parse_index_entries : Nat → index_line → List index_line →
    parse_result (index_line × List index_line)
  | 0, buf, rest => parse_result.done (buf, rest)
  | _ + 1, index_line.index_entry _ _ _ _ _, [] => parse_result.fail_parsing
  | n + 1, index_line.index_entry _ _ _ _ _, line :: rest => parse_index_entries n line rest
  | _ + 1, buf, rest => parse_result.done (buf, rest)

/-- The loop `for( i = 0; i < n; i++ ) if( !fgets( ... ) ) goto fail_parsing;`
that skips the entries of another stream. -/
def skip_index_entries : Nat → index_line → List index_line →
    parse_result (index_line × List index_line)
  | 0, buf, rest => parse_result.done (buf, rest)
  | _ + 1, _, [] => parse_result.fail_parsing
  | n + 1, _, line :: rest => skip_index_entries n line rest

/-- The body of the loop over the `StreamIndexEntries` blocks for the block
whose first line holds `stream_index`, `codec_type` and `index_entries_count`;
`buf` is the line read behind that line. -/
def parse_stream_index_block (alloc : parse_alloc_t) (s : index_parse_t)
    (stream_index codec_type index_entries_count : Int) (buf : index_line)
    (rest : List index_line) : parse_result (index_parse_t × index_line × List index_line) :=
  ((if index_entries_count > 0 then
      if codec_type = AVMEDIA_TYPE_VIDEO ∧ stream_index = s.video_stream_index then
        if alloc.index_entries then
          (parse_index_entries index_entries_count.toNat buf rest).and_then fun x =>
            parse_result.done
              ({ s with video_index_entries_count := index_entries_count }, x.1, x.2)
        else parse_result.fail_parsing
      else if codec_type = AVMEDIA_TYPE_AUDIO ∧ stream_index = s.audio_stream_index then
        if alloc.index_entries then
          (parse_index_entries index_entries_count.toNat buf rest).and_then fun x =>
            parse_result.done
              ({ s with audio_index_entries_count := index_entries_count }, x.1, x.2)
        else parse_result.fail_parsing
      else
        (skip_index_entries index_entries_count.toNat buf rest).and_then fun x =>
          parse_result.done (s, x.1, x.2)
    else parse_result.done (s, buf, rest)) :
    parse_result (index_parse_t × index_line × List index_line)).and_then fun x =>
    match x.2.1, x.2.2 with
    | index_line.end_stream_index_entries, line :: rest1 => parse_result.done (x.1, line, rest1)
    | _, _ => parse_result.fail_parsing

/-- The loop `while( !strncmp( buf, "<StreamIndexEntries=", ... ) )` of
`parse_index`.  Every turn reads at least two lines, so `fuel` turns suffice
for a file of `fuel` lines. -/
def parse_stream_index_entries (alloc : parse_alloc_t) :
    Nat → index_parse_t → index_line → List index_line →
    parse_result (index_parse_t × index_line × List index_line)
  | _, _, index_line.malformed_stream_index_entries, _ => parse_result.fail_parsing
  | fuel + 1, s, index_line.stream_index_entries stream_index codec_type index_entries_count,
      rest =>
    match rest with
    | [] => parse_result.fail_parsing
    | line :: rest1 =>
      match parse_stream_index_block alloc s stream_index codec_type index_entries_count
              line rest1 with
      | parse_result.done x => parse_stream_index_entries alloc fuel x.1 x.2.1 x.2.2
      | parse_result.fail_parsing => parse_result.fail_parsing
      | parse_result.null_dereference => parse_result.null_dereference
  | 0, _, index_line.stream_index_entries _ _ _, _ => parse_result.fail_parsing
  | _, s, buf, rest => parse_result.done (s, buf, rest)

/-- The bytes behind the line of an extradata entry, for a line that starts
with `Size=`. -/
def extradata_line_bytes : index_line → Option (Option (List Nat))
  | index_line.video_extradata _ _ _ _ _ _ _ bytes => some bytes
  | index_line.audio_extradata _ _ _ _ _ _ _ _ bytes => some bytes
  | _ => none

/-- The size in the line of an extradata entry of the kind `codec_type`, when
the `sscanf` for that kind reads the line in full. -/
def extradata_line_size (codec_type : Int) : index_line → Option Int
  | index_line.video_extradata size _ _ _ _ _ _ _ =>
    if codec_type = AVMEDIA_TYPE_VIDEO then some size else none
  | index_line.audio_extradata size _ _ _ _ _ _ _ _ =>
    if codec_type = AVMEDIA_TYPE_VIDEO then none else some size
  | _ => none

/-- The loop over the entries of an `ExtraDataList` block of an elected
stream: a line that the `sscanf` does not read in full ends the loop, a failed
`av_malloc` and the end of the file are failures.  (The entries themselves are
not modelled.) -/
def parse_extradata_entries (alloc : parse_alloc_t) (codec_type : Int) :
    Nat → index_line → List index_line → parse_result (index_line × List index_line)
  | 0, buf, rest => parse_result.done (buf, rest)
  | n + 1, buf, rest =>
    match extradata_line_size codec_type buf, extradata_line_bytes buf, rest with
    | none, _, _ => parse_result.done (buf, rest)
    | some size, some (some _), line :: rest1 =>
      if size > 0 ∧ alloc.extradata = false then parse_result.fail_parsing
      else parse_extradata_entries alloc codec_type n line rest1
    | some _, _, _ => parse_result.fail_parsing

/-- The loop that skips the entries of the `ExtraDataList` block of another
stream. -/
def skip_extradata_entries : Nat → index_line → List index_line →
    parse_result (index_line × List index_line)
  | 0, buf, rest => parse_result.done (buf, rest)
  | n + 1, buf, rest =>
    match extradata_line_bytes buf, rest with
    | some (some _), line :: rest1 => skip_extradata_entries n line rest1
    | _, _ => parse_result.fail_parsing

/-- The body of the loop over the `ExtraDataList` blocks for the block whose
first line holds `stream_index`, `codec_type` and `entry_count`; `buf` is the
line read behind that line.  (The `assert` of `alloc_extradata_entries` is not
modelled.) -/
def parse_extradata_block (alloc : parse_alloc_t) (s : index_parse_t)
    (stream_index codec_type entry_count : Int) (buf : index_line) (rest : List index_line) :
    parse_result (index_line × List index_line) :=
  ((if entry_count > 0 then
      if (codec_type = AVMEDIA_TYPE_VIDEO ∧ stream_index = s.video_stream_index)
          ∨ (codec_type = AVMEDIA_TYPE_AUDIO ∧ stream_index = s.audio_stream_index) then
        if alloc.extradata_entries = false then parse_result.fail_parsing
        else if codec_type = AVMEDIA_TYPE_VIDEO ∧ s.video_info.isNone then
          parse_result.null_dereference
        else if codec_type ≠ AVMEDIA_TYPE_VIDEO ∧ s.audio_info.isNone then
          parse_result.null_dereference
        else parse_extradata_entries alloc codec_type entry_count.toNat buf rest
      else skip_extradata_entries entry_count.toNat buf rest
    else parse_result.done (buf, rest)) :
    parse_result (index_line × List index_line)).and_then fun x =>
    match x.1, x.2 with
    | index_line.end_extradata_list, line :: rest1 => parse_result.done (line, rest1)
    | _, _ => parse_result.fail_parsing

/-- The loop `while( !strncmp( buf, "<ExtraDataList=", ... ) )` of
`parse_index`.  Every turn reads at least two lines, so `fuel` turns suffice
for a file of `fuel` lines. -/
def parse_extradata_lists (alloc : parse_alloc_t) (s : index_parse_t) :
    Nat → index_line → List index_line → parse_result (index_line × List index_line)
  | _, index_line.malformed_extradata_list, _ => parse_result.fail_parsing
  | fuel + 1, index_line.extradata_list stream_index codec_type entry_count, rest =>
    match rest with
    | [] => parse_result.fail_parsing
    | line :: rest1 =>
      match parse_extradata_block alloc s stream_index codec_type entry_count line rest1 with
      | parse_result.done x => parse_extradata_lists alloc s fuel x.1 x.2
      | parse_result.fail_parsing => parse_result.fail_parsing
      | parse_result.null_dereference => parse_result.null_dereference
  | 0, index_line.extradata_list _ _ _, _ => parse_result.fail_parsing
  | _, buf, rest => parse_result.done (buf, rest)

/-- What `parse_index` leaves behind when it returns 0: its variables, the
video and the audio handler as the deciders leave them (`none` without a
stream), `adhp->frame_length`, `lwhp->av_gap` when it is set, and the numbers
printed into the two marker lines when they are rewritten. -/
structure parsed_index_t where
  state : index_parse_t
  vdhp : Option lwlibav_video_decode_handler_t
  adhp : Option lwlibav_audio_decode_handler_t
  frame_length : Int
  av_gap : Option Int
  markers : Option (Int × Int)

/-- The handler `parse_index` passes to `decide_video_seek_method`: the records
`0..video_sample_count` of `info` (the records behind them the decider does not
read) and the keyframe list set up from them; the handler comes without an
order converter and with no seek flag. -/
def parsed_video_handler (s : index_parse_t) (info : Nat → video_frame_info_t) :
    lwlibav_video_decode_handler_t :=
  { frame_list := (List.range (s.video_sample_count + 1)).map info,
    frame_count := s.video_sample_count,
    keyframe_list := (List.range (s.video_sample_count + 1)).map (fun i => (info i).keyframe),
    order_converter := none,
    lw_seek_flags :=
      { SEEK_DTS_BASED := false, SEEK_PTS_BASED := false, SEEK_POS_BASED := false,
        SEEK_POS_CORRECTION := false, SEEK_PTS_GENERATED := false },
    codec_id := s.video_codec_id }

/-- The block `if( vdhp->stream_index >= 0 )` at the end of `parse_index`:
`keyframe_list` is set up and the decider runs on the array `video_info`,
which holds its result afterwards. -/
def parse_index_video (q : qsort_t) (alloc : parse_alloc_t) (s : index_parse_t) :
    parse_result (index_parse_t × Option lwlibav_video_decode_handler_t) :=
  if s.video_stream_index ≥ 0 then
    if alloc.keyframe_list = false then parse_result.fail_parsing
    else
      match s.video_info with
      | none => parse_result.null_dereference
      | some info =>
        if (decide_video_seek_method q alloc.order_converter alloc.timestamp
              { format_name := s.format_name, format_flags := s.format_flags }
              (parsed_video_handler s info) s.video_sample_count).1 ≠ 0
        then parse_result.fail_parsing
        else
          parse_result.done
            ({ s with video_info := some (fun i =>
                 if i ≤ s.video_sample_count then
                   info_at (decide_video_seek_method q alloc.order_converter alloc.timestamp
                     { format_name := s.format_name, format_flags := s.format_flags }
                     (parsed_video_handler s info) s.video_sample_count).2.frame_list i
                 else info i) },
             some (decide_video_seek_method q alloc.order_converter alloc.timestamp
               { format_name := s.format_name, format_flags := s.format_flags }
               (parsed_video_handler s info) s.video_sample_count).2)
  else parse_result.done (s, none)

/-- The copy of the video records `0..n` into the audio records for DV in AVI
Type-1. -/
def copy_dv_records (video_info : Nat → video_frame_info_t)
    (audio_info : Nat → audio_frame_info_t) (n : Nat) : Nat → audio_frame_info_t :=
  fun i =>
    if i ≤ n then
      { audio_info i with
        keyframe := (video_info i).keyframe, sample_number := (video_info i).sample_number,
        pts := (video_info i).pts, dts := (video_info i).dts,
        file_offset := (video_info i).file_offset,
        extradata_index := (video_info i).extradata_index }
    else audio_info i

/-- The first part of the block `if( adhp->stream_index >= 0 )` at the end of
`parse_index`, up to `adhp->dv_in_avi = 0;`: the audio records of DV in AVI
Type-1 are copied from the video records, or the DV video stream is disabled.
The boolean tells whether `disable_video_stream` has run. -/
def parse_index_dv_audio (opt : lwlibav_option_t) (s : index_parse_t) :
    parse_result (index_parse_t × Bool) :=
  if s.dv_in_avi = 1 ∧ s.audio_index_entries_count = 0 then
    match s.video_info, s.audio_info with
    | some video_info, some audio_info =>
      parse_result.done
        ({ s with
           audio_sample_count := min s.video_sample_count s.audio_sample_count,
           audio_info := some (copy_dv_records video_info audio_info
             (min s.video_sample_count s.audio_sample_count)) }, false)
    | _, _ => parse_result.null_dereference
  else if s.dv_in_avi = 1
      ∧ ((opt.force_video = false ∧ s.active_video_index = -1)
         ∨ (opt.force_video = true ∧ opt.force_video_index = -1)) then
    parse_result.done
      ({ s with video_stream_index := -1, video_index_entries_count := 0, video_info := none,
                dv_in_avi := 0 }, true)
  else parse_result.done ({ s with dv_in_avi := 0 }, false)

/-- The handler `parse_index` passes to `decide_audio_seek_method`, as the
decider leaves it: the records `0..audio_sample_count` of `info`. -/
def parsed_audio_handler (s : index_parse_t) (info : Nat → audio_frame_info_t) :
    lwlibav_audio_decode_handler_t :=
  decide_audio_seek_method
    { format_name := s.format_name, format_flags := s.format_flags }
    { frame_list := (List.range (s.audio_sample_count + 1)).map info,
      frame_count := s.audio_sample_count,
      lw_seek_flags :=
        { SEEK_DTS_BASED := false, SEEK_PTS_BASED := false, SEEK_POS_BASED := false,
          SEEK_POS_CORRECTION := false, SEEK_PTS_GENERATED := false } }
    s.audio_sample_count

/-- The numbers `parse_index` prints into the two marker lines when a stream
index differs from the recorded one. -/
def rewritten_markers (s : index_parse_t) : Option (Int × Int) :=
  if s.video_stream_index ≠ s.active_video_index
      ∨ s.audio_stream_index ≠ s.active_audio_index
  then some (s.video_stream_index, s.audio_stream_index) else none

/-- The end of `parse_index` behind the line `</LibavReaderIndexFile>`: the two
handlers are set up, the deciders run, the gap is calculated, the marker lines
are rewritten when a stream index differs from the recorded one, and the
function returns 0.  `rescale` is `av_rescale_q`. -/
def parse_index_finish (q : qsort_t) (rescale : Int → AVRational → AVRational → Int)
    (alloc : parse_alloc_t) (opt : lwlibav_option_t) (s : index_parse_t) :
    parse_result parsed_index_t :=
  (parse_index_video q alloc s).and_then fun v =>
    if v.1.audio_stream_index ≥ 0 then
      (parse_index_dv_audio opt v.1).and_then fun x =>
        match x.1.audio_info with
        | none => parse_result.null_dereference
        | some audio_info =>
          parse_result.done
            { state := x.1,
              vdhp := if x.2 then none else v.2,
              adhp := some (parsed_audio_handler x.1 audio_info),
              frame_length := if x.1.constant_frame_length then (audio_info 1).length else 0,
              av_gap :=
                match (if x.2 then none else v.2) with
                | some vdhp =>
                  if opt.av_sync ∧ x.1.video_stream_index ≥ 0 then
                    some (calculate_av_gap rescale vdhp (parsed_audio_handler x.1 audio_info)
                      x.1.video_time_base x.1.audio_time_base x.1.audio_sample_rate)
                  else none
                | none => none,
              markers := rewritten_markers x.1 }
    else
      parse_result.done
        { state := v.1, vdhp := v.2, adhp := none, frame_length := 0, av_gap := none,
          markers := rewritten_markers v.1 }

/-- The test of `parse_index` behind the record loop that sends a forced video
stream whose recorded state is incomplete to `fail_parsing`. -/
def forced_video_incomplete (opt : lwlibav_option_t) (s : index_parse_t) : Bool :=
  decide (s.active_video_index ≥ 0) && opt.force_video && decide (opt.force_video_index ≠ -1)
    && (decide (s.video_sample_count = 0) || decide (s.initial_pix_fmt = AV_PIX_FMT_NONE)
        || decide (s.initial_width = 0) || decide (s.initial_height = 0))

/-- The test of `parse_index` behind the record loop that sends a forced audio
stream whose recorded state is incomplete to `fail_parsing`. -/
def forced_audio_incomplete (opt : lwlibav_option_t) (s : index_parse_t) : Bool :=
  decide (s.active_audio_index ≥ 0) && opt.force_audio && decide (opt.force_audio_index ≠ -1)
    && (decide (s.audio_sample_count = 0) || decide (s.audio_duration = 0))

/-- The part of `parse_index` behind the record loop: `s` are the variables,
`buf` the line last read and `rest` the lines not yet read. -/
def parse_index_tail (q : qsort_t) (rescale : Int → AVRational → AVRational → Int)
    (alloc : parse_alloc_t) (opt : lwlibav_option_t) (s : index_parse_t) (buf : index_line)
    (rest : List index_line) : parse_result parsed_index_t :=
  if forced_video_incomplete opt s then parse_result.fail_parsing
  else if forced_audio_incomplete opt s then parse_result.fail_parsing
  else
    match buf, rest with
    | index_line.end_libav_reader_index, line :: rest1 =>
      (parse_stream_index_entries alloc rest1.length s line rest1).and_then fun x =>
        (parse_extradata_lists alloc x.1 x.2.2.length x.2.1 x.2.2).and_then fun y =>
          match y.1 with
          | index_line.end_libav_reader_index_file => parse_index_finish q rescale alloc opt x.1
          | _ => parse_result.fail_parsing
    | _, _ => parse_result.fail_parsing

/-- The function `parse_index` on the lines of the index file behind the
version line: `parse_result.done` stands for `return 0`,
`parse_result.fail_parsing` for `return -1`.  `h` holds the handlers as the
caller passes them and `buf` the contents of the uninitialised array `buf`. -/
def parse_index (q : qsort_t) (rescale : Int → AVRational → AVRational → Int)
    (alloc : parse_alloc_t) (target_opens : Bool) (opt : lwlibav_option_t)
    (h : index_parse_t) (buf : index_line) (file : List index_line) :
    parse_result parsed_index_t :=
  (parse_index_records alloc target_opens opt h buf file).and_then fun x =>
    parse_index_tail q rescale alloc opt x.1 x.2.1 x.2.2

/-- Scenario: every allocation of `parse_index` succeeds. -/
def scenario_alloc : parse_alloc_t :=
  { file_path := true, video_info := true, audio_info := true, dv_video_info := true,
    video_realloc := fun _ => true, audio_realloc := fun _ => true, index_entries := true,
    extradata_entries := true, extradata := true, keyframe_list := true,
    order_converter := true, timestamp := true }

/-- Scenario: the video stream `n` is forced. -/
def scenario_force_video (n : Int) : lwlibav_option_t :=
  { force_video := true, force_video_index := n, force_audio := false,
    force_audio_index := -1, av_sync := false }

/-- Scenario: the index file of an MP4 file in which `create_index` has found no
video and no audio packet: the header with both marker lines at -1 and the
closing lines. -/
def scenario_index_file_without_streams : List index_line :=
  [ index_line.input_file_path "a.mp4", index_line.libav_reader_index 0 "mp4",
    index_line.active_video_stream_index (-1), index_line.active_audio_stream_index (-1),
    index_line.end_libav_reader_index, index_line.end_libav_reader_index_file ]

/-- Scenario: the index file that `create_index` writes for an MP4 file with
the two video streams 0 and 1 and no audio stream, when the video part of the
packet loop ends in the state `s`: the header, the packet lines, and for each
stream a block without index entries and a list with its one extradata entry
(no extradata bytes). -/
def scenario_index_file (s : video_scan_t) : List index_line :=
  [ index_line.input_file_path "a.mp4", index_line.libav_reader_index 0 "mp4",
    index_line.active_video_stream_index s.active_video_stream_index,
    index_line.active_audio_stream_index (-1) ]
  ++ s.lines ++
  [ index_line.end_libav_reader_index,
    index_line.stream_index_entries 0 AVMEDIA_TYPE_VIDEO 0,
    index_line.end_stream_index_entries,
    index_line.stream_index_entries 1 AVMEDIA_TYPE_VIDEO 0,
    index_line.end_stream_index_entries,
    index_line.extradata_list 0 AVMEDIA_TYPE_VIDEO 1,
    index_line.video_extradata 0 (AVCodecID.other 28) 0 640 480 0 0 (some []),
    index_line.end_extradata_list,
    index_line.extradata_list 1 AVMEDIA_TYPE_VIDEO 1,
    index_line.video_extradata 0 (AVCodecID.other 28) 0 320 240 0 0 (some []),
    index_line.end_extradata_list,
    index_line.end_libav_reader_index_file ]

/-- Scenario: three video packets of an MP4 file: stream 0 with 640x480 pixels,
then stream 1 with 320x240 pixels, then stream 1 with 1920x1080 pixels. -/
def scenario_reelected_packets : List video_packet_t :=
  [ scenario_video_packet 0 0 640 480, scenario_video_packet 1 40 320 240,
    scenario_video_packet 1 80 1920 1080 ]

/-- Scenario: the state in which the video part of the packet loop of
`create_index` ends on those three packets. -/
def scenario_reelected_scan : video_scan_t :=
  (create_index_video scenario_option (video_scan_init "mp4")
    scenario_reelected_packets).getD (video_scan_init "mp4")

/-- Scenario: the state in which the video part of the packet loop of
`create_index` ends on one packet of stream 0 followed by one packet of
stream 1, both with 640x480 pixels. -/
def scenario_two_streams_scan : video_scan_t :=
  (create_index_video scenario_option (video_scan_init "mp4")
    [scenario_video_packet 0 0 640 480, scenario_video_packet 1 40 640 480]).getD
    (video_scan_init "mp4")

/-- Scenario: the variables of `parse_index` behind the record loop, with the
line last read and the lines not yet read, when it reads the index file of
that scan with the video stream `n` forced. -/
def scenario_forced_records (n : Int) : index_parse_t × index_line × List index_line :=
  match parse_index_records scenario_alloc true (scenario_force_video n) index_parse_zero
          (index_line.other "") (scenario_index_file scenario_two_streams_scan) with
  | parse_result.done x => x
  | _ => (index_parse_zero, index_line.other "", [])

/-- The two lines `create_index` prints for the video packet `pkt`, with the
picture type and the flags `get_picture_type` leaves. -/
def printed_video_lines (pkt : video_packet_t) : List index_line :=
  video_packet_lines pkt (get_picture_type pkt.picture pkt.flags).1
    (get_picture_type pkt.picture pkt.flags).2

/-- How the variables `s` of the video part of `create_index` after some
packets stand to the variables `p` of `parse_index` after the lines of the
same packets, when `parse_index` collects the records of the stream `e`:
either `create_index` has `e` elected and both hold the same records (the
records from 1 on, the same count and the same `last_keyframe_pts`), or neither
has met a packet of `e` since `create_index` has another stream elected and
`parse_index` has no record yet, or `parse_index` holds more records than
`create_index` does for `e`. -/
def records_in_step (e : Int) (s : video_scan_t) (p : index_parse_t) : Prop :=
  p.video_stream_index = e ∧ p.dv_in_avi ≠ -1
  ∧ ∃ info, p.video_info = some info
    ∧ (∀ i, p.video_sample_count < i → info i = video_frame_info_zero)
    ∧ ((s.stream_index = e ∧ 1 ≤ s.video_sample_count
          ∧ p.video_sample_count = s.video_sample_count
          ∧ (∀ i, 1 ≤ i → info i = s.video_info i)
          ∧ p.last_keyframe_pts = s.last_keyframe_pts)
       ∨ (s.stream_index ≠ e ∧ p.video_sample_count = 0
          ∧ p.last_keyframe_pts = AV_NOPTS_VALUE)
       ∨ (0 < p.video_sample_count
          ∧ (s.stream_index = e → s.video_sample_count < p.video_sample_count)))

/-- The variables of the video part of `create_index` with `adhp->dv_in_avi`
set to 0.  The election without `force_video` does not depend on
`adhp->dv_in_avi` (in the DV-in-AVI case the first packet is elected as it is
otherwise), which the theorems on the election show by comparing a scan with
the scan that starts from this state. -/
def without_dv_in_avi (s : video_scan_t) : video_scan_t := { s with dv_in_avi := 0 }

/-! ## The choice of the output sample format -/

/-- The `enum AVSampleFormat` of libavutil: the packed and the planar formats
the indexer distinguishes; every other value is `other n`. -/
inductive AVSampleFormat where
  | AV_SAMPLE_FMT_NONE
  | AV_SAMPLE_FMT_U8
  | AV_SAMPLE_FMT_S16
  | AV_SAMPLE_FMT_S32
  | AV_SAMPLE_FMT_FLT
  | AV_SAMPLE_FMT_DBL
  | AV_SAMPLE_FMT_U8P
  | AV_SAMPLE_FMT_S16P
  | AV_SAMPLE_FMT_S32P
  | AV_SAMPLE_FMT_FLTP
  | AV_SAMPLE_FMT_DBLP
  | other (n : Nat)
deriving DecidableEq

/-- The function `select_better_sample_format`. -/
def select_better_sample_format (a b : AVSampleFormat) : AVSampleFormat :=
  match a with
  | AVSampleFormat.AV_SAMPLE_FMT_NONE =>
    if b ≠ AVSampleFormat.AV_SAMPLE_FMT_NONE then b else a
  | AVSampleFormat.AV_SAMPLE_FMT_U8 | AVSampleFormat.AV_SAMPLE_FMT_U8P =>
    if b ≠ AVSampleFormat.AV_SAMPLE_FMT_U8 ∧ b ≠ AVSampleFormat.AV_SAMPLE_FMT_U8P then b else a
  | AVSampleFormat.AV_SAMPLE_FMT_S16 | AVSampleFormat.AV_SAMPLE_FMT_S16P =>
    if b ≠ AVSampleFormat.AV_SAMPLE_FMT_U8 ∧ b ≠ AVSampleFormat.AV_SAMPLE_FMT_U8P
        ∧ b ≠ AVSampleFormat.AV_SAMPLE_FMT_S16 ∧ b ≠ AVSampleFormat.AV_SAMPLE_FMT_S16P
    then b else a
  | AVSampleFormat.AV_SAMPLE_FMT_S32 | AVSampleFormat.AV_SAMPLE_FMT_S32P =>
    if b ≠ AVSampleFormat.AV_SAMPLE_FMT_U8 ∧ b ≠ AVSampleFormat.AV_SAMPLE_FMT_U8P
        ∧ b ≠ AVSampleFormat.AV_SAMPLE_FMT_S16 ∧ b ≠ AVSampleFormat.AV_SAMPLE_FMT_S16P
        ∧ b ≠ AVSampleFormat.AV_SAMPLE_FMT_S32 ∧ b ≠ AVSampleFormat.AV_SAMPLE_FMT_S32P
    then b else a
  | AVSampleFormat.AV_SAMPLE_FMT_FLT | AVSampleFormat.AV_SAMPLE_FMT_FLTP =>
    if b = AVSampleFormat.AV_SAMPLE_FMT_DBL ∨ b = AVSampleFormat.AV_SAMPLE_FMT_DBLP then b else a
  | _ => a

/-- The rank of a sample format: NONE < U8 < S16 < S32 < FLT < DBL, a planar
format ranked as its packed form; `none` for a format outside this list. -/
def sample_format_rank : AVSampleFormat → Option Nat
  | AVSampleFormat.AV_SAMPLE_FMT_NONE => some 0
  | AVSampleFormat.AV_SAMPLE_FMT_U8 | AVSampleFormat.AV_SAMPLE_FMT_U8P => some 1
  | AVSampleFormat.AV_SAMPLE_FMT_S16 | AVSampleFormat.AV_SAMPLE_FMT_S16P => some 2
  | AVSampleFormat.AV_SAMPLE_FMT_S32 | AVSampleFormat.AV_SAMPLE_FMT_S32P => some 3
  | AVSampleFormat.AV_SAMPLE_FMT_FLT | AVSampleFormat.AV_SAMPLE_FMT_FLTP => some 4
  | AVSampleFormat.AV_SAMPLE_FMT_DBL | AVSampleFormat.AV_SAMPLE_FMT_DBLP => some 5
  | AVSampleFormat.other _ => none

/-! ## Reading the packets of one stream -/

/-- Modelled from the spec: the demuxer behind `read_av_frame` (declared in
`lwlibav_dec.h`) as the list of the packets it has not yet delivered.  A call
delivers the first of them into `pkt` and returns 0; at the end of the list it
returns a negative number and leaves `pkt` as it is. -/
def read_av_frame (remaining : List AVPacket) (pkt : AVPacket) :
    Int × AVPacket × List AVPacket :=
  match remaining with
  | [] => (-1, pkt, [])
  | p :: rest => (0, p, rest)

/-- The `av_init_packet` of libavcodec: the optional fields get their default
values, `data` and `size` are not touched. -/
def av_init_packet (pkt : AVPacket) : AVPacket :=
  { pkt with pts := AV_NOPTS_VALUE, dts := AV_NOPTS_VALUE, pos := -1, flags := 0,
             stream_index := 0, side_data := [] }

/-- The `av_free_packet` of libavcodec: the payload and the side data are
released, `data` is NULL and `size` is 0 afterwards. -/
def av_free_packet (pkt : AVPacket) : AVPacket :=
  { pkt with data := none, size := 0, side_data := [] }

/-- The loop `while( read_av_frame( format_ctx, pkt ) >= 0 )` of
`lwlibav_get_av_frame` and the statements behind it, on the packets not yet
delivered.  The result is the return value, `*pkt`, the packets left in the
demuxer and `freed`; `freed` is not in the source: it lists, in order, the
packets handed to `av_free_packet`. -/
def get_av_frame_loop (stream_index : Int) :
    List AVPacket → AVPacket → List AVPacket → Int × AVPacket × List AVPacket × List AVPacket
  | [], pkt, freed =>
    (1, { (read_av_frame [] pkt).2.1 with data := none, size := 0 }, [], freed)
  | p :: rest, pkt, freed =>
    if (read_av_frame (p :: rest) pkt).2.1.stream_index ≠ stream_index then
      get_av_frame_loop stream_index rest (av_free_packet (read_av_frame (p :: rest) pkt).2.1)
        (freed ++ [(read_av_frame (p :: rest) pkt).2.1])
    else (0, (read_av_frame (p :: rest) pkt).2.1, rest, freed)

/-- The function `lwlibav_get_av_frame`; `remaining` are the packets the
demuxer has not yet delivered. -/
def lwlibav_get_av_frame (remaining : List AVPacket) (stream_index : Int) (pkt : AVPacket) :
    Int × AVPacket × List AVPacket × List AVPacket :=
  get_av_frame_loop stream_index remaining (av_init_packet pkt) []

/-- Scenario: a packet of the stream `stream_index` with one payload byte. -/
def scenario_stream_packet (stream_index : Int) (byte : Nat) : AVPacket :=
  { pts := 0, dts := 0, pos := 0, stream_index := stream_index, flags := 0,
    data := some [byte], size := 1, side_data := [] }

/-- Scenario: the example of the comment in `mpeg12_video_vc1_genarate_pts`:
MPEG-2 video, decode order I P P B B P, dts 0..5, no PTS. -/
def scenario_ippbbp : lwlibav_video_decode_handler_t :=
  scenario_handler
    [ scenario_record AV_NOPTS_VALUE 0 1000 1 1 1,
      scenario_record AV_NOPTS_VALUE 1 2000 2 2 0,
      scenario_record AV_NOPTS_VALUE 2 3000 3 2 0,
      scenario_record AV_NOPTS_VALUE 3 4000 4 3 0,
      scenario_record AV_NOPTS_VALUE 4 5000 5 3 0,
      scenario_record AV_NOPTS_VALUE 5 6000 6 2 0 ]
    AVCodecID.AV_CODEC_ID_MPEG2VIDEO

/-- Scenario: two video packets of stream 0 of an MP4 file, the first with
1920x1080 and the second with 1280x720 pixels. -/
def scenario_shrinking_packets : List video_packet_t :=
  [ scenario_video_packet 0 0 1920 1080, scenario_video_packet 0 40 1280 720 ]

/-- Scenario: the state in which the video part of the packet loop of
`create_index` ends on those two packets. -/
def scenario_shrinking_scan : video_scan_t :=
  (create_index_video scenario_option (video_scan_init "mp4")
    scenario_shrinking_packets).getD (video_scan_init "mp4")

/-- Scenario: the index file that `create_index` writes for an MP4 file with
the one video stream 0 and no audio stream, when the video part of the packet
loop ends in the state `s`: the header, the packet lines, a block without index
entries and a list with the one extradata entry of the stream (no extradata
bytes). -/
def scenario_index_file_one_stream (s : video_scan_t) : List index_line :=
  [ index_line.input_file_path "a.mp4", index_line.libav_reader_index 0 "mp4",
    index_line.active_video_stream_index s.active_video_stream_index,
    index_line.active_audio_stream_index (-1) ]
  ++ s.lines ++
  [ index_line.end_libav_reader_index,
    index_line.stream_index_entries 0 AVMEDIA_TYPE_VIDEO 0,
    index_line.end_stream_index_entries,
    index_line.extradata_list 0 AVMEDIA_TYPE_VIDEO 1,
    index_line.video_extradata 0 (AVCodecID.other 28) 0 1920 1080 0 0 (some []),
    index_line.end_extradata_list,
    index_line.end_libav_reader_index_file ]

/-- Scenario: an MPEG transport stream in decode order I P B whose P-picture
is flagged as a keyframe but has no byte offset; the PTS are 10, 30, 20, so the
frame list is sorted into the order I B P. -/
def scenario_lost_offset : lwlibav_video_decode_handler_t :=
  scenario_handler
    [ scenario_record 10 0 100 1 1 1,
      scenario_record 30 10 (-1) 2 2 1,
      scenario_record 20 20 300 3 3 0 ]
    (AVCodecID.other 28)

/-- Scenario: MPEG-2 video, decode order I P B B P B B, dts 0..6; only the
second P-picture, the last anchor, comes with a PTS, `p`. -/
def scenario_last_anchor_pts (p : Int) : lwlibav_video_decode_handler_t :=
  scenario_handler
    [ scenario_record AV_NOPTS_VALUE 0 1000 1 1 1,
      scenario_record AV_NOPTS_VALUE 1 2000 2 2 0,
      scenario_record AV_NOPTS_VALUE 2 3000 3 3 0,
      scenario_record AV_NOPTS_VALUE 3 4000 4 3 0,
      scenario_record p 4 5000 5 2 0,
      scenario_record AV_NOPTS_VALUE 5 6000 6 3 0,
      scenario_record AV_NOPTS_VALUE 6 7000 7 3 0 ]
    AVCodecID.AV_CODEC_ID_MPEG2VIDEO

/-- Second invariant of the first loop of `mpeg12_video_vc1_genarate_pts` after
`n` iterations: every anchor (a picture that is no B-picture) before the last
one seen has the DTS of the next anchor as its PTS; the PTS of the last anchor
seen and of the records not yet visited are untouched; the keyframe and
leading marks are untouched; and `reordered_stream` tells whether a B-picture
was seen. -/
def anchor_inv (info0 : List video_frame_info_t) (n : Nat) (s : genarate_pts_state) : Prop :=
  (∀ j, 1 ≤ j → j ≤ n → j < info0.length →
      (info_at info0 j).pict_type ≠ AV_PICTURE_TYPE_B → j ≠ n - s.num_consecutive_b →
      ∃ i, j < i ∧ i ≤ n ∧ (info_at info0 i).pict_type ≠ AV_PICTURE_TYPE_B
        ∧ (∀ k, j < k → k < i → (info_at info0 k).pict_type = AV_PICTURE_TYPE_B)
        ∧ (info_at s.info j).pts = (info_at info0 i).dts) ∧
  (∀ j, (j = n - s.num_consecutive_b ∨ n < j) →
      (info_at s.info j).pts = (info_at info0 j).pts) ∧
  (∀ j, (info_at s.info j).keyframe = (info_at info0 j).keyframe
        ∧ (info_at s.info j).is_leading = (info_at info0 j).is_leading) ∧
  (s.reordered_stream = true ↔
      ∃ j, 1 ≤ j ∧ j ≤ n ∧ (info_at info0 j).pict_type = AV_PICTURE_TYPE_B)

/-- The condition under which the loop "Check leading B-pictures" marks the
record `i`: the nearest record before `i` with a non-zero keyframe field has a
set PTS, and the PTS of `i` is set and smaller. -/
def leads_keyframe (info : List video_frame_info_t) (i : Nat) : Prop :=
  ∃ k, 1 ≤ k ∧ k < i ∧ (info_at info k).keyframe ≠ 0
    ∧ (∀ m, k < m → m < i → (info_at info m).keyframe = 0)
    ∧ (info_at info k).pts ≠ AV_NOPTS_VALUE ∧ (info_at info i).pts ≠ AV_NOPTS_VALUE
    ∧ (info_at info i).pts < (info_at info k).pts

/-- Scenario: MPEG-2 video with an open GOP, decode order I B B P, dts 0..3,
no PTS; the I-picture is the only keyframe. -/
def scenario_open_gop : lwlibav_video_decode_handler_t :=
  scenario_handler
    [ scenario_record AV_NOPTS_VALUE 0 1000 1 1 1,
      scenario_record AV_NOPTS_VALUE 1 2000 2 3 0,
      scenario_record AV_NOPTS_VALUE 2 3000 3 3 0,
      scenario_record AV_NOPTS_VALUE 3 4000 4 2 0 ]
    AVCodecID.AV_CODEC_ID_MPEG2VIDEO

/-! # Theorems -/

/-! ## Loops and array writes -/

/-- Invariant rule for a `for` loop written as a fold over `List.range'`. -/
theorem foldl_range'_inv {σ : Type} (f : σ → Nat → σ) (P : Nat → σ → Prop) (s0 : σ)
    (a n : Nat) (h0 : P 0 s0)
    (hstep : ∀ k s, k < n → P k s → P (k + 1) (f s (a + k))) :
    P n ((List.range' a n).foldl f s0) := by
  induction n with
  | zero => simpa using h0
  | succ n ih =>
    rw [List.range'_concat, List.foldl_append]
    simp only [List.foldl_cons, List.foldl_nil, Nat.one_mul]
    exact hstep n _ (Nat.lt_succ_self n)
      (ih (fun k s hk hp => hstep k s (Nat.lt_succ_of_lt hk) hp))

theorem info_at_set (l : List video_frame_info_t) (i j : Nat) (x : video_frame_info_t) :
    info_at (l.set i x) j = if i = j ∧ i < l.length then x else info_at l j := by
  unfold info_at
  simp only [List.getD_eq_getElem?_getD, List.getElem?_set]
  by_cases h : i = j
  · subst h
    by_cases h2 : i < l.length
    · simp [h2]
    · simp [h2, List.getElem?_eq_none (Nat.le_of_not_lt h2)]
  · simp [h]

theorem info_at_set_pts (l : List video_frame_info_t) (i j : Nat) (v : Int) :
    info_at (set_pts l i v) j
      = if i = j ∧ i < l.length then { info_at l i with pts := v } else info_at l j := by
  unfold set_pts; exact info_at_set l i j _

theorem length_set_pts (l : List video_frame_info_t) (i : Nat) (v : Int) :
    (set_pts l i v).length = l.length := by
  unfold set_pts; simp

theorem info_at_set_pts_ne (l : List video_frame_info_t) (i j : Nat) (v : Int) (h : i ≠ j) :
    info_at (set_pts l i v) j = info_at l j := by
  rw [info_at_set_pts]; simp [h]

theorem set_pts_fields (l : List video_frame_info_t) (i j : Nat) (v : Int) :
    (info_at (set_pts l i v) j).dts = (info_at l j).dts
    ∧ (info_at (set_pts l i v) j).pict_type = (info_at l j).pict_type := by
  rw [info_at_set_pts]
  split
  · rename_i h; rw [h.1]; exact ⟨rfl, rfl⟩
  · exact ⟨rfl, rfl⟩

theorem gen_inv_step (info0 : List video_frame_info_t) (n : Nat) (s : genarate_pts_state)
    (h : gen_inv info0 n s) : gen_inv info0 (n + 1) (genarate_pts_step s (1 + n)) := by
  obtain ⟨hlen, hfix, hle, hrun, hanchor, hB⟩ := h
  have e1 : 1 + n = n + 1 := Nat.add_comm 1 n
  rw [e1]
  unfold genarate_pts_step
  by_cases hb : (info_at s.info (n + 1)).pict_type = AV_PICTURE_TYPE_B
  · rw [if_pos hb]
    have hb0 : (info_at info0 (n + 1)).pict_type = AV_PICTURE_TYPE_B := by
      rw [← (hfix (n + 1)).1]; exact hb
    refine ⟨?_, ?_, ?_, ?_, ?_, ?_⟩
    · simp only [length_set_pts]; exact hlen
    · intro j
      have := set_pts_fields s.info (n + 1) j (info_at s.info (n + 1)).dts
      exact ⟨this.2.trans (hfix j).1, this.1.trans (hfix j).2⟩
    · exact Nat.succ_le_succ hle
    · intro j hj1 hj2
      simp only at hj1
      by_cases hj : j = n + 1
      · rw [hj]; exact hb0
      · exact hrun j (by omega) (by omega)
    · intro h1
      simp only at h1 ⊢
      have e : n + 1 - (s.num_consecutive_b + 1) = n - s.num_consecutive_b := by omega
      rw [e] at h1 ⊢
      exact hanchor h1
    · intro j hj1 hj2 hj3 hjB
      simp only
      rw [info_at_set_pts]
      by_cases hj : n + 1 = j
      · subst hj
        rw [if_pos ⟨rfl, by rw [hlen]; exact hj3⟩]
        exact (hfix (n + 1)).2
      · rw [if_neg (fun hh => hj hh.1)]
        exact hB j hj1 (by omega) hj3 hjB
  · rw [if_neg hb]
    have hb0 : (info_at info0 (n + 1)).pict_type ≠ AV_PICTURE_TYPE_B := by
      rw [← (hfix (n + 1)).1]; exact hb
    refine ⟨?_, ?_, ?_, ?_, ?_, ?_⟩
    · simp only; split
      · simp only [length_set_pts]; exact hlen
      · exact hlen
    · intro j
      simp only; split
      · have := set_pts_fields s.info (n + 1 - s.num_consecutive_b - 1) j (info_at s.info (n + 1)).dts
        exact ⟨this.2.trans (hfix j).1, this.1.trans (hfix j).2⟩
      · exact hfix j
    · exact Nat.zero_le _
    · intro j hj1 hj2
      simp only at hj1
      omega
    · intro _
      simpa using hb0
    · intro j hj1 hj2 hj3 hjB
      have hjn : j ≠ n + 1 := by
        intro hh; rw [hh] at hjB; exact hb0 hjB
      simp only; split
      · rename_i hgt
        have htarget : n + 1 - s.num_consecutive_b - 1 = n - s.num_consecutive_b := by omega
        rw [htarget]
        have hne : n - s.num_consecutive_b ≠ j := by
          intro hh
          have h1 : 1 ≤ n - s.num_consecutive_b := by omega
          have := hanchor h1
          rw [hh] at this
          exact this hjB
        rw [info_at_set_pts_ne _ _ _ _ hne]
        exact hB j hj1 (by omega) hj3 hjB
      · exact hB j hj1 (by omega) hj3 hjB

theorem gen_inv_loop (info0 : List video_frame_info_t) (n : Nat) :
    gen_inv info0 n ((List.range' 1 n).foldl genarate_pts_step
      { info := info0, reordered_stream := false, num_consecutive_b := 0 }) := by
  apply foldl_range'_inv genarate_pts_step (gen_inv info0)
  · refine ⟨rfl, fun j => ⟨rfl, rfl⟩, Nat.le_refl 0, ?_, ?_, ?_⟩
    · intro j h1 h2; omega
    · intro h; simp at h
    · intro j h1 h2; omega
  · intro k s _ hp
    exact gen_inv_step info0 k s hp

theorem info_at_set_is_leading (l : List video_frame_info_t) (i j : Nat) (v : Nat) :
    info_at (set_is_leading l i v) j
      = if i = j ∧ i < l.length then { info_at l i with is_leading := v } else info_at l j := by
  unfold set_is_leading; exact info_at_set l i j _

theorem check_duplicated_pts_other (flush : Nat) :
    ∀ (n : Nat) (l : List video_frame_info_t) (j : Nat), j ≠ flush →
      info_at (check_duplicated_pts flush n l) j = info_at l j := by
  intro n
  induction n with
  | zero => intro l j _; rfl
  | succ n ih =>
    intro l j hj
    unfold check_duplicated_pts
    split
    · rw [ih _ j hj]
      split
      · exact info_at_set_pts_ne _ _ _ _ (fun h => hj h.symm)
      · rfl
    · rfl

theorem estimate_last_pts_other (info : List video_frame_info_t) (n flush j : Nat)
    (hj : j ≠ flush) : info_at (estimate_last_pts info n flush) j = info_at info j := by
  have h1 : info_at (if (info_at info flush).pts ≠ AV_NOPTS_VALUE
      then check_duplicated_pts flush n info else info) j = info_at info j := by
    split
    · exact check_duplicated_pts_other flush n info j hj
    · rfl
  unfold estimate_last_pts
  simp only
  generalize (if (info_at info flush).pts ≠ AV_NOPTS_VALUE
      then check_duplicated_pts flush n info else info) = info1 at h1 ⊢
  split
  · rw [info_at_set_pts_ne _ _ _ _ (fun h => hj h.symm)]; exact h1
  · exact h1

theorem check_leading_fields (l : List video_frame_info_t) (n : Nat) (j : Nat) :
    (info_at (check_leading l n) j).pts = (info_at l j).pts
    ∧ (info_at (check_leading l n) j).dts = (info_at l j).dts
    ∧ (info_at (check_leading l n) j).pict_type = (info_at l j).pict_type := by
  unfold check_leading
  apply foldl_range'_inv check_leading_step
    (fun _ s => (info_at s.1 j).pts = (info_at l j).pts
      ∧ (info_at s.1 j).dts = (info_at l j).dts
      ∧ (info_at s.1 j).pict_type = (info_at l j).pict_type)
  · exact ⟨rfl, rfl, rfl⟩
  · intro k s _ hp
    unfold check_leading_step
    simp only
    split
    · rw [info_at_set_is_leading]
      split
      · rename_i h; rw [h.1]; exact hp
      · exact hp
    · exact hp

theorem copy_dts_to_pts_fields (l : List video_frame_info_t) (n : Nat) :
    ∀ j, (info_at (copy_dts_to_pts l n) j).dts = (info_at l j).dts
      ∧ (info_at (copy_dts_to_pts l n) j).pict_type = (info_at l j).pict_type
      ∧ (1 ≤ j → j ≤ n → j < l.length →
          (info_at (copy_dts_to_pts l n) j).pts = (info_at l j).dts) := by
  have key := foldl_range'_inv (fun l i => set_pts l i (info_at l i).dts)
    (fun k (s : List video_frame_info_t) => s.length = l.length ∧ ∀ j,
      (info_at s j).dts = (info_at l j).dts
      ∧ (info_at s j).pict_type = (info_at l j).pict_type
      ∧ (1 ≤ j → j ≤ k → j < l.length → (info_at s j).pts = (info_at l j).dts)) l 1 n
    ⟨rfl, fun j => ⟨rfl, rfl, fun h1 h2 => by omega⟩⟩
    (by
      intro k s _ hp
      obtain ⟨hlen, hp⟩ := hp
      refine ⟨by simp only [length_set_pts]; exact hlen, ?_⟩
      intro j
      have hf := set_pts_fields s (1 + k) j (info_at s (1 + k)).dts
      refine ⟨hf.1.trans (hp j).1, hf.2.trans (hp j).2.1, ?_⟩
      intro h1 h2 h3
      simp only
      rw [info_at_set_pts]
      by_cases hj : 1 + k = j
      · subst hj
        rw [if_pos ⟨rfl, by rw [hlen]; exact h3⟩]
        exact (hp (1 + k)).1
      · rw [if_neg (fun hh => hj hh.1)]
        exact (hp j).2.2 h1 (by omega) h3)
  exact key.2

theorem genarate_pts_list_b (info0 : List video_frame_info_t) (frame_count b : Nat)
    (hb1 : 1 ≤ b) (hb2 : b ≤ frame_count) (hlen : b < info0.length)
    (hB : (info_at info0 b).pict_type = AV_PICTURE_TYPE_B) :
    (info_at (genarate_pts_list info0 frame_count) b).pict_type = AV_PICTURE_TYPE_B
    ∧ (info_at (genarate_pts_list info0 frame_count) b).dts = (info_at info0 b).dts
    ∧ (info_at (genarate_pts_list info0 frame_count) b).pts = (info_at info0 b).dts := by
  obtain ⟨hl, hfix, hle, hrun, hanchor, hBs⟩ := gen_inv_loop info0 frame_count
  unfold genarate_pts_list
  simp only
  generalize (List.range' 1 frame_count).foldl genarate_pts_step
      { info := info0, reordered_stream := false, num_consecutive_b := 0 } = s at *
  split
  · rename_i hc
    have hne : b ≠ frame_count - s.num_consecutive_b := by
      intro hh
      have h1 : 1 ≤ frame_count - s.num_consecutive_b := by omega
      have := hanchor h1
      rw [← hh] at this
      exact this hB
    obtain ⟨h1, h2, h3⟩ := check_leading_fields
      (estimate_last_pts s.info frame_count (frame_count - s.num_consecutive_b)) frame_count b
    rw [h1, h2, h3, estimate_last_pts_other _ _ _ _ hne]
    exact ⟨(hfix b).1.trans hB, (hfix b).2, hBs b hb1 hb2 hlen hB⟩
  · obtain ⟨h1, h2, h3⟩ := copy_dts_to_pts_fields s.info frame_count b
    refine ⟨h2.trans ((hfix b).1.trans hB), h1.trans (hfix b).2, ?_⟩
    rw [h3 hb1 hb2 (by rw [hl]; exact hlen)]
    exact (hfix b).2

/-- C6. After `mpeg12_video_vc1_genarate_pts`, every record that is a B-picture
is still a B-picture with its `dts` untouched and has `pts == dts`: neither an
anchor assignment nor the estimate for the last anchor writes to a B record. -/
theorem genarate_pts_b_picture_pts_eq_dts (vdhp : lwlibav_video_decode_handler_t) (b : Nat)
    (hb1 : 1 ≤ b) (hb2 : b ≤ vdhp.frame_count) (hlen : b < vdhp.frame_list.length)
    (hB : (info_at vdhp.frame_list b).pict_type = AV_PICTURE_TYPE_B) :
    (info_at (mpeg12_video_vc1_genarate_pts vdhp).frame_list b).pict_type = AV_PICTURE_TYPE_B
    ∧ (info_at (mpeg12_video_vc1_genarate_pts vdhp).frame_list b).dts
        = (info_at vdhp.frame_list b).dts
    ∧ (info_at (mpeg12_video_vc1_genarate_pts vdhp).frame_list b).pts
        = (info_at (mpeg12_video_vc1_genarate_pts vdhp).frame_list b).dts := by
  obtain ⟨h1, h2, h3⟩ :=
    genarate_pts_list_b vdhp.frame_list vdhp.frame_count b hb1 hb2 hlen hB
  exact ⟨h1, h2, h3.trans h2.symm⟩

/-! ## Fields that the passes preserve -/

theorem map_set_same {β : Type} (f : video_frame_info_t → β) (l : List video_frame_info_t)
    (i : Nat) (x : video_frame_info_t) (h : f x = f (info_at l i)) :
    (l.set i x).map f = l.map f := by
  apply List.ext_getElem?
  intro j
  simp only [List.getElem?_map, List.getElem?_set]
  by_cases hij : i = j
  · subst hij
    by_cases hi : i < l.length
    · have hx : f x = f l[i] := by
        rw [h]; unfold info_at
        simp [List.getD_eq_getElem?_getD, List.getElem?_eq_getElem hi]
      simp [hi, List.getElem?_eq_getElem hi, hx]
    · simp [hi, List.getElem?_eq_none (Nat.le_of_not_lt hi)]
  · simp [hij]

theorem map_view_static_set_pts (l : List video_frame_info_t) (i : Nat) (v : Int) :
    (set_pts l i v).map view_static = l.map view_static :=
  map_set_same view_static l i _ rfl

theorem map_view_static_set_keyframe (l : List video_frame_info_t) (i : Nat) (v : Nat) :
    (set_keyframe l i v).map view_static = l.map view_static :=
  map_set_same view_static l i _ rfl

theorem map_view_static_set_is_leading (l : List video_frame_info_t) (i : Nat) (v : Nat) :
    (set_is_leading l i v).map view_static = l.map view_static :=
  map_set_same view_static l i _ rfl

theorem map_view_ts_set_keyframe (l : List video_frame_info_t) (i : Nat) (v : Nat) :
    (set_keyframe l i v).map view_ts = l.map view_ts :=
  map_set_same view_ts l i _ rfl

theorem info_at_of_map_eq {β : Type} (f : video_frame_info_t → β)
    (l l' : List video_frame_info_t) (h : l'.map f = l.map f) (j : Nat) :
    f (info_at l' j) = f (info_at l j) := by
  have hlen : l'.length = l.length := by
    have := congrArg List.length h
    simpa using this
  have hj := congrArg (fun m => m[j]?) h
  simp only [List.getElem?_map] at hj
  unfold info_at
  simp only [List.getD_eq_getElem?_getD]
  by_cases hlt : j < l.length
  · have hlt' : j < l'.length := by rw [hlen]; exact hlt
    simp only [List.getElem?_eq_getElem hlt, List.getElem?_eq_getElem hlt',
      Option.map_some', Option.some.injEq] at hj
    simp [List.getElem?_eq_getElem hlt, List.getElem?_eq_getElem hlt', hj]
  · have h1 := List.getElem?_eq_none (Nat.le_of_not_lt hlt)
    have h2 : l'[j]? = none := List.getElem?_eq_none (by rw [hlen]; exact Nat.le_of_not_lt hlt)
    simp [h1, h2]

theorem length_of_map_eq {β : Type} (f : video_frame_info_t → β)
    (l l' : List video_frame_info_t) (h : l'.map f = l.map f) : l'.length = l.length := by
  have := congrArg List.length h
  simpa using this

theorem foldl_map_eq {β : Type} (f : video_frame_info_t → β)
    (g : List video_frame_info_t → Nat → List video_frame_info_t)
    (hg : ∀ l i, (g l i).map f = l.map f) (is : List Nat) (l : List video_frame_info_t) :
    (is.foldl g l).map f = l.map f := by
  induction is generalizing l with
  | nil => rfl
  | cons i is ih => simp only [List.foldl_cons]; rw [ih, hg]

theorem map_view_static_genarate_pts_step (s : genarate_pts_state) (i : Nat) :
    (genarate_pts_step s i).info.map view_static = s.info.map view_static := by
  unfold genarate_pts_step
  split
  · exact map_view_static_set_pts _ _ _
  · simp only
    split
    · exact map_view_static_set_pts _ _ _
    · rfl

theorem map_view_static_genarate_loop (is : List Nat) (s : genarate_pts_state) :
    (is.foldl genarate_pts_step s).info.map view_static = s.info.map view_static := by
  induction is generalizing s with
  | nil => rfl
  | cons i is ih => simp only [List.foldl_cons]; rw [ih, map_view_static_genarate_pts_step]

theorem map_view_static_check_duplicated_pts (flush : Nat) :
    ∀ (n : Nat) (l : List video_frame_info_t),
      (check_duplicated_pts flush n l).map view_static = l.map view_static := by
  intro n
  induction n with
  | zero => intro l; rfl
  | succ n ih =>
    intro l
    unfold check_duplicated_pts
    split
    · rw [ih]
      split
      · exact map_view_static_set_pts _ _ _
      · rfl
    · rfl

theorem map_view_static_estimate_last_pts (l : List video_frame_info_t) (n flush : Nat) :
    (estimate_last_pts l n flush).map view_static = l.map view_static := by
  have h1 : (if (info_at l flush).pts ≠ AV_NOPTS_VALUE
      then check_duplicated_pts flush n l else l).map view_static = l.map view_static := by
    split
    · exact map_view_static_check_duplicated_pts flush n l
    · rfl
  unfold estimate_last_pts
  simp only
  generalize (if (info_at l flush).pts ≠ AV_NOPTS_VALUE
      then check_duplicated_pts flush n l else l) = l1 at h1 ⊢
  split
  · rw [map_view_static_set_pts]; exact h1
  · exact h1

theorem map_view_static_check_leading (l : List video_frame_info_t) (n : Nat) :
    (check_leading l n).map view_static = l.map view_static := by
  unfold check_leading
  have : ∀ (is : List Nat) (s : List video_frame_info_t × Int),
      (is.foldl check_leading_step s).1.map view_static = s.1.map view_static := by
    intro is
    induction is with
    | nil => intro s; rfl
    | cons i is ih =>
      intro s
      simp only [List.foldl_cons]
      rw [ih]
      unfold check_leading_step
      simp only
      split
      · exact map_view_static_set_is_leading _ _ _
      · rfl
  exact this _ _

theorem map_view_static_copy_dts_to_pts (l : List video_frame_info_t) (n : Nat) :
    (copy_dts_to_pts l n).map view_static = l.map view_static := by
  unfold copy_dts_to_pts
  exact foldl_map_eq view_static _ (fun l i => map_view_static_set_pts l i _) _ l

theorem map_view_static_genarate_pts_list (l : List video_frame_info_t) (n : Nat) :
    (genarate_pts_list l n).map view_static = l.map view_static := by
  unfold genarate_pts_list
  simp only
  split
  · rw [map_view_static_check_leading, map_view_static_estimate_last_pts,
      map_view_static_genarate_loop]
  · rw [map_view_static_copy_dts_to_pts, map_view_static_genarate_loop]

theorem map_unique_keyframe_pass {β : Type} (f : video_frame_info_t → β)
    (hf : ∀ (l : List video_frame_info_t) (i v : Nat), (set_keyframe l i v).map f = l.map f)
    (axis : video_frame_info_t → Int) (unset : Int) (l : List video_frame_info_t) (n : Nat) :
    (unique_keyframe_pass axis unset l n).map f = l.map f := by
  unfold unique_keyframe_pass
  rw [foldl_map_eq f]
  · unfold unique_keyframe_first
    exact hf _ _ _
  · intro l i
    unfold unique_keyframe_step
    simp only
    split
    · exact hf _ _ _
    · split
      · rw [hf, hf]
      · rfl

theorem map_treat_unique_as_keyframe {β : Type} (f : video_frame_info_t → β)
    (hf : ∀ (l : List video_frame_info_t) (i v : Nat), (set_keyframe l i v).map f = l.map f)
    (flags : lw_seek_flags_t) (l : List video_frame_info_t) (n : Nat) :
    (treat_unique_as_keyframe flags l n).map f = l.map f := by
  unfold treat_unique_as_keyframe
  split
  · exact map_unique_keyframe_pass f hf _ _ l n
  · split
    · exact map_unique_keyframe_pass f hf _ _ l n
    · split
      · exact map_unique_keyframe_pass f hf _ _ l n
      · rfl

/-! ## The seek base -/

theorem lineup_flags (lwhp : lwlibav_file_handler_t) :
    (lineup_seek_base_candidates lwhp).SEEK_DTS_BASED = true
    ∧ (lineup_seek_base_candidates lwhp).SEEK_PTS_BASED = true
    ∧ (lineup_seek_base_candidates lwhp).SEEK_POS_CORRECTION = true
    ∧ (lineup_seek_base_candidates lwhp).SEEK_PTS_GENERATED = false := by
  unfold lineup_seek_base_candidates
  split <;> exact ⟨rfl, rfl, rfl, rfl⟩

theorem drop_pts_based_fields (f : lw_seek_flags_t) (info : List video_frame_info_t) (n : Nat) :
    (drop_pts_based f info n).SEEK_DTS_BASED = f.SEEK_DTS_BASED
    ∧ (drop_pts_based f info n).SEEK_POS_BASED = f.SEEK_POS_BASED
    ∧ (drop_pts_based f info n).SEEK_POS_CORRECTION = f.SEEK_POS_CORRECTION
    ∧ (drop_pts_based f info n).SEEK_PTS_GENERATED = f.SEEK_PTS_GENERATED := by
  unfold drop_pts_based
  split <;> exact ⟨rfl, rfl, rfl, rfl⟩

theorem drop_dts_based_fields (f : lw_seek_flags_t) (info : List video_frame_info_t) (n : Nat) :
    (drop_dts_based f info n).SEEK_PTS_BASED = f.SEEK_PTS_BASED
    ∧ (drop_dts_based f info n).SEEK_POS_BASED = f.SEEK_POS_BASED
    ∧ (drop_dts_based f info n).SEEK_POS_CORRECTION = f.SEEK_POS_CORRECTION
    ∧ (drop_dts_based f info n).SEEK_PTS_GENERATED = f.SEEK_PTS_GENERATED := by
  unfold drop_dts_based
  split
  · exact ⟨rfl, rfl, rfl, rfl⟩
  · split <;> exact ⟨rfl, rfl, rfl, rfl⟩

theorem drop_pos_correction_fields (f : lw_seek_flags_t) (info : List video_frame_info_t)
    (n : Nat) :
    (drop_pos_correction f info n).SEEK_PTS_BASED = f.SEEK_PTS_BASED
    ∧ (drop_pos_correction f info n).SEEK_POS_BASED = f.SEEK_POS_BASED
    ∧ (drop_pos_correction f info n).SEEK_DTS_BASED = f.SEEK_DTS_BASED
    ∧ (drop_pos_correction f info n).SEEK_PTS_GENERATED = f.SEEK_PTS_GENERATED := by
  unfold drop_pos_correction
  split
  · exact ⟨rfl, rfl, rfl, rfl⟩
  · split <;> exact ⟨rfl, rfl, rfl, rfl⟩

theorem drop_pos_based_fields (lwhp : lwlibav_file_handler_t) (f : lw_seek_flags_t)
    (info : List video_frame_info_t) (n : Nat) :
    (drop_pos_based lwhp f info n).SEEK_PTS_BASED = f.SEEK_PTS_BASED
    ∧ (drop_pos_based lwhp f info n).SEEK_POS_CORRECTION = f.SEEK_POS_CORRECTION
    ∧ (drop_pos_based lwhp f info n).SEEK_DTS_BASED = f.SEEK_DTS_BASED
    ∧ (drop_pos_based lwhp f info n).SEEK_PTS_GENERATED = f.SEEK_PTS_GENERATED := by
  unfold drop_pos_based
  split
  · split
    · exact ⟨rfl, rfl, rfl, rfl⟩
    · simp only
      split <;> exact ⟨rfl, rfl, rfl, rfl⟩
  · exact ⟨rfl, rfl, rfl, rfl⟩

theorem drop_dts_based_dts (f : lw_seek_flags_t) (info : List video_frame_info_t) (n : Nat) :
    (drop_dts_based f info n).SEEK_DTS_BASED = true ↔
      (f.SEEK_DTS_BASED = true ∧ (info_at info 1).dts ≠ AV_NOPTS_VALUE ∧
       ∀ i, 2 ≤ i → i ≤ n →
         (info_at info i).dts ≠ AV_NOPTS_VALUE
         ∧ (info_at info (i - 1)).dts < (info_at info i).dts) := by
  have hany : ((List.range' 2 (n - 1)).any
        (fun i => decide ((info_at info i).dts = AV_NOPTS_VALUE
                          ∨ (info_at info i).dts ≤ (info_at info (i - 1)).dts)) = true)
      ↔ ¬ (∀ i, 2 ≤ i → i ≤ n →
         (info_at info i).dts ≠ AV_NOPTS_VALUE
         ∧ (info_at info (i - 1)).dts < (info_at info i).dts) := by
    simp only [List.any_eq_true, List.mem_range'_1, decide_eq_true_eq]
    constructor
    · rintro ⟨i, ⟨h1, h2⟩, h3⟩ hall
      have := hall i h1 (by omega)
      rcases h3 with h3 | h3
      · exact this.1 h3
      · omega
    · intro hne
      by_contra hcon
      apply hne
      intro i h1 h2
      by_contra hc
      apply hcon
      refine ⟨i, ⟨h1, by omega⟩, ?_⟩
      by_cases hd : (info_at info i).dts = AV_NOPTS_VALUE
      · exact Or.inl hd
      · right
        by_contra hlt
        exact hc ⟨hd, by omega⟩
  unfold drop_dts_based
  split
  · rename_i h1
    constructor
    · intro h; exact absurd h (by simp)
    · intro h; exact absurd h1 h.2.1
  · rename_i h1
    split
    · rename_i h2
      constructor
      · intro h; exact absurd h (by simp)
      · intro h; exact absurd h.2.2 (hany.mp h2)
    · rename_i h2
      constructor
      · intro h
        refine ⟨h, h1, ?_⟩
        by_contra hc
        exact h2 (hany.mpr hc)
      · intro h; exact h.1

theorem drop_pos_correction_pos (f : lw_seek_flags_t) (info : List video_frame_info_t)
    (n : Nat) :
    (drop_pos_correction f info n).SEEK_POS_CORRECTION = true ↔
      (f.SEEK_POS_CORRECTION = true ∧ (info_at info 1).file_offset ≠ -1 ∧
       ∀ i, 1 ≤ i → i ≤ n →
         (info_at info i).file_offset ≠ -1
         ∧ (info_at info (i - 1)).file_offset < (info_at info i).file_offset) := by
  have hany : ((List.range' 1 n).any
        (fun i => decide ((info_at info i).file_offset = -1
                          ∨ (info_at info i).file_offset ≤ (info_at info (i - 1)).file_offset))
          = true)
      ↔ ¬ (∀ i, 1 ≤ i → i ≤ n →
         (info_at info i).file_offset ≠ -1
         ∧ (info_at info (i - 1)).file_offset < (info_at info i).file_offset) := by
    simp only [List.any_eq_true, List.mem_range'_1, decide_eq_true_eq]
    constructor
    · rintro ⟨i, ⟨h1, h2⟩, h3⟩ hall
      have := hall i h1 (by omega)
      rcases h3 with h3 | h3
      · exact this.1 h3
      · omega
    · intro hne
      by_contra hcon
      apply hne
      intro i h1 h2
      by_contra hc
      apply hcon
      refine ⟨i, ⟨h1, by omega⟩, ?_⟩
      by_cases hd : (info_at info i).file_offset = -1
      · exact Or.inl hd
      · right
        by_contra hlt
        exact hc ⟨hd, by omega⟩
  unfold drop_pos_correction
  split
  · rename_i h1
    constructor
    · intro h; exact absurd h (by simp)
    · intro h; exact absurd h1 h.2.1
  · rename_i h1
    split
    · rename_i h2
      constructor
      · intro h; exact absurd h (by simp)
      · intro h; exact absurd h.2.2 (hany.mp h2)
    · rename_i h2
      constructor
      · intro h
        refine ⟨h, h1, ?_⟩
        by_contra hc
        exact h2 (hany.mpr hc)
      · intro h; exact h.1

theorem decide_seek_base_dts (lwhp : lwlibav_file_handler_t) (info : List video_frame_info_t)
    (n : Nat) :
    (decide_seek_base lwhp info n).SEEK_DTS_BASED = true ↔
      ((info_at info 1).dts ≠ AV_NOPTS_VALUE ∧
       ∀ i, 2 ≤ i → i ≤ n →
         (info_at info i).dts ≠ AV_NOPTS_VALUE
         ∧ (info_at info (i - 1)).dts < (info_at info i).dts) := by
  unfold decide_seek_base
  rw [(drop_pos_based_fields _ _ _ _).2.2.1, (drop_pos_correction_fields _ _ _).2.2.1,
    drop_dts_based_dts, (drop_pts_based_fields _ _ _).1]
  simp [(lineup_flags lwhp).1]

theorem decide_seek_base_pos_correction (lwhp : lwlibav_file_handler_t)
    (info : List video_frame_info_t) (n : Nat) :
    (decide_seek_base lwhp info n).SEEK_POS_CORRECTION = true ↔
      ((info_at info 1).file_offset ≠ -1 ∧
       ∀ i, 1 ≤ i → i ≤ n →
         (info_at info i).file_offset ≠ -1
         ∧ (info_at info (i - 1)).file_offset < (info_at info i).file_offset) := by
  unfold decide_seek_base
  rw [(drop_pos_based_fields _ _ _ _).2.1, drop_pos_correction_pos,
    (drop_dts_based_fields _ _ _).2.2.1, (drop_pts_based_fields _ _ _).2.2.1]
  simp [(lineup_flags lwhp).2.2.1]

theorem decide_seek_base_generated (lwhp : lwlibav_file_handler_t)
    (info : List video_frame_info_t) (n : Nat) :
    (decide_seek_base lwhp info n).SEEK_PTS_GENERATED = false := by
  unfold decide_seek_base
  rw [(drop_pos_based_fields _ _ _ _).2.2.2, (drop_pos_correction_fields _ _ _).2.2.2,
    (drop_dts_based_fields _ _ _).2.2.2, (drop_pts_based_fields _ _ _).2.2.2]
  exact (lineup_flags lwhp).2.2.2

/-! ## The seek-method decider: flags and decode order -/

theorem qsort_from_1_perm {α : Type} (q : qsort_t) (cmp : α → α → Int) (base : List α)
    (n : Nat) :
    (qsort_from_1 q cmp base n).take 1 = base.take 1
    ∧ ((qsort_from_1 q cmp base n).drop 1).Perm (base.drop 1) := by
  unfold qsort_from_1
  cases base with
  | nil =>
    have h := q.perm cmp ([] : List α)
    have h2 : q.run cmp ([] : List α) = [] := List.Perm.eq_nil h
    simp [h2]
  | cons x t =>
    simp only [List.take_succ_cons, List.take_zero, List.drop_succ_cons, List.drop_zero,
      List.cons_append, List.nil_append, true_and]
    have h := q.perm cmp (t.take n)
    have h3 : (q.run cmp (t.take n) ++ t.drop n).Perm (t.take n ++ t.drop n) :=
      List.Perm.append_right _ h
    rw [List.take_append_drop] at h3
    exact h3

theorem construct_timestamps_flags (lwhp : lwlibav_file_handler_t)
    (vdhp : lwlibav_video_decode_handler_t) (n : Nat) :
    (construct_timestamps lwhp vdhp n).2.lw_seek_flags.SEEK_DTS_BASED
        = (decide_seek_base lwhp vdhp.frame_list n).SEEK_DTS_BASED
    ∧ (construct_timestamps lwhp vdhp n).2.lw_seek_flags.SEEK_PTS_BASED
        = (decide_seek_base lwhp vdhp.frame_list n).SEEK_PTS_BASED
    ∧ (construct_timestamps lwhp vdhp n).2.lw_seek_flags.SEEK_POS_BASED
        = (decide_seek_base lwhp vdhp.frame_list n).SEEK_POS_BASED
    ∧ (construct_timestamps lwhp vdhp n).2.lw_seek_flags.SEEK_POS_CORRECTION
        = (decide_seek_base lwhp vdhp.frame_list n).SEEK_POS_CORRECTION := by
  unfold construct_timestamps
  simp only
  split <;> exact ⟨rfl, rfl, rfl, rfl⟩

theorem construct_timestamps_static (lwhp : lwlibav_file_handler_t)
    (vdhp : lwlibav_video_decode_handler_t) (n : Nat) :
    (construct_timestamps lwhp vdhp n).2.frame_list.map view_static
      = vdhp.frame_list.map view_static
    ∧ (construct_timestamps lwhp vdhp n).2.keyframe_list = vdhp.keyframe_list := by
  unfold construct_timestamps
  simp only
  split
  · exact ⟨map_view_static_genarate_pts_list _ _, rfl⟩
  · exact ⟨rfl, rfl⟩

/-- The four ways `decide_video_seek_method` ends. -/
theorem decide_video_seek_method_cases (q : qsort_t) (a b : Bool)
    (lwhp : lwlibav_file_handler_t) (vdhp : lwlibav_video_decode_handler_t) (n : Nat) :
    (decide_video_seek_method q a b lwhp vdhp n
        = (-1, { (construct_timestamps lwhp vdhp n).2 with order_converter := none }))
    ∨ (decide_video_seek_method q a b lwhp vdhp n
        = (-1, { (construct_timestamps lwhp vdhp n).2 with
                 frame_list := sort_presentation_order q
                   (construct_timestamps lwhp vdhp n).2.frame_list n,
                 order_converter := some (List.replicate (n + 1) 0) }))
    ∨ (∃ oc, decide_video_seek_method q a b lwhp vdhp n
        = finish_keyframes { (construct_timestamps lwhp vdhp n).2 with
                 frame_list := sort_presentation_order q
                   (construct_timestamps lwhp vdhp n).2.frame_list n,
                 order_converter := some oc } n)
    ∨ (decide_video_seek_method q a b lwhp vdhp n
        = finish_keyframes { (construct_timestamps lwhp vdhp n).2 with
                 frame_list := copy_dts_to_pts
                   (construct_timestamps lwhp vdhp n).2.frame_list n } n)
    ∨ (decide_video_seek_method q a b lwhp vdhp n
        = finish_keyframes (construct_timestamps lwhp vdhp n).2 n) := by
  unfold decide_video_seek_method
  simp only
  split
  · split
    · exact Or.inl rfl
    · split
      · exact Or.inr (Or.inl rfl)
      · exact Or.inr (Or.inr (Or.inl ⟨_, rfl⟩))
  · split
    · exact Or.inr (Or.inr (Or.inr (Or.inl rfl)))
    · exact Or.inr (Or.inr (Or.inr (Or.inr rfl)))

/-- What `decide_video_seek_method` leaves in `lw_seek_flags`. -/
theorem decide_video_seek_method_flags (q : qsort_t) (a b : Bool)
    (lwhp : lwlibav_file_handler_t) (vdhp : lwlibav_video_decode_handler_t) (n : Nat) :
    (decide_video_seek_method q a b lwhp vdhp n).2.lw_seek_flags.SEEK_DTS_BASED
        = (decide_seek_base lwhp vdhp.frame_list n).SEEK_DTS_BASED
    ∧ (decide_video_seek_method q a b lwhp vdhp n).2.lw_seek_flags.SEEK_PTS_BASED
        = (decide_seek_base lwhp vdhp.frame_list n).SEEK_PTS_BASED
    ∧ (decide_video_seek_method q a b lwhp vdhp n).2.lw_seek_flags.SEEK_POS_BASED
        = (decide_seek_base lwhp vdhp.frame_list n).SEEK_POS_BASED
    ∧ (decide_video_seek_method q a b lwhp vdhp n).2.lw_seek_flags.SEEK_POS_CORRECTION
        = (decide_seek_base lwhp vdhp.frame_list n).SEEK_POS_CORRECTION := by
  have hf := construct_timestamps_flags lwhp vdhp n
  rcases decide_video_seek_method_cases q a b lwhp vdhp n with h | h | ⟨oc, h⟩ | h | h <;>
    rw [h] <;> exact hf

theorem decide_video_seek_method_static (q : qsort_t) (a b : Bool)
    (lwhp : lwlibav_file_handler_t) (vdhp : lwlibav_video_decode_handler_t) (n : Nat) :
    (((decide_video_seek_method q a b lwhp vdhp n).2.frame_list.drop 1).map view_static).Perm
      ((vdhp.frame_list.drop 1).map view_static) := by
  have hgen := (construct_timestamps_static lwhp vdhp n).1
  have hgen1 : ((construct_timestamps lwhp vdhp n).2.frame_list.drop 1).map view_static
      = (vdhp.frame_list.drop 1).map view_static := by
    rw [List.map_drop, List.map_drop, hgen]
  have hsort : (((sort_presentation_order q
      (construct_timestamps lwhp vdhp n).2.frame_list n).drop 1).map view_static).Perm
      ((vdhp.frame_list.drop 1).map view_static) := by
    rw [← hgen1]
    exact List.Perm.map _ (qsort_from_1_perm q compare_pts _ n).2
  rcases decide_video_seek_method_cases q a b lwhp vdhp n with h | h | ⟨oc, h⟩ | h | h <;>
    rw [h]
  · simp only; rw [hgen1]
  · exact hsort
  · unfold finish_keyframes
    simp only
    rw [List.map_drop, map_treat_unique_as_keyframe view_static map_view_static_set_keyframe,
      ← List.map_drop]
    exact hsort
  · unfold finish_keyframes
    simp only
    rw [List.map_drop, map_treat_unique_as_keyframe view_static map_view_static_set_keyframe,
      map_view_static_copy_dts_to_pts, ← List.map_drop, hgen1]
  · unfold finish_keyframes
    simp only
    rw [List.map_drop, map_treat_unique_as_keyframe view_static map_view_static_set_keyframe,
      ← List.map_drop, hgen1]

theorem mem_drop_one (l : List video_frame_info_t) (r : video_frame_info_t) :
    r ∈ l.drop 1 ↔ ∃ i, 1 ≤ i ∧ i < l.length ∧ info_at l i = r := by
  constructor
  · intro h
    obtain ⟨k, hk, hk2⟩ := List.mem_iff_getElem.mp h
    have hk' : k < l.length - 1 := by simpa using hk
    refine ⟨k + 1, by omega, by omega, ?_⟩
    rw [← hk2]
    unfold info_at
    rw [List.getD_eq_getElem?_getD, List.getElem?_eq_getElem (by omega)]
    simp [List.getElem_drop, Nat.add_comm]
  · rintro ⟨i, h1, h2, h3⟩
    rw [← h3]
    unfold info_at
    rw [List.getD_eq_getElem?_getD, List.getElem?_eq_getElem h2]
    simp only [Option.getD_some]
    apply List.mem_iff_getElem.mpr
    refine ⟨i - 1, by simp; omega, ?_⟩
    simp only [List.getElem_drop]
    congr 1
    omega

theorem map_sample_number_decode_order (l : List video_frame_info_t) (n : Nat)
    (hlen : l.length = n + 1)
    (hsn : ∀ i, 1 ≤ i → i ≤ n → (info_at l i).sample_number = i) :
    (l.drop 1).map (fun r => r.sample_number) = List.range' 1 n := by
  apply List.ext_getElem
  · simp [hlen]
  · intro k h1 h2
    simp only [List.length_map, List.length_drop] at h1
    have := hsn (k + 1) (by omega) (by omega)
    unfold info_at at this
    rw [List.getD_eq_getElem?_getD, List.getElem?_eq_getElem (by omega)] at this
    simp only [Option.getD_some] at this
    simp only [List.getElem_map, List.getElem_drop, List.getElem_range', Nat.one_mul]
    have e : 1 + k = k + 1 := Nat.add_comm 1 k
    simp only [e]
    exact this

/-- C7. After `decide_video_seek_method` the records of `frame_list[1..N]` carry
each sample number `1..N` once, and in decode order (by `sample_number`): if
`SEEK_DTS_BASED` is in the resulting flags, every record after the first has a
set DTS greater than its predecessor's; if `SEEK_POS_CORRECTION` is in the
resulting flags, every record after the first has an offset other than -1 and
greater than its predecessor's. -/
theorem decide_video_seek_method_decode_order_monotone (q : qsort_t) (a b : Bool)
    (lwhp : lwlibav_file_handler_t) (vdhp : lwlibav_video_decode_handler_t) (n : Nat)
    (hlen : vdhp.frame_list.length = n + 1)
    (hsn : ∀ i, 1 ≤ i → i ≤ n → (info_at vdhp.frame_list i).sample_number = i) :
    (((decide_video_seek_method q a b lwhp vdhp n).2.frame_list.drop 1).map
        (fun r => r.sample_number)).Perm (List.range' 1 n)
    ∧ ((decide_video_seek_method q a b lwhp vdhp n).2.lw_seek_flags.SEEK_DTS_BASED = true →
        ∀ r ∈ (decide_video_seek_method q a b lwhp vdhp n).2.frame_list.drop 1,
        ∀ r' ∈ (decide_video_seek_method q a b lwhp vdhp n).2.frame_list.drop 1,
          r.sample_number = r'.sample_number + 1 →
          r'.dts < r.dts ∧ r.dts ≠ AV_NOPTS_VALUE)
    ∧ ((decide_video_seek_method q a b lwhp vdhp n).2.lw_seek_flags.SEEK_POS_CORRECTION = true →
        ∀ r ∈ (decide_video_seek_method q a b lwhp vdhp n).2.frame_list.drop 1,
        ∀ r' ∈ (decide_video_seek_method q a b lwhp vdhp n).2.frame_list.drop 1,
          r.sample_number = r'.sample_number + 1 →
          r'.file_offset < r.file_offset ∧ r.file_offset ≠ -1) := by
  have hperm := decide_video_seek_method_static q a b lwhp vdhp n
  have hflags := decide_video_seek_method_flags q a b lwhp vdhp n
  generalize (decide_video_seek_method q a b lwhp vdhp n).2 = out at hperm hflags ⊢
  have horig : ∀ r ∈ out.frame_list.drop 1, ∃ i, 1 ≤ i ∧ i ≤ n ∧
      view_static (info_at vdhp.frame_list i) = view_static r
      ∧ r.sample_number = i := by
    intro r hr
    have h1 : view_static r ∈ (out.frame_list.drop 1).map view_static :=
      List.mem_map_of_mem _ hr
    have h2 := hperm.subset h1
    obtain ⟨r0, hr0, he⟩ := List.mem_map.mp h2
    obtain ⟨i, hi1, hi2, hi3⟩ := (mem_drop_one _ _).mp hr0
    refine ⟨i, hi1, by omega, by rw [hi3]; exact he, ?_⟩
    have hs := hsn i hi1 (by omega)
    rw [hi3] at hs
    have : r0.sample_number = r.sample_number := congrArg (fun v => v.2.2.1) he
    omega
  refine ⟨?_, ?_, ?_⟩
  · have h1 : (out.frame_list.drop 1).map (fun r => r.sample_number)
        = ((out.frame_list.drop 1).map view_static).map (fun v => v.2.2.1) := by
      rw [List.map_map]; rfl
    have h2 : (vdhp.frame_list.drop 1).map (fun r => r.sample_number)
        = ((vdhp.frame_list.drop 1).map view_static).map (fun v => v.2.2.1) := by
      rw [List.map_map]; rfl
    rw [h1, ← map_sample_number_decode_order vdhp.frame_list n hlen hsn, h2]
    exact List.Perm.map _ hperm
  · intro hd r hr r' hr' hsucc
    rw [hflags.1, decide_seek_base_dts] at hd
    obtain ⟨i, hi1, hi2, hv, hs⟩ := horig r hr
    obtain ⟨i', hi1', hi2', hv', hs'⟩ := horig r' hr'
    have hdts : (info_at vdhp.frame_list i).dts = r.dts := congrArg (fun v => v.1) hv
    have hdts' : (info_at vdhp.frame_list i').dts = r'.dts := congrArg (fun v => v.1) hv'
    have hi : i' = i - 1 := by omega
    have := hd.2 i (by omega) hi2
    rw [← hi, hdts, hdts'] at this
    exact ⟨this.2, this.1⟩
  · intro hd r hr r' hr' hsucc
    rw [hflags.2.2.2, decide_seek_base_pos_correction] at hd
    obtain ⟨i, hi1, hi2, hv, hs⟩ := horig r hr
    obtain ⟨i', hi1', hi2', hv', hs'⟩ := horig r' hr'
    have hfo : (info_at vdhp.frame_list i).file_offset = r.file_offset :=
      congrArg (fun v => v.2.1) hv
    have hfo' : (info_at vdhp.frame_list i').file_offset = r'.file_offset :=
      congrArg (fun v => v.2.1) hv'
    have hi : i' = i - 1 := by omega
    have := hd.2 i (by omega) hi2
    rw [← hi, hfo, hfo'] at this
    exact ⟨this.2, this.1⟩

/-! ## The keyframe pass -/

theorem info_at_set_keyframe (l : List video_frame_info_t) (i j : Nat) (v : Nat) :
    info_at (set_keyframe l i v) j
      = if i = j ∧ i < l.length then { info_at l i with keyframe := v } else info_at l j := by
  unfold set_keyframe; exact info_at_set l i j _

theorem keyframe_zero_set_keyframe (l : List video_frame_info_t) (i j : Nat)
    (h : (info_at l i).keyframe = 0) : (info_at (set_keyframe l j 0) i).keyframe = 0 := by
  rw [info_at_set_keyframe]
  split
  · rfl
  · exact h

theorem keyframe_zero_set_keyframe_self (l : List video_frame_info_t) (i : Nat)
    (h : i < l.length) : (info_at (set_keyframe l i 0) i).keyframe = 0 := by
  rw [info_at_set_keyframe, if_pos ⟨rfl, h⟩]

theorem length_set_keyframe (l : List video_frame_info_t) (i v : Nat) :
    (set_keyframe l i v).length = l.length := by
  unfold set_keyframe; simp

/-- In a list that is in decode order, a keyframe pass clears the keyframe
field of every record whose axis value equals that of its predecessor. -/
theorem unique_keyframe_pass_consecutive (axis : video_frame_info_t → Int) (unset : Int)
    (haxis : ∀ r r' : video_frame_info_t, view_ts r = view_ts r' → axis r = axis r')
    (info : List video_frame_info_t) (n : Nat) (hlen : info.length = n + 1)
    (hsn : ∀ i, 1 ≤ i → i ≤ n → (info_at info i).sample_number = i) :
    ∀ i, 2 ≤ i → i ≤ n → axis (info_at info i) = axis (info_at info (i - 1)) →
      (info_at (unique_keyframe_pass axis unset info n) i).keyframe = 0 := by
  unfold unique_keyframe_pass
  have key := foldl_range'_inv (unique_keyframe_step axis unset)
    (fun k (s : List video_frame_info_t) => s.map view_ts = info.map view_ts ∧
      ∀ i, 2 ≤ i → i < 2 + k → axis (info_at info i) = axis (info_at info (i - 1)) →
        (info_at s i).keyframe = 0)
    (unique_keyframe_first axis unset info) 2 (n - 1)
    ⟨by unfold unique_keyframe_first; exact map_view_ts_set_keyframe _ _ _,
     fun i h1 h2 => by omega⟩
    (by
      intro k s hk hp
      obtain ⟨hmap, hp⟩ := hp
      have hslen : s.length = n + 1 := by
        rw [length_of_map_eq view_ts info s hmap]; exact hlen
      have hv : ∀ j, view_ts (info_at s j) = view_ts (info_at info j) :=
        info_at_of_map_eq view_ts info s hmap
      have hsnj : (info_at s (2 + k)).sample_number = 2 + k := by
        have := congrArg (fun v => v.2.2.2.1) (hv (2 + k))
        simp only [view_ts] at this
        rw [this]; exact hsn (2 + k) (by omega) (by omega)
      have hsnk : (info_at s (2 + k - 1)).sample_number = 2 + k - 1 := by
        have := congrArg (fun v => v.2.2.2.1) (hv (2 + k - 1))
        simp only [view_ts] at this
        rw [this]; exact hsn (2 + k - 1) (by omega) (by omega)
      unfold unique_keyframe_step
      simp only [hsnj, hsnk]
      split
      · refine ⟨by rw [map_view_ts_set_keyframe]; exact hmap, ?_⟩
        intro i h1 h2 h3
        by_cases hi : i = 2 + k
        · rw [hi]; exact keyframe_zero_set_keyframe_self s (2 + k) (by omega)
        · exact keyframe_zero_set_keyframe s i _ (hp i h1 (by omega) h3)
      · split
        · refine ⟨by rw [map_view_ts_set_keyframe, map_view_ts_set_keyframe]; exact hmap, ?_⟩
          intro i h1 h2 h3
          by_cases hi : i = 2 + k
          · rw [hi]
            exact keyframe_zero_set_keyframe_self _ (2 + k)
              (by rw [length_set_keyframe]; omega)
          · exact keyframe_zero_set_keyframe _ i _
              (keyframe_zero_set_keyframe s i _ (hp i h1 (by omega) h3))
        · rename_i hne1 hne2
          refine ⟨hmap, ?_⟩
          intro i h1 h2 h3
          by_cases hi : i = 2 + k
          · exfalso
            apply hne2
            rw [haxis _ _ (hv (2 + k)), haxis _ _ (hv (2 + k - 1)), ← hi]
            exact h3
          · exact hp i h1 (by omega) h3)
  intro i h1 h2 h3
  exact key.2 i h1 (by omega) h3

theorem setup_keyframe_list_decode_order (info : List video_frame_info_t)
    (kl : List Nat) (n : Nat) (hkl : kl.length = n + 1)
    (hsn : ∀ i, 1 ≤ i → i ≤ n → (info_at info i).sample_number = i) :
    ∀ i, 1 ≤ i → i ≤ n →
      (setup_keyframe_list info kl n).getD i 0 = (info_at info i).keyframe := by
  unfold setup_keyframe_list
  have key := foldl_range'_inv
    (fun (kl : List Nat) i => kl.set (info_at info i).sample_number (info_at info i).keyframe)
    (fun k (s : List Nat) => s.length = n + 1 ∧
      ∀ i, 1 ≤ i → i < 1 + k → s.getD i 0 = (info_at info i).keyframe)
    kl 1 n ⟨hkl, fun i h1 h2 => by omega⟩
    (by
      intro k s hk hp
      obtain ⟨hl, hp⟩ := hp
      refine ⟨by simp [hl], ?_⟩
      intro i h1 h2
      simp only [hsn (1 + k) (by omega) (by omega)]
      simp only [List.getD_eq_getElem?_getD, List.getElem?_set]
      by_cases hi : 1 + k = i
      · subst hi
        have hlt : 1 + k < n + 1 := by omega
        simp [hl, hlt]
      · simp only [if_neg hi]
        have := hp i h1 (by omega)
        simpa [List.getD_eq_getElem?_getD] using this)
  intro i h1 h2
  exact key.2 i h1 (by omega)

/-- When `decide_video_seek_method` returns 0 its last two steps have run: the
keyframe pass over some list `info2`, and the set-up of `keyframe_list`. -/
theorem decide_video_seek_method_finish (q : qsort_t) (a b : Bool)
    (lwhp : lwlibav_file_handler_t) (vdhp : lwlibav_video_decode_handler_t) (n : Nat)
    (hret : (decide_video_seek_method q a b lwhp vdhp n).1 = 0) :
    ∃ info2,
      (decide_video_seek_method q a b lwhp vdhp n).2.frame_list
        = treat_unique_as_keyframe
            (decide_video_seek_method q a b lwhp vdhp n).2.lw_seek_flags info2 n
      ∧ (decide_video_seek_method q a b lwhp vdhp n).2.keyframe_list
        = setup_keyframe_list (decide_video_seek_method q a b lwhp vdhp n).2.frame_list
            vdhp.keyframe_list n := by
  have hk := (construct_timestamps_static lwhp vdhp n).2
  rcases decide_video_seek_method_cases q a b lwhp vdhp n with h | h | ⟨oc, h⟩ | h | h <;>
    rw [h] at hret ⊢
  · simp at hret
  · simp at hret
  · exact ⟨_, rfl, by unfold finish_keyframes; simp only; rw [hk]⟩
  · exact ⟨_, rfl, by unfold finish_keyframes; simp only; rw [hk]⟩
  · exact ⟨_, rfl, by unfold finish_keyframes; simp only; rw [hk]⟩

theorem trusted_axis_view_ts (flags : lw_seek_flags_t) (axis : video_frame_info_t → Int)
    (h : trusted_axis flags = some axis) :
    ∀ r r' : video_frame_info_t, view_ts r = view_ts r' → axis r = axis r' := by
  unfold trusted_axis at h
  intro r r' hv
  split at h
  · cases h; exact congrArg (fun v => v.2.2.1) hv
  · split at h
    · cases h; exact congrArg (fun v => v.1) hv
    · split at h
      · cases h; exact congrArg (fun v => v.2.1) hv
      · cases h

theorem treat_unique_as_keyframe_consecutive (flags : lw_seek_flags_t)
    (axis : video_frame_info_t → Int) (h : trusted_axis flags = some axis)
    (info : List video_frame_info_t) (n : Nat) (hlen : info.length = n + 1)
    (hsn : ∀ i, 1 ≤ i → i ≤ n → (info_at info i).sample_number = i) :
    ∀ i, 2 ≤ i → i ≤ n → axis (info_at info i) = axis (info_at info (i - 1)) →
      (info_at (treat_unique_as_keyframe flags info n) i).keyframe = 0 := by
  have hax := trusted_axis_view_ts flags axis h
  unfold trusted_axis at h
  unfold treat_unique_as_keyframe
  split at h
  · rename_i h1
    rw [if_pos h1]
    cases h
    exact unique_keyframe_pass_consecutive _ _ hax info n hlen hsn
  · rename_i h1
    rw [if_neg h1]
    split at h
    · rename_i h2
      rw [if_pos h2]
      cases h
      exact unique_keyframe_pass_consecutive _ _ hax info n hlen hsn
    · rename_i h2
      rw [if_neg h2]
      split at h
      · rename_i h3
        rw [if_pos h3]
        cases h
        exact unique_keyframe_pass_consecutive _ _ hax info n hlen hsn
      · cases h

/-- C4 (amended). When `decide_video_seek_method` returns 0 and leaves
`frame_list` in decode order, no two consecutive decode indices `j`, `j + 1`
that are both keyframes in `keyframe_list` have the same value on the trusted
axis: the later of two such records always has `keyframe_list[j + 1] = 0`. -/
theorem decide_video_seek_method_consecutive_keyframes (q : qsort_t) (a b : Bool)
    (lwhp : lwlibav_file_handler_t) (vdhp : lwlibav_video_decode_handler_t) (n : Nat)
    (hlen : vdhp.frame_list.length = n + 1)
    (hkl : vdhp.keyframe_list.length = n + 1)
    (hret : (decide_video_seek_method q a b lwhp vdhp n).1 = 0)
    (hord : ∀ i, 1 ≤ i → i ≤ n →
      (info_at (decide_video_seek_method q a b lwhp vdhp n).2.frame_list i).sample_number = i)
    (axis : video_frame_info_t → Int)
    (haxis : trusted_axis (decide_video_seek_method q a b lwhp vdhp n).2.lw_seek_flags
      = some axis)
    (j : Nat) (hj1 : 1 ≤ j) (hj2 : j + 1 ≤ n)
    (heq : axis (info_at (decide_video_seek_method q a b lwhp vdhp n).2.frame_list j)
      = axis (info_at (decide_video_seek_method q a b lwhp vdhp n).2.frame_list (j + 1))) :
    (decide_video_seek_method q a b lwhp vdhp n).2.keyframe_list.getD (j + 1) 0 = 0
    ∧ ¬ ((decide_video_seek_method q a b lwhp vdhp n).2.keyframe_list.getD j 0 = 1
        ∧ (decide_video_seek_method q a b lwhp vdhp n).2.keyframe_list.getD (j + 1) 0 = 1) := by
  obtain ⟨info2, hfl, hkeys⟩ := decide_video_seek_method_finish q a b lwhp vdhp n hret
  have hperm := decide_video_seek_method_static q a b lwhp vdhp n
  generalize (decide_video_seek_method q a b lwhp vdhp n).2 = out at *
  have hmap : out.frame_list.map view_ts = info2.map view_ts := by
    rw [hfl]; exact map_treat_unique_as_keyframe view_ts map_view_ts_set_keyframe _ _ _
  have hv := info_at_of_map_eq view_ts info2 out.frame_list hmap
  have hax := trusted_axis_view_ts _ axis haxis
  have hlen_out : out.frame_list.length = n + 1 := by
    have := hperm.length_eq
    simp only [List.length_map, List.length_drop, hlen] at this
    omega
  have hlen2 : info2.length = n + 1 := by
    rw [← length_of_map_eq view_ts info2 out.frame_list hmap]; exact hlen_out
  have hsn2 : ∀ i, 1 ≤ i → i ≤ n → (info_at info2 i).sample_number = i := by
    intro i h1 h2
    have := congrArg (fun v => v.2.2.2.1) (hv i)
    simp only [view_ts] at this
    rw [← this]; exact hord i h1 h2
  have hzero : (info_at out.frame_list (j + 1)).keyframe = 0 := by
    rw [hfl]
    apply treat_unique_as_keyframe_consecutive _ axis haxis info2 n hlen2 hsn2 (j + 1)
      (by omega) hj2
    rw [← hax _ _ (hv (j + 1)), ← heq]
    exact hax _ _ (hv j)
  have hk : out.keyframe_list.getD (j + 1) 0 = 0 := by
    rw [hkeys, setup_keyframe_list_decode_order out.frame_list vdhp.keyframe_list n hkl hord
      (j + 1) (by omega) hj2]
    exact hzero
  exact ⟨hk, fun h => by rw [hk] at h; exact absurd h.2 (by decide)⟩

/-! ## Scenarios and witnesses -/


/-- Witness of C4 (amended): three keyframes with PTS 0, 10, 10 and DTS 0, 10, 10
in an MP4 file; the third is not a keyframe afterwards. -/
theorem decide_video_seek_method_consecutive_keyframes_witness :
    scenario_equal_pts.frame_list.length = 3 + 1
    ∧ scenario_equal_pts.keyframe_list.length = 3 + 1
    ∧ (decide_video_seek_method insertion_qsort true true scenario_mp4 scenario_equal_pts 3).1 = 0
    ∧ (∀ i, 1 ≤ i → i ≤ 3 →
        (info_at (decide_video_seek_method insertion_qsort true true scenario_mp4
          scenario_equal_pts 3).2.frame_list i).sample_number = i)
    ∧ trusted_axis (decide_video_seek_method insertion_qsort true true scenario_mp4
          scenario_equal_pts 3).2.lw_seek_flags = some (fun r => r.pts)
    ∧ (info_at (decide_video_seek_method insertion_qsort true true scenario_mp4
          scenario_equal_pts 3).2.frame_list 2).pts
      = (info_at (decide_video_seek_method insertion_qsort true true scenario_mp4
          scenario_equal_pts 3).2.frame_list (2 + 1)).pts
    ∧ (decide_video_seek_method insertion_qsort true true scenario_mp4
          scenario_equal_pts 3).2.keyframe_list.getD (2 + 1) 0 = 0
    ∧ ¬ ((decide_video_seek_method insertion_qsort true true scenario_mp4
          scenario_equal_pts 3).2.keyframe_list.getD 2 0 = 1
        ∧ (decide_video_seek_method insertion_qsort true true scenario_mp4
          scenario_equal_pts 3).2.keyframe_list.getD (2 + 1) 0 = 1) :=
  ⟨by decide, by decide, by decide, by decide, rfl, by decide,
   decide_video_seek_method_consecutive_keyframes insertion_qsort true true scenario_mp4
     scenario_equal_pts 3 (by decide) (by decide) (by decide) (by decide)
     (fun r => r.pts) rfl 2 (by decide) (by decide) (by decide)⟩

/-- C4 (counterexample). Three keyframes of an MPEG program stream at byte
offsets 5, 7, 5: the decider keeps `SEEK_POS_BASED`, so the byte offset is the
trusted axis, and decode indices 1 and 3 are both keyframes in `keyframe_list`
although their offsets are equal. -/
theorem decide_video_seek_method_repeated_offset_keyframes :
    (decide_video_seek_method insertion_qsort true true scenario_mpeg
        scenario_repeated_offset 3).1 = 0
    ∧ (decide_video_seek_method insertion_qsort true true scenario_mpeg
        scenario_repeated_offset 3).2.lw_seek_flags.SEEK_POS_BASED = true
    ∧ (decide_video_seek_method insertion_qsort true true scenario_mpeg
        scenario_repeated_offset 3).2.frame_list.map (fun r => (r.sample_number, r.file_offset))
        = [(0, 0), (1, 5), (2, 7), (3, 5)]
    ∧ (decide_video_seek_method insertion_qsort true true scenario_mpeg
        scenario_repeated_offset 3).2.keyframe_list = [0, 1, 1, 1]
    ∧ ¬ (∀ j1 j2 : Fin 4, 1 ≤ j1.val → j1.val < j2.val →
          (decide_video_seek_method insertion_qsort true true scenario_mpeg
            scenario_repeated_offset 3).2.keyframe_list.getD j1.val 0 = 1 →
          (decide_video_seek_method insertion_qsort true true scenario_mpeg
            scenario_repeated_offset 3).2.keyframe_list.getD j2.val 0 = 1 →
          (info_at (decide_video_seek_method insertion_qsort true true scenario_mpeg
            scenario_repeated_offset 3).2.frame_list j1.val).file_offset
          ≠ (info_at (decide_video_seek_method insertion_qsort true true scenario_mpeg
            scenario_repeated_offset 3).2.frame_list j2.val).file_offset) := by
  refine ⟨by decide, by decide, by decide, by decide, ?_⟩
  intro h
  exact h ⟨1, by decide⟩ ⟨3, by decide⟩ (by decide) (by decide) (by decide) (by decide)
    (by decide)

/-- C8 (the code at the failing input). Three records at byte offsets 0, 100,
200: no offset is -1 and each later offset is greater than its predecessor,
yet the decider clears `SEEK_POS_CORRECTION`, because its loop starts at
`i = 1` and compares `info[1].file_offset` with the zeroed slot 0.  The
resulting flags are `SEEK_DTS_BASED` and `SEEK_PTS_BASED` only. -/
theorem decide_video_seek_method_offsets_from_zero :
    (info_at scenario_offsets_from_zero.frame_list 1).file_offset ≠ -1
    ∧ (∀ i, 2 ≤ i → i ≤ 3 →
        (info_at scenario_offsets_from_zero.frame_list i).file_offset ≠ -1
        ∧ (info_at scenario_offsets_from_zero.frame_list (i - 1)).file_offset
            < (info_at scenario_offsets_from_zero.frame_list i).file_offset)
    ∧ (decide_video_seek_method insertion_qsort true true scenario_mp4
        scenario_offsets_from_zero 3).2.lw_seek_flags
      = { SEEK_DTS_BASED := true, SEEK_PTS_BASED := true, SEEK_POS_BASED := false,
          SEEK_POS_CORRECTION := false, SEEK_PTS_GENERATED := false } := by
  refine ⟨by decide, by decide, by decide⟩

/-- C9 (counterexample). I P B B P with dts 0..4 and no PTS: in decode order
the reconstructed PTS are 1, 4, 2, 3, 5, not 1, 2, 3, 4, 5. -/
theorem genarate_pts_ibbp_decode_order :
    (mpeg12_video_vc1_genarate_pts scenario_ibbp).frame_list.map
        (fun r => (r.sample_number, r.pts)) = [(0, 0), (1, 1), (2, 4), (3, 2), (4, 3), (5, 5)]
    ∧ (mpeg12_video_vc1_genarate_pts scenario_ibbp).frame_list.map (fun r => r.pts)
        ≠ [0, 1, 2, 3, 4, 5] := by
  refine ⟨by decide, by decide⟩


/-- Witness of C6: record 3 of the I P B B P scenario is a B-picture. -/
theorem genarate_pts_b_picture_pts_eq_dts_witness :
    1 ≤ 3 ∧ 3 ≤ scenario_ibbp.frame_count ∧ 3 < scenario_ibbp.frame_list.length
    ∧ (info_at scenario_ibbp.frame_list 3).pict_type = AV_PICTURE_TYPE_B
    ∧ (info_at (mpeg12_video_vc1_genarate_pts scenario_ibbp).frame_list 3).pict_type
        = AV_PICTURE_TYPE_B
    ∧ (info_at (mpeg12_video_vc1_genarate_pts scenario_ibbp).frame_list 3).dts
        = (info_at scenario_ibbp.frame_list 3).dts
    ∧ (info_at (mpeg12_video_vc1_genarate_pts scenario_ibbp).frame_list 3).pts
        = (info_at (mpeg12_video_vc1_genarate_pts scenario_ibbp).frame_list 3).dts :=
  ⟨by decide, by decide, by decide, by decide,
   genarate_pts_b_picture_pts_eq_dts scenario_ibbp 3 (by decide) (by decide) (by decide)
     (by decide)⟩

/-- Witness of C7: three records with PTS 30, 10, 20 in an MP4 file; the list
is re-sorted and both flags survive. -/
theorem decide_video_seek_method_decode_order_monotone_witness :
    scenario_reordered.frame_list.length = 3 + 1
    ∧ (∀ i, 1 ≤ i → i ≤ 3 → (info_at scenario_reordered.frame_list i).sample_number = i)
    ∧ (decide_video_seek_method insertion_qsort true true scenario_mp4
        scenario_reordered 3).2.lw_seek_flags.SEEK_DTS_BASED = true
    ∧ (decide_video_seek_method insertion_qsort true true scenario_mp4
        scenario_reordered 3).2.lw_seek_flags.SEEK_POS_CORRECTION = true
    ∧ ((((decide_video_seek_method insertion_qsort true true scenario_mp4
          scenario_reordered 3).2.frame_list.drop 1).map
        (fun r => r.sample_number)).Perm (List.range' 1 3)
    ∧ ((decide_video_seek_method insertion_qsort true true scenario_mp4
          scenario_reordered 3).2.lw_seek_flags.SEEK_DTS_BASED = true →
        ∀ r ∈ (decide_video_seek_method insertion_qsort true true scenario_mp4
          scenario_reordered 3).2.frame_list.drop 1,
        ∀ r' ∈ (decide_video_seek_method insertion_qsort true true scenario_mp4
          scenario_reordered 3).2.frame_list.drop 1,
          r.sample_number = r'.sample_number + 1 →
          r'.dts < r.dts ∧ r.dts ≠ AV_NOPTS_VALUE)
    ∧ ((decide_video_seek_method insertion_qsort true true scenario_mp4
          scenario_reordered 3).2.lw_seek_flags.SEEK_POS_CORRECTION = true →
        ∀ r ∈ (decide_video_seek_method insertion_qsort true true scenario_mp4
          scenario_reordered 3).2.frame_list.drop 1,
        ∀ r' ∈ (decide_video_seek_method insertion_qsort true true scenario_mp4
          scenario_reordered 3).2.frame_list.drop 1,
          r.sample_number = r'.sample_number + 1 →
          r'.file_offset < r.file_offset ∧ r.file_offset ≠ -1)) :=
  ⟨by decide, by decide, by decide, by decide,
   decide_video_seek_method_decode_order_monotone insertion_qsort true true scenario_mp4
     scenario_reordered 3 (by decide) (by decide)⟩

/-! ## The order converter -/

theorem wrap_int64_eq_self (x : Int) (h1 : -2 ^ 63 ≤ x) (h2 : x < 2 ^ 63) : wrap_int64 x = x := by
  unfold wrap_int64
  omega

theorem compare_pts_le_iff (a b : video_frame_info_t)
    (h1 : -2 ^ 63 ≤ a.pts - b.pts) (h2 : a.pts - b.pts < 2 ^ 63) :
    compare_pts a b ≤ 0 ↔ a.pts ≤ b.pts := by
  unfold compare_pts
  simp only [wrap_int64_eq_self _ h1 h2]
  split
  · constructor
    · intro h; omega
    · intro h; omega
  · split
    · constructor
      · intro _; omega
      · intro _; omega
    · constructor
      · intro _; omega
      · intro _; omega

theorem compare_dts_le_iff (a b : video_timestamp_t)
    (h1 : -2 ^ 63 ≤ a.dts - b.dts) (h2 : a.dts - b.dts < 2 ^ 63) :
    compare_dts a b ≤ 0 ↔ a.dts ≤ b.dts := by
  unfold compare_dts
  simp only [wrap_int64_eq_self _ h1 h2]
  split
  · constructor
    · intro h; omega
    · intro h; omega
  · split
    · constructor
      · intro _; omega
      · intro _; omega
    · constructor
      · intro _; omega
      · intro _; omega

/-- A comparison that agrees with `≤` on an integer key is consistent. -/
theorem cmp_consistent_of_key {α : Type} (cmp : α → α → Int) (key : α → Int) (l : List α)
    (h : ∀ a ∈ l, ∀ b ∈ l, (cmp a b ≤ 0 ↔ key a ≤ key b)) : cmp_consistent cmp l := by
  constructor
  · intro a ha b hb
    rw [h a ha b hb, h b hb a ha]
    omega
  · intro a ha b hb c hc
    rw [h a ha b hb, h b hb c hc, h a ha c hc]
    omega

/-- What `qsort` returns on a list given a comparison that agrees with `≤` on a key:
the keys come out in non-decreasing order. -/
theorem qsort_sorted_key {α : Type} (q : qsort_t) (cmp : α → α → Int) (key : α → Int)
    (l : List α) (h : ∀ a ∈ l, ∀ b ∈ l, (cmp a b ≤ 0 ↔ key a ≤ key b)) :
    ((q.run cmp l).map key).Pairwise (fun x y => x ≤ y) := by
  have hs := q.sorted cmp l (cmp_consistent_of_key cmp key l h)
  have hp := q.perm cmp l
  rw [List.pairwise_map]
  exact hs.imp_of_mem (fun {a b} ha hb hab => (h a (hp.subset ha) b (hp.subset hb)).mp hab)

theorem qsort_from_1_exact {α : Type} (q : qsort_t) (cmp : α → α → Int) (base : List α)
    (n : Nat) (hlen : base.length = n + 1) :
    qsort_from_1 q cmp base n = base.take 1 ++ q.run cmp (base.drop 1) := by
  unfold qsort_from_1
  have h1 : (base.drop 1).take n = base.drop 1 :=
    List.take_of_length_le (by simp [hlen])
  have h2 : base.drop (n + 1) = [] := List.drop_of_length_le (by omega)
  rw [h1, h2, List.append_nil]

theorem map_info_at_range' (info : List video_frame_info_t) (n : Nat)
    (hlen : info.length = n + 1) :
    (List.range' 1 n).map (info_at info) = info.drop 1 := by
  apply List.ext_getElem
  · simp [hlen]
  · intro k h1 h2
    simp only [List.length_map, List.length_range'] at h1
    simp only [List.getElem_map, List.getElem_range', Nat.one_mul, List.getElem_drop]
    unfold info_at
    rw [List.getD_eq_getElem?_getD, List.getElem?_eq_getElem (by omega)]
    simp

theorem pairwise_le_range'_cast (n : Nat) :
    ((List.range' 1 n).map Int.ofNat).Pairwise (fun x y => x ≤ y) := by
  rw [List.pairwise_map]
  have h : (List.range' 1 n).Pairwise (fun a b => a < b) := List.pairwise_lt_range' 1 n
  exact h.imp (fun {a b} hab => by
    show (a : Int) ≤ (b : Int)
    omega)

/-- The order converter that `decide_video_seek_method` builds from a frame list
sorted into presentation order: a permutation of `1..n` that sends the sample
number of the record in slot `p` to `p`. -/
theorem make_order_converter_spec (q : qsort_t) (info_s : List video_frame_info_t) (n : Nat)
    (hn : n < 2 ^ 32) (hlen : info_s.length = n + 1)
    (hperm : ((info_s.drop 1).map (fun r => r.sample_number)).Perm (List.range' 1 n)) :
    (make_order_converter (sort_decoding_order q (make_timestamp info_s n) n) n).length = n + 1
    ∧ ((make_order_converter (sort_decoding_order q (make_timestamp info_s n) n) n).drop 1).Perm
        (List.range' 1 n)
    ∧ ∀ p, 1 ≤ p → p ≤ n →
        (make_order_converter (sort_decoding_order q (make_timestamp info_s n) n) n).getD
          (info_at info_s p).sample_number 0 = p := by
  -- the unsorted timestamps of slots 1..n
  let T : List video_timestamp_t := (List.range' 1 n).map
    (fun (i : Nat) => { pts := Int.ofNat i, dts := Int.ofNat (info_at info_s i).sample_number })
  have hT : make_timestamp info_s n = { pts := 0, dts := 0 } :: T := rfl
  have hTlen : T.length = n := by simp [T]
  have hts : sort_decoding_order q (make_timestamp info_s n) n
      = { pts := 0, dts := 0 } :: q.run compare_dts T := by
    unfold sort_decoding_order
    rw [qsort_from_1_exact q compare_dts _ n (by rw [hT]; simp [hTlen]), hT]
    rfl
  have hTdts : T.map (fun t => t.dts)
      = ((info_s.drop 1).map (fun r => r.sample_number)).map Int.ofNat := by
    rw [← map_info_at_range' info_s n hlen]
    simp only [T, List.map_map]
    rfl
  have hTpts : T.map (fun t => t.pts) = (List.range' 1 n).map Int.ofNat := by
    simp only [T, List.map_map]
    rfl
  have hdts_perm : (T.map (fun t => t.dts)).Perm ((List.range' 1 n).map Int.ofNat) := by
    rw [hTdts]; exact List.Perm.map _ hperm
  have hbound : ∀ a ∈ T, 1 ≤ a.dts ∧ a.dts ≤ (n : Int) := by
    intro a ha
    have h1 : a.dts ∈ T.map (fun t => t.dts) := List.mem_map_of_mem (fun t => t.dts) ha
    have h2 := hdts_perm.subset h1
    obtain ⟨i, hi, he⟩ := List.mem_map.mp h2
    have hi' := List.mem_range'_1.mp hi
    rw [← he]
    show (1 : Int) ≤ (i : Int) ∧ (i : Int) ≤ (n : Int)
    omega
  have hn' : (n : Int) < 2 ^ 32 := by exact_mod_cast hn
  have hkey : ∀ a ∈ T, ∀ b ∈ T, (compare_dts a b ≤ 0 ↔ a.dts ≤ b.dts) := by
    intro a ha b hb
    have h1 := hbound a ha
    have h2 := hbound b hb
    exact compare_dts_le_iff a b (by omega) (by omega)
  have hrun_perm := q.perm compare_dts T
  have hsorted := qsort_sorted_key q compare_dts (fun t => t.dts) T hkey
  have hrun_dts : (q.run compare_dts T).map (fun t => t.dts)
      = (List.range' 1 n).map Int.ofNat :=
    List.eq_of_perm_of_sorted ((List.Perm.map _ hrun_perm).trans hdts_perm) hsorted
      (pairwise_le_range'_cast n)
  have hrun_len : (q.run compare_dts T).length = n := by
    rw [hrun_perm.length_eq]; exact hTlen
  -- the converter, slot 0 apart, is the sorted timestamps mapped to their pts
  have hoc : make_order_converter (sort_decoding_order q (make_timestamp info_s n) n) n
      = 0 :: (q.run compare_dts T).map (fun t => (t.pts % 2 ^ 32).toNat) := by
    unfold make_order_converter
    rw [hts]
    congr 1
    apply List.ext_getElem
    · simp [hrun_len]
    · intro k h1 h2
      simp only [List.length_map, List.length_range'] at h1
      simp only [List.getElem_map, List.getElem_range', Nat.one_mul]
      have e : 1 + k = k + 1 := Nat.add_comm 1 k
      rw [e, List.getD_cons_succ, List.getD_eq_getElem?_getD,
        List.getElem?_eq_getElem (by omega)]
      rfl
  have hcast : ∀ p : Nat, p ≤ n → ((Int.ofNat p) % 2 ^ 32).toNat = p := by
    intro p hp
    have : (Int.ofNat p) % 2 ^ 32 = (p : Int) := by
      apply Int.emod_eq_of_lt
      · exact Int.ofNat_nonneg p
      · show (p : Int) < 2 ^ 32
        omega
    rw [this]
    rfl
  rw [hoc]
  refine ⟨by simp [hrun_len], ?_, ?_⟩
  · simp only [List.drop_succ_cons, List.drop_zero]
    have h1 : ((q.run compare_dts T).map (fun t => (t.pts % 2 ^ 32).toNat)).Perm
        (T.map (fun t => (t.pts % 2 ^ 32).toNat)) := List.Perm.map _ hrun_perm
    have h2 : T.map (fun t => (t.pts % 2 ^ 32).toNat) = List.range' 1 n := by
      apply List.ext_getElem
      · simp [hTlen]
      · intro k h1 h2
        simp only [List.length_map, hTlen] at h1
        simp only [T, List.getElem_map, List.getElem_range', Nat.one_mul]
        exact hcast (1 + k) (by omega)
    rw [h2] at h1
    exact h1
  · intro p hp1 hp2
    have hmem : ({ pts := Int.ofNat p, dts := Int.ofNat (info_at info_s p).sample_number }
        : video_timestamp_t) ∈ T :=
      List.mem_map.mpr ⟨p, List.mem_range'_1.mpr ⟨hp1, by omega⟩, rfl⟩
    have hmem' := hrun_perm.symm.subset hmem
    obtain ⟨k, hk, hkt⟩ := List.mem_iff_getElem.mp hmem'
    have hk' : k < n := by rw [hrun_len] at hk; exact hk
    have hk1 : k < ((q.run compare_dts T).map (fun t => t.dts)).length := by
      simp; exact hk
    have hk2 : k < ((List.range' 1 n).map Int.ofNat).length := by
      simp; exact hk'
    have hd : ((q.run compare_dts T).map (fun t => t.dts))[k]
        = ((List.range' 1 n).map Int.ofNat)[k] := by
      simp only [hrun_dts]
    simp only [List.getElem_map, List.getElem_range', Nat.one_mul, hkt] at hd
    have hs : (info_at info_s p).sample_number = k + 1 := by
      have : ((info_at info_s p).sample_number : Int) = ((1 + k : Nat) : Int) := hd
      omega
    rw [hs, List.getD_cons_succ, List.getD_eq_getElem?_getD,
      List.getElem?_eq_getElem (by simp; exact hk)]
    simp only [List.getElem_map, hkt, Option.getD_some]
    exact hcast p hp2

theorem construct_timestamps_order_converter (lwhp : lwlibav_file_handler_t)
    (vdhp : lwlibav_video_decode_handler_t) (n : Nat) :
    (construct_timestamps lwhp vdhp n).2.order_converter = vdhp.order_converter := by
  unfold construct_timestamps
  simp only
  split <;> rfl

/-- When `decide_video_seek_method` starts without an order converter, returns 0
and leaves one, it went through the branch that sorts the frame list. -/
theorem decide_video_seek_method_built (q : qsort_t) (a b : Bool)
    (lwhp : lwlibav_file_handler_t) (vdhp : lwlibav_video_decode_handler_t) (n : Nat)
    (oc : List Nat) (hnone : vdhp.order_converter = none)
    (hret : (decide_video_seek_method q a b lwhp vdhp n).1 = 0)
    (hoc : (decide_video_seek_method q a b lwhp vdhp n).2.order_converter = some oc) :
    (decide_video_seek_method q a b lwhp vdhp n).2.frame_list
      = treat_unique_as_keyframe (construct_timestamps lwhp vdhp n).2.lw_seek_flags
          (sort_presentation_order q (construct_timestamps lwhp vdhp n).2.frame_list n) n
    ∧ oc = make_order_converter
        (sort_decoding_order q
          (make_timestamp
            (sort_presentation_order q (construct_timestamps lwhp vdhp n).2.frame_list n) n)
          n) n := by
  have hc := construct_timestamps_order_converter lwhp vdhp n
  revert hret hoc
  unfold decide_video_seek_method
  simp only
  split
  · split
    · intro h; simp at h
    · split
      · intro h; simp at h
      · intro _ h
        unfold finish_keyframes at h ⊢
        simp only [Option.some.injEq] at h
        exact ⟨rfl, h.symm⟩
  · split
    · intro _ h
      unfold finish_keyframes at h
      simp only [hc, hnone] at h
      cases h
    · intro _ h
      unfold finish_keyframes at h
      simp only [hc, hnone] at h
      cases h

/-- The order converter, for every input.  When `decide_video_seek_method` builds it for
`N` records whose `sample_number` is their slot: the converter restricted to
`1..N` is a permutation of `1..N`; for every presentation slot `p` the record
left in `frame_list[p]` has `order_converter[frame_list[p].sample_number] = p`;
and, provided no two PTS of the list are `2^63` or more apart (so that the
64-bit difference in `compare_pts` does not overflow), `frame_list[1..N].pts` is
non-decreasing. -/
theorem decide_video_seek_method_order_converter (q : qsort_t) (a b : Bool)
    (lwhp : lwlibav_file_handler_t) (vdhp : lwlibav_video_decode_handler_t) (n : Nat)
    (oc : List Nat) (hn : n < 2 ^ 32)
    (hlen : vdhp.frame_list.length = n + 1)
    (hsn : ∀ i, 1 ≤ i → i ≤ n → (info_at vdhp.frame_list i).sample_number = i)
    (hnone : vdhp.order_converter = none)
    (hret : (decide_video_seek_method q a b lwhp vdhp n).1 = 0)
    (hoc : (decide_video_seek_method q a b lwhp vdhp n).2.order_converter = some oc) :
    oc.length = n + 1
    ∧ (oc.drop 1).Perm (List.range' 1 n)
    ∧ (∀ p, 1 ≤ p → p ≤ n →
        oc.getD (info_at (decide_video_seek_method q a b lwhp vdhp n).2.frame_list p).sample_number
          0 = p)
    ∧ ((∀ r ∈ (decide_video_seek_method q a b lwhp vdhp n).2.frame_list.drop 1,
        ∀ r' ∈ (decide_video_seek_method q a b lwhp vdhp n).2.frame_list.drop 1,
          -2 ^ 63 ≤ r.pts - r'.pts ∧ r.pts - r'.pts < 2 ^ 63) →
        (((decide_video_seek_method q a b lwhp vdhp n).2.frame_list.drop 1).map
          (fun r => r.pts)).Pairwise (fun x y => x ≤ y)) := by
  obtain ⟨hfl, hoc'⟩ := decide_video_seek_method_built q a b lwhp vdhp n oc hnone hret hoc
  have hstat := (construct_timestamps_static lwhp vdhp n).1
  generalize (decide_video_seek_method q a b lwhp vdhp n).2 = out at *
  generalize (construct_timestamps lwhp vdhp n).2 = vdhp1 at *
  have hlen1 : vdhp1.frame_list.length = n + 1 := by
    rw [length_of_map_eq view_static _ _ hstat]; exact hlen
  have hsorted_eq := qsort_from_1_exact q compare_pts vdhp1.frame_list n hlen1
  have hsplit := qsort_from_1_perm q compare_pts vdhp1.frame_list n
  have hlen_s : (sort_presentation_order q vdhp1.frame_list n).length = n + 1 := by
    unfold sort_presentation_order
    rw [hsorted_eq, List.length_append, (q.perm _ _).length_eq]
    simp [hlen1]
    omega
  have hsn_s : (((sort_presentation_order q vdhp1.frame_list n).drop 1).map
      (fun r => r.sample_number)).Perm (List.range' 1 n) := by
    have h1 : ((sort_presentation_order q vdhp1.frame_list n).drop 1).Perm
        (vdhp1.frame_list.drop 1) := hsplit.2
    have h2 := List.Perm.map (fun r : video_frame_info_t => r.sample_number) h1
    have h3 : (vdhp1.frame_list.drop 1).map (fun r => r.sample_number)
        = (vdhp.frame_list.drop 1).map (fun r => r.sample_number) := by
      have e1 : (vdhp1.frame_list.drop 1).map (fun r => r.sample_number)
          = ((vdhp1.frame_list.map view_static).drop 1).map (fun v => v.2.2.1) := by
        rw [← List.map_drop, List.map_map]; rfl
      have e2 : (vdhp.frame_list.drop 1).map (fun r => r.sample_number)
          = ((vdhp.frame_list.map view_static).drop 1).map (fun v => v.2.2.1) := by
        rw [← List.map_drop, List.map_map]; rfl
      rw [e1, e2, hstat]
    rw [h3, map_sample_number_decode_order vdhp.frame_list n hlen hsn] at h2
    exact h2
  have hspec := make_order_converter_spec q (sort_presentation_order q vdhp1.frame_list n) n
    hn hlen_s hsn_s
  rw [← hoc'] at hspec
  have hmap : out.frame_list.map view_ts
      = (sort_presentation_order q vdhp1.frame_list n).map view_ts := by
    rw [hfl]; exact map_treat_unique_as_keyframe view_ts map_view_ts_set_keyframe _ _ _
  have hv := info_at_of_map_eq view_ts _ out.frame_list hmap
  refine ⟨hspec.1, hspec.2.1, ?_, ?_⟩
  · intro p hp1 hp2
    have : (info_at out.frame_list p).sample_number
        = (info_at (sort_presentation_order q vdhp1.frame_list n) p).sample_number := by
      have := congrArg (fun v => v.2.2.2.1) (hv p)
      simpa [view_ts] using this
    rw [this]
    exact hspec.2.2 p hp1 hp2
  · intro hrange
    have hpts : (out.frame_list.drop 1).map (fun r => r.pts)
        = ((sort_presentation_order q vdhp1.frame_list n).drop 1).map (fun r => r.pts) := by
      have e1 : (out.frame_list.drop 1).map (fun r => r.pts)
          = ((out.frame_list.map view_ts).drop 1).map (fun v => v.1) := by
        rw [← List.map_drop, List.map_map]; rfl
      have e2 : ((sort_presentation_order q vdhp1.frame_list n).drop 1).map (fun r => r.pts)
          = (((sort_presentation_order q vdhp1.frame_list n).map view_ts).drop 1).map
              (fun v => v.1) := by
        rw [← List.map_drop, List.map_map]; rfl
      rw [e1, e2, hmap]
    have hdrop : (sort_presentation_order q vdhp1.frame_list n).drop 1
        = q.run compare_pts (vdhp1.frame_list.drop 1) := by
      unfold sort_presentation_order
      rw [hsorted_eq]
      have : (vdhp1.frame_list.take 1).length = 1 := by simp [hlen1]
      rw [List.drop_append_of_le_length (by omega), List.drop_of_length_le (by omega)]
      rfl
    have hrange' : ∀ r ∈ vdhp1.frame_list.drop 1, ∀ r' ∈ vdhp1.frame_list.drop 1,
        -2 ^ 63 ≤ r.pts - r'.pts ∧ r.pts - r'.pts < 2 ^ 63 := by
      have hback : ∀ r ∈ vdhp1.frame_list.drop 1,
          ∃ r2 ∈ out.frame_list.drop 1, r2.pts = r.pts := by
        intro r hr
        have h1 : r ∈ q.run compare_pts (vdhp1.frame_list.drop 1) :=
          (q.perm compare_pts _).symm.subset hr
        rw [← hdrop] at h1
        have h2 : r.pts ∈ ((sort_presentation_order q vdhp1.frame_list n).drop 1).map
            (fun r => r.pts) := List.mem_map_of_mem (fun r => r.pts) h1
        rw [← hpts] at h2
        obtain ⟨r2, hr2, he⟩ := List.mem_map.mp h2
        exact ⟨r2, hr2, he⟩
      intro r hr r' hr'
      obtain ⟨r2, hr2, he⟩ := hback r hr
      obtain ⟨r2', hr2', he'⟩ := hback r' hr'
      rw [← he, ← he']
      exact hrange r2 hr2 r2' hr2'
    rw [hpts, hdrop]
    exact qsort_sorted_key q compare_pts (fun r => r.pts) _
      (fun x hx y hy => compare_pts_le_iff x y (hrange' x hx y hy).1 (hrange' x hx y hy).2)

/-- C5 (the code at the failing input). Two records with PTS `2^63 - 1` and
`-2` in an MP4 file: `check_frame_reordering`, which compares with `<`, detects
the reordering and the order converter is built, but the 64-bit difference in
`compare_pts` overflows (it wraps around to a negative number), the sort leaves
the records where they are, and `frame_list[1..2].pts` is decreasing. -/
theorem decide_video_seek_method_far_apart_pts :
    (decide_video_seek_method insertion_qsort true true scenario_mp4
        scenario_far_apart_pts 2).1 = 0
    ∧ (decide_video_seek_method insertion_qsort true true scenario_mp4
        scenario_far_apart_pts 2).2.order_converter = some [0, 1, 2]
    ∧ (decide_video_seek_method insertion_qsort true true scenario_mp4
        scenario_far_apart_pts 2).2.frame_list.map (fun r => r.pts)
        = [0, 9223372036854775807, -2]
    ∧ ¬ (((decide_video_seek_method insertion_qsort true true scenario_mp4
        scenario_far_apart_pts 2).2.frame_list.drop 1).map
          (fun r => r.pts)).Pairwise (fun x y => x ≤ y) := by
  have h : (decide_video_seek_method insertion_qsort true true scenario_mp4
        scenario_far_apart_pts 2).2.frame_list.map (fun r => r.pts)
        = [0, 9223372036854775807, -2] := by rfl
  refine ⟨by rfl, by rfl, h, ?_⟩
  rw [List.map_drop, h]
  decide

set_option maxRecDepth 20000 in
/-- Witness of the order converter theorem: three records with PTS 30, 10, 20
in an MP4 file; the converter is `[_, 3, 1, 2]`. -/
theorem decide_video_seek_method_order_converter_witness :
    3 < 2 ^ 32
    ∧ scenario_reordered.frame_list.length = 3 + 1
    ∧ (∀ i, 1 ≤ i → i ≤ 3 → (info_at scenario_reordered.frame_list i).sample_number = i)
    ∧ scenario_reordered.order_converter = none
    ∧ (decide_video_seek_method insertion_qsort true true scenario_mp4 scenario_reordered 3).1 = 0
    ∧ (decide_video_seek_method insertion_qsort true true scenario_mp4
        scenario_reordered 3).2.order_converter = some [0, 3, 1, 2]
    ∧ (∀ r ∈ (decide_video_seek_method insertion_qsort true true scenario_mp4
          scenario_reordered 3).2.frame_list.drop 1,
        ∀ r' ∈ (decide_video_seek_method insertion_qsort true true scenario_mp4
          scenario_reordered 3).2.frame_list.drop 1,
          -2 ^ 63 ≤ r.pts - r'.pts ∧ r.pts - r'.pts < 2 ^ 63)
    ∧ [0, 3, 1, 2].length = 3 + 1
    ∧ ([0, 3, 1, 2].drop 1).Perm (List.range' 1 3)
    ∧ (∀ p, 1 ≤ p → p ≤ 3 →
        [0, 3, 1, 2].getD (info_at (decide_video_seek_method insertion_qsort true true
          scenario_mp4 scenario_reordered 3).2.frame_list p).sample_number 0 = p)
    ∧ (((decide_video_seek_method insertion_qsort true true scenario_mp4
          scenario_reordered 3).2.frame_list.drop 1).map
          (fun r => r.pts)).Pairwise (fun x y => x ≤ y) :=
  have hr : ∀ r ∈ (decide_video_seek_method insertion_qsort true true scenario_mp4
          scenario_reordered 3).2.frame_list.drop 1,
        ∀ r' ∈ (decide_video_seek_method insertion_qsort true true scenario_mp4
          scenario_reordered 3).2.frame_list.drop 1,
          -2 ^ 63 ≤ r.pts - r'.pts ∧ r.pts - r'.pts < 2 ^ 63 := by decide
  have h := decide_video_seek_method_order_converter insertion_qsort true true scenario_mp4
    scenario_reordered 3 [0, 3, 1, 2] (by decide) (by decide) (by decide) (by decide)
    (by decide) (by decide)
  ⟨by decide, by decide, by decide, by decide, by decide, by decide, hr,
   h.1, h.2.1, h.2.2.1, h.2.2.2 hr⟩

/-- A rearrangement whose keys are non-decreasing is determined when the keys
are pairwise different. -/
theorem perm_sorted_unique {α : Type} (key : α → Int) (l1 l2 : List α) (hp : l1.Perm l2)
    (h1 : (l1.map key).Pairwise (fun x y => x ≤ y))
    (h2 : (l2.map key).Pairwise (fun x y => x < y)) : l1 = l2 := by
  have hkeys : l1.map key = l2.map key :=
    List.eq_of_perm_of_sorted (List.Perm.map key hp) h1
      (h2.imp (fun {a b} hab => Int.le_of_lt hab))
  have hnodup : (l2.map key).Nodup := h2.imp (fun {a b} hab => Int.ne_of_lt hab)
  have hinj := List.inj_on_of_nodup_map hnodup
  apply List.ext_getElem hp.length_eq
  intro k hk1 hk2
  have hk : key l1[k] = key l2[k] := by
    have := congrArg (fun m => m[k]?) hkeys
    simpa [List.getElem?_map, List.getElem?_eq_getElem hk1, List.getElem?_eq_getElem hk2]
      using this
  exact hinj (hp.subset (List.getElem_mem hk1)) (List.getElem_mem hk2) hk

/-- C9 (amended). I P B B P with dts 0..4 and no PTS, MPEG-2 video in a
transport stream: `mpeg12_video_vc1_genarate_pts` leaves the records, in decode
order, with pts 1, 4, 2, 3, 5; `decide_video_seek_method` (with any `qsort`)
then sorts `frame_list` into presentation order, where decode indices
1, 3, 4, 2, 5 carry pts 1, 2, 3, 4, 5. -/
theorem decide_video_seek_method_ibbp (q : qsort_t) :
    (mpeg12_video_vc1_genarate_pts scenario_ibbp).frame_list.map
        (fun r => (r.sample_number, r.pts)) = [(0, 0), (1, 1), (2, 4), (3, 2), (4, 3), (5, 5)]
    ∧ (decide_video_seek_method q true true scenario_mpegts scenario_ibbp 5).1 = 0
    ∧ (decide_video_seek_method q true true scenario_mpegts scenario_ibbp 5).2.frame_list.map
        (fun r => (r.sample_number, r.pts)) = [(0, 0), (1, 1), (3, 2), (4, 3), (2, 4), (5, 5)] := by
  have hret : (decide_video_seek_method q true true scenario_mpegts scenario_ibbp 5).1 = 0 := rfl
  have hoc : (decide_video_seek_method q true true scenario_mpegts
      scenario_ibbp 5).2.order_converter = some (make_order_converter
        (sort_decoding_order q
          (make_timestamp
            (sort_presentation_order q
              (construct_timestamps scenario_mpegts scenario_ibbp 5).2.frame_list 5) 5)
          5) 5) := rfl
  obtain ⟨hfl, _⟩ := decide_video_seek_method_built q true true scenario_mpegts scenario_ibbp 5
    _ rfl hret hoc
  refine ⟨by decide, hret, ?_⟩
  rw [hfl]
  have hsort : sort_presentation_order q
      (construct_timestamps scenario_mpegts scenario_ibbp 5).2.frame_list 5
      = [ video_frame_info_zero,
          scenario_record 1 0 1000 1 1 1,
          scenario_record 2 2 3000 3 3 0,
          scenario_record 3 3 4000 4 3 0,
          scenario_record 4 1 2000 2 2 0,
          scenario_record 5 4 5000 5 2 0 ] := by
    unfold sort_presentation_order
    rw [qsort_from_1_exact q compare_pts _ 5 (by decide)]
    have hrun : q.run compare_pts
        ((construct_timestamps scenario_mpegts scenario_ibbp 5).2.frame_list.drop 1)
        = [ scenario_record 1 0 1000 1 1 1,
            scenario_record 2 2 3000 3 3 0,
            scenario_record 3 3 4000 4 3 0,
            scenario_record 4 1 2000 2 2 0,
            scenario_record 5 4 5000 5 2 0 ] := by
      apply perm_sorted_unique (fun r => r.pts)
      · refine (q.perm compare_pts _).trans ?_
        have : (construct_timestamps scenario_mpegts scenario_ibbp 5).2.frame_list.drop 1
            = [ scenario_record 1 0 1000 1 1 1,
                scenario_record 4 1 2000 2 2 0,
                scenario_record 2 2 3000 3 3 0,
                scenario_record 3 3 4000 4 3 0,
                scenario_record 5 4 5000 5 2 0 ] := by decide
        rw [this]
        decide
      · apply qsort_sorted_key q compare_pts (fun r => r.pts)
        decide
      · decide
    rw [hrun]
    decide
  rw [hsort]
  decide

/-! ## The extradata tracker -/

theorem same_blob_symm {a b : lwlibav_extradata_t} (h : same_blob a b) : same_blob b a :=
  ⟨h.1.symm, h.2.symm⟩

theorem same_blob_trans {a b c : lwlibav_extradata_t} (h1 : same_blob a b)
    (h2 : same_blob b c) : same_blob a c :=
  ⟨h1.1.trans h2.1, h1.2.trans h2.2⟩

/-- The test the tracker makes on an entry (equal sizes and `memcmp` 0) is the
relation `same_blob`. -/
theorem same_blob_iff_test (cur e : lwlibav_extradata_t) :
    same_blob e cur ↔
      (cur.extradata_size = e.extradata_size
        ∧ memcmp_ne cur.extradata e.extradata cur.extradata_size = false) := by
  unfold same_blob blob_bytes memcmp_ne
  constructor
  · rintro ⟨h1, h2⟩
    refine ⟨h1.symm, ?_⟩
    rw [h1] at h2
    simp [h2]
  · rintro ⟨h1, h2⟩
    refine ⟨h1.symm, ?_⟩
    rw [← h1]
    have := h2
    simp only [decide_eq_false_iff_not, ne_eq, not_not] at this
    exact this.symm

theorem same_blob_iff_loop_test (cur e : lwlibav_extradata_t) :
    same_blob e cur ↔
      ((decide (cur.extradata_size = e.extradata_size)
        && (decide (cur.extradata_size = 0)
            || !memcmp_ne cur.extradata e.extradata cur.extradata_size)) = true) := by
  rw [same_blob_iff_test]
  simp only [Bool.and_eq_true, Bool.or_eq_true, decide_eq_true_eq, Bool.not_eq_true']
  constructor
  · rintro ⟨h1, h2⟩; exact ⟨h1, Or.inr h2⟩
  · rintro ⟨h1, h2 | h2⟩
    · refine ⟨h1, ?_⟩
      unfold memcmp_ne
      simp [h2]
    · exact ⟨h1, h2⟩

theorem current_before_split_valid (c : extradata_call) (hc : valid_extradata_call c) :
    valid_buffer (current_before_split c.stream c.pkt).extradata
      (current_before_split c.stream c.pkt).extradata_size := by
  unfold current_before_split
  cases hf : find_new_extradata c.pkt with
  | none => exact hc.1
  | some sd => exact hc.2.1 sd (List.mem_of_find?_eq_some hf)

/-- The candidate that `import_extradata` assembles from readable buffers is a
readable buffer. -/
theorem import_extradata_valid (list : lwlibav_extradata_handler_t) (c : extradata_call)
    (hc : valid_extradata_call c) (cur : lwlibav_extradata_t)
    (h : import_extradata list c.stream c.pkt = some cur) :
    valid_buffer cur.extradata cur.extradata_size := by
  have hcur := current_before_split_valid c hc
  obtain ⟨hctx, hside, hpkt, hsplit⟩ := hc
  unfold import_extradata at h
  split at h
  · cases h
  · split at h
    · cases hs : c.stream.parser_split with
      | none =>
        rw [hs] at h
        simp only [Option.some.injEq] at h
        rw [← h]; exact hcur
      | some split =>
        rw [hs] at h
        simp only at h
        split at h
        · rename_i hpos
          simp only [Option.some.injEq] at h
          rw [← h]
          have := hsplit split hs
          exact ⟨Int.le_of_lt hpos, Int.le_trans this hpkt.2⟩
        · split at h
          · cases h
          · simp only [Option.some.injEq] at h
            rw [← h]; exact hcur
    · simp only [Option.some.injEq] at h
      rw [← h]; exact hcur

theorem blob_bytes_length (cur : lwlibav_extradata_t)
    (hv : valid_buffer cur.extradata cur.extradata_size) :
    Int.ofNat (blob_bytes cur).length = cur.extradata_size := by
  unfold blob_bytes
  obtain ⟨h1, h2⟩ := hv
  rw [List.length_take]
  have h3 : Int.ofNat cur.extradata_size.toNat = cur.extradata_size := Int.toNat_of_nonneg h1
  have h4 : cur.extradata_size.toNat ≤ (cur.extradata.getD []).length := by
    have : Int.ofNat cur.extradata_size.toNat ≤ Int.ofNat (cur.extradata.getD []).length := by
      rw [h3]; exact h2
    exact Int.ofNat_le.mp this
  rw [Nat.min_eq_left h4]
  exact h3

/-- What the copy statements leave in the entry that was just allocated. -/
theorem copy_extradata_spec (malloc_ok : Bool) (ci : Int) (old : List lwlibav_extradata_t)
    (cur : lwlibav_extradata_t) (hv : valid_buffer cur.extradata cur.extradata_size) :
    ∃ x, (copy_extradata malloc_ok
            { current_index := ci, entries := old ++ [extradata_entry_init] } old.length cur).2
          = { current_index := ci, entries := old ++ [x] }
      ∧ (((copy_extradata malloc_ok
            { current_index := ci, entries := old ++ [extradata_entry_init] } old.length cur).1
            = true ∧ same_blob x cur ∧ stored_entry x)
        ∨ ((copy_extradata malloc_ok
            { current_index := ci, entries := old ++ [extradata_entry_init] } old.length cur).1
            = false ∧ x.extradata = none ∧ 0 < x.extradata_size)) := by
  have hget : (old ++ [extradata_entry_init]).getD old.length extradata_entry_init
      = extradata_entry_init := by
    simp [List.getD_eq_getElem?_getD]
  have hset : ∀ y, (old ++ [extradata_entry_init]).set old.length y = old ++ [y] := by
    intro y
    simp [List.set_append]
  unfold copy_extradata
  by_cases hc : cur.extradata.isSome = true ∧ cur.extradata_size > 0
  · rw [if_pos hc]
    simp only [hget, hset]
    cases malloc_ok with
    | true =>
      refine ⟨_, rfl, Or.inl ⟨rfl, ?_, ?_⟩⟩
      · refine ⟨rfl, ?_⟩
        show List.take cur.extradata_size.toNat (blob_bytes cur) = blob_bytes cur
        apply List.take_of_length_le
        have := blob_bytes_length cur hv
        have h3 : Int.ofNat cur.extradata_size.toNat = cur.extradata_size :=
          Int.toNat_of_nonneg hv.1
        have h5 : Int.ofNat (blob_bytes cur).length ≤ Int.ofNat cur.extradata_size.toNat := by
          rw [this, h3]
        exact Int.ofNat_le.mp h5
      · right
        refine ⟨blob_bytes cur, rfl, (blob_bytes_length cur hv).symm, ?_⟩
        have := blob_bytes_length cur hv
        have h6 : (0 : Int) < Int.ofNat (blob_bytes cur).length := by rw [this]; exact hc.2
        exact Int.ofNat_lt.mp h6
    | false =>
      exact ⟨_, rfl, Or.inr ⟨rfl, rfl, hc.2⟩⟩
  · rw [if_neg hc]
    refine ⟨extradata_entry_init, rfl, Or.inl ⟨rfl, ?_, Or.inl ⟨rfl, rfl⟩⟩⟩
    have hsize : cur.extradata_size = 0 := by
      obtain ⟨h1, h2⟩ := hv
      by_cases hs : cur.extradata.isSome = true
      · have : ¬ cur.extradata_size > 0 := fun h => hc ⟨hs, h⟩
        omega
      · have hn : cur.extradata = none := by
          cases h : cur.extradata with
          | none => rfl
          | some v => rw [h] at hs; simp at hs
        rw [hn] at h2
        simp at h2
        omega
    refine ⟨hsize.symm, ?_⟩
    unfold blob_bytes
    rw [hsize]
    simp [extradata_entry_init]

theorem getD_entries_lt (l : List lwlibav_extradata_t) (i : Nat) (h : i < l.length) :
    l.getD i extradata_entry_init = l[i] := by
  rw [List.getD_eq_getElem?_getD, List.getElem?_eq_getElem h]; rfl

/-- In a list of pairwise different blobs, an index whose entry matches the
candidate is the smallest such index. -/
theorem pairwise_same_blob_smallest (l : List lwlibav_extradata_t)
    (hp : l.Pairwise (fun a b => ¬ same_blob a b)) (cur : lwlibav_extradata_t) (j : Nat)
    (hj : j < l.length) (hsame : same_blob (l.getD j extradata_entry_init) cur) :
    ∀ i, i < j → ¬ same_blob (l.getD i extradata_entry_init) cur := by
  intro i hij hi
  rw [getD_entries_lt l j hj] at hsame
  rw [getD_entries_lt l i (by omega)] at hi
  exact (List.pairwise_iff_getElem.mp hp) i j (by omega) hj hij
    (same_blob_trans hi (same_blob_symm hsame))

theorem entry_count_eq_zero (list : lwlibav_extradata_handler_t) :
    entry_count list = 0 ↔ list.entries = [] := by
  unfold entry_count
  constructor
  · intro h
    have : list.entries.length = 0 := by
      have : Int.ofNat list.entries.length = Int.ofNat 0 := h
      exact Int.ofNat_inj.mp this
    exact List.length_eq_zero.mp this
  · intro h; rw [h]; rfl

/-- The comparison step of the tracker on a list that satisfies the invariant,
for a readable candidate. -/
theorem register_extradata_spec (realloc_ok malloc_ok : Bool)
    (list : lwlibav_extradata_handler_t) (cur : lwlibav_extradata_t)
    (hinv : tracker_inv list) (hv : valid_buffer cur.extradata cur.extradata_size) :
    (register_extradata realloc_ok malloc_ok list cur).2.entries.Pairwise
        (fun a b => ¬ same_blob a b)
    ∧ (0 ≤ (register_extradata realloc_ok malloc_ok list cur).1 →
        tracker_inv (register_extradata realloc_ok malloc_ok list cur).2
        ∧ (register_extradata realloc_ok malloc_ok list cur).2.current_index
            = (register_extradata realloc_ok malloc_ok list cur).1
        ∧ (register_extradata realloc_ok malloc_ok list cur).1.toNat
            < (register_extradata realloc_ok malloc_ok list cur).2.entries.length
        ∧ same_blob
            ((register_extradata realloc_ok malloc_ok list cur).2.entries.getD
              (register_extradata realloc_ok malloc_ok list cur).1.toNat extradata_entry_init)
            cur) := by
  obtain ⟨hstored, hpair, hci0, hci⟩ := hinv
  unfold register_extradata
  by_cases hempty : entry_count list = 0
  · rw [if_pos hempty]
    have hnil := (entry_count_eq_zero list).mp hempty
    unfold alloc_extradata_entries
    cases realloc_ok with
    | false =>
      simp only [Bool.false_eq_true, if_false]
      exact ⟨hpair, fun h => absurd h (by decide)⟩
    | true =>
      simp only [if_true, hnil, List.length_nil, Nat.sub_zero, List.replicate_one,
        List.nil_append]
      obtain ⟨x, hx, hcase⟩ := copy_extradata_spec malloc_ok 0 [] cur hv
      simp only [List.nil_append, List.length_nil] at hx hcase
      generalize copy_extradata malloc_ok
        { current_index := 0, entries := [extradata_entry_init] } 0 cur = r at hx hcase ⊢
      obtain ⟨r1, r2⟩ := r
      simp only at hx hcase
      subst hx
      rcases hcase with ⟨h1, h2, h3⟩ | ⟨h1, _, _⟩
      · subst h1
        simp only [if_true]
        refine ⟨List.pairwise_singleton _ _, fun _ => ⟨⟨?_, List.pairwise_singleton _ _,
          Int.le_refl 0, fun _ => by simp⟩, by first | rfl | trivial, by simp, ?_⟩⟩
        · intro e he
          simp only [List.mem_singleton] at he
          rw [he]; exact h3
        · simpa using h2
      · subst h1
        simp only [Bool.false_eq_true, if_false]
        exact ⟨List.pairwise_singleton _ _, fun h => absurd h (by decide)⟩
  · rw [if_neg hempty]
    have hne : list.entries ≠ [] := fun h => hempty ((entry_count_eq_zero list).mpr h)
    have hcilt := hci hne
    have hcur_entry : list.entries.getD list.current_index.toNat extradata_entry_init
        = list.entries[list.current_index.toNat] := getD_entries_lt _ _ hcilt
    by_cases hdiff : cur.extradata_size
        ≠ (list.entries.getD list.current_index.toNat extradata_entry_init).extradata_size
        ∨ memcmp_ne cur.extradata
            (list.entries.getD list.current_index.toNat extradata_entry_init).extradata
            cur.extradata_size = true
    · rw [if_pos hdiff]
      cases hfind : find_same_extradata list cur with
      | some i =>
        simp only
        unfold find_same_extradata at hfind
        have hmem := List.mem_of_find?_eq_some hfind
        have hi : i < list.entries.length := List.mem_range.mp hmem
        have hprop := List.find?_some hfind
        simp only [Bool.and_assoc, Bool.and_eq_true] at hprop
        have hsame : same_blob (list.entries.getD i extradata_entry_init) cur :=
          (same_blob_iff_loop_test cur _).mpr (by
            simp only [Bool.and_eq_true]; exact hprop.2)
        refine ⟨hpair, fun _ => ⟨⟨hstored, hpair, Int.ofNat_nonneg i, fun _ => by
          simpa using hi⟩, by first | rfl | trivial, by simpa using hi, by simpa using hsame⟩⟩
      | none =>
        simp only
        unfold alloc_extradata_entries
        cases realloc_ok with
        | false =>
          simp only [Bool.false_eq_true, if_false]
          exact ⟨hpair, fun h => absurd h (by decide)⟩
        | true =>
          simp only [if_true, Nat.add_sub_cancel_left, List.replicate_one]
          -- no entry of the list holds the candidate
          have hnone : ∀ e ∈ list.entries, ¬ same_blob e cur := by
            intro e he hse
            obtain ⟨k, hk, hke⟩ := List.mem_iff_getElem.mp he
            by_cases hkc : Int.ofNat k = list.current_index
            · have hk2 : list.current_index.toNat = k := by rw [← hkc]; rfl
              have h1 := (same_blob_iff_test cur e).mp hse
              rw [hcur_entry] at hdiff
              simp only [hk2, hke] at hdiff
              rcases hdiff with hd | hd
              · exact hd h1.1
              · rw [h1.2] at hd; exact absurd hd (by decide)
            · unfold find_same_extradata at hfind
              have := List.find?_eq_none.mp hfind k (List.mem_range.mpr hk)
              apply this
              have h2 := (same_blob_iff_loop_test cur e).mp hse
              rw [getD_entries_lt _ _ hk, hke]
              simp only [Bool.and_eq_true, decide_eq_true_eq, ne_eq] at h2 ⊢
              exact ⟨⟨hkc, h2.1⟩, h2.2⟩
          obtain ⟨x, hx, hcase⟩ :=
            copy_extradata_spec malloc_ok list.current_index list.entries cur hv
          generalize copy_extradata malloc_ok
            { current_index := list.current_index,
              entries := list.entries ++ [extradata_entry_init] }
            list.entries.length cur = r at hx hcase ⊢
          obtain ⟨r1, r2⟩ := r
          simp only at hx hcase
          subst hx
          rcases hcase with ⟨h1, h2, h3⟩ | ⟨h1, h4, h5⟩
          · subst h1
            simp only [if_true]
            have hpair' : (list.entries ++ [x]).Pairwise (fun a b => ¬ same_blob a b) := by
              rw [List.pairwise_append]
              refine ⟨hpair, List.pairwise_singleton _ _, ?_⟩
              intro a ha b hb
              simp only [List.mem_singleton] at hb
              rw [hb]
              exact fun hab => hnone a ha (same_blob_trans hab h2)
            have hec : entry_count
                { current_index := list.current_index, entries := list.entries ++ [x] } - 1
                = Int.ofNat list.entries.length := by
              unfold entry_count
              simp only [List.length_append, List.length_singleton]
              show ((list.entries.length + 1 : Nat) : Int) - 1 = (list.entries.length : Int)
              omega
            rw [hec]
            refine ⟨hpair', fun _ => ⟨⟨?_, hpair', Int.ofNat_nonneg _, fun _ => by simp⟩,
              by first | rfl | trivial, by simp, ?_⟩⟩
            · intro e he
              rcases List.mem_append.mp he with he | he
              · exact hstored e he
              · simp only [List.mem_singleton] at he
                rw [he]; exact h3
            · simp only [Int.toNat_ofNat, List.getD_eq_getElem?_getD]
              simpa using h2
          · subst h1
            simp only [Bool.false_eq_true, if_false]
            refine ⟨?_, fun h => absurd h (by decide)⟩
            show (list.entries ++ [x]).Pairwise (fun a b => ¬ same_blob a b)
            rw [List.pairwise_append]
            refine ⟨hpair, List.pairwise_singleton _ _, ?_⟩
            intro a ha b hb hab
            simp only [List.mem_singleton] at hb
            rw [hb] at hab
            have hbx : blob_bytes x = [] := by unfold blob_bytes; rw [h4]; simp
            rcases hstored a ha with ⟨_, hs⟩ | ⟨bs, hbs, hsize, hlen⟩
            · have := hab.1; omega
            · have h6 : blob_bytes a = bs := by
                unfold blob_bytes
                rw [hbs, hsize]
                simp
              have h7 := hab.2
              rw [h6, hbx] at h7
              rw [h7] at hlen
              simp at hlen
    · rw [if_neg hdiff]
      have hsame : same_blob (list.entries.getD list.current_index.toNat extradata_entry_init)
          cur := by
        apply (same_blob_iff_test cur _).mpr
        constructor
        · by_contra h; exact hdiff (Or.inl h)
        · cases hm : memcmp_ne cur.extradata
            (list.entries.getD list.current_index.toNat extradata_entry_init).extradata
            cur.extradata_size with
          | false => rfl
          | true => exact absurd (Or.inr hm) hdiff
      exact ⟨hpair, fun _ => ⟨⟨hstored, hpair, hci0, hci⟩, rfl, hcilt, hsame⟩⟩

/-- One call of the tracker on a list that satisfies the invariant. -/
theorem append_extradata_if_new_spec (list : lwlibav_extradata_handler_t)
    (c : extradata_call) (hinv : tracker_inv list) (hc : valid_extradata_call c) :
    (append_extradata_if_new c.realloc_ok c.malloc_ok list c.stream c.pkt).2.1.entries.Pairwise
        (fun a b => ¬ same_blob a b)
    ∧ (0 ≤ (append_extradata_if_new c.realloc_ok c.malloc_ok list c.stream c.pkt).1 →
        tracker_inv (append_extradata_if_new c.realloc_ok c.malloc_ok list c.stream c.pkt).2.1) := by
  unfold append_extradata_if_new
  cases himp : import_extradata list c.stream c.pkt with
  | none => exact ⟨hinv.2.1, fun _ => hinv⟩
  | some cur =>
    have hv := import_extradata_valid list c hc cur himp
    have h := register_extradata_spec c.realloc_ok c.malloc_ok list cur hinv hv
    exact ⟨h.1, fun h0 => (h.2 h0).1⟩

theorem tracker_inv_zero : tracker_inv extradata_handler_zero :=
  ⟨fun e he => by simp [extradata_handler_zero] at he, List.Pairwise.nil, Int.le_refl 0,
   fun h => absurd rfl h⟩

/-- The scan of one stream's packets: the entries stay pairwise different, and
while no call has failed the invariant holds. -/
theorem run_extradata_calls_spec (calls : List extradata_call) :
    ∀ (list : lwlibav_extradata_handler_t), tracker_inv list →
      (∀ c ∈ calls, valid_extradata_call c) →
      (run_extradata_calls list calls).2.entries.Pairwise (fun a b => ¬ same_blob a b)
      ∧ (0 ≤ (run_extradata_calls list calls).1 →
          tracker_inv (run_extradata_calls list calls).2) := by
  induction calls with
  | nil => intro list hinv _; exact ⟨hinv.2.1, fun _ => hinv⟩
  | cons c cs ih =>
    intro list hinv hvalid
    have hc := hvalid c (List.mem_cons_self c cs)
    have hstep := append_extradata_if_new_spec list c hinv hc
    unfold run_extradata_calls
    simp only
    by_cases hneg : (append_extradata_if_new c.realloc_ok c.malloc_ok list c.stream c.pkt).1 < 0
    · rw [if_pos hneg]
      exact ⟨hstep.1, fun h => by omega⟩
    · rw [if_neg hneg]
      have hinv' := hstep.2 (by omega)
      cases cs with
      | nil => exact ⟨hstep.1, fun _ => hinv'⟩
      | cons c2 cs2 =>
        exact ih _ hinv' (fun x hx => hvalid x (List.mem_cons_of_mem c hx))

/-- C2. Starting from the empty list, after the calls of
`append_extradata_if_new` that a scan makes (it stops at the first call that
fails) no two entries of the list hold the same blob, that is, have equal size
and equal bytes.  The buffers handed to the calls are readable. -/
theorem extradata_entries_pairwise_distinct (calls : List extradata_call)
    (hvalid : ∀ c ∈ calls, valid_extradata_call c) :
    (run_extradata_calls extradata_handler_zero calls).2.entries.Pairwise
      (fun a b => ¬ (a.extradata_size = b.extradata_size ∧ blob_bytes a = blob_bytes b)) :=
  (run_extradata_calls_spec calls extradata_handler_zero tracker_inv_zero hvalid).1

/-- C1. A call of `append_extradata_if_new` that follows the successful calls
of a scan, reaches the comparison step with candidate `current`, and returns an
index `e >= 0`: the entry at `e` holds the candidate blob (equal size, equal
bytes), and no entry at a smaller index does. -/
theorem append_extradata_if_new_smallest_index (calls : List extradata_call)
    (c : extradata_call) (current : lwlibav_extradata_t)
    (hvalid : ∀ x ∈ calls, valid_extradata_call x) (hc : valid_extradata_call c)
    (hrun : 0 ≤ (run_extradata_calls extradata_handler_zero calls).1)
    (hreach : import_extradata (run_extradata_calls extradata_handler_zero calls).2
      c.stream c.pkt = some current)
    (hret : 0 ≤ (append_extradata_if_new c.realloc_ok c.malloc_ok
      (run_extradata_calls extradata_handler_zero calls).2 c.stream c.pkt).1) :
    (append_extradata_if_new c.realloc_ok c.malloc_ok
        (run_extradata_calls extradata_handler_zero calls).2 c.stream c.pkt).1.toNat
      < (append_extradata_if_new c.realloc_ok c.malloc_ok
        (run_extradata_calls extradata_handler_zero calls).2 c.stream c.pkt).2.1.entries.length
    ∧ same_blob
        ((append_extradata_if_new c.realloc_ok c.malloc_ok
          (run_extradata_calls extradata_handler_zero calls).2 c.stream c.pkt).2.1.entries.getD
          (append_extradata_if_new c.realloc_ok c.malloc_ok
            (run_extradata_calls extradata_handler_zero calls).2 c.stream c.pkt).1.toNat
          extradata_entry_init)
        current
    ∧ ∀ i, i < (append_extradata_if_new c.realloc_ok c.malloc_ok
          (run_extradata_calls extradata_handler_zero calls).2 c.stream c.pkt).1.toNat →
        ¬ same_blob
          ((append_extradata_if_new c.realloc_ok c.malloc_ok
            (run_extradata_calls extradata_handler_zero calls).2 c.stream c.pkt).2.1.entries.getD
            i extradata_entry_init)
          current := by
  have hinv := (run_extradata_calls_spec calls extradata_handler_zero tracker_inv_zero
    hvalid).2 hrun
  generalize (run_extradata_calls extradata_handler_zero calls).2 = list at *
  have hv := import_extradata_valid list c hc current hreach
  have hspec := register_extradata_spec c.realloc_ok c.malloc_ok list current hinv hv
  have heq : append_extradata_if_new c.realloc_ok c.malloc_ok list c.stream c.pkt
      = ((register_extradata c.realloc_ok c.malloc_ok list current).1,
         (register_extradata c.realloc_ok c.malloc_ok list current).2, c.pkt) := by
    unfold append_extradata_if_new
    rw [hreach]
  rw [heq] at hret ⊢
  simp only at hret ⊢
  obtain ⟨_, _, hlt, hsame⟩ := hspec.2 hret
  exact ⟨hlt, hsame, pairwise_same_blob_smallest _ hspec.1 current _ hlt hsame⟩

/-! ## Audio length accounting -/

theorem get_audio_frame_length_cases (helper : audio_helper_t) (probe : audio_probe_t)
    (hs : sane_probe probe) :
    (get_audio_frame_length helper probe
        = (-1, { parser_ctx := false, delay_count := wrap_uint32 (helper.delay_count + 1) }))
    ∨ ((get_audio_frame_length helper probe).2 = helper
        ∧ 0 ≤ (get_audio_frame_length helper probe).1
        ∧ (get_audio_frame_length helper probe).1 ≤ Int.ofNat INT32_MAX) := by
  obtain ⟨⟨h1, h2⟩, ⟨h3, h4⟩, ⟨h5, h6⟩⟩ := hs
  have hfl : 0 ≤ (if helper.parser_ctx = true then probe.duration
        else if helper.delay_count = 0 then probe.frame_size else 0)
      ∧ (if helper.parser_ctx = true then probe.duration
        else if helper.delay_count = 0 then probe.frame_size else 0) ≤ Int.ofNat INT32_MAX := by
    split
    · exact ⟨h1, h2⟩
    · split
      · exact ⟨h3, h4⟩
      · exact ⟨Int.le_refl 0, by unfold INT32_MAX; decide⟩
  unfold get_audio_frame_length
  simp only
  generalize (if helper.parser_ctx = true then probe.duration
        else if helper.delay_count = 0 then probe.frame_size else 0) = fl at hfl ⊢
  by_cases h0 : fl = 0
  · rw [if_pos h0]
    by_cases ho : probe.output_audio = true
    · rw [if_pos ho]
      right
      refine ⟨rfl, ?_, ?_⟩
      · simp only [h0]; omega
      · simp only [h0]; omega
    · rw [if_neg ho]
      left; rfl
  · rw [if_neg h0]
    exact Or.inr ⟨rfl, hfl.1, hfl.2⟩

theorem audio_length_sum_succ (s : audio_scan_t) (k : Nat) :
    audio_length_sum s (k + 1) = audio_length_sum s k + (s.audio_info (k + 1)).length := by
  unfold audio_length_sum
  rw [List.range'_concat, List.map_append, List.sum_append]
  simp [Nat.add_comm]

theorem audio_length_sum_congr (s t : audio_scan_t) (k : Nat)
    (h : ∀ i, 1 ≤ i → i ≤ k → (t.audio_info i).length = (s.audio_info i).length) :
    audio_length_sum t k = audio_length_sum s k := by
  unfold audio_length_sum
  congr 1
  apply List.map_congr_left
  intro i hi
  have := List.mem_range'_1.mp hi
  exact h i this.1 (by omega)

theorem add_audio_duration_eq (d : Nat) (len : Int) (hd : d ≤ INT32_MAX) (h0 : 0 ≤ len)
    (h1 : len ≤ Int.ofNat INT32_MAX) :
    Int.ofNat (add_audio_duration d len) = Int.ofNat d + len := by
  unfold add_audio_duration
  unfold INT32_MAX at hd h1
  have h2 : (Int.ofNat d + len) % 2 ^ 64 = Int.ofNat d + len := by
    apply Int.emod_eq_of_lt
    · have : (0 : Int) ≤ Int.ofNat d := Int.ofNat_nonneg d
      omega
    · have : Int.ofNat d ≤ 2147483647 := by
        show (d : Int) ≤ 2147483647
        omega
      have h3 : len ≤ 2147483647 := h1
      omega
  rw [h2]
  apply Int.toNat_of_nonneg
  have : (0 : Int) ≤ Int.ofNat d := Int.ofNat_nonneg d
  omega

theorem wrap_uint32_eq_self (x : Nat) (h : x < 2 ^ 32) : wrap_uint32 x = x := by
  unfold wrap_uint32
  exact Nat.mod_eq_of_lt h

theorem set_audio_length_fields (s : audio_scan_t) (n : Nat) (v : Int) :
    (set_audio_length s n v).audio_duration = s.audio_duration
    ∧ (set_audio_length s n v).audio_sample_count = s.audio_sample_count
    ∧ (set_audio_length s n v).helper = s.helper
    ∧ (set_audio_length s n v).written = s.written ++ [n]
    ∧ ∀ i, ((set_audio_length s n v).audio_info i).length
        = if i = n then v else (s.audio_info i).length := by
  refine ⟨rfl, rfl, rfl, rfl, ?_⟩
  intro i
  unfold set_audio_length
  simp only [Function.update]
  split
  · rename_i h; subst h; rfl
  · rfl

theorem setup_audio_frame_info_fields (s : audio_scan_t) (pkt : audio_packet_t) (v : Int) :
    (setup_audio_frame_info s pkt v).audio_duration = s.audio_duration
    ∧ (setup_audio_frame_info s pkt v).audio_sample_count
        = wrap_uint32 (s.audio_sample_count + 1)
    ∧ (setup_audio_frame_info s pkt v).helper = s.helper
    ∧ (setup_audio_frame_info s pkt v).written
        = (if v ≠ -1 ∧ wrap_uint32 (s.audio_sample_count + 1) > s.helper.delay_count
           then s.written ++ [wrap_uint32 (wrap_uint32 (s.audio_sample_count + 1) + 2 ^ 32
                  - s.helper.delay_count)]
           else s.written)
    ∧ ∀ i, ((setup_audio_frame_info s pkt v).audio_info i).length
        = if (v ≠ -1 ∧ wrap_uint32 (s.audio_sample_count + 1) > s.helper.delay_count)
              ∧ i = wrap_uint32 (wrap_uint32 (s.audio_sample_count + 1) + 2 ^ 32
                  - s.helper.delay_count)
          then v else (s.audio_info i).length := by
  have hrec : ∀ i, (Function.update s.audio_info (wrap_uint32 (s.audio_sample_count + 1))
      { s.audio_info (wrap_uint32 (s.audio_sample_count + 1)) with
        pts := pkt.pts, dts := pkt.dts, file_offset := pkt.pos,
        sample_number := wrap_uint32 (s.audio_sample_count + 1),
        extradata_index := pkt.extradata_index, sample_rate := pkt.sample_rate } i).length
      = (s.audio_info i).length := by
    intro i
    simp only [Function.update]
    split
    · rename_i h; subst h; rfl
    · rfl
  unfold setup_audio_frame_info
  simp only
  by_cases hc : v ≠ -1 ∧ wrap_uint32 (s.audio_sample_count + 1) > s.helper.delay_count
  · rw [if_pos hc, if_pos hc]
    refine ⟨rfl, rfl, rfl, rfl, ?_⟩
    intro i
    rw [(set_audio_length_fields _ _ _).2.2.2.2 i]
    by_cases hi : i = wrap_uint32 (wrap_uint32 (s.audio_sample_count + 1) + 2 ^ 32
                  - s.helper.delay_count)
    · rw [if_pos hi, if_pos ⟨hc, hi⟩]
    · rw [if_neg hi, if_neg (fun h => hi h.2)]
      exact hrec i
  · rw [if_neg hc, if_neg hc]
    refine ⟨rfl, rfl, rfl, rfl, ?_⟩
    intro i
    rw [if_neg (fun h => hc h.1)]
    exact hrec i

theorem account_audio_packet_duration (s : audio_scan_t) (pkt : audio_packet_t) (v : Int) :
    (account_audio_packet s pkt v).audio_duration
      = if v ≠ -1 then add_audio_duration s.audio_duration v else s.audio_duration := by
  unfold account_audio_packet
  simp only
  generalize (if v ≠ -1 then add_audio_duration s.audio_duration v else s.audio_duration) = d
  by_cases h : d ≤ INT32_MAX
  · rw [if_pos h]
    exact (setup_audio_frame_info_fields _ _ _).1
  · rw [if_neg h]

theorem audio_packet_step_inv (s : audio_scan_t) (pkt : audio_packet_t) (n : Nat)
    (hn : n + 1 < 2 ^ 32) (hcount : s.audio_sample_count = n) (hinv : audio_inv s n)
    (hs : sane_probe pkt.probe) (hd : s.audio_duration ≤ INT32_MAX)
    (hd' : (audio_packet_step s pkt).audio_duration ≤ INT32_MAX) :
    (audio_packet_step s pkt).audio_sample_count = n + 1
    ∧ audio_inv (audio_packet_step s pkt) (n + 1) := by
  obtain ⟨hdelay, hwritten, hsum⟩ := hinv
  have hw : wrap_uint32 (s.audio_sample_count + 1) = n + 1 := by
    rw [hcount]; exact wrap_uint32_eq_self _ hn
  unfold audio_packet_step at hd' ⊢
  rw [account_audio_packet_duration] at hd'
  rcases get_audio_frame_length_cases s.helper pkt.probe hs with hA | ⟨hB1, hB2, hB3⟩
  · -- no frame came out: the delay grows, nothing is written
    have hwd : wrap_uint32 (s.helper.delay_count + 1) = s.helper.delay_count + 1 :=
      wrap_uint32_eq_self _ (by omega)
    rw [hA]
    unfold account_audio_packet
    simp only [ne_eq, not_true_eq_false, if_false, hd, if_true]
    obtain ⟨f1, f2, f3, f4, f5⟩ := setup_audio_frame_info_fields
      { s with helper :=
          { parser_ctx := false, delay_count := wrap_uint32 (s.helper.delay_count + 1) } }
      pkt (-1)
    simp only [ne_eq, not_true_eq_false, false_and, if_false] at f1 f4 f5
    unfold audio_inv
    rw [f1, f2, f3, f4]
    simp only [hw, hwd]
    have e : n + 1 - (s.helper.delay_count + 1) = n - s.helper.delay_count := by omega
    rw [e]
    refine ⟨trivial, by omega, hwritten, ?_⟩
    rw [← hsum]
    exact audio_length_sum_congr _ _ _ (fun i _ _ => f5 i)
  · -- a frame of `len` samples came out
    generalize hr : get_audio_frame_length s.helper pkt.probe = r at hB1 hB2 hB3 hd' ⊢
    obtain ⟨len, h'⟩ := r
    simp only at hB1 hB2 hB3 hd' ⊢
    subst hB1
    have hne : len ≠ -1 := by omega
    rw [if_pos hne] at hd'
    have hadd := add_audio_duration_eq s.audio_duration len hd hB2 hB3
    have hslot : wrap_uint32 (n + 1 + 2 ^ 32 - s.helper.delay_count)
        = n - s.helper.delay_count + 1 := by
      unfold wrap_uint32
      omega
    have hgt : n + 1 > s.helper.delay_count := by omega
    unfold account_audio_packet
    simp only [ne_eq, hne, not_false_eq_true, if_true, hd']
    obtain ⟨f1, f2, f3, f4, f5⟩ := setup_audio_frame_info_fields
      { s with audio_duration := add_audio_duration s.audio_duration len } pkt len
    simp only [hw, hgt, hne, ne_eq, not_false_eq_true, and_self, if_true, hslot, true_and]
      at f1 f2 f4 f5
    unfold audio_inv
    rw [f1, f2, f3, f4]
    dsimp only
    have e : n + 1 - s.helper.delay_count = n - s.helper.delay_count + 1 := by omega
    refine ⟨rfl, by omega, ?_, ?_⟩
    · rw [e, List.range'_concat, hwritten]
      simp [Nat.add_comm]
    · rw [e, audio_length_sum_succ, f5, if_pos rfl]
      have h1 : audio_length_sum (setup_audio_frame_info
          { s with audio_duration := add_audio_duration s.audio_duration len } pkt len)
          (n - s.helper.delay_count) = audio_length_sum s (n - s.helper.delay_count) := by
        apply audio_length_sum_congr
        intro i hi1 hi2
        rw [f5, if_neg (by omega)]
      rw [h1, hsum]
      exact hadd.symm

theorem scan_audio_packets_succ (parser_ctx : Bool) (packets : List audio_packet_t) (n : Nat)
    (hn : n < packets.length) :
    scan_audio_packets parser_ctx (packets.take (n + 1))
      = audio_packet_step (scan_audio_packets parser_ctx (packets.take n)) packets[n] := by
  unfold scan_audio_packets
  rw [List.take_succ, List.foldl_append, List.getElem?_eq_getElem hn]
  rfl

/-- The packet loop, while the running duration stays within the clamp. -/
theorem scan_audio_packets_inv (parser_ctx : Bool) (packets : List audio_packet_t)
    (hlen : packets.length < 2 ^ 32) (hsane : ∀ p ∈ packets, sane_probe p.probe)
    (hclamp : ∀ n, n ≤ packets.length →
      (scan_audio_packets parser_ctx (packets.take n)).audio_duration ≤ INT32_MAX) :
    ∀ n, n ≤ packets.length →
      (scan_audio_packets parser_ctx (packets.take n)).audio_sample_count = n
      ∧ audio_inv (scan_audio_packets parser_ctx (packets.take n)) n := by
  intro n
  induction n with
  | zero =>
    intro _
    refine ⟨rfl, Nat.le_refl 0, rfl, rfl⟩
  | succ n ih =>
    intro hn
    have hn' : n < packets.length := by omega
    obtain ⟨h1, h2⟩ := ih (by omega)
    rw [scan_audio_packets_succ parser_ctx packets n hn']
    apply audio_packet_step_inv _ _ n (by omega) h1 h2
      (hsane _ (List.getElem_mem hn')) (hclamp n (by omega))
    rw [← scan_audio_packets_succ parser_ctx packets n hn']
    exact hclamp (n + 1) hn

theorem flush_audio_succ (s : audio_scan_t) (flush : Nat → audio_flush_t) (j : Nat) :
    flush_audio s flush (j + 1) = audio_flush_step flush (flush_audio s flush j) (1 + j) := by
  unfold flush_audio
  rw [List.range'_concat, List.foldl_append]
  simp

/-- The flush loop, while the running duration stays within the clamp and the
decoder answers. -/
theorem flush_audio_inv (s : audio_scan_t) (flush : Nat → audio_flush_t) (m : Nat)
    (hm : m < 2 ^ 32) (hcount : s.audio_sample_count = m) (hinv : audio_inv s m)
    (hflush : ∀ i, 1 ≤ i → i ≤ s.helper.delay_count →
      (flush i).ok = true ∧ 0 ≤ (flush i).nb_samples
      ∧ (flush i).nb_samples ≤ Int.ofNat INT32_MAX)
    (hclamp : ∀ j, j ≤ s.helper.delay_count →
      (flush_audio s flush j).1.audio_duration ≤ INT32_MAX) :
    ∀ j, j ≤ s.helper.delay_count →
      (flush_audio s flush j).2 = false
      ∧ (flush_audio s flush j).1.audio_sample_count = m
      ∧ (flush_audio s flush j).1.helper = s.helper
      ∧ audio_inv (flush_audio s flush j).1 (m + j) := by
  intro j
  induction j with
  | zero => intro _; exact ⟨rfl, hcount, rfl, hinv⟩
  | succ j ih =>
    intro hj
    obtain ⟨h1, h2, h3, hd, hw, hsum⟩ := ih (by omega)
    have hcl := hclamp (j + 1) hj
    have hcl0 := hclamp j (by omega)
    obtain ⟨hok, hnb0, hnb1⟩ := hflush (1 + j) (by omega) (by omega)
    rw [flush_audio_succ] at hcl ⊢
    generalize flush_audio s flush j = st at *
    obtain ⟨t, broken⟩ := st
    simp only at h1 h2 h3 hd hw hsum hcl0
    subst h1
    have hfl0 : 0 ≤ flush_frame_length (flush (1 + j)) := by
      unfold flush_frame_length; split
      · exact hnb0
      · exact Int.le_refl 0
    have hfl1 : flush_frame_length (flush (1 + j)) ≤ Int.ofNat INT32_MAX := by
      unfold flush_frame_length; split
      · exact hnb1
      · unfold INT32_MAX; decide
    have hadd := add_audio_duration_eq t.audio_duration _ hcl0 hfl0 hfl1
    have hdm : s.helper.delay_count ≤ m := hinv.1
    have hj' : j + 1 ≤ t.helper.delay_count := by rw [h3]; exact hj
    have hdm' : t.helper.delay_count ≤ m := by rw [h3]; exact hdm
    have hslot : wrap_uint32 (t.audio_sample_count + 2 ^ 32 - t.helper.delay_count + (1 + j))
        = m + j - t.helper.delay_count + 1 := by
      rw [h2]
      unfold wrap_uint32
      omega
    unfold audio_flush_step at hcl ⊢
    simp only [Bool.false_eq_true, if_false, hok, if_true] at hcl ⊢
    by_cases hgt : add_audio_duration t.audio_duration (flush_frame_length (flush (1 + j)))
        > INT32_MAX
    · rw [if_pos hgt] at hcl
      simp only at hcl
      omega
    · rw [if_neg hgt]
      obtain ⟨f1, f2, f3, f4, f5⟩ := set_audio_length_fields
        { t with audio_duration :=
            add_audio_duration t.audio_duration (flush_frame_length (flush (1 + j))) }
        (wrap_uint32 (t.audio_sample_count + 2 ^ 32 - t.helper.delay_count + (1 + j)))
        (flush_frame_length (flush (1 + j)))
      refine ⟨rfl, f2.trans h2, f3.trans h3, ?_⟩
      unfold audio_inv
      simp only
      rw [f1, f3, f4]
      dsimp only
      have e : m + (j + 1) - t.helper.delay_count = m + j - t.helper.delay_count + 1 := by
        omega
      refine ⟨by omega, ?_, ?_⟩
      · rw [e, List.range'_concat, hw, hslot]
        simp [Nat.add_comm]
      · have h4 : audio_length_sum (set_audio_length
            { t with audio_duration :=
                add_audio_duration t.audio_duration (flush_frame_length (flush (1 + j))) }
            (wrap_uint32 (t.audio_sample_count + 2 ^ 32 - t.helper.delay_count + (1 + j)))
            (flush_frame_length (flush (1 + j))))
            (m + j - t.helper.delay_count) = audio_length_sum t (m + j - t.helper.delay_count) := by
          apply audio_length_sum_congr
          intro i hi1 hi2
          rw [f5, hslot, if_neg (by omega)]
        have h5 := f5 (m + j - t.helper.delay_count + 1)
        rw [if_pos hslot.symm] at h5
        rw [e, audio_length_sum_succ, h4, h5, hsum]
        exact hadd.symm

/-- C10. Audio length accounting of `create_index` for the elected stream: a
fold over its packets, each yielding `frame_length = -1` (which increments
`delay_count`) or a length `>= 0`, followed by `delay_count` successful flushes.
If the running `audio_duration` never exceeds `INT32_MAX`, every packet becomes
a record, every record `1..M` receives a length exactly once (the writes
`audio_info[i].length = ...` happen for `i = 1, 2, ..., M` in this order), and
the lengths of the records `1..M` add up to `audio_duration`. -/
theorem create_index_audio_length_sum (parser_ctx : Bool) (packets : List audio_packet_t)
    (flush : Nat → audio_flush_t)
    (hlen : packets.length < 2 ^ 32)
    (hsane : ∀ p ∈ packets, sane_probe p.probe)
    (hflush : ∀ i, 1 ≤ i → i ≤ (scan_audio_packets parser_ctx packets).helper.delay_count →
      (flush i).ok = true ∧ 0 ≤ (flush i).nb_samples
      ∧ (flush i).nb_samples ≤ Int.ofNat INT32_MAX)
    (hclamp : audio_within_clamp parser_ctx packets flush) :
    (create_index_audio parser_ctx packets flush).audio_sample_count = packets.length
    ∧ (create_index_audio parser_ctx packets flush).written
        = List.range' 1 (create_index_audio parser_ctx packets flush).audio_sample_count
    ∧ audio_length_sum (create_index_audio parser_ctx packets flush)
          (create_index_audio parser_ctx packets flush).audio_sample_count
        = Int.ofNat (create_index_audio parser_ctx packets flush).audio_duration := by
  have hp := scan_audio_packets_inv parser_ctx packets hlen hsane hclamp.1 packets.length
    (Nat.le_refl _)
  rw [List.take_length] at hp
  obtain ⟨hc, hi⟩ := hp
  have hf := flush_audio_inv (scan_audio_packets parser_ctx packets) flush packets.length
    hlen hc hi hflush hclamp.2 (scan_audio_packets parser_ctx packets).helper.delay_count
    (Nat.le_refl _)
  unfold create_index_audio
  obtain ⟨_, h2, h3, h4, h5, h6⟩ := hf
  rw [h3] at h4 h5 h6
  have e : packets.length + (scan_audio_packets parser_ctx packets).helper.delay_count
      - (scan_audio_packets parser_ctx packets).helper.delay_count = packets.length := by omega
  rw [e] at h5 h6
  rw [h2]
  exact ⟨rfl, h5, h6⟩

/-! ## Witnesses for the extradata tracker and the audio accounting -/

theorem valid_extradata_call_of_no_split (c : extradata_call)
    (h1 : valid_buffer c.stream.codec.extradata c.stream.codec.extradata_size)
    (h2 : ∀ sd ∈ c.pkt.side_data, valid_buffer sd.data sd.size)
    (h3 : valid_buffer c.pkt.data c.pkt.size)
    (h4 : c.stream.parser_split = none) : valid_extradata_call c :=
  ⟨h1, h2, h3, fun _ h => by rw [h4] at h; cases h⟩

theorem valid_scenario_call_context : valid_extradata_call scenario_call_context :=
  valid_extradata_call_of_no_split _ (by unfold valid_buffer; decide)
    (by intro sd h; cases h) (by unfold valid_buffer; decide) rfl

theorem valid_scenario_call_side_data : valid_extradata_call scenario_call_side_data :=
  valid_extradata_call_of_no_split _ (by unfold valid_buffer; decide)
    (by
      intro sd h
      simp only [scenario_call_side_data, scenario_packet, List.mem_singleton] at h
      subst h
      unfold valid_buffer
      decide)
    (by unfold valid_buffer; decide) rfl

theorem valid_scenario_calls : ∀ x ∈ scenario_calls, valid_extradata_call x := by
  intro x hx
  simp only [scenario_calls, List.mem_cons, List.mem_singleton, List.not_mem_nil,
    or_false] at hx
  rcases hx with h | h | h
  · rw [h]; exact valid_scenario_call_context
  · rw [h]; exact valid_scenario_call_side_data
  · rw [h]; exact valid_scenario_call_context

/-- Witness of C2: three calls bring the extradata `[1, 2]`, then `[3]`, then
`[1, 2]` again; the list ends with the two entries `[1, 2]` and `[3]`. -/
theorem extradata_entries_pairwise_distinct_witness :
    (∀ c ∈ scenario_calls, valid_extradata_call c)
    ∧ (run_extradata_calls extradata_handler_zero scenario_calls).2.entries.map
        (fun e => (e.extradata, e.extradata_size)) = [(some [1, 2], 2), (some [3], 1)]
    ∧ (run_extradata_calls extradata_handler_zero scenario_calls).2.entries.Pairwise
        (fun a b => ¬ (a.extradata_size = b.extradata_size ∧ blob_bytes a = blob_bytes b)) :=
  ⟨valid_scenario_calls, by decide,
   extradata_entries_pairwise_distinct scenario_calls valid_scenario_calls⟩

/-- Witness of C1: after the three calls of the scenario the current entry is
`[1, 2]` at index 0; a packet with the side data `[3]` reaches the comparison
step and the call returns index 1. -/
theorem append_extradata_if_new_smallest_index_witness :
    (∀ x ∈ scenario_calls, valid_extradata_call x)
    ∧ valid_extradata_call scenario_call_side_data
    ∧ 0 ≤ (run_extradata_calls extradata_handler_zero scenario_calls).1
    ∧ import_extradata (run_extradata_calls extradata_handler_zero scenario_calls).2
        scenario_call_side_data.stream scenario_call_side_data.pkt
        = some (extradata_current (some [3]) 1)
    ∧ (append_extradata_if_new true true
        (run_extradata_calls extradata_handler_zero scenario_calls).2
        scenario_call_side_data.stream scenario_call_side_data.pkt).1 = 1
    ∧ ((append_extradata_if_new true true
          (run_extradata_calls extradata_handler_zero scenario_calls).2
          scenario_call_side_data.stream scenario_call_side_data.pkt).1.toNat
        < (append_extradata_if_new true true
          (run_extradata_calls extradata_handler_zero scenario_calls).2
          scenario_call_side_data.stream scenario_call_side_data.pkt).2.1.entries.length
      ∧ same_blob
          ((append_extradata_if_new true true
            (run_extradata_calls extradata_handler_zero scenario_calls).2
            scenario_call_side_data.stream scenario_call_side_data.pkt).2.1.entries.getD
            (append_extradata_if_new true true
              (run_extradata_calls extradata_handler_zero scenario_calls).2
              scenario_call_side_data.stream scenario_call_side_data.pkt).1.toNat
            extradata_entry_init)
          (extradata_current (some [3]) 1)
      ∧ ∀ i, i < (append_extradata_if_new true true
            (run_extradata_calls extradata_handler_zero scenario_calls).2
            scenario_call_side_data.stream scenario_call_side_data.pkt).1.toNat →
          ¬ same_blob
            ((append_extradata_if_new true true
              (run_extradata_calls extradata_handler_zero scenario_calls).2
              scenario_call_side_data.stream scenario_call_side_data.pkt).2.1.entries.getD
              i extradata_entry_init)
            (extradata_current (some [3]) 1)) :=
  ⟨valid_scenario_calls, valid_scenario_call_side_data, by decide, by decide, by decide,
   append_extradata_if_new_smallest_index scenario_calls scenario_call_side_data
     (extradata_current (some [3]) 1) valid_scenario_calls valid_scenario_call_side_data
     (by decide) (by decide) (by decide)⟩

/-- C3. For a key-flagged packet without new-extradata side data, on a stream
whose parser has a `split` that returns 0, and a non-empty list,
`append_extradata_if_new` returns `current_index` and leaves the list as it
was; it also leaves the packet as it was, so `AV_PKT_FLAG_KEY` is still set in
`pkt->flags` on return. -/
theorem append_extradata_if_new_split_zero_keeps_key_flag (realloc_ok malloc_ok : Bool)
    (list : lwlibav_extradata_handler_t) (stream : AVStream) (pkt : AVPacket)
    (split : Option (List Nat) → Int → Int)
    (hkey : pkt.flags &&& AV_PKT_FLAG_KEY ≠ 0)
    (hside : find_new_extradata pkt = none)
    (hsplit : stream.parser_split = some split)
    (hzero : split pkt.data pkt.size = 0)
    (hlist : entry_count list > 0) :
    (append_extradata_if_new realloc_ok malloc_ok list stream pkt).1 = list.current_index
    ∧ (append_extradata_if_new realloc_ok malloc_ok list stream pkt).2.1 = list
    ∧ (append_extradata_if_new realloc_ok malloc_ok list stream pkt).2.2.flags = pkt.flags
    ∧ (append_extradata_if_new realloc_ok malloc_ok list stream pkt).2.2.flags
        &&& AV_PKT_FLAG_KEY ≠ 0 := by
  have himp : import_extradata list stream pkt = none := by
    unfold import_extradata
    rw [if_neg (fun h => hkey h.1)]
    have hctx : current_is_context_extradata stream pkt = true := by
      unfold current_is_context_extradata
      rw [hside]
    rw [if_pos hctx, hsplit]
    simp only
    rw [hzero, if_neg (by decide), if_pos hlist]
  unfold append_extradata_if_new
  rw [himp]
  exact ⟨rfl, rfl, rfl, hkey⟩

/-- Witness of C3: a list with the entry `[1, 2]`, a parser whose `split`
returns 0 and a key-flagged packet without side data. -/
theorem append_extradata_if_new_split_zero_keeps_key_flag_witness :
    (scenario_packet AV_PKT_FLAG_KEY []).flags &&& AV_PKT_FLAG_KEY ≠ 0
    ∧ find_new_extradata (scenario_packet AV_PKT_FLAG_KEY []) = none
    ∧ (scenario_stream (some scenario_split_nothing)).parser_split = some scenario_split_nothing
    ∧ scenario_split_nothing (scenario_packet AV_PKT_FLAG_KEY []).data
        (scenario_packet AV_PKT_FLAG_KEY []).size = 0
    ∧ entry_count scenario_one_entry > 0
    ∧ ((append_extradata_if_new true true scenario_one_entry
          (scenario_stream (some scenario_split_nothing))
          (scenario_packet AV_PKT_FLAG_KEY [])).1 = scenario_one_entry.current_index
      ∧ (append_extradata_if_new true true scenario_one_entry
          (scenario_stream (some scenario_split_nothing))
          (scenario_packet AV_PKT_FLAG_KEY [])).2.1 = scenario_one_entry
      ∧ (append_extradata_if_new true true scenario_one_entry
          (scenario_stream (some scenario_split_nothing))
          (scenario_packet AV_PKT_FLAG_KEY [])).2.2.flags
          = (scenario_packet AV_PKT_FLAG_KEY []).flags
      ∧ (append_extradata_if_new true true scenario_one_entry
          (scenario_stream (some scenario_split_nothing))
          (scenario_packet AV_PKT_FLAG_KEY [])).2.2.flags &&& AV_PKT_FLAG_KEY ≠ 0) :=
  ⟨by decide, rfl, rfl, rfl, by decide,
   append_extradata_if_new_split_zero_keeps_key_flag true true scenario_one_entry
     (scenario_stream (some scenario_split_nothing)) (scenario_packet AV_PKT_FLAG_KEY [])
     scenario_split_nothing (by decide) rfl rfl rfl (by decide)⟩

/-- Witness of C10: three packets, the first delayed, then two frames of 1024
samples, and one flush of 512 samples; the three records add up to 2560. -/
theorem create_index_audio_length_sum_witness :
    scenario_audio_packets.length < 2 ^ 32
    ∧ (∀ p ∈ scenario_audio_packets, sane_probe p.probe)
    ∧ (scan_audio_packets false scenario_audio_packets).helper.delay_count = 1
    ∧ audio_within_clamp false scenario_audio_packets scenario_audio_flush
    ∧ (create_index_audio false scenario_audio_packets scenario_audio_flush).audio_duration
        = 2560
    ∧ ((create_index_audio false scenario_audio_packets scenario_audio_flush).audio_sample_count
          = scenario_audio_packets.length
      ∧ (create_index_audio false scenario_audio_packets scenario_audio_flush).written
          = List.range' 1
              (create_index_audio false scenario_audio_packets scenario_audio_flush).audio_sample_count
      ∧ audio_length_sum (create_index_audio false scenario_audio_packets scenario_audio_flush)
            (create_index_audio false scenario_audio_packets scenario_audio_flush).audio_sample_count
          = Int.ofNat
              (create_index_audio false scenario_audio_packets scenario_audio_flush).audio_duration) :=
  have hsane : ∀ p ∈ scenario_audio_packets, sane_probe p.probe := by
    unfold sane_probe
    decide
  have hclamp : audio_within_clamp false scenario_audio_packets scenario_audio_flush := by
    constructor
    · intro n hn
      have hn3 : n ≤ 3 := hn
      interval_cases n <;> decide
    · intro j hj
      have hj1 : j ≤ 1 := hj
      interval_cases j <;> decide
  ⟨by decide, hsane, by decide, hclamp, by decide,
   create_index_audio_length_sum false scenario_audio_packets scenario_audio_flush (by decide)
     hsane
     (fun _ _ _ => ⟨rfl, (by decide : (0 : Int) ≤ 512),
       (by decide : (512 : Int) ≤ Int.ofNat INT32_MAX)⟩)
     hclamp⟩

/-! ## The generated-PTS marker and the copy of DTS into PTS -/

theorem construct_timestamps_generated (lwhp : lwlibav_file_handler_t)
    (vdhp : lwlibav_video_decode_handler_t) (n : Nat) :
    (construct_timestamps lwhp vdhp n).2.lw_seek_flags.SEEK_PTS_GENERATED
        = generates_pts (decide_seek_base lwhp vdhp.frame_list n) vdhp.codec_id
    ∧ (construct_timestamps lwhp vdhp n).2.frame_list
        = (if generates_pts (decide_seek_base lwhp vdhp.frame_list n) vdhp.codec_id = true
           then genarate_pts_list vdhp.frame_list vdhp.frame_count else vdhp.frame_list)
    ∧ (construct_timestamps lwhp vdhp n).1
        = (generates_pts (decide_seek_base lwhp vdhp.frame_list n) vdhp.codec_id
           || (decide_seek_base lwhp vdhp.frame_list n).SEEK_PTS_BASED) := by
  unfold construct_timestamps generates_pts
  simp only
  by_cases h : ((decide_seek_base lwhp vdhp.frame_list n).SEEK_DTS_BASED
      && !(decide_seek_base lwhp vdhp.frame_list n).SEEK_PTS_BASED
      && (decide (vdhp.codec_id = AVCodecID.AV_CODEC_ID_MPEG1VIDEO)
          || decide (vdhp.codec_id = AVCodecID.AV_CODEC_ID_MPEG2VIDEO)
          || decide (vdhp.codec_id = AVCodecID.AV_CODEC_ID_VC1)
          || decide (vdhp.codec_id = AVCodecID.AV_CODEC_ID_WMV3))) = true
  · rw [if_pos h, if_pos h, h]
    exact ⟨rfl, rfl, rfl⟩
  · rw [if_neg h, if_neg h]
    have h' := Bool.eq_false_iff.mpr h
    rw [h']
    refine ⟨decide_seek_base_generated lwhp vdhp.frame_list n, rfl, ?_⟩
    simp

theorem decide_video_seek_method_generated (q : qsort_t) (a b : Bool)
    (lwhp : lwlibav_file_handler_t) (vdhp : lwlibav_video_decode_handler_t) (n : Nat) :
    (decide_video_seek_method q a b lwhp vdhp n).2.lw_seek_flags.SEEK_PTS_GENERATED
      = (construct_timestamps lwhp vdhp n).2.lw_seek_flags.SEEK_PTS_GENERATED := by
  rcases decide_video_seek_method_cases q a b lwhp vdhp n with h | h | ⟨oc, h⟩ | h | h <;>
    rw [h] <;> rfl
/-- C15 (counterexample). MPEG-2 video I P B B P without PTS in a transport
stream: DTS is kept, PTS is dropped, the PTS are generated, and the resulting
flags hold `SEEK_PTS_GENERATED` but not `SEEK_PTS_BASED`. -/
theorem decide_video_seek_method_generated_without_pts_based :
    generates_pts (decide_seek_base scenario_mpegts scenario_ibbp.frame_list 5)
        scenario_ibbp.codec_id = true
    ∧ (decide_video_seek_method insertion_qsort true true scenario_mpegts
        scenario_ibbp 5).2.lw_seek_flags.SEEK_PTS_GENERATED = true
    ∧ ¬ ((decide_video_seek_method insertion_qsort true true scenario_mpegts
          scenario_ibbp 5).2.lw_seek_flags.SEEK_PTS_BASED = true
        ∧ (decide_video_seek_method insertion_qsort true true scenario_mpegts
          scenario_ibbp 5).2.lw_seek_flags.SEEK_PTS_GENERATED = true) := by
  decide

/-- C15 (amended). In `decide_video_seek_method`: the resulting flags hold
`SEEK_PTS_GENERATED` exactly when, after the pruning, `SEEK_DTS_BASED` is kept,
`SEEK_PTS_BASED` is dropped and the codec is MPEG-1, MPEG-2, VC-1 or WMV3; in
that case the PTS reconstructor is run on the frame list and the flags keep
`SEEK_DTS_BASED`; `SEEK_PTS_BASED` is in the result exactly when the pruning
kept it, so it is never there together with `SEEK_PTS_GENERATED`. -/
theorem decide_video_seek_method_pts_generated (q : qsort_t) (a b : Bool)
    (lwhp : lwlibav_file_handler_t) (vdhp : lwlibav_video_decode_handler_t) (n : Nat) :
    (decide_video_seek_method q a b lwhp vdhp n).2.lw_seek_flags.SEEK_PTS_GENERATED
        = generates_pts (decide_seek_base lwhp vdhp.frame_list n) vdhp.codec_id
    ∧ (decide_video_seek_method q a b lwhp vdhp n).2.lw_seek_flags.SEEK_PTS_BASED
        = (decide_seek_base lwhp vdhp.frame_list n).SEEK_PTS_BASED
    ∧ (decide_video_seek_method q a b lwhp vdhp n).2.lw_seek_flags.SEEK_DTS_BASED
        = (decide_seek_base lwhp vdhp.frame_list n).SEEK_DTS_BASED
    ∧ (construct_timestamps lwhp vdhp n).2.frame_list
        = (if generates_pts (decide_seek_base lwhp vdhp.frame_list n) vdhp.codec_id = true
           then genarate_pts_list vdhp.frame_list vdhp.frame_count else vdhp.frame_list)
    ∧ ¬ ((decide_video_seek_method q a b lwhp vdhp n).2.lw_seek_flags.SEEK_PTS_BASED = true
        ∧ (decide_video_seek_method q a b lwhp vdhp n).2.lw_seek_flags.SEEK_PTS_GENERATED
            = true) := by
  have hf := decide_video_seek_method_flags q a b lwhp vdhp n
  have hg := decide_video_seek_method_generated q a b lwhp vdhp n
  have hc := construct_timestamps_generated lwhp vdhp n
  refine ⟨hg.trans hc.1, hf.2.1, hf.1, hc.2.1, ?_⟩
  rw [hf.2.1, hg, hc.1]
  unfold generates_pts
  intro h
  rw [h.1] at h
  simp at h

theorem decide_seek_base_pts (lwhp : lwlibav_file_handler_t) (info : List video_frame_info_t)
    (n : Nat) :
    (decide_seek_base lwhp info n).SEEK_PTS_BASED = true ↔
      ∀ i, 1 ≤ i → i ≤ n → (info_at info i).pts ≠ AV_NOPTS_VALUE := by
  unfold decide_seek_base
  rw [(drop_pos_based_fields lwhp _ info n).1, (drop_pos_correction_fields _ info n).1,
    (drop_dts_based_fields _ info n).1]
  unfold drop_pts_based
  by_cases h : (List.range' 1 n).any
      (fun i => decide ((info_at info i).pts = AV_NOPTS_VALUE)) = true
  · rw [if_pos h]
    simp only [Bool.false_eq_true, false_iff]
    intro hall
    obtain ⟨i, hi, hd⟩ := List.any_eq_true.mp h
    have hi' := List.mem_range'_1.mp hi
    exact hall i hi'.1 (by omega) (of_decide_eq_true hd)
  · rw [if_neg h, (lineup_flags lwhp).2.1]
    simp only [true_iff]
    intro i h1 h2 hp
    exact h (List.any_eq_true.mpr ⟨i, List.mem_range'_1.mpr ⟨h1, by omega⟩,
      decide_eq_true hp⟩)

theorem check_frame_reordering_eq_false (info : List video_frame_info_t) (n : Nat)
    (hord : ∀ i, 2 ≤ i → i ≤ n → (info_at info (i - 1)).pts ≤ (info_at info i).pts) :
    check_frame_reordering info n = false := by
  unfold check_frame_reordering
  rw [Bool.eq_false_iff]
  intro h
  obtain ⟨i, hi, hd⟩ := List.any_eq_true.mp h
  have hi' := List.mem_range'_1.mp hi
  have := hord i hi'.1 (by omega)
  have := of_decide_eq_true hd
  omega

theorem treat_unique_as_keyframe_pts (flags : lw_seek_flags_t)
    (l : List video_frame_info_t) (n j : Nat) :
    (info_at (treat_unique_as_keyframe flags l n) j).pts = (info_at l j).pts := by
  have h := map_treat_unique_as_keyframe view_ts map_view_ts_set_keyframe flags l n
  have h2 := info_at_of_map_eq view_ts _ _ h j
  unfold view_ts at h2
  exact (Prod.mk.inj h2).1

/-- C16 (counterexample). Three records of an MP4 file with PTS 5, 15, 25 and
DTS 0, 10, 20: no PTS is unset and no reordering is seen, PTS and DTS are both
trusted, and the decider overwrites the PTS with 0, 10, 20. -/
theorem decide_video_seek_method_pts_overwritten :
    (∀ i, 1 ≤ i → i ≤ 3 →
        (info_at scenario_pts_ahead_of_dts.frame_list i).pts ≠ AV_NOPTS_VALUE)
    ∧ (∀ i, 2 ≤ i → i ≤ 3 → (info_at scenario_pts_ahead_of_dts.frame_list (i - 1)).pts
        ≤ (info_at scenario_pts_ahead_of_dts.frame_list i).pts)
    ∧ scenario_pts_ahead_of_dts.frame_list.map (fun r => r.pts) = [0, 5, 15, 25]
    ∧ (decide_video_seek_method insertion_qsort true true scenario_mp4
        scenario_pts_ahead_of_dts 3).2.lw_seek_flags.SEEK_PTS_BASED = true
    ∧ (decide_video_seek_method insertion_qsort true true scenario_mp4
        scenario_pts_ahead_of_dts 3).2.frame_list.map (fun r => r.pts) = [0, 0, 10, 20] := by
  decide

/-- C16 (amended). For every record list in which no PTS is unset and no
reordering is observed, `decide_video_seek_method` returns 0, keeps
`SEEK_PTS_BASED`, and leaves every record `i` in its slot with
`pts = dts` when `SEEK_DTS_BASED` is in the resulting flags (DTS trusted, also
next to a trusted PTS) and with its PTS unchanged when it is not. -/
theorem decide_video_seek_method_pts_when_not_reordered (q : qsort_t) (a b : Bool)
    (lwhp : lwlibav_file_handler_t) (vdhp : lwlibav_video_decode_handler_t) (n : Nat)
    (hlen : n < vdhp.frame_list.length)
    (hpts : ∀ i, 1 ≤ i → i ≤ n → (info_at vdhp.frame_list i).pts ≠ AV_NOPTS_VALUE)
    (hord : ∀ i, 2 ≤ i → i ≤ n →
      (info_at vdhp.frame_list (i - 1)).pts ≤ (info_at vdhp.frame_list i).pts) :
    (decide_video_seek_method q a b lwhp vdhp n).1 = 0
    ∧ (decide_video_seek_method q a b lwhp vdhp n).2.lw_seek_flags.SEEK_PTS_BASED = true
    ∧ ∀ i, 1 ≤ i → i ≤ n →
        (info_at (decide_video_seek_method q a b lwhp vdhp n).2.frame_list i).dts
          = (info_at vdhp.frame_list i).dts
        ∧ (info_at (decide_video_seek_method q a b lwhp vdhp n).2.frame_list i).pts
          = (if (decide_video_seek_method q a b lwhp vdhp n).2.lw_seek_flags.SEEK_DTS_BASED
                = true
             then (info_at vdhp.frame_list i).dts else (info_at vdhp.frame_list i).pts) := by
  have hbase := (decide_seek_base_pts lwhp vdhp.frame_list n).mpr hpts
  have hflags := decide_video_seek_method_flags q a b lwhp vdhp n
  have hc := construct_timestamps_generated lwhp vdhp n
  have hgen : generates_pts (decide_seek_base lwhp vdhp.frame_list n) vdhp.codec_id = false := by
    unfold generates_pts
    rw [hbase]
    simp
  rw [hgen] at hc
  have hfl : (construct_timestamps lwhp vdhp n).2.frame_list = vdhp.frame_list := by
    rw [hc.2.1]; simp
  have hre : check_frame_reordering (construct_timestamps lwhp vdhp n).2.frame_list n
      = false := by
    rw [hfl]; exact check_frame_reordering_eq_false _ _ hord
  have hcf := construct_timestamps_flags lwhp vdhp n
  rw [hflags.1]
  refine ⟨?_, hflags.2.1.trans hbase, ?_⟩
  · unfold decide_video_seek_method
    simp only [hre, Bool.and_false, Bool.false_eq_true, if_false]
    split <;> rfl
  · intro i h1 h2
    unfold decide_video_seek_method
    simp only [hre, Bool.and_false, Bool.false_eq_true, if_false]
    rw [hcf.1]
    by_cases hd : (decide_seek_base lwhp vdhp.frame_list n).SEEK_DTS_BASED = true
    · rw [if_pos hd, if_pos hd]
      unfold finish_keyframes
      simp only
      have hv := info_at_of_map_eq view_ts _ _
        (map_treat_unique_as_keyframe view_ts map_view_ts_set_keyframe
          (construct_timestamps lwhp vdhp n).2.lw_seek_flags
          (copy_dts_to_pts (construct_timestamps lwhp vdhp n).2.frame_list n) n) i
      unfold view_ts at hv
      have hv1 := (Prod.mk.inj hv).1
      have hv2 := (Prod.mk.inj (Prod.mk.inj hv).2).1
      rw [hv1, hv2, hfl]
      have hcp := copy_dts_to_pts_fields vdhp.frame_list n i
      exact ⟨hcp.1, hcp.2.2 h1 h2 (by omega)⟩
    · rw [if_neg hd, if_neg hd]
      unfold finish_keyframes
      simp only
      have hv := info_at_of_map_eq view_ts _ _
        (map_treat_unique_as_keyframe view_ts map_view_ts_set_keyframe
          (construct_timestamps lwhp vdhp n).2.lw_seek_flags
          (construct_timestamps lwhp vdhp n).2.frame_list n) i
      unfold view_ts at hv
      have hv1 := (Prod.mk.inj hv).1
      have hv2 := (Prod.mk.inj (Prod.mk.inj hv).2).1
      rw [hv1, hv2, hfl]
      exact ⟨rfl, rfl⟩

/-- Witness of C16 (amended): the scenario with PTS 5, 15, 25 and DTS 0, 10, 20. -/
theorem decide_video_seek_method_pts_when_not_reordered_witness :
    3 < scenario_pts_ahead_of_dts.frame_list.length
    ∧ (∀ i, 1 ≤ i → i ≤ 3 →
        (info_at scenario_pts_ahead_of_dts.frame_list i).pts ≠ AV_NOPTS_VALUE)
    ∧ (∀ i, 2 ≤ i → i ≤ 3 → (info_at scenario_pts_ahead_of_dts.frame_list (i - 1)).pts
        ≤ (info_at scenario_pts_ahead_of_dts.frame_list i).pts)
    ∧ ((decide_video_seek_method insertion_qsort true true scenario_mp4
          scenario_pts_ahead_of_dts 3).1 = 0
      ∧ (decide_video_seek_method insertion_qsort true true scenario_mp4
          scenario_pts_ahead_of_dts 3).2.lw_seek_flags.SEEK_PTS_BASED = true
      ∧ ∀ i, 1 ≤ i → i ≤ 3 →
          (info_at (decide_video_seek_method insertion_qsort true true scenario_mp4
              scenario_pts_ahead_of_dts 3).2.frame_list i).dts
            = (info_at scenario_pts_ahead_of_dts.frame_list i).dts
          ∧ (info_at (decide_video_seek_method insertion_qsort true true scenario_mp4
              scenario_pts_ahead_of_dts 3).2.frame_list i).pts
            = (if (decide_video_seek_method insertion_qsort true true scenario_mp4
                  scenario_pts_ahead_of_dts 3).2.lw_seek_flags.SEEK_DTS_BASED = true
               then (info_at scenario_pts_ahead_of_dts.frame_list i).dts
               else (info_at scenario_pts_ahead_of_dts.frame_list i).pts)) :=
  ⟨by decide, by decide, by decide,
   decide_video_seek_method_pts_when_not_reordered insertion_qsort true true scenario_mp4
     scenario_pts_ahead_of_dts 3 (by decide) (by decide) (by decide)⟩

/-! ## `SEEK_POS_BASED` -/

theorem error_count_eq_iff (f : Nat → Int) (n : Nat) (hn : n < 2 ^ 32) :
    ((List.range' 1 n).foldl
        (fun c i => wrap_uint32 (c + (if f i = -1 then 1 else 0))) 0 = n)
      ↔ ∀ i, 1 ≤ i → i ≤ n → f i = -1 := by
  have h := foldl_range'_inv
    (fun c i => wrap_uint32 (c + (if f i = -1 then 1 else 0)))
    (fun k c => c ≤ k ∧ (c = k ↔ ∀ i, 1 ≤ i → i ≤ k → f i = -1)) 0 1 n
    ⟨Nat.le_refl 0, by constructor
                       · intro _ i h1 h2; omega
                       · intro _; rfl⟩
    (by
      intro k c hk ⟨hle, hiff⟩
      simp only
      by_cases hf : f (1 + k) = -1
      · rw [if_pos hf]
        have hw : wrap_uint32 (c + 1) = c + 1 := by
          unfold wrap_uint32; exact Nat.mod_eq_of_lt (by omega)
        rw [hw]
        refine ⟨by omega, ?_⟩
        constructor
        · intro hc i h1 h2
          by_cases hi : i ≤ k
          · exact hiff.mp (by omega) i h1 hi
          · have : i = 1 + k := by omega
            rw [this]; exact hf
        · intro hall
          have := hiff.mpr (fun i h1 h2 => hall i h1 (by omega))
          omega
      · rw [if_neg hf]
        have hw : wrap_uint32 (c + 0) = c := by
          unfold wrap_uint32; exact Nat.mod_eq_of_lt (by omega)
        rw [hw]
        refine ⟨by omega, ?_⟩
        constructor
        · intro hc; omega
        · intro hall
          exact absurd (hall (1 + k) (by omega) (by omega)) hf)
  exact h.2

theorem lineup_pos_based (lwhp : lwlibav_file_handler_t) :
    (lineup_seek_base_candidates lwhp).SEEK_POS_BASED = true
      ↔ (lwhp.format_name = "mpeg" ∨ lwhp.format_name = "mpegts") := by
  unfold lineup_seek_base_candidates
  by_cases h : lwhp.format_name = "mpeg" ∨ lwhp.format_name = "mpegts"
  · rw [if_pos h]; simp [h]
  · rw [if_neg h]; simp [h]

theorem decide_seek_base_pos_based (lwhp : lwlibav_file_handler_t)
    (info : List video_frame_info_t) (n : Nat) (hn : n < 2 ^ 32) :
    (decide_seek_base lwhp info n).SEEK_POS_BASED = true ↔
      ((lwhp.format_name = "mpeg" ∨ lwhp.format_name = "mpegts")
       ∧ lwhp.format_flags &&& AVFMT_NO_BYTE_SEEK = 0
       ∧ ∃ i, 1 ≤ i ∧ i ≤ n ∧ (info_at info i).file_offset ≠ -1) := by
  unfold decide_seek_base
  generalize hg : drop_pos_correction
      (drop_dts_based (drop_pts_based (lineup_seek_base_candidates lwhp) info n) info n)
      info n = flags
  have hp : flags.SEEK_POS_BASED = (lineup_seek_base_candidates lwhp).SEEK_POS_BASED := by
    rw [← hg, (drop_pos_correction_fields _ info n).2.1, (drop_dts_based_fields _ info n).2.1,
      (drop_pts_based_fields _ info n).2.1]
  rw [← lineup_pos_based, ← hp]
  unfold drop_pos_based
  by_cases hpos : flags.SEEK_POS_BASED = true
  · rw [if_pos hpos]
    by_cases hb : lwhp.format_flags &&& AVFMT_NO_BYTE_SEEK ≠ 0
    · rw [if_pos hb]
      simp only [Bool.false_eq_true, false_iff]
      intro h; exact hb h.2.1
    · rw [if_neg hb]
      have hb' : lwhp.format_flags &&& AVFMT_NO_BYTE_SEEK = 0 := by
        by_contra h; exact hb h
      have he := error_count_eq_iff (fun i => (info_at info i).file_offset) n hn
      simp only
      by_cases hc : (List.range' 1 n).foldl
          (fun c i => wrap_uint32 (c + (if (info_at info i).file_offset = -1 then 1 else 0))) 0 = n
      · rw [if_pos hc]
        simp only [Bool.false_eq_true, false_iff]
        intro ⟨_, _, i, h1, h2, h3⟩
        exact h3 (he.mp hc i h1 h2)
      · rw [if_neg hc]
        refine ⟨fun _ => ⟨hpos, hb', ?_⟩, fun _ => hpos⟩
        by_contra hex
        apply hc
        apply he.mpr
        intro i h1 h2
        by_contra h3
        exact hex ⟨i, h1, h2, h3⟩
  · rw [if_neg hpos]
    constructor
    · intro h; exact absurd h hpos
    · intro h; exact h.1

theorem decide_audio_seek_base_pos_based (lwhp : lwlibav_file_handler_t)
    (info : List audio_frame_info_t) (n : Nat) (hn : n < 2 ^ 32) :
    (decide_audio_seek_base lwhp info n).SEEK_POS_BASED = true ↔
      ((lwhp.format_name = "mpeg" ∨ lwhp.format_name = "mpegts")
       ∧ lwhp.format_flags &&& AVFMT_NO_BYTE_SEEK = 0
       ∧ ∃ i, 1 ≤ i ∧ i ≤ n ∧ (audio_info_at info i).file_offset ≠ -1) := by
  unfold decide_audio_seek_base
  generalize hg : audio_drop_dts_based
      (audio_drop_pts_based (lineup_seek_base_candidates lwhp) info n) info n = flags
  have hp : flags.SEEK_POS_BASED = (lineup_seek_base_candidates lwhp).SEEK_POS_BASED := by
    rw [← hg]
    unfold audio_drop_dts_based audio_drop_pts_based
    split <;> split <;> rfl
  rw [← lineup_pos_based, ← hp]
  unfold audio_drop_pos_based
  by_cases hpos : flags.SEEK_POS_BASED = true
  · rw [if_pos hpos]
    by_cases hb : lwhp.format_flags &&& AVFMT_NO_BYTE_SEEK ≠ 0
    · rw [if_pos hb]
      simp only [Bool.false_eq_true, false_iff]
      intro h; exact hb h.2.1
    · rw [if_neg hb]
      have hb' : lwhp.format_flags &&& AVFMT_NO_BYTE_SEEK = 0 := by
        by_contra h; exact hb h
      have he := error_count_eq_iff (fun i => (audio_info_at info i).file_offset) n hn
      simp only
      by_cases hc : (List.range' 1 n).foldl
          (fun c i => wrap_uint32
            (c + (if (audio_info_at info i).file_offset = -1 then 1 else 0))) 0 = n
      · rw [if_pos hc]
        simp only [Bool.false_eq_true, false_iff]
        intro ⟨_, _, i, h1, h2, h3⟩
        exact h3 (he.mp hc i h1 h2)
      · rw [if_neg hc]
        refine ⟨fun _ => ⟨hpos, hb', ?_⟩, fun _ => hpos⟩
        by_contra hex
        apply hc
        apply he.mpr
        intro i h1 h2
        by_contra h3
        exact hex ⟨i, h1, h2, h3⟩
  · rw [if_neg hpos]
    constructor
    · intro h; exact absurd h hpos
    · intro h; exact h.1

/-- C20. `SEEK_POS_BASED` is in the flags that `decide_video_seek_method`
produces if and only if the format name is "mpeg" or "mpegts", the format flags
do not contain `AVFMT_NO_BYTE_SEEK`, and at least one of the `N` records has
`file_offset != -1`; likewise for `decide_audio_seek_method`.  The counts are
`uint32_t`. -/
theorem seek_pos_based_iff (q : qsort_t) (a b : Bool) (lwhp : lwlibav_file_handler_t)
    (vdhp : lwlibav_video_decode_handler_t) (adhp : lwlibav_audio_decode_handler_t)
    (n m : Nat) (hn : n < 2 ^ 32) (hm : m < 2 ^ 32) :
    ((decide_video_seek_method q a b lwhp vdhp n).2.lw_seek_flags.SEEK_POS_BASED = true ↔
      ((lwhp.format_name = "mpeg" ∨ lwhp.format_name = "mpegts")
       ∧ lwhp.format_flags &&& AVFMT_NO_BYTE_SEEK = 0
       ∧ ∃ i, 1 ≤ i ∧ i ≤ n ∧ (info_at vdhp.frame_list i).file_offset ≠ -1))
    ∧ ((decide_audio_seek_method lwhp adhp m).lw_seek_flags.SEEK_POS_BASED = true ↔
      ((lwhp.format_name = "mpeg" ∨ lwhp.format_name = "mpegts")
       ∧ lwhp.format_flags &&& AVFMT_NO_BYTE_SEEK = 0
       ∧ ∃ i, 1 ≤ i ∧ i ≤ m ∧ (audio_info_at adhp.frame_list i).file_offset ≠ -1)) := by
  constructor
  · rw [(decide_video_seek_method_flags q a b lwhp vdhp n).2.2.1]
    exact decide_seek_base_pos_based lwhp vdhp.frame_list n hn
  · exact decide_audio_seek_base_pos_based lwhp adhp.frame_list m hm

/-- Witness of C20: the MPEG program stream scenario with offsets 5, 7, 5 and the
audio scenario, whose last offset is -1. -/
theorem seek_pos_based_iff_witness :
    3 < 2 ^ 32 ∧ 4 < 2 ^ 32
    ∧ (decide_video_seek_method insertion_qsort true true scenario_mpeg
        scenario_repeated_offset 3).2.lw_seek_flags.SEEK_POS_BASED = true
    ∧ (decide_audio_seek_method scenario_mpeg scenario_audio 4).lw_seek_flags.SEEK_POS_BASED
        = true
    ∧ (((decide_video_seek_method insertion_qsort true true scenario_mpeg
          scenario_repeated_offset 3).2.lw_seek_flags.SEEK_POS_BASED = true ↔
        ((scenario_mpeg.format_name = "mpeg" ∨ scenario_mpeg.format_name = "mpegts")
         ∧ scenario_mpeg.format_flags &&& AVFMT_NO_BYTE_SEEK = 0
         ∧ ∃ i, 1 ≤ i ∧ i ≤ 3
            ∧ (info_at scenario_repeated_offset.frame_list i).file_offset ≠ -1))
      ∧ ((decide_audio_seek_method scenario_mpeg scenario_audio 4).lw_seek_flags.SEEK_POS_BASED
          = true ↔
        ((scenario_mpeg.format_name = "mpeg" ∨ scenario_mpeg.format_name = "mpegts")
         ∧ scenario_mpeg.format_flags &&& AVFMT_NO_BYTE_SEEK = 0
         ∧ ∃ i, 1 ≤ i ∧ i ≤ 4
            ∧ (audio_info_at scenario_audio.frame_list i).file_offset ≠ -1))) :=
  ⟨by decide, by decide, by decide, by decide,
   seek_pos_based_iff insertion_qsort true true scenario_mpeg scenario_repeated_offset
     scenario_audio 3 4 (by decide) (by decide)⟩

/-! ## The keyframe pass of the audio decider -/

theorem audio_info_at_set (l : List audio_frame_info_t) (i j : Nat) (r : audio_frame_info_t) :
    audio_info_at (l.set i r) j = if j = i ∧ i < l.length then r else audio_info_at l j := by
  unfold audio_info_at
  by_cases h : j = i
  · subst h
    by_cases hl : j < l.length
    · simp [hl, List.getD_eq_getElem?_getD, List.getElem?_set]
    · have hn : l[j]? = none := List.getElem?_eq_none (by omega)
      simp [hl, hn, List.getD_eq_getElem?_getD, List.getElem?_set]
  · have h' : i ≠ j := fun e => h e.symm
    simp [h, h', List.getD_eq_getElem?_getD, List.getElem?_set]

theorem audio_keyframe_step_spec (axis : audio_frame_info_t → Int) (unset : Int)
    (hax : ∀ (r : audio_frame_info_t) (v : Nat), axis { r with keyframe := v } = axis r)
    (l : List audio_frame_info_t) (i : Nat) (h2 : 2 ≤ i) (hi : i < l.length) :
    (audio_keyframe_step axis unset l i).length = l.length
    ∧ (∀ j, axis (audio_info_at (audio_keyframe_step axis unset l i) j)
          = axis (audio_info_at l j))
    ∧ (∀ j, j ≠ i → j ≠ i - 1 →
        (audio_info_at (audio_keyframe_step axis unset l i) j).keyframe
          = (audio_info_at l j).keyframe)
    ∧ ((audio_info_at (audio_keyframe_step axis unset l i) i).keyframe
        = if axis (audio_info_at l i) ≠ unset
            ∧ axis (audio_info_at l i) ≠ axis (audio_info_at l (i - 1)) then 1 else 0)
    ∧ ((audio_info_at (audio_keyframe_step axis unset l i) (i - 1)).keyframe
        = if axis (audio_info_at l i) ≠ unset
            ∧ axis (audio_info_at l i) = axis (audio_info_at l (i - 1)) then 0
          else (audio_info_at l (i - 1)).keyframe) := by
  have hne : i - 1 ≠ i := by omega
  have hi1 : i - 1 < l.length := by omega
  unfold audio_keyframe_step
  by_cases hu : axis (audio_info_at l i) = unset
  · rw [if_pos hu]
    unfold set_audio_keyframe
    refine ⟨by simp, ?_, ?_, ?_, ?_⟩
    · intro j
      rw [audio_info_at_set]
      split
      · rename_i h; rw [hax, h.1]
      · rfl
    · intro j hj _
      rw [audio_info_at_set, if_neg (fun h => hj h.1)]
    · rw [audio_info_at_set, if_pos ⟨rfl, hi⟩, if_neg (fun h => h.1 hu)]
    · rw [audio_info_at_set, if_neg (fun h => hne h.1), if_neg (fun h => h.1 hu)]
  · rw [if_neg hu]
    by_cases he : axis (audio_info_at l i) = axis (audio_info_at l (i - 1))
    · rw [if_pos he]
      unfold set_audio_keyframe
      refine ⟨by simp, ?_, ?_, ?_, ?_⟩
      · intro j
        rw [audio_info_at_set]
        split
        · rename_i h
          rw [hax, audio_info_at_set, if_neg (fun h' => hne h'.1.symm), h.1]
        · rw [audio_info_at_set]
          split
          · rename_i h; rw [hax, h.1]
          · rfl
      · intro j hj hj1
        rw [audio_info_at_set, if_neg (fun h => hj h.1), audio_info_at_set,
          if_neg (fun h => hj1 h.1)]
      · rw [audio_info_at_set, if_pos ⟨rfl, by simp; exact hi⟩, if_neg (fun h => h.2 he)]
      · rw [audio_info_at_set, if_neg (fun h => hne h.1), audio_info_at_set,
          if_pos ⟨rfl, hi1⟩, if_pos ⟨hu, he⟩]
    · rw [if_neg he]
      unfold set_audio_keyframe
      refine ⟨by simp, ?_, ?_, ?_, ?_⟩
      · intro j
        rw [audio_info_at_set]
        split
        · rename_i h; rw [hax, h.1]
        · rfl
      · intro j hj _
        rw [audio_info_at_set, if_neg (fun h => hj h.1)]
      · rw [audio_info_at_set, if_pos ⟨rfl, hi⟩, if_pos ⟨hu, he⟩]
      · rw [audio_info_at_set, if_neg (fun h => hne h.1), if_neg (fun h => he h.2)]

theorem audio_keyframe_pass_spec (axis : audio_frame_info_t → Int) (unset : Int)
    (hax : ∀ (r : audio_frame_info_t) (v : Nat), axis { r with keyframe := v } = axis r)
    (info : List audio_frame_info_t) (n : Nat) (hlen : n < info.length) :
    (∀ j, axis (audio_info_at (audio_keyframe_pass axis unset info n) j)
        = axis (audio_info_at info j))
    ∧ ∀ i, 1 ≤ i → i ≤ n →
        ((audio_info_at (audio_keyframe_pass axis unset info n) i).keyframe = 1 ↔
          (axis (audio_info_at info i) ≠ unset
           ∧ (1 < i → axis (audio_info_at info i) ≠ axis (audio_info_at info (i - 1)))
           ∧ (i < n → axis (audio_info_at info i) ≠ axis (audio_info_at info (i + 1))))) := by
  by_cases hn0 : n = 0
  · subst hn0
    refine ⟨?_, fun i h1 h2 => by omega⟩
    intro j
    unfold audio_keyframe_pass set_audio_keyframe
    simp only [Nat.zero_sub, List.range'_zero, List.foldl_nil]
    rw [audio_info_at_set]
    split
    · rename_i h; rw [hax, h.1]
    · rfl
  have h := foldl_range'_inv (audio_keyframe_step axis unset)
    (fun k l => l.length = info.length
      ∧ (∀ j, axis (audio_info_at l j) = axis (audio_info_at info j))
      ∧ ∀ i, 1 ≤ i → i ≤ k + 1 →
        ((audio_info_at l i).keyframe = 1 ↔
          (axis (audio_info_at info i) ≠ unset
           ∧ (1 < i → axis (audio_info_at info i) ≠ axis (audio_info_at info (i - 1)))
           ∧ (i < k + 1 → axis (audio_info_at info i) ≠ axis (audio_info_at info (i + 1))))))
    (set_audio_keyframe info 1 (if axis (audio_info_at info 1) ≠ unset then 1 else 0))
    2 (n - 1)
    (by
      unfold set_audio_keyframe
      refine ⟨by simp, ?_, ?_⟩
      · intro j
        rw [audio_info_at_set]
        split
        · rename_i h; rw [hax, h.1]
        · rfl
      · intro i h1 h2
        have hi : i = 1 := by omega
        subst hi
        rw [audio_info_at_set, if_pos ⟨rfl, by omega⟩]
        simp only
        by_cases hu : axis (audio_info_at info 1) = unset
        · simp [hu]
        · simp [hu])
    (by
      intro k l hk ⟨hl, hv, hkf⟩
      have hs := audio_keyframe_step_spec axis unset hax l (2 + k) (by omega) (by omega)
      obtain ⟨s1, s2, s3, s4, s5⟩ := hs
      refine ⟨s1.trans hl, fun j => (s2 j).trans (hv j), ?_⟩
      intro i h1 h2
      have e1 : 2 + k - 1 = k + 1 := by omega
      rw [e1] at s3 s4 s5
      rw [hv (2 + k), hv (k + 1)] at s4 s5
      by_cases hi : i = 2 + k
      · subst hi
        rw [s4, e1]
        constructor
        · intro h
          split at h
          · rename_i hc
            exact ⟨hc.1, fun _ => hc.2, fun h' => by omega⟩
          · omega
        · intro ⟨c1, c2, _⟩
          rw [if_pos ⟨c1, c2 (by omega)⟩]
      · by_cases hi' : i = k + 1
        · subst hi'
          rw [s5]
          have hk1 := hkf (k + 1) h1 (Nat.le_refl _)
          have e2 : k + 1 + 1 = 2 + k := by omega
          rw [e2]
          constructor
          · intro h
            split at h
            · omega
            · rename_i hc
              have := hk1.mp h
              refine ⟨this.1, this.2.1, fun _ => ?_⟩
              intro he
              apply hc
              refine ⟨?_, he.symm⟩
              rw [← he]; exact this.1
          · intro ⟨c1, c2, c3⟩
            have c3' := c3 (by omega)
            rw [if_neg (fun hc => c3' hc.2.symm)]
            exact hk1.mpr ⟨c1, c2, fun h' => by omega⟩
        · rw [s3 i hi (by omega)]
          have hk1 := hkf i h1 (by omega)
          rw [hk1]
          constructor
          · intro ⟨c1, c2, c3⟩
            exact ⟨c1, c2, fun _ => c3 (by omega)⟩
          · intro ⟨c1, c2, c3⟩
            exact ⟨c1, c2, fun _ => c3 (by omega)⟩)
  unfold audio_keyframe_pass
  obtain ⟨_, hv, hkf⟩ := h
  refine ⟨hv, ?_⟩
  intro i h1 h2
  have e : n - 1 + 1 = n := by omega
  have := hkf i h1 (by omega)
  rw [e] at this
  exact this
theorem audio_copy_dts_to_pts_fields (l : List audio_frame_info_t) (n : Nat) :
    (audio_copy_dts_to_pts l n).length = l.length
    ∧ ∀ j, (audio_info_at (audio_copy_dts_to_pts l n) j).dts = (audio_info_at l j).dts
        ∧ (audio_info_at (audio_copy_dts_to_pts l n) j).file_offset
            = (audio_info_at l j).file_offset := by
  unfold audio_copy_dts_to_pts
  generalize List.range' 1 n = is
  induction is generalizing l with
  | nil => exact ⟨rfl, fun j => ⟨rfl, rfl⟩⟩
  | cons i is ih =>
    rw [List.foldl_cons]
    obtain ⟨h1, h2⟩ := ih (set_audio_pts l i (audio_info_at l i).dts)
    refine ⟨h1.trans (by unfold set_audio_pts; simp), ?_⟩
    intro j
    rw [(h2 j).1, (h2 j).2]
    unfold set_audio_pts
    rw [audio_info_at_set]
    split
    · rename_i h; rw [h.1]; exact ⟨rfl, rfl⟩
    · exact ⟨rfl, rfl⟩

theorem audio_all_keyframes (l : List audio_frame_info_t) (n : Nat) (hlen : n < l.length) :
    ∀ i, 1 ≤ i → i ≤ n →
      (audio_info_at ((List.range' 1 n).foldl (fun l i => set_audio_keyframe l i 1) l) i).keyframe
        = 1 := by
  have h := foldl_range'_inv (fun l i => set_audio_keyframe l i 1)
    (fun k l' => l'.length = l.length
      ∧ ∀ i, 1 ≤ i → i ≤ k → (audio_info_at l' i).keyframe = 1) l 1 n
    ⟨rfl, fun i h1 h2 => by omega⟩
    (by
      intro k l' hk ⟨hl, hkf⟩
      simp only
      unfold set_audio_keyframe
      refine ⟨by simp [hl], ?_⟩
      intro i h1 h2
      rw [audio_info_at_set]
      split
      · rfl
      · rename_i hc
        have hne : i ≠ 1 + k := fun e => hc ⟨e, by omega⟩
        exact hkf i h1 (by omega))
  exact h.2

/-- C17. After `decide_audio_seek_method` on `M` audio records: if none of
`SEEK_POS_BASED`, `SEEK_PTS_BASED`, `SEEK_DTS_BASED` survives, every record
`1..M` has `keyframe = 1`; otherwise, with `v` the surviving axis of highest
priority (`file_offset`, then `pts`, then `dts`), the call leaves `v` as it
was and record `i` has `keyframe = 1` if and only if `v[i]` is set,
`v[i] != v[i-1]` when `i > 1`, and `v[i] != v[i+1]` when `i < M`, whatever the
keyframe values were before the call. -/
theorem decide_audio_seek_method_keyframes (lwhp : lwlibav_file_handler_t)
    (adhp : lwlibav_audio_decode_handler_t) (m : Nat) (hlen : m < adhp.frame_list.length) :
    (audio_trusted_axis (decide_audio_seek_method lwhp adhp m).lw_seek_flags = none →
      ∀ i, 1 ≤ i → i ≤ m →
        (audio_info_at (decide_audio_seek_method lwhp adhp m).frame_list i).keyframe = 1)
    ∧ (∀ axis unset,
        audio_trusted_axis (decide_audio_seek_method lwhp adhp m).lw_seek_flags
          = some (axis, unset) →
        ∀ i, 1 ≤ i → i ≤ m →
          axis (audio_info_at (decide_audio_seek_method lwhp adhp m).frame_list i)
            = axis (audio_info_at adhp.frame_list i)
          ∧ ((audio_info_at (decide_audio_seek_method lwhp adhp m).frame_list i).keyframe = 1 ↔
            (axis (audio_info_at adhp.frame_list i) ≠ unset
             ∧ (1 < i → axis (audio_info_at adhp.frame_list i)
                  ≠ axis (audio_info_at adhp.frame_list (i - 1)))
             ∧ (i < m → axis (audio_info_at adhp.frame_list i)
                  ≠ axis (audio_info_at adhp.frame_list (i + 1)))))) := by
  unfold decide_audio_seek_method
  simp only
  generalize decide_audio_seek_base lwhp adhp.frame_list m = flags
  have hcp := audio_copy_dts_to_pts_fields adhp.frame_list m
  constructor
  · intro hnone i h1 h2
    unfold audio_trusted_axis at hnone
    by_cases hpos : flags.SEEK_POS_BASED = true
    · rw [if_pos hpos] at hnone; cases hnone
    · rw [if_neg hpos] at hnone
      by_cases hp : flags.SEEK_PTS_BASED = true
      · rw [if_pos hp] at hnone; cases hnone
      · rw [if_neg hp] at hnone
        by_cases hd : flags.SEEK_DTS_BASED = true
        · rw [if_pos hd] at hnone; cases hnone
        · unfold audio_treat_unique_as_keyframe
          rw [if_neg hpos, if_neg hp, if_neg hd]
          have hd' : flags.SEEK_DTS_BASED = false := Bool.eq_false_iff.mpr hd
          simp only [hd', Bool.and_false, Bool.false_eq_true, if_false]
          exact audio_all_keyframes adhp.frame_list m hlen i h1 h2
  · intro axis unset hsome i h1 h2
    unfold audio_trusted_axis at hsome
    unfold audio_treat_unique_as_keyframe
    by_cases hpos : flags.SEEK_POS_BASED = true
    · rw [if_pos hpos] at hsome
      rw [if_pos hpos]
      have e := Option.some.inj hsome
      have ea : axis = fun r => r.file_offset := (Prod.mk.inj e).1.symm
      have eu : unset = -1 := (Prod.mk.inj e).2.symm
      subst ea eu
      by_cases hc : (!flags.SEEK_PTS_BASED && flags.SEEK_DTS_BASED) = true
      · rw [if_pos hc]
        have hs := audio_keyframe_pass_spec (fun r => r.file_offset) (-1)
          (fun _ _ => rfl) (audio_copy_dts_to_pts adhp.frame_list m) m (by rw [hcp.1]; exact hlen)
        have hk := hs.2 i h1 h2
        simp only [(hcp.2 _).2] at hk hs
        exact ⟨hs.1 i, hk⟩
      · rw [if_neg hc]
        have hs := audio_keyframe_pass_spec (fun r => r.file_offset) (-1)
          (fun _ _ => rfl) adhp.frame_list m hlen
        exact ⟨hs.1 i, hs.2 i h1 h2⟩
    · rw [if_neg hpos] at hsome
      rw [if_neg hpos]
      by_cases hp : flags.SEEK_PTS_BASED = true
      · rw [if_pos hp] at hsome
        rw [if_pos hp]
        have e := Option.some.inj hsome
        have ea : axis = fun r => r.pts := (Prod.mk.inj e).1.symm
        have eu : unset = AV_NOPTS_VALUE := (Prod.mk.inj e).2.symm
        subst ea eu
        simp only [hp, Bool.not_true, Bool.false_and, Bool.false_eq_true, if_false]
        have hs := audio_keyframe_pass_spec (fun r => r.pts) AV_NOPTS_VALUE
          (fun _ _ => rfl) adhp.frame_list m hlen
        exact ⟨hs.1 i, hs.2 i h1 h2⟩
      · rw [if_neg hp] at hsome
        rw [if_neg hp]
        by_cases hd : flags.SEEK_DTS_BASED = true
        · rw [if_pos hd] at hsome
          rw [if_pos hd]
          have e := Option.some.inj hsome
          have ea : axis = fun r => r.dts := (Prod.mk.inj e).1.symm
          have eu : unset = AV_NOPTS_VALUE := (Prod.mk.inj e).2.symm
          subst ea eu
          have hp' : flags.SEEK_PTS_BASED = false := Bool.eq_false_iff.mpr hp
          simp only [hp', hd, Bool.not_false, Bool.and_self, if_true]
          have hs := audio_keyframe_pass_spec (fun r => r.dts) AV_NOPTS_VALUE
            (fun _ _ => rfl) (audio_copy_dts_to_pts adhp.frame_list m) m
            (by rw [hcp.1]; exact hlen)
          have hk := hs.2 i h1 h2
          simp only [(hcp.2 _).1] at hk hs
          exact ⟨hs.1 i, hk⟩
        · rw [if_neg hd] at hsome
          cases hsome

/-- Witness of C17: the audio scenario in an MP4 file; the axis is the PTS
(the second record has no DTS), records 2 and 3 share PTS 10, and records 1
and 4 come out as keyframes. -/
theorem decide_audio_seek_method_keyframes_witness :
    4 < scenario_audio.frame_list.length
    ∧ (decide_audio_seek_method scenario_mp4 scenario_audio 4).frame_list.map
        (fun r => r.keyframe) = [0, 1, 0, 0, 1]
    ∧ ((audio_trusted_axis (decide_audio_seek_method scenario_mp4 scenario_audio 4).lw_seek_flags
          = none →
        ∀ i, 1 ≤ i → i ≤ 4 →
          (audio_info_at (decide_audio_seek_method scenario_mp4 scenario_audio 4).frame_list
            i).keyframe = 1)
      ∧ (∀ axis unset,
          audio_trusted_axis (decide_audio_seek_method scenario_mp4 scenario_audio 4).lw_seek_flags
            = some (axis, unset) →
          ∀ i, 1 ≤ i → i ≤ 4 →
            axis (audio_info_at (decide_audio_seek_method scenario_mp4 scenario_audio
                4).frame_list i)
              = axis (audio_info_at scenario_audio.frame_list i)
            ∧ ((audio_info_at (decide_audio_seek_method scenario_mp4 scenario_audio
                  4).frame_list i).keyframe = 1 ↔
              (axis (audio_info_at scenario_audio.frame_list i) ≠ unset
               ∧ (1 < i → axis (audio_info_at scenario_audio.frame_list i)
                    ≠ axis (audio_info_at scenario_audio.frame_list (i - 1)))
               ∧ (i < 4 → axis (audio_info_at scenario_audio.frame_list i)
                    ≠ axis (audio_info_at scenario_audio.frame_list (i + 1))))))) :=
  ⟨by decide, by decide,
   decide_audio_seek_method_keyframes scenario_mp4 scenario_audio 4 (by decide)⟩

/-! ## The audio/video gap -/

theorem wrap_int64_sub_left (a b : Int) : wrap_int64 (wrap_int64 a - b) = wrap_int64 (a - b) := by
  unfold wrap_int64; omega

theorem find?_range'_eq_some (p : Nat → Bool) (a n k : Nat)
    (h1 : a ≤ k) (h2 : k < a + n) (hk : p k = true)
    (hfirst : ∀ i, a ≤ i → i < k → p i = false) :
    (List.range' a n).find? p = some k := by
  induction n generalizing a with
  | zero => omega
  | succ n ih =>
    rw [List.range'_succ, List.find?_cons]
    by_cases hak : a = k
    · subst hak; rw [hk]
    · rw [hfirst a (Nat.le_refl a) (by omega)]
      exact ih (a + 1) (by omega) (by omega) (fun i hi1 hi2 => hfirst i (by omega) hi2)

theorem find?_range'_eq_none (p : Nat → Bool) (a n : Nat)
    (h : ∀ i, a ≤ i → i < a + n → p i = false) :
    (List.range' a n).find? p = none := by
  rw [List.find?_eq_none]
  intro x hx
  have := List.mem_range'_1.mp hx
  rw [h x this.1 this.2]
  simp

theorem first_audio_ts_number_eq_some (adhp : lwlibav_audio_decode_handler_t) (k : Nat)
    (h1 : 1 ≤ k) (h2 : k ≤ adhp.frame_count)
    (hk : audio_trusted_ts adhp k ≠ AV_NOPTS_VALUE)
    (hfirst : ∀ i, 1 ≤ i → i < k → audio_trusted_ts adhp i = AV_NOPTS_VALUE) :
    first_audio_ts_number adhp = some k := by
  unfold first_audio_ts_number
  unfold audio_trusted_ts at hk hfirst
  by_cases hp : adhp.lw_seek_flags.SEEK_PTS_BASED = true
  · simp only [hp, if_true] at hk hfirst ⊢
    exact find?_range'_eq_some _ 1 _ k h1 (by omega) (decide_eq_true hk)
      (fun i hi1 hi2 => by simp [hfirst i hi1 hi2])
  · simp only [hp, Bool.false_eq_true, if_false] at hk hfirst ⊢
    exact find?_range'_eq_some _ 1 _ k h1 (by omega) (decide_eq_true hk)
      (fun i hi1 hi2 => by simp [hfirst i hi1 hi2])

theorem first_audio_ts_number_eq_none (adhp : lwlibav_audio_decode_handler_t)
    (h : ∀ i, 1 ≤ i → i ≤ adhp.frame_count → audio_trusted_ts adhp i = AV_NOPTS_VALUE) :
    first_audio_ts_number adhp = none := by
  unfold first_audio_ts_number
  unfold audio_trusted_ts at h
  by_cases hp : adhp.lw_seek_flags.SEEK_PTS_BASED = true
  · simp only [hp, if_true] at h ⊢
    exact find?_range'_eq_none _ 1 _ (fun i hi1 hi2 => by simp [h i hi1 (by omega)])
  · simp only [hp, Bool.false_eq_true, if_false] at h ⊢
    exact find?_range'_eq_none _ 1 _ (fun i hi1 hi2 => by simp [h i hi1 (by omega)])

theorem estimate_first_audio_ts_no_delay (rescale : Int → AVRational → AVRational → Int)
    (info : List audio_frame_info_t) (m k : Nat) (sb tb : AVRational)
    (hk : k ≤ m) (hm : m < 2 ^ 32)
    (hlen : ∀ i, 1 ≤ i → i < k → (audio_info_at info i).length ≠ -1) :
    ∀ (fuel i : Nat) (ts : Int), 1 ≤ i → i ≤ k → k ≤ i + fuel →
      -2 ^ 63 ≤ ts → ts < 2 ^ 63 →
      estimate_first_audio_ts rescale info m k sb tb fuel i 0 ts
        = wrap_int64 (ts
            - ((List.range' i (k - i)).map
                (fun j => rescale (audio_info_at info j).length sb tb)).sum) := by
  have hw : wrap_uint32 (k + 0) = k := by
    unfold wrap_uint32; exact Nat.mod_eq_of_lt (by omega)
  intro fuel
  induction fuel with
  | zero =>
    intro i ts h1 h2 h3 hr1 hr2
    have : k - i = 0 := by omega
    rw [this]
    unfold estimate_first_audio_ts
    simp only [List.range'_zero, List.map_nil, List.sum_nil, sub_zero]
    exact (wrap_int64_eq_self ts hr1 hr2).symm
  | succ fuel ih =>
    intro i ts h1 h2 h3 hr1 hr2
    unfold estimate_first_audio_ts
    rw [hw]
    by_cases hi : i < min k m
    · rw [if_pos hi, if_pos (hlen i h1 (by omega))]
      rw [ih (i + 1) _ (by omega) (by omega) (by omega)
        (by unfold wrap_int64; omega) (by unfold wrap_int64; omega)]
      have e : k - i = (k - (i + 1)) + 1 := by omega
      rw [e, List.range'_succ, List.map_cons, List.sum_cons]
      generalize ((List.range' (i + 1) (k - (i + 1))).map
        (fun j => rescale (audio_info_at info j).length sb tb)).sum = rest
      generalize rescale (audio_info_at info i).length sb tb = r
      unfold wrap_int64; omega
    · rw [if_neg hi]
      have : k - i = 0 := by omega
      rw [this]
      simp only [List.range'_zero, List.map_nil, List.sum_nil, sub_zero]
      exact (wrap_int64_eq_self ts hr1 hr2).symm

/-- C18. The function `calculate_av_gap`, with `av_rescale_q` as the rescale
function and `int64_t` arithmetic: it returns 0 when the first video timestamp
(pts if PTS-based, else dts) is unset or when no audio record has its trusted
timestamp set; otherwise, with `k` the first audio index whose trusted
timestamp `at` is set and every record `1..k-1` having `length != -1`, it
returns `rescale(at', audio_tb -> 1/R) - rescale(vt, video_tb -> 1/R)` where
`at'` is `at` minus the sum over `i = 1..k-1` of
`rescale(length[i], 1/R -> audio_tb)`, and 0 when `vt` and `at'` are both 0. -/
theorem calculate_av_gap_spec (rescale : Int → AVRational → AVRational → Int)
    (vdhp : lwlibav_video_decode_handler_t) (adhp : lwlibav_audio_decode_handler_t)
    (video_time_base audio_time_base : AVRational) (sample_rate : Int)
    (hcount : adhp.frame_count < 2 ^ 32)
    (hrange : ∀ i, -2 ^ 63 ≤ audio_trusted_ts adhp i ∧ audio_trusted_ts adhp i < 2 ^ 63) :
    (first_video_ts vdhp = AV_NOPTS_VALUE →
      calculate_av_gap rescale vdhp adhp video_time_base audio_time_base sample_rate = 0)
    ∧ ((∀ i, 1 ≤ i → i ≤ adhp.frame_count → audio_trusted_ts adhp i = AV_NOPTS_VALUE) →
      calculate_av_gap rescale vdhp adhp video_time_base audio_time_base sample_rate = 0)
    ∧ (∀ k, first_video_ts vdhp ≠ AV_NOPTS_VALUE →
        1 ≤ k → k ≤ adhp.frame_count →
        audio_trusted_ts adhp k ≠ AV_NOPTS_VALUE →
        (∀ i, 1 ≤ i → i < k → audio_trusted_ts adhp i = AV_NOPTS_VALUE) →
        (∀ i, 1 ≤ i → i < k → (audio_info_at adhp.frame_list i).length ≠ -1) →
        calculate_av_gap rescale vdhp adhp video_time_base audio_time_base sample_rate
          = (if first_video_ts vdhp = 0
                ∧ first_audio_sample_ts rescale adhp audio_time_base sample_rate k = 0
             then 0
             else wrap_int64
               (rescale (first_audio_sample_ts rescale adhp audio_time_base sample_rate k)
                   audio_time_base { num := 1, den := sample_rate }
                - rescale (first_video_ts vdhp) video_time_base
                   { num := 1, den := sample_rate }))) := by
  refine ⟨?_, ?_, ?_⟩
  · intro h
    unfold calculate_av_gap
    simp only [h, if_true]
  · intro h
    unfold calculate_av_gap
    simp only [first_audio_ts_number_eq_none adhp h]
    split <;> rfl
  · intro k hv h1 h2 hk hfirst hlen
    unfold calculate_av_gap
    simp only [first_audio_ts_number_eq_some adhp k h1 h2 hk hfirst, if_neg hv]
    rw [estimate_first_audio_ts_no_delay rescale adhp.frame_list adhp.frame_count k _ _ h2
      hcount hlen adhp.frame_count 1 _ (Nat.le_refl 1) h1 (by omega) (hrange k).1 (hrange k).2]
    unfold first_audio_sample_ts
    by_cases hz : first_video_ts vdhp = 0
        ∧ wrap_int64 (audio_trusted_ts adhp k
            - ((List.range' 1 (k - 1)).map (fun i =>
                rescale (audio_info_at adhp.frame_list i).length
                  { num := 1, den := sample_rate } audio_time_base)).sum) = 0
    · rw [if_pos hz, if_neg (by rw [hz.1, hz.2]; simp)]
    · rw [if_neg hz, if_pos (by
        by_contra hc
        apply hz
        constructor
        · by_contra h0; exact hc (Or.inl h0)
        · by_contra h0; exact hc (Or.inr h0))]

/-- Witness of C18: video starting at DTS 0, audio whose first valid timestamp
is 4096 on the third record after two records of 1024 samples; the gap is 2048
samples. -/
theorem calculate_av_gap_spec_witness :
    scenario_audio_late_pts.frame_count < 2 ^ 32
    ∧ calculate_av_gap scenario_rescale scenario_reordered scenario_audio_late_pts
        { num := 1, den := 1000 } { num := 1, den := 48000 } 48000 = 2048
    ∧ first_audio_sample_ts scenario_rescale scenario_audio_late_pts
        { num := 1, den := 48000 } 48000 3 = 2048
    ∧ calculate_av_gap scenario_rescale scenario_reordered scenario_audio_late_pts
        { num := 1, den := 1000 } { num := 1, den := 48000 } 48000
      = (if first_video_ts scenario_reordered = 0
            ∧ first_audio_sample_ts scenario_rescale scenario_audio_late_pts
                { num := 1, den := 48000 } 48000 3 = 0
         then 0
         else wrap_int64
           (scenario_rescale (first_audio_sample_ts scenario_rescale scenario_audio_late_pts
                { num := 1, den := 48000 } 48000 3)
               { num := 1, den := 48000 } { num := 1, den := 48000 }
            - scenario_rescale (first_video_ts scenario_reordered) { num := 1, den := 1000 }
               { num := 1, den := 48000 })) :=
  ⟨by decide, by rfl, by rfl,
   (calculate_av_gap_spec scenario_rescale scenario_reordered scenario_audio_late_pts
      { num := 1, den := 1000 } { num := 1, den := 48000 } 48000 (by decide)
      (by
        intro i
        unfold audio_trusted_ts scenario_audio_late_pts audio_info_at
        simp only [Bool.false_eq_true, if_false]
        rcases i with _ | _ | _ | _ | i <;> simp [audio_frame_info_zero, scenario_audio_record,
          AV_NOPTS_VALUE])).2.2 3
      (by decide) (by decide) (by decide) (by decide)
      (by intro i h1 h2; interval_cases i <;> rfl)
      (by intro i h1 h2; interval_cases i <;> decide)⟩

/-! ## The EBDU assembler -/

theorem take_set_same (l : List Nat) (n v : Nat) : (l.set n v).take n = l.take n := by
  rw [List.set_take]
  exact List.set_eq_of_length_le (by simp)

theorem take_succ_set (l : List Nat) (n v : Nat) (h : n < l.length) :
    (l.set n v).take (n + 1) = l.take n ++ [v] := by
  rw [List.take_succ, take_set_same]
  simp [h]

theorem write_seq_getElem? (f : Nat → Nat) (data : List Nat) (off n : Nat) :
    ((List.range n).foldl (fun d i => d.set (off + i) (f i)) data).length = data.length
    ∧ ∀ j, ((List.range n).foldl (fun d i => d.set (off + i) (f i)) data)[j]?
        = if off ≤ j ∧ j < off + n ∧ j < data.length then some (f (j - off)) else data[j]? := by
  rw [List.range_eq_range']
  exact foldl_range'_inv (fun d i => d.set (off + i) (f i))
    (fun k d => d.length = data.length
      ∧ ∀ j, d[j]? = if off ≤ j ∧ j < off + k ∧ j < data.length
                      then some (f (j - off)) else data[j]?) data 0 n
    ⟨rfl, fun j => by rw [if_neg (by omega)]⟩
    (by
      intro k d hk ⟨hl, hj⟩
      refine ⟨by simp [hl], ?_⟩
      intro j
      simp only [Nat.zero_add]
      rw [List.getElem?_set]
      by_cases e : off + k = j
      · rw [if_pos e]
        by_cases hlt : off + k < d.length
        · rw [if_pos hlt, if_pos ⟨by omega, by omega, by omega⟩]
          have : j - off = k := by omega
          rw [this]
        · rw [if_neg hlt, if_neg (by omega)]
          exact (List.getElem?_eq_none (by omega)).symm
      · rw [if_neg e, hj j]
        by_cases c : off ≤ j ∧ j < off + k ∧ j < data.length
        · rw [if_pos c, if_pos ⟨c.1, by omega, c.2.2⟩]
        · rw [if_neg c, if_neg (by omega)])

theorem memset_zero_at_spec (data : List Nat) (off n : Nat) (h : off + n ≤ data.length) :
    (memset_zero_at data off n).take off = data.take off
    ∧ ((memset_zero_at data off n).drop off).take n = List.replicate n 0 := by
  have hw := write_seq_getElem? (fun _ => 0) data off n
  unfold memset_zero_at
  constructor
  · apply List.ext_getElem?
    intro j
    rw [List.getElem?_take, List.getElem?_take]
    split
    · rw [hw.2 j, if_neg (by omega)]
    · rfl
  · apply List.ext_getElem?
    intro j
    rw [List.getElem?_take, List.getElem?_replicate]
    by_cases hj : j < n
    · rw [if_pos hj, if_pos hj, List.getElem?_drop, hw.2, if_pos ⟨by omega, by omega, by omega⟩]
    · rw [if_neg hj, if_neg hj]

theorem memcpy_at_spec (data : List Nat) (off : Nat) (src : List Nat)
    (h : off + src.length ≤ data.length) :
    (memcpy_at data off src).length = data.length
    ∧ (memcpy_at data off src).take (off + src.length) = data.take off ++ src := by
  have hw := write_seq_getElem? (fun i => src.getD i 0) data off src.length
  unfold memcpy_at
  refine ⟨hw.1, ?_⟩
  apply List.ext_getElem?
  intro j
  have hlen : (List.take off data).length = off := by
    rw [List.length_take]; omega
  by_cases hj : j < off
  · rw [List.getElem?_take, if_pos (by omega), hw.2, if_neg (by omega),
      List.getElem?_append_left (by omega), List.getElem?_take, if_pos hj]
  · rw [List.getElem?_append_right (by omega), hlen]
    by_cases hj2 : j < off + src.length
    · rw [List.getElem?_take, if_pos hj2, hw.2, if_pos ⟨by omega, hj2, by omega⟩,
        List.getD_eq_getElem?_getD, List.getElem?_eq_getElem (by omega : j - off < src.length)]
      rfl
    · rw [List.getElem?_take, if_neg hj2]
      exact (List.getElem?_eq_none (by omega)).symm
theorem ebdu_reference_escape_succ (payload : List Nat) (p : Nat) :
    (List.range (p + 1)).flatMap (fun i =>
        if 2 ≤ i ∧ payload.getD i 0 ≤ 0x03 ∧ payload.getD (i - 1) 0 = 0x00
           ∧ payload.getD (i - 2) 0 = 0x00
        then [0x03, payload.getD i 0] else [payload.getD i 0])
      = (List.range p).flatMap (fun i =>
          if 2 ≤ i ∧ payload.getD i 0 ≤ 0x03 ∧ payload.getD (i - 1) 0 = 0x00
             ∧ payload.getD (i - 2) 0 = 0x00
          then [0x03, payload.getD i 0] else [payload.getD i 0])
        ++ (if 2 ≤ p ∧ payload.getD p 0 ≤ 0x03 ∧ payload.getD (p - 1) 0 = 0x00
               ∧ payload.getD (p - 2) 0 = 0x00
            then [0x03, payload.getD p 0] else [payload.getD p 0]) := by
  rw [List.range_succ, List.flatMap_append, List.flatMap_singleton]

theorem rbdu_to_ebdu_step_spec (payload : List Nat) (d : List Nat) (sz p : Nat)
    (pre : List Nat) (hp : 2 ≤ p) (hsz : sz + 2 ≤ d.length) (hpre : d.take sz = pre) :
    (rbdu_to_ebdu_step payload (d, sz) p).1.length = d.length
    ∧ (rbdu_to_ebdu_step payload (d, sz) p).2 ≤ sz + 2
    ∧ (rbdu_to_ebdu_step payload (d, sz) p).1.take (rbdu_to_ebdu_step payload (d, sz) p).2
        = pre ++ (if 2 ≤ p ∧ payload.getD p 0 ≤ 0x03 ∧ payload.getD (p - 1) 0 = 0x00
                     ∧ payload.getD (p - 2) 0 = 0x00
                  then [0x03, payload.getD p 0] else [payload.getD p 0]) := by
  unfold rbdu_to_ebdu_step
  by_cases hc : payload.getD (p - 2) 0 = 0x00 ∧ payload.getD (p - 1) 0 = 0x00
      ∧ payload.getD p 0 ≤ 0x03
  · simp only [if_pos hc]
    rw [if_pos ⟨hp, hc.2.2, hc.2.1, hc.1⟩]
    refine ⟨by simp, by omega, ?_⟩
    rw [take_succ_set _ _ _ (by simp; omega), take_succ_set _ _ _ (by omega), hpre]
    simp
  · simp only [if_neg hc]
    rw [if_neg (fun h => hc ⟨h.2.2.2, h.2.2.1, h.2.1⟩)]
    refine ⟨by simp, by omega, ?_⟩
    rw [take_succ_set _ _ _ (by omega), hpre]

theorem rbdu_to_ebdu_spec (payload : List Nat) (data : List Nat) (hdr : List Nat)
    (hlen : 2 * payload.length + 4 ≤ data.length) (hhdr : data.take 4 = hdr) :
    (rbdu_to_ebdu payload data).1.length = data.length
    ∧ (rbdu_to_ebdu payload data).2 ≤ 2 * payload.length + 4
    ∧ (rbdu_to_ebdu payload data).1.take (rbdu_to_ebdu payload data).2
        = hdr ++ (List.range payload.length).flatMap (fun i =>
            if 2 ≤ i ∧ payload.getD i 0 ≤ 0x03 ∧ payload.getD (i - 1) 0 = 0x00
               ∧ payload.getD (i - 2) 0 = 0x00
            then [0x03, payload.getD i 0] else [payload.getD i 0]) := by
  unfold rbdu_to_ebdu
  match payload, hlen with
  | [], _ =>
    simp only [List.length_nil, Nat.lt_irrefl, if_false, Nat.zero_sub, List.range'_zero,
      List.foldl_nil, List.range_zero, List.flatMap_nil, List.append_nil, Nat.not_lt_zero]
    exact ⟨trivial, by omega, hhdr⟩
  | [x], hlen =>
    simp only [List.length_singleton, Nat.lt_irrefl, if_false, show (1 : Nat) - 2 = 0 from rfl,
      List.range'_zero, List.foldl_nil, Nat.zero_lt_one, if_true]
    simp only [List.length_singleton] at hlen
    refine ⟨by simp, by omega, ?_⟩
    show ((data.set 4 ([x].getD 0 0)).take (4 + 1)) = _
    rw [take_succ_set _ _ _ (by omega), hhdr]
    simp [List.range_succ]
  | x :: y :: rest, hlen =>
    generalize hpl : x :: y :: rest = payload at hlen ⊢
    have h2 : 2 ≤ payload.length := by rw [← hpl]; simp
    simp only [if_pos (by omega : 0 < payload.length), if_pos (by omega : 1 < payload.length)]
    have hinv := foldl_range'_inv (rbdu_to_ebdu_step payload)
      (fun k s => s.1.length = data.length ∧ s.2 ≤ 2 * (k + 2) + 4
        ∧ s.1.take s.2 = hdr ++ (List.range (k + 2)).flatMap (fun i =>
              if 2 ≤ i ∧ payload.getD i 0 ≤ 0x03 ∧ payload.getD (i - 1) 0 = 0x00
                 ∧ payload.getD (i - 2) 0 = 0x00
              then [0x03, payload.getD i 0] else [payload.getD i 0]))
      ((data.set 4 (payload.getD 0 0)).set (4 + 1) (payload.getD 1 0), 4 + 1 + 1)
      2 (payload.length - 2)
      (by
        refine ⟨by simp, by omega, ?_⟩
        simp only
        rw [take_succ_set _ _ _ (by simp; omega), take_succ_set _ _ _ (by omega), hhdr]
        simp [List.range_succ])
      (by
        intro k ⟨d, sz⟩ hk ⟨hl, hs, ht⟩
        simp only at hl hs ht
        have hst := rbdu_to_ebdu_step_spec payload d sz (2 + k) _ (by omega)
          (by rw [hl]; omega) ht
        have e : 2 + k = k + 2 := by omega
        refine ⟨hst.1.trans hl, by omega, ?_⟩
        rw [hst.2.2, ebdu_reference_escape_succ payload (k + 2), e, List.append_assoc])
    have e : payload.length - 2 + 2 = payload.length := by omega
    dsimp only at hinv
    rw [e] at hinv
    exact ⟨hinv.1, by omega, hinv.2.2⟩

theorem start_code_take (b : List Nat) (t : Nat) (h : 4 ≤ b.length) :
    ((((b.set 0 0x00).set 1 0x00).set 2 0x01).set 3 t).take 4 = [0x00, 0x00, 0x01, t]
    ∧ ((((b.set 0 0x00).set 1 0x00).set 2 0x01).set 3 t).length = b.length := by
  match b, h with
  | _ :: _ :: _ :: _ :: _, _ => exact ⟨rfl, by simp⟩

theorem av_realloc_bytes_length (fresh : Nat → Nat) (buffer : List Nat) (size : Nat) :
    (av_realloc_bytes fresh buffer size).length = size := by
  unfold av_realloc_bytes
  simp

theorem make_vc1_ebdu_core (padding : Nat) (payload : List Nat) (bdu_type : Nat)
    (is_vc1 : Bool) (b : List Nat)
    (hb : (if is_vc1 = true then 1 else 2) * (payload.length + 4) + padding ≤ b.length) :
    (memset_zero_at
        (if is_vc1 = true then
            (memcpy_at ((((b.set 0 0x00).set 1 0x00).set 2 0x01).set 3 bdu_type) 4 payload,
             payload.length + 4)
         else rbdu_to_ebdu payload ((((b.set 0 0x00).set 1 0x00).set 2 0x01).set 3 bdu_type)).1
        (if is_vc1 = true then
            (memcpy_at ((((b.set 0 0x00).set 1 0x00).set 2 0x01).set 3 bdu_type) 4 payload,
             payload.length + 4)
         else rbdu_to_ebdu payload ((((b.set 0 0x00).set 1 0x00).set 2 0x01).set 3 bdu_type)).2
        padding).take
      (if is_vc1 = true then
          (memcpy_at ((((b.set 0 0x00).set 1 0x00).set 2 0x01).set 3 bdu_type) 4 payload,
           payload.length + 4)
       else rbdu_to_ebdu payload ((((b.set 0 0x00).set 1 0x00).set 2 0x01).set 3 bdu_type)).2
      = ebdu_reference payload bdu_type is_vc1
    ∧ (is_vc1 = true →
        (if is_vc1 = true then
            (memcpy_at ((((b.set 0 0x00).set 1 0x00).set 2 0x01).set 3 bdu_type) 4 payload,
             payload.length + 4)
         else rbdu_to_ebdu payload
            ((((b.set 0 0x00).set 1 0x00).set 2 0x01).set 3 bdu_type)).2 = payload.length + 4)
    ∧ ((memset_zero_at
        (if is_vc1 = true then
            (memcpy_at ((((b.set 0 0x00).set 1 0x00).set 2 0x01).set 3 bdu_type) 4 payload,
             payload.length + 4)
         else rbdu_to_ebdu payload ((((b.set 0 0x00).set 1 0x00).set 2 0x01).set 3 bdu_type)).1
        (if is_vc1 = true then
            (memcpy_at ((((b.set 0 0x00).set 1 0x00).set 2 0x01).set 3 bdu_type) 4 payload,
             payload.length + 4)
         else rbdu_to_ebdu payload ((((b.set 0 0x00).set 1 0x00).set 2 0x01).set 3 bdu_type)).2
        padding).drop
      (if is_vc1 = true then
          (memcpy_at ((((b.set 0 0x00).set 1 0x00).set 2 0x01).set 3 bdu_type) 4 payload,
           payload.length + 4)
       else rbdu_to_ebdu payload
          ((((b.set 0 0x00).set 1 0x00).set 2 0x01).set 3 bdu_type)).2).take padding
      = List.replicate padding 0 := by
  have hb4 : 4 ≤ b.length := by
    by_cases hv : is_vc1 = true
    · rw [if_pos hv] at hb; omega
    · rw [if_neg hv] at hb; omega
  obtain ⟨h0, h0l⟩ := start_code_take b bdu_type hb4
  generalize (((b.set 0 0x00).set 1 0x00).set 2 0x01).set 3 bdu_type = data0 at h0 h0l ⊢
  by_cases hv : is_vc1 = true
  · simp only [if_pos hv]
    rw [if_pos hv] at hb
    have hc := memcpy_at_spec data0 4 payload (by omega)
    have hm := memset_zero_at_spec (memcpy_at data0 4 payload) (payload.length + 4) padding
      (by rw [hc.1]; omega)
    refine ⟨?_, (by intro _; first | rfl | trivial), hm.2⟩
    rw [hm.1, Nat.add_comm payload.length 4, hc.2, h0]
    unfold ebdu_reference
    rw [if_pos hv]
  · simp only [if_neg hv]
    rw [if_neg hv] at hb
    have hr := rbdu_to_ebdu_spec payload data0 _ (by omega) h0
    have hm := memset_zero_at_spec (rbdu_to_ebdu payload data0).1 (rbdu_to_ebdu payload data0).2
      padding (by rw [hr.1]; omega)
    refine ⟨?_, fun h => absurd h hv, hm.2⟩
    rw [hm.1, hr.2.2]
    unfold ebdu_reference
    rw [if_neg hv]

/-- C19. The function `make_vc1_ebdu` agrees with the reference EBDU for every
payload and `bdu_type`: it returns a buffer unless `av_realloc` fails, the first
`*size` bytes of the buffer are `00 00 01 bdu_type` followed by the payload
verbatim when `is_vc1` is set (`*size` is the payload length plus 4) and by the
escaped payload otherwise, and the `FF_INPUT_BUFFER_PADDING_SIZE` bytes behind
`*size` are zero. -/
theorem make_vc1_ebdu_eq_reference (padding : Nat) (realloc_ok : Bool) (fresh : Nat → Nat)
    (helper : ebdu_helper_t) (pkt : AVPacket) (bdu_type : Nat) (is_vc1 : Bool)
    (hpkt : valid_buffer pkt.data pkt.size)
    (hfit : 2 * (pkt.size + 4) + Int.ofNat padding ≤ Int.ofNat INT32_MAX)
    (hhelper : helper.buffer_size = Int.ofNat helper.buffer.length) :
    (realloc_ok = true →
      (make_vc1_ebdu padding realloc_ok fresh helper pkt bdu_type is_vc1).isSome = true)
    ∧ ∀ data size helper1,
        make_vc1_ebdu padding realloc_ok fresh helper pkt bdu_type is_vc1
          = some (data, size, helper1) →
        data.take size
          = ebdu_reference ((pkt.data.getD []).take pkt.size.toNat) bdu_type is_vc1
        ∧ (is_vc1 = true → size = ((pkt.data.getD []).take pkt.size.toNat).length + 4)
        ∧ (data.drop size).take padding = List.replicate padding 0 := by
  have hp1 := hpkt.1
  have hp2 := hpkt.2
  simp only [Int.ofNat_eq_coe] at hp2 hhelper
  have hpl : ((pkt.data.getD []).take pkt.size.toNat).length = pkt.size.toNat := by
    rw [List.length_take]
    omega
  have hsz : (pkt.size + 4).toNat = ((pkt.data.getD []).take pkt.size.toNat).length + 4 := by
    rw [hpl]; omega
  have hbs : ((1 + (if is_vc1 = true then 0 else 1) : Int) * (pkt.size + 4)
        + Int.ofNat padding).toNat
      = (if is_vc1 = true then 1 else 2)
          * (((pkt.data.getD []).take pkt.size.toNat).length + 4) + padding := by
    rw [hpl]
    simp only [Int.ofNat_eq_coe]
    by_cases hv : is_vc1 = true
    · simp only [if_pos hv]; omega
    · simp only [if_neg hv]; omega
  have e1 : wrap_int32 (pkt.size + 4) = pkt.size + 4 := by
    unfold wrap_int32 INT32_MAX at *
    simp only [Int.ofNat_eq_coe] at hfit
    omega
  have e2 : wrap_int32 ((1 + (if is_vc1 = true then 0 else 1) : Int) * (pkt.size + 4))
      = (1 + (if is_vc1 = true then 0 else 1) : Int) * (pkt.size + 4) := by
    unfold wrap_int32 INT32_MAX at *
    simp only [Int.ofNat_eq_coe] at hfit
    by_cases hv : is_vc1 = true
    · simp only [if_pos hv]; omega
    · simp only [if_neg hv]; omega
  have e3 : wrap_int32 ((1 + (if is_vc1 = true then 0 else 1) : Int) * (pkt.size + 4)
        + Int.ofNat padding)
      = (1 + (if is_vc1 = true then 0 else 1) : Int) * (pkt.size + 4) + Int.ofNat padding := by
    unfold wrap_int32 INT32_MAX at *
    simp only [Int.ofNat_eq_coe] at hfit ⊢
    by_cases hv : is_vc1 = true
    · simp only [if_pos hv]; omega
    · simp only [if_neg hv]; omega
  unfold make_vc1_ebdu
  simp only [e1, e2, e3]
  rw [hsz]
  by_cases hsmall : helper.buffer_size
      < (1 + (if is_vc1 = true then 0 else 1) : Int) * (pkt.size + 4) + Int.ofNat padding
  · rw [if_pos hsmall]
    by_cases hr : realloc_ok = true
    · rw [if_pos hr]
      simp only
      refine ⟨fun _ => rfl, ?_⟩
      intro data size helper1 h
      have hcore := make_vc1_ebdu_core padding ((pkt.data.getD []).take pkt.size.toNat)
        bdu_type is_vc1
        (av_realloc_bytes fresh helper.buffer
          (((1 + (if is_vc1 = true then 0 else 1) : Int) * (pkt.size + 4)
            + Int.ofNat padding).toNat))
        (by rw [av_realloc_bytes_length, hbs])
      have h1 := (Prod.mk.inj (Option.some.inj h)).1
      have h2 := (Prod.mk.inj (Prod.mk.inj (Option.some.inj h)).2).1
      rw [← h1, ← h2]
      exact hcore
    · rw [if_neg hr]
      simp only
      refine ⟨fun h => absurd h hr, ?_⟩
      intro data size helper1 h
      cases h
  · rw [if_neg hsmall]
    simp only
    refine ⟨fun _ => rfl, ?_⟩
    intro data size helper1 h
    have hcore := make_vc1_ebdu_core padding ((pkt.data.getD []).take pkt.size.toNat)
      bdu_type is_vc1 helper.buffer
      (by
        rw [← hbs]
        simp only [Int.ofNat_eq_coe] at hsmall ⊢
        omega)
    have h1 := (Prod.mk.inj (Option.some.inj h)).1
    have h2 := (Prod.mk.inj (Prod.mk.inj (Option.some.inj h)).2).1
    rw [← h1, ← h2]
    exact hcore

/-- Witness of C19: the payload `00 00 00 00 01 05 00 00 03` as a raw BDU of
type `0D`, with a helper that has no buffer yet: three `03` are inserted before
the third, fourth and fifth byte and one before the last. -/
theorem make_vc1_ebdu_eq_reference_witness :
    valid_buffer scenario_rbdu_packet.data scenario_rbdu_packet.size
    ∧ 2 * (scenario_rbdu_packet.size + 4) + Int.ofNat 8 ≤ Int.ofNat INT32_MAX
    ∧ scenario_ebdu_helper.buffer_size = Int.ofNat scenario_ebdu_helper.buffer.length
    ∧ (make_vc1_ebdu 8 true (fun _ => 255) scenario_ebdu_helper scenario_rbdu_packet
        0x0D false).map (fun r => (r.1.take r.2.1, r.2.1))
        = some ([0, 0, 1, 0x0D, 0, 0, 3, 0, 3, 0, 3, 1, 5, 0, 0, 3, 3], 17)
    ∧ ((true = true →
        (make_vc1_ebdu 8 true (fun _ => 255) scenario_ebdu_helper scenario_rbdu_packet
          0x0D false).isSome = true)
      ∧ ∀ data size helper1,
          make_vc1_ebdu 8 true (fun _ => 255) scenario_ebdu_helper scenario_rbdu_packet
            0x0D false = some (data, size, helper1) →
          data.take size
            = ebdu_reference
                ((scenario_rbdu_packet.data.getD []).take scenario_rbdu_packet.size.toNat)
                0x0D false
          ∧ (false = true →
              size = ((scenario_rbdu_packet.data.getD []).take
                scenario_rbdu_packet.size.toNat).length + 4)
          ∧ (data.drop size).take 8 = List.replicate 8 0) :=
  have hv : valid_buffer scenario_rbdu_packet.data scenario_rbdu_packet.size := by
    unfold valid_buffer; decide
  ⟨hv, by decide, by decide, by decide,
   make_vc1_ebdu_eq_reference 8 true (fun _ => 255) scenario_ebdu_helper scenario_rbdu_packet
     0x0D false hv (by decide) (by decide)⟩

/-! ## The active-stream marker lines -/

theorem digitChar_isDigit (d : Nat) (h : d < 10) : (Nat.digitChar d).isDigit = true := by
  interval_cases d <;> decide

theorem toDigitsCore_isDigit (fuel : Nat) :
    ∀ (n : Nat) (ds : List Char), (∀ c ∈ ds, c.isDigit = true) →
      ∀ c ∈ Nat.toDigitsCore 10 fuel n ds, c.isDigit = true := by
  induction fuel with
  | zero => intro n ds h c hc; exact h c (by simpa [Nat.toDigitsCore] using hc)
  | succ fuel ih =>
    intro n ds h c hc
    unfold Nat.toDigitsCore at hc
    simp only at hc
    have hd : ∀ c ∈ Nat.digitChar (n % 10) :: ds, c.isDigit = true := by
      intro c hc
      rcases List.mem_cons.mp hc with rfl | hc
      · exact digitChar_isDigit _ (Nat.mod_lt _ (by decide))
      · exact h c hc
    split at hc
    · exact hd c hc
    · exact ih _ _ hd c hc

theorem toDigits_length_le (m : Nat) (h : m < 10 ^ 10) : (Nat.toDigits 10 m).length ≤ 10 := by
  unfold Nat.toDigits
  exact Nat.toDigitsCore_length 10 (by decide) (m + 1) m 10 h (by decide)

theorem format_plus_011d_length (n : Int) (h1 : -2 ^ 31 ≤ n) (h2 : n < 2 ^ 31) :
    (format_plus_011d n).length = 11 := by
  have hm : n.natAbs < 10 ^ 10 := by omega
  have hl := toDigits_length_le n.natAbs hm
  unfold format_plus_011d
  simp only [List.length_cons, List.length_append, List.length_replicate]
  omega

theorem fprintf_at_same_length (before old printed after : List Char)
    (h : printed.length = old.length) :
    fprintf_at (before ++ old ++ after) before.length printed = before ++ printed ++ after := by
  unfold fprintf_at
  rw [List.append_assoc before old after, List.take_left, h, ← List.length_append,
    ← List.append_assoc, List.drop_left]

/-- C14. The active-stream marker lines have a fixed width: for every 32-bit
signed stream index `n` the field that `%+011d` produces is exactly 11
characters, a sign followed by 10 decimal digits, so the marker line for `n`
has the byte length of the line first written with -1, and printing it at the
position of that line replaces exactly that line: what comes before and after
it in the file stays. -/
theorem active_stream_index_line_fixed_width (n : Int) (h1 : -2 ^ 31 ≤ n) (h2 : n < 2 ^ 31)
    (before after : List Char) :
    (format_plus_011d n).length = 11
    ∧ ((format_plus_011d n).head? = some '+' ∨ (format_plus_011d n).head? = some '-')
    ∧ (∀ c ∈ (format_plus_011d n).tail, c.isDigit = true)
    ∧ (active_video_stream_index_line n).length = (active_video_stream_index_line (-1)).length
    ∧ (active_audio_stream_index_line n).length = (active_audio_stream_index_line (-1)).length
    ∧ fprintf_at (before ++ active_video_stream_index_line (-1) ++ after) before.length
          (active_video_stream_index_line n)
        = before ++ active_video_stream_index_line n ++ after
    ∧ fprintf_at (before ++ active_audio_stream_index_line (-1) ++ after) before.length
          (active_audio_stream_index_line n)
        = before ++ active_audio_stream_index_line n ++ after := by
  have hlen := format_plus_011d_length n h1 h2
  have hlen1 := format_plus_011d_length (-1) (by decide) (by decide)
  have hv : (active_video_stream_index_line n).length
      = (active_video_stream_index_line (-1)).length := by
    unfold active_video_stream_index_line
    simp only [List.length_append, hlen, hlen1]
  have ha : (active_audio_stream_index_line n).length
      = (active_audio_stream_index_line (-1)).length := by
    unfold active_audio_stream_index_line
    simp only [List.length_append, hlen, hlen1]
  refine ⟨hlen, ?_, ?_, hv, ha, fprintf_at_same_length _ _ _ _ hv,
    fprintf_at_same_length _ _ _ _ ha⟩
  · unfold format_plus_011d
    by_cases hn : n < 0
    · right; simp [hn]
    · left; simp [hn]
  · intro c hc
    unfold format_plus_011d at hc
    simp only [List.tail_cons, List.mem_append] at hc
    rcases hc with hc | hc
    · rw [(List.mem_replicate.mp hc).2]; decide
    · exact toDigitsCore_isDigit _ _ [] (fun _ h => by cases h) c hc

/-- Witness of C14: the election of stream 3 rewrites the video marker line in
a file that continues with the audio marker line. -/
theorem active_stream_index_line_fixed_width_witness :
    -2 ^ 31 ≤ (3 : Int) ∧ (3 : Int) < 2 ^ 31
    ∧ format_plus_011d 3 = "+0000000003".toList
    ∧ ((format_plus_011d 3).length = 11
      ∧ ((format_plus_011d 3).head? = some '+' ∨ (format_plus_011d 3).head? = some '-')
      ∧ (∀ c ∈ (format_plus_011d 3).tail, c.isDigit = true)
      ∧ (active_video_stream_index_line 3).length = (active_video_stream_index_line (-1)).length
      ∧ (active_audio_stream_index_line 3).length = (active_audio_stream_index_line (-1)).length
      ∧ fprintf_at ("<LibavReaderIndex=0x00000000,mp4>".toList
              ++ active_video_stream_index_line (-1) ++ active_audio_stream_index_line (-1))
            "<LibavReaderIndex=0x00000000,mp4>".toList.length
            (active_video_stream_index_line 3)
          = "<LibavReaderIndex=0x00000000,mp4>".toList ++ active_video_stream_index_line 3
              ++ active_audio_stream_index_line (-1)
      ∧ fprintf_at ("<LibavReaderIndex=0x00000000,mp4>".toList
              ++ active_audio_stream_index_line (-1) ++ active_audio_stream_index_line (-1))
            "<LibavReaderIndex=0x00000000,mp4>".toList.length
            (active_audio_stream_index_line 3)
          = "<LibavReaderIndex=0x00000000,mp4>".toList ++ active_audio_stream_index_line 3
              ++ active_audio_stream_index_line (-1)) :=
  ⟨by decide, by decide, by decide,
   active_stream_index_line_fixed_width 3 (by decide) (by decide)
     "<LibavReaderIndex=0x00000000,mp4>".toList (active_audio_stream_index_line (-1))⟩

/-! ## The election of the video stream -/

theorem set_video_frame_info_first (t : video_scan_t) (pkt : video_packet_t) (pict : Int)
    (flags : Nat) (h0 : t.video_sample_count = 0) (hl : t.last_keyframe_pts = AV_NOPTS_VALUE)
    (hz : t.video_info 1 = video_frame_info_zero) :
    (set_video_frame_info t pkt pict flags).video_info
      = Function.update t.video_info 1
          { pts := pkt.pts, dts := pkt.dts, file_offset := pkt.pos, sample_number := 1,
            extradata_index := pkt.extradata_index, pict_type := pict,
            keyframe := if flags &&& AV_PKT_FLAG_KEY ≠ 0 then 1 else 0,
            is_leading := 0 } := by
  have hw1 : wrap_uint32 (0 + 1) = 1 := rfl
  unfold set_video_frame_info
  simp only [h0, hw1, hl, hz]
  by_cases hk : flags &&& AV_PKT_FLAG_KEY ≠ 0
  · simp [hk, video_frame_info_zero]
  · simp [hk, video_frame_info_zero]

theorem create_index_video_packet_election (opt : lwlibav_option_t) (s s' : video_scan_t)
    (pkt : video_packet_t) (n : Nat) (hforce : opt.force_video = false)
    (hinv : video_scan_inv s n) (hn : n + 1 < 2 ^ 32) (hidx : 0 ≤ pkt.stream_index)
    (hstep : create_index_video_packet opt s pkt = some s') :
    video_scan_inv s' (n + 1)
    ∧ (s.stream_index = -1 → s'.stream_index = pkt.stream_index)
    ∧ (s.stream_index ≠ -1 →
        (s'.stream_index ≠ s.stream_index ↔
          (pkt.stream_index ≠ s.stream_index ∧ pixel_count pkt > s.video_resolution)))
    ∧ (s'.stream_index = s.stream_index → s'.video_resolution = s.video_resolution)
    ∧ (s'.stream_index ≠ s.stream_index →
        s'.stream_index = pkt.stream_index
        ∧ s'.active_video_stream_index = pkt.stream_index
        ∧ s'.video_resolution = pixel_count pkt
        ∧ s'.video_sample_count = 1
        ∧ s'.sources = [pkt.stream_index]
        ∧ (∀ i, i ≠ 1 → s'.video_info i = video_frame_info_zero)
        ∧ s'.video_info 1
            = { pts := pkt.pts, dts := pkt.dts, file_offset := pkt.pos, sample_number := 1,
                extradata_index := pkt.extradata_index,
                pict_type := (get_picture_type pkt.picture pkt.flags).1,
                keyframe := if (get_picture_type pkt.picture pkt.flags).2 &&& AV_PKT_FLAG_KEY ≠ 0
                            then 1 else 0,
                is_leading := 0 }) := by
  obtain ⟨hdv, hsrc, hlow, helected, hcount, hzero⟩ := hinv
  unfold create_index_video_packet at hstep
  by_cases hr : (get_picture_type pkt.picture pkt.flags).1 < 0
  · rw [if_pos hr] at hstep; cases hstep
  rw [if_neg hr] at hstep
  have hel : elect_video_stream opt s pkt
      = if elects_video_stream opt false s pkt = true
        then update_active_video_stream s pkt else s := by
    unfold elect_video_stream
    have hdvf : decide (s.dv_in_avi = -1) = false := by simp [hdv]
    simp only [hdvf, Bool.false_and, Bool.false_eq_true, if_false]
  rw [hel] at hstep
  have hs' := (Option.some.inj hstep).symm
  generalize (get_picture_type pkt.picture pkt.flags).1 = pict at hs' ⊢
  generalize (get_picture_type pkt.picture pkt.flags).2 = flags at hs' ⊢
  have hw1 : wrap_uint32 (0 + 1) = 1 := rfl
  have hw : wrap_uint32 (s.video_sample_count + 1) = s.video_sample_count + 1 := by
    unfold wrap_uint32; exact Nat.mod_eq_of_lt (by omega)
  by_cases he : elects_video_stream opt false s pkt = true
  · -- the election changes
    simp only [if_pos he] at hs'
    have hcond : s.stream_index = -1
        ∨ (pkt.stream_index ≠ s.stream_index ∧ pixel_count pkt > s.video_resolution) := by
      unfold elects_video_stream at he
      simp only [hforce, Bool.false_or, Bool.not_false, Bool.true_and, Bool.false_and,
        Bool.or_false, Bool.or_eq_true, Bool.and_eq_true, decide_eq_true_eq] at he
      exact he
    have hne : pkt.stream_index ≠ s.stream_index := by
      rcases hcond with h | h
      · rw [h]; omega
      · exact h.1
    have hupd : (update_active_video_stream s pkt).stream_index = pkt.stream_index := rfl
    rw [if_pos hupd.symm] at hs'
    have h1 : s'.stream_index = pkt.stream_index := by rw [hs']; rfl
    have hsrc' : s'.sources = [pkt.stream_index] := by rw [hs']; rfl
    have hcnt' : s'.video_sample_count = 1 := by rw [hs']; rfl
    have hinfo : s'.video_info
        = Function.update (fun i => if i ≤ s.video_sample_count then video_frame_info_zero
                                    else s.video_info i) 1
            { pts := pkt.pts, dts := pkt.dts, file_offset := pkt.pos, sample_number := 1,
              extradata_index := pkt.extradata_index, pict_type := pict,
              keyframe := if flags &&& AV_PKT_FLAG_KEY ≠ 0 then 1 else 0,
              is_leading := 0 } := by
      rw [hs']
      show (set_video_frame_info (update_active_video_stream s pkt) pkt pict flags).video_info = _
      rw [set_video_frame_info_first _ pkt pict flags rfl rfl (by
        show (if 1 ≤ s.video_sample_count then video_frame_info_zero else s.video_info 1) = _
        split
        · rfl
        · exact hzero 1 (by omega))]
      rfl
    have hz : ∀ i, i ≠ 1 → s'.video_info i = video_frame_info_zero := by
      intro i hi
      rw [hinfo, Function.update_noteq hi]
      show (if i ≤ s.video_sample_count then video_frame_info_zero else s.video_info i) = _
      split
      · rfl
      · exact hzero i (by omega)
    refine ⟨⟨by rw [hs']; exact hdv, ?_, by omega, fun _ => by rw [h1]; exact hidx, by omega,
        fun i hi => hz i (by omega)⟩, fun _ => h1, ?_, ?_, ?_⟩
    · intro x hx
      rw [hsrc'] at hx
      rw [h1]
      exact List.mem_singleton.mp hx
    · intro hs
      rw [h1]
      constructor
      · intro _
        rcases hcond with h | h
        · exact absurd h hs
        · exact h
      · intro _; exact hne
    · intro h; rw [h1] at h; exact absurd h hne
    · intro _
      refine ⟨h1, by rw [hs']; rfl, by rw [hs']; rfl, hcnt', hsrc', hz, ?_⟩
      rw [hinfo, Function.update_same]
  · -- the election stays
    simp only [if_neg he] at hs'
    have hncond : ¬ (s.stream_index = -1
        ∨ (pkt.stream_index ≠ s.stream_index ∧ pixel_count pkt > s.video_resolution)) := by
      intro hc
      apply he
      unfold elects_video_stream
      simp only [hforce, Bool.false_or, Bool.not_false, Bool.true_and, Bool.false_and,
        Bool.or_false, Bool.or_eq_true, Bool.and_eq_true, decide_eq_true_eq]
      exact hc
    have hnot1 : s.stream_index ≠ -1 := fun h => hncond (Or.inl h)
    have h1 : s'.stream_index = s.stream_index := by
      rw [hs']; split <;> rfl
    have h2 : s'.video_resolution = s.video_resolution := by
      rw [hs']; split <;> rfl
    have hel0 : 0 ≤ s.stream_index := by omega
    refine ⟨⟨by rw [hs']; split <;> exact hdv, ?_, by omega, fun _ => by rw [h1]; exact hel0, ?_, ?_⟩,
      fun h => absurd h hnot1, ?_, fun _ => h2, fun h => absurd h1 h⟩
    · intro x hx
      rw [h1]
      rw [hs'] at hx
      by_cases hp : pkt.stream_index = s.stream_index
      · rw [if_pos hp] at hx
        have hx' : x ∈ s.sources ++ [pkt.stream_index] := hx
        rcases List.mem_append.mp hx' with hx | hx
        · exact hsrc x hx
        · rw [List.mem_singleton.mp hx, hp]
      · rw [if_neg hp] at hx
        exact hsrc x hx
    · rw [hs']
      by_cases hp : pkt.stream_index = s.stream_index
      · rw [if_pos hp]
        show wrap_uint32 (s.video_sample_count + 1) ≤ n + 1
        rw [hw]; omega
      · rw [if_neg hp]
        show s.video_sample_count ≤ n + 1
        omega
    · intro i hi
      rw [hs'] at hi ⊢
      by_cases hp : pkt.stream_index = s.stream_index
      · rw [if_pos hp] at hi ⊢
        have hi' : wrap_uint32 (s.video_sample_count + 1) < i := hi
        rw [hw] at hi'
        show Function.update s.video_info (wrap_uint32 (s.video_sample_count + 1)) _ i = _
        rw [hw, Function.update_noteq (by omega)]
        exact hzero i (by omega)
      · rw [if_neg hp] at hi ⊢
        exact hzero i hi
    · intro hs
      constructor
      · intro h; exact absurd h1 h
      · intro h; exact absurd (Or.inr h) hncond

theorem video_scan_inv_init (format_name : String) (h : format_name ≠ "avi") :
    video_scan_inv (video_scan_init format_name) 0 := by
  unfold video_scan_inv video_scan_init
  refine ⟨?_, ?_, ?_, ?_, ?_, ?_⟩
  · show (if format_name = "avi" then (-1 : Int) else 0) ≠ -1
    rw [if_neg h]; decide
  · intro x hx; cases hx
  · show (-1 : Int) ≤ -1
    decide
  · intro h1; omega
  · exact Nat.le_refl 0
  · intro _ _; rfl

theorem create_index_video_inv (opt : lwlibav_option_t) (hforce : opt.force_video = false)
    (pkts : List video_packet_t) :
    ∀ (s0 s : video_scan_t) (n : Nat), video_scan_inv s0 n → n + pkts.length < 2 ^ 32 →
      (∀ p ∈ pkts, 0 ≤ p.stream_index) →
      create_index_video opt s0 pkts = some s → video_scan_inv s (n + pkts.length) := by
  induction pkts with
  | nil =>
    intro s0 s n hinv _ _ h
    unfold create_index_video at h
    rw [← Option.some.inj h]
    exact hinv
  | cons p ps ih =>
    intro s0 s n hinv hn hidx h
    unfold create_index_video at h
    simp only [List.length_cons] at hn
    cases hp : create_index_video_packet opt s0 p with
    | none => rw [hp] at h; cases h
    | some s1 =>
      rw [hp] at h
      have h1 := (create_index_video_packet_election opt s0 s1 p n hforce hinv (by omega)
        (hidx p (List.mem_cons_self p ps)) hp).1
      have := ih s1 s (n + 1) h1 (by omega) (fun q hq => hidx q (List.mem_cons_of_mem p hq)) h
      rw [List.length_cons]
      have e : n + (ps.length + 1) = n + 1 + ps.length := by omega
      rw [e]
      exact this

theorem video_election_outside_avi (opt : lwlibav_option_t) (format_name : String)
    (pkts : List video_packet_t) (pkt : video_packet_t) (s s' : video_scan_t)
    (hforce : opt.force_video = false) (havi : format_name ≠ "avi")
    (hcount : pkts.length + 1 < 2 ^ 32)
    (hidx : ∀ p ∈ pkts, 0 ≤ p.stream_index) (hpkt : 0 ≤ pkt.stream_index)
    (hscan : create_index_video opt (video_scan_init format_name) pkts = some s)
    (hstep : create_index_video_packet opt s pkt = some s') :
    (pkts = [] → s.stream_index = -1)
    ∧ (pkts ≠ [] → s.stream_index ≠ -1)
    ∧ (s.stream_index = -1 → s'.stream_index = pkt.stream_index)
    ∧ (s.stream_index ≠ -1 →
        (s'.stream_index ≠ s.stream_index ↔
          (pkt.stream_index ≠ s.stream_index ∧ pixel_count pkt > s.video_resolution)))
    ∧ (s'.stream_index = s.stream_index → s'.video_resolution = s.video_resolution)
    ∧ (s'.stream_index ≠ s.stream_index →
        s'.stream_index = pkt.stream_index
        ∧ s'.active_video_stream_index = pkt.stream_index
        ∧ s'.video_resolution = pixel_count pkt
        ∧ s'.video_sample_count = 1
        ∧ s'.sources = [pkt.stream_index]
        ∧ (∀ i, i ≠ 1 → s'.video_info i = video_frame_info_zero)
        ∧ s'.video_info 1
            = { pts := pkt.pts, dts := pkt.dts, file_offset := pkt.pos, sample_number := 1,
                extradata_index := pkt.extradata_index,
                pict_type := (get_picture_type pkt.picture pkt.flags).1,
                keyframe := if (get_picture_type pkt.picture pkt.flags).2 &&& AV_PKT_FLAG_KEY ≠ 0
                            then 1 else 0,
                is_leading := 0 })
    ∧ (∀ x ∈ s.sources, x = s.stream_index)
    ∧ (∀ x ∈ s'.sources, x = s'.stream_index) := by
  have hinv := create_index_video_inv opt hforce pkts (video_scan_init format_name) s 0
    (video_scan_inv_init format_name havi) (by omega) hidx hscan
  rw [Nat.zero_add] at hinv
  have hst := create_index_video_packet_election opt s s' pkt pkts.length hforce hinv hcount
    hpkt hstep
  refine ⟨?_, ?_, hst.2.1, hst.2.2.1, hst.2.2.2.1, hst.2.2.2.2, hinv.2.1, hst.1.2.1⟩
  · intro h
    rw [h] at hscan
    unfold create_index_video at hscan
    rw [← Option.some.inj hscan]
    rfl
  · intro h
    have hl : 1 ≤ pkts.length := by
      cases pkts with
      | nil => exact absurd rfl h
      | cons _ _ => simp
    have := hinv.2.2.2.1 hl
    omega

theorem elect_video_stream_without_dv (opt : lwlibav_option_t) (s : video_scan_t)
    (pkt : video_packet_t) (hforce : opt.force_video = false) :
    elect_video_stream opt (without_dv_in_avi s) pkt
    = without_dv_in_avi (elect_video_stream opt s pkt) := by
  have hleft : elect_video_stream opt (without_dv_in_avi s) pkt
      = if elects_video_stream opt false s pkt = true
        then update_active_video_stream (without_dv_in_avi s) pkt
        else without_dv_in_avi s := by
    unfold elect_video_stream
    have hdvf : decide ((without_dv_in_avi s).dv_in_avi = -1) = false := by
      show decide ((0 : Int) = -1) = false
      decide
    simp only [hdvf, Bool.false_and, Bool.false_eq_true, if_false]
    rfl
  rw [hleft]
  unfold elect_video_stream
  by_cases hinit : (decide (s.dv_in_avi = -1) && decide (s.stream_index = -1)
      && decide (pkt.codec_id = AVCodecID.AV_CODEC_ID_DVVIDEO) && !opt.force_audio) = true
  · have hs : s.stream_index = -1 := by
      simp only [Bool.and_eq_true, decide_eq_true_eq] at hinit
      exact hinit.1.1.2
    have he : elects_video_stream opt false s pkt = true := by
      unfold elects_video_stream
      simp [hforce, hs]
    simp only [hinit, if_true]
    rw [if_pos he]
    have he1 : elects_video_stream opt true
        { s with dv_in_avi := 1, stream_index := pkt.stream_index } pkt = true := by
      unfold elects_video_stream
      simp
    rw [if_pos he1]
    rfl
  · have hinit' : (decide (s.dv_in_avi = -1) && decide (s.stream_index = -1)
        && decide (pkt.codec_id = AVCodecID.AV_CODEC_ID_DVVIDEO) && !opt.force_audio) = false := by
      simpa using hinit
    simp only [hinit', Bool.false_eq_true, if_false]
    by_cases he : elects_video_stream opt false s pkt = true
    · rw [if_pos he, if_pos he]; rfl
    · rw [if_neg he, if_neg he]

theorem create_index_video_packet_without_dv (opt : lwlibav_option_t) (s : video_scan_t)
    (pkt : video_packet_t) (hforce : opt.force_video = false) :
    create_index_video_packet opt (without_dv_in_avi s) pkt
    = (create_index_video_packet opt s pkt).map without_dv_in_avi := by
  unfold create_index_video_packet
  rw [elect_video_stream_without_dv opt s pkt hforce]
  by_cases hr : (get_picture_type pkt.picture pkt.flags).1 < 0
  · rw [if_pos hr, if_pos hr]; rfl
  · rw [if_neg hr, if_neg hr]
    show some _ = some _
    have hsi : (without_dv_in_avi (elect_video_stream opt s pkt)).stream_index
        = (elect_video_stream opt s pkt).stream_index := rfl
    rw [hsi]
    by_cases hp : pkt.stream_index = (elect_video_stream opt s pkt).stream_index
    · rw [if_pos hp, if_pos hp]; rfl
    · rw [if_neg hp, if_neg hp]; rfl

theorem create_index_video_without_dv (opt : lwlibav_option_t)
    (hforce : opt.force_video = false) (pkts : List video_packet_t) :
    ∀ s : video_scan_t, create_index_video opt (without_dv_in_avi s) pkts
      = (create_index_video opt s pkts).map without_dv_in_avi := by
  induction pkts with
  | nil => intro s; rfl
  | cons p ps ih =>
    intro s
    unfold create_index_video
    rw [create_index_video_packet_without_dv opt s p hforce]
    cases create_index_video_packet opt s p with
    | none => rfl
    | some s1 => exact ih s1

/-- C12. Video election in `create_index` without `force_video`, for a scan of
fewer than `2^32` video packets (in the DV-in-AVI case and outside it): take
the state `s` after any packets `pkts` and the state after one more packet
`pkt`.  The first packet elects its stream (before it no stream is elected,
afterwards one always is); a later packet changes the election if and only if
it comes from a stream other than the elected one and its `width * height` is
greater than the pixel count recorded at the last election; on every change the
accumulated records are wiped, the packet becomes record 1 and its pixel count
is recorded; and at all times every accumulated record belongs to the elected
stream. -/
theorem create_index_video_election (opt : lwlibav_option_t) (format_name : String)
    (pkts : List video_packet_t) (pkt : video_packet_t) (s s' : video_scan_t)
    (hforce : opt.force_video = false)
    (hcount : pkts.length + 1 < 2 ^ 32)
    (hidx : ∀ p ∈ pkts, 0 ≤ p.stream_index) (hpkt : 0 ≤ pkt.stream_index)
    (hscan : create_index_video opt (video_scan_init format_name) pkts = some s)
    (hstep : create_index_video_packet opt s pkt = some s') :
    (pkts = [] → s.stream_index = -1)
    ∧ (pkts ≠ [] → s.stream_index ≠ -1)
    ∧ (s.stream_index = -1 → s'.stream_index = pkt.stream_index)
    ∧ (s.stream_index ≠ -1 →
        (s'.stream_index ≠ s.stream_index ↔
          (pkt.stream_index ≠ s.stream_index ∧ pixel_count pkt > s.video_resolution)))
    ∧ (s'.stream_index = s.stream_index → s'.video_resolution = s.video_resolution)
    ∧ (s'.stream_index ≠ s.stream_index →
        s'.stream_index = pkt.stream_index
        ∧ s'.active_video_stream_index = pkt.stream_index
        ∧ s'.video_resolution = pixel_count pkt
        ∧ s'.video_sample_count = 1
        ∧ s'.sources = [pkt.stream_index]
        ∧ (∀ i, i ≠ 1 → s'.video_info i = video_frame_info_zero)
        ∧ s'.video_info 1
            = { pts := pkt.pts, dts := pkt.dts, file_offset := pkt.pos, sample_number := 1,
                extradata_index := pkt.extradata_index,
                pict_type := (get_picture_type pkt.picture pkt.flags).1,
                keyframe := if (get_picture_type pkt.picture pkt.flags).2 &&& AV_PKT_FLAG_KEY ≠ 0
                            then 1 else 0,
                is_leading := 0 })
    ∧ (∀ x ∈ s.sources, x = s.stream_index)
    ∧ (∀ x ∈ s'.sources, x = s'.stream_index) := by
  have hinit : without_dv_in_avi (video_scan_init format_name) = video_scan_init "" := rfl
  have hscan0 : create_index_video opt (video_scan_init "") pkts
      = some (without_dv_in_avi s) := by
    rw [← hinit, create_index_video_without_dv opt hforce pkts, hscan]; rfl
  have hstep0 : create_index_video_packet opt (without_dv_in_avi s) pkt
      = some (without_dv_in_avi s') := by
    rw [create_index_video_packet_without_dv opt s pkt hforce, hstep]; rfl
  exact video_election_outside_avi opt "" pkts pkt (without_dv_in_avi s)
    (without_dv_in_avi s') hforce (by decide) hcount hidx hpkt hscan0 hstep0

/-- Witness of C12: after a packet of stream 0 with 640x480 pixels, a packet of
stream 1 with 1920x1080 pixels changes the election and becomes record 1. -/
theorem create_index_video_election_witness :
    scenario_option.force_video = false
    ∧ [scenario_video_packet 0 0 640 480].length + 1 < 2 ^ 32
    ∧ (∀ p ∈ [scenario_video_packet 0 0 640 480], 0 ≤ p.stream_index)
    ∧ 0 ≤ (scenario_video_packet 1 40 1920 1080).stream_index
    ∧ create_index_video scenario_option (video_scan_init "mp4")
        [scenario_video_packet 0 0 640 480] = some scenario_scan_first
    ∧ create_index_video_packet scenario_option scenario_scan_first
        (scenario_video_packet 1 40 1920 1080) = some scenario_scan_second
    ∧ scenario_scan_first.stream_index = 0
    ∧ scenario_scan_second.stream_index = 1
    ∧ scenario_scan_second.video_sample_count = 1
    ∧ (∀ x ∈ scenario_scan_second.sources, x = scenario_scan_second.stream_index) :=
  have hidx : ∀ p ∈ [scenario_video_packet 0 0 640 480], 0 ≤ p.stream_index := by
    intro p hp; rw [List.mem_singleton.mp hp]; decide
  ⟨by decide, by decide, hidx, by decide, rfl, rfl, rfl, rfl, rfl,
   (create_index_video_election scenario_option "mp4"
      [scenario_video_packet 0 0 640 480] (scenario_video_packet 1 40 1920 1080)
      scenario_scan_first scenario_scan_second
      (by decide) (by decide) hidx (by decide) rfl rfl).2.2.2.2.2.2.2⟩

/-! ## The reader of the index file -/

theorem and_then_eq_done {α β : Type} (r : parse_result α) (f : α → parse_result β) (b : β)
    (h : r.and_then f = parse_result.done b) :
    ∃ a, r = parse_result.done a ∧ f a = parse_result.done b := by
  cases r with
  | done a => exact ⟨a, rfl, h⟩
  | fail_parsing => exact absurd h (by simp [parse_result.and_then])
  | null_dereference => exact absurd h (by simp [parse_result.and_then])

theorem parse_dv_in_avi_active (alloc : parse_alloc_t) (opt : lwlibav_option_t)
    (s s1 : index_parse_t) (hdr : packet_line_t)
    (h : parse_dv_in_avi alloc opt s hdr = parse_result.done s1) :
    s1.active_video_index = s.active_video_index
    ∧ s1.active_audio_index = s.active_audio_index := by
  unfold parse_dv_in_avi at h
  split at h
  · split at h
    · split at h
      · cases h; exact ⟨rfl, rfl⟩
      · cases h
    · cases h; exact ⟨rfl, rfl⟩
  · cases h; exact ⟨rfl, rfl⟩

theorem grow_video_info_active (alloc : parse_alloc_t) (s s1 : index_parse_t)
    (h : grow_video_info alloc s = parse_result.done s1) :
    s1.active_video_index = s.active_video_index
    ∧ s1.active_audio_index = s.active_audio_index := by
  unfold grow_video_info at h
  split at h
  · split at h
    · cases h; exact ⟨rfl, rfl⟩
    · cases h
  · cases h; exact ⟨rfl, rfl⟩

theorem grow_audio_info_active (alloc : parse_alloc_t) (s s1 : index_parse_t)
    (h : grow_audio_info alloc s = parse_result.done s1) :
    s1.active_video_index = s.active_video_index
    ∧ s1.active_audio_index = s.active_audio_index := by
  unfold grow_audio_info at h
  split at h
  · split at h
    · cases h; exact ⟨rfl, rfl⟩
    · cases h
  · cases h; exact ⟨rfl, rfl⟩

theorem parse_video_line_active (alloc : parse_alloc_t) (opt : lwlibav_option_t)
    (s s1 : index_parse_t) (hdr : packet_line_t) (line : index_line)
    (h : parse_video_line alloc opt s hdr line = parse_result.done s1) :
    s1.active_video_index = s.active_video_index
    ∧ s1.active_audio_index = s.active_audio_index := by
  unfold parse_video_line at h
  obtain ⟨s2, h2, h3⟩ := and_then_eq_done _ _ _ h
  have a2 := parse_dv_in_avi_active alloc opt s s2 hdr h2
  by_cases hne : hdr.stream_index ≠ s2.video_stream_index
  · rw [if_pos hne] at h3
    cases h3; exact a2
  · rw [if_neg hne] at h3
    cases line with
    | video pict_type key width height pix_fmt colorspace =>
      dsimp only at h3
      obtain ⟨s3, h4, h5⟩ := and_then_eq_done _ _ _ h3
      have a5 := grow_video_info_active alloc s3 s1 h5
      have a4 : s3.active_video_index = s2.active_video_index
          ∧ s3.active_audio_index = s2.active_audio_index := by
        by_cases hacc : accepts_video_line pict_type key width height colorspace = true
        · rw [if_pos hacc] at h4
          cases hinfo : s2.video_info with
          | none => rw [hinfo] at h4; cases h4
          | some info => rw [hinfo] at h4; cases h4; exact ⟨rfl, rfl⟩
        · rw [if_neg hacc] at h4
          cases h4; exact ⟨rfl, rfl⟩
      exact ⟨a5.1.trans (a4.1.trans a2.1), a5.2.trans (a4.2.trans a2.2)⟩
    | _ => cases h3

theorem parse_audio_delayed_active (frame_length : Int) (s0 : index_parse_t) (n : Nat)
    (r : parse_result index_parse_t)
    (hr : ∀ s, r = parse_result.done s →
      s.active_video_index = s0.active_video_index
      ∧ s.active_audio_index = s0.active_audio_index)
    (s1 : index_parse_t)
    (h : (List.range' 1 n).foldl (parse_audio_delayed frame_length) r = parse_result.done s1) :
    s1.active_video_index = s0.active_video_index
    ∧ s1.active_audio_index = s0.active_audio_index := by
  have key := foldl_range'_inv (parse_audio_delayed frame_length)
    (fun _ r => ∀ s, r = parse_result.done s →
      s.active_video_index = s0.active_video_index
      ∧ s.active_audio_index = s0.active_audio_index) r 1 n hr
    (by
      intro k r1 _ hr1 s hs
      unfold parse_audio_delayed at hs
      obtain ⟨s2, h2, h3⟩ := and_then_eq_done _ _ _ hs
      have a2 := hr1 s2 h2
      split at h3
      · cases h3
      · cases hinfo : s2.audio_info with
        | none => rw [hinfo] at h3; cases h3
        | some info => rw [hinfo] at h3; cases h3; exact a2)
  exact key s1 h

theorem parse_audio_frame_length_active (s s1 : index_parse_t) (frame_length : Int)
    (h : parse_audio_frame_length s frame_length = parse_result.done s1) :
    s1.active_video_index = s.active_video_index
    ∧ s1.active_audio_index = s.active_audio_index := by
  unfold parse_audio_frame_length at h
  split at h
  · cases h; exact ⟨rfl, rfl⟩
  · split at h
    · cases hinfo : s.audio_info with
      | none => rw [hinfo] at h; cases h
      | some info => rw [hinfo] at h; cases h; exact ⟨rfl, rfl⟩
    · cases h; exact ⟨rfl, rfl⟩

theorem parse_audio_line_active (alloc : parse_alloc_t) (s s1 : index_parse_t)
    (hdr : packet_line_t) (line : index_line)
    (h : parse_audio_line alloc s hdr line = parse_result.done s1) :
    s1.active_video_index = s.active_video_index
    ∧ s1.active_audio_index = s.active_audio_index := by
  unfold parse_audio_line at h
  by_cases hne : hdr.stream_index ≠ s.audio_stream_index
  · rw [if_pos hne] at h
    cases h; exact ⟨rfl, rfl⟩
  · rw [if_neg hne] at h
    cases line with
    | audio channels layout sample_rate sample_fmt bits_per_sample frame_length =>
      dsimp only at h
      obtain ⟨s3, h3, h4⟩ := and_then_eq_done _ _ _ h
      obtain ⟨s2, h2, h2g⟩ := and_then_eq_done _ _ _ h3
      have a4 := parse_audio_frame_length_active s3 s1 frame_length h4
      have a3 := grow_audio_info_active alloc s2 s3 h2g
      have a2 : s2.active_video_index = s.active_video_index
          ∧ s2.active_audio_index = s.active_audio_index := by
        split at h2
        · cases hinfo : s.audio_info with
          | none => rw [hinfo] at h2; cases h2
          | some info => rw [hinfo] at h2; cases h2; exact ⟨rfl, rfl⟩
        · exact parse_audio_delayed_active frame_length s s.delay_count _
            (by intro s' hs'; cases hs'; exact ⟨rfl, rfl⟩) s2 h2
      exact ⟨a4.1.trans (a3.1.trans a2.1), a4.2.trans (a3.2.trans a2.2)⟩
    | _ => cases h

theorem parse_packet_lines_packet (alloc : parse_alloc_t) (opt : lwlibav_option_t)
    (s : index_parse_t) (buf : index_line) (hdr : packet_line_t) (rest : List index_line) :
    parse_packet_lines alloc opt s buf (index_line.packet hdr :: rest)
    = if hdr.codec_type = AVMEDIA_TYPE_VIDEO then
        match rest with
        | [] => parse_result.fail_parsing
        | line :: rest1 =>
          match parse_video_line alloc opt s hdr line with
          | parse_result.done s1 => parse_packet_lines alloc opt s1 line rest1
          | parse_result.fail_parsing => parse_result.fail_parsing
          | parse_result.null_dereference => parse_result.null_dereference
      else if hdr.codec_type = AVMEDIA_TYPE_AUDIO then
        match rest with
        | [] => parse_result.fail_parsing
        | line :: rest1 =>
          match parse_audio_line alloc s hdr line with
          | parse_result.done s1 => parse_packet_lines alloc opt s1 line rest1
          | parse_result.fail_parsing => parse_result.fail_parsing
          | parse_result.null_dereference => parse_result.null_dereference
      else parse_packet_lines alloc opt s (index_line.packet hdr) rest := by
  cases rest with
  | nil => simp only [parse_packet_lines]
  | cons line rest1 => simp only [parse_packet_lines]

theorem parse_packet_lines_break (alloc : parse_alloc_t) (opt : lwlibav_option_t)
    (s : index_parse_t) (buf first : index_line) (rest : List index_line)
    (h : ∀ hdr, first ≠ index_line.packet hdr) :
    parse_packet_lines alloc opt s buf (first :: rest) = parse_result.done (s, first, rest) := by
  rw [parse_packet_lines]
  intro hdr heq
  exact h hdr heq

theorem parse_packet_lines_active (alloc : parse_alloc_t) (opt : lwlibav_option_t) :
    ∀ (n : Nat) (file : List index_line), file.length ≤ n →
    ∀ (s : index_parse_t) (buf : index_line) (x : index_parse_t × index_line × List index_line),
    parse_packet_lines alloc opt s buf file = parse_result.done x →
    x.1.active_video_index = s.active_video_index
    ∧ x.1.active_audio_index = s.active_audio_index := by
  intro n
  induction n with
  | zero =>
    intro file hlen s buf x h
    have : file = [] := List.length_eq_zero.mp (Nat.le_zero.mp hlen)
    subst this
    rw [parse_packet_lines] at h
    cases h; exact ⟨rfl, rfl⟩
  | succ n ih =>
    intro file hlen s buf x h
    cases file with
    | nil => rw [parse_packet_lines] at h; cases h; exact ⟨rfl, rfl⟩
    | cons first rest =>
      have hrest : rest.length ≤ n := by simpa using hlen
      by_cases hpkt : ∃ hdr, first = index_line.packet hdr
      · obtain ⟨hdr, rfl⟩ := hpkt
        rw [parse_packet_lines_packet] at h
        by_cases hv : hdr.codec_type = AVMEDIA_TYPE_VIDEO
        · rw [if_pos hv] at h
          cases rest with
          | nil => cases h
          | cons line rest1 =>
            dsimp only at h
            cases hstep : parse_video_line alloc opt s hdr line with
            | done s1 =>
              rw [hstep] at h
              have a1 := parse_video_line_active alloc opt s s1 hdr line hstep
              have a2 := ih rest1 (by simp at hrest; omega) s1 line x h
              exact ⟨a2.1.trans a1.1, a2.2.trans a1.2⟩
            | fail_parsing => rw [hstep] at h; cases h
            | null_dereference => rw [hstep] at h; cases h
        · rw [if_neg hv] at h
          by_cases ha : hdr.codec_type = AVMEDIA_TYPE_AUDIO
          · rw [if_pos ha] at h
            cases rest with
            | nil => cases h
            | cons line rest1 =>
              dsimp only at h
              cases hstep : parse_audio_line alloc s hdr line with
              | done s1 =>
                rw [hstep] at h
                have a1 := parse_audio_line_active alloc s s1 hdr line hstep
                have a2 := ih rest1 (by simp at hrest; omega) s1 line x h
                exact ⟨a2.1.trans a1.1, a2.2.trans a1.2⟩
              | fail_parsing => rw [hstep] at h; cases h
              | null_dereference => rw [hstep] at h; cases h
          · rw [if_neg ha] at h
            exact ih rest hrest s _ x h
      · rw [parse_packet_lines_break alloc opt s buf first rest
            (fun hdr heq => hpkt ⟨hdr, heq⟩)] at h
        cases h; exact ⟨rfl, rfl⟩

theorem parse_index_header_active (alloc : parse_alloc_t) (target_opens : Bool)
    (opt : lwlibav_option_t) (h : index_parse_t) (path format_name : String)
    (format_flags : Nat) (v a : Int) (body : List index_line)
    (x : index_parse_t × List index_line)
    (hx : parse_index_header alloc target_opens opt h
      (index_line.input_file_path path :: index_line.libav_reader_index format_flags format_name
        :: index_line.active_video_stream_index v :: index_line.active_audio_stream_index a
        :: body) = parse_result.done x) :
    x.1.active_video_index = v ∧ x.1.active_audio_index = a := by
  simp only [parse_index_header] at hx
  by_cases h1 : target_opens = false
  · rw [if_pos h1] at hx; cases hx
  · rw [if_neg h1] at hx
    by_cases h2 : alloc.file_path = false
    · rw [if_pos h2] at hx; cases hx
    · rw [if_neg h2] at hx
      by_cases h3 : (if opt.force_video = true then opt.force_video_index else v) ≥ 0
          ∧ alloc.video_info = false
      · rw [if_pos h3] at hx; cases hx
      · rw [if_neg h3] at hx
        by_cases h4 : (if opt.force_audio = true then opt.force_audio_index else a) ≥ 0
            ∧ alloc.audio_info = false
        · rw [if_pos h4] at hx; cases hx
        · rw [if_neg h4] at hx
          cases hx; exact ⟨rfl, rfl⟩

theorem parse_index_records_active (alloc : parse_alloc_t) (target_opens : Bool)
    (opt : lwlibav_option_t) (h : index_parse_t) (buf : index_line) (path format_name : String)
    (format_flags : Nat) (v a : Int) (body : List index_line)
    (x : index_parse_t × index_line × List index_line)
    (hx : parse_index_records alloc target_opens opt h buf
      (index_line.input_file_path path :: index_line.libav_reader_index format_flags format_name
        :: index_line.active_video_stream_index v :: index_line.active_audio_stream_index a
        :: body) = parse_result.done x) :
    x.1.active_video_index = v ∧ x.1.active_audio_index = a := by
  unfold parse_index_records at hx
  obtain ⟨y, hy, hloop⟩ := and_then_eq_done _ _ _ hx
  have a1 := parse_index_header_active alloc target_opens opt h path format_name format_flags
    v a body y hy
  have a2 := parse_packet_lines_active alloc opt y.2.length y.2 (Nat.le_refl _) y.1 buf x hloop
  exact ⟨a2.1.trans a1.1, a2.2.trans a1.2⟩

/-- C13 (amended): `parse_index` returns -1 for every index file and options in
which a stream is forced with an index of at least 0, the index file records an
active stream of that kind (the number in its marker line is at least 0) and
the state recorded for the forced stream by the end of the record loop is
incomplete: for video no record was accepted, or no pixel format, or no
non-zero initial width and height; for audio no record was accepted or the
total duration is 0. -/
theorem parse_index_forced_stream_incomplete (q : qsort_t)
    (rescale : Int → AVRational → AVRational → Int) (alloc : parse_alloc_t)
    (target_opens : Bool) (opt : lwlibav_option_t) (h : index_parse_t) (buf : index_line)
    (path format_name : String) (format_flags : Nat) (v a : Int) (body : List index_line)
    (s : index_parse_t) (line : index_line) (rest : List index_line)
    (hrecords : parse_index_records alloc target_opens opt h buf
      (index_line.input_file_path path :: index_line.libav_reader_index format_flags format_name
        :: index_line.active_video_stream_index v :: index_line.active_audio_stream_index a
        :: body) = parse_result.done (s, line, rest))
    (hincomplete :
      (opt.force_video = true ∧ 0 ≤ opt.force_video_index ∧ 0 ≤ v
        ∧ (s.video_sample_count = 0 ∨ s.initial_pix_fmt = AV_PIX_FMT_NONE
           ∨ s.initial_width = 0 ∨ s.initial_height = 0))
      ∨ (opt.force_audio = true ∧ 0 ≤ opt.force_audio_index ∧ 0 ≤ a
        ∧ (s.audio_sample_count = 0 ∨ s.audio_duration = 0))) :
    parse_index q rescale alloc target_opens opt h buf
      (index_line.input_file_path path :: index_line.libav_reader_index format_flags format_name
        :: index_line.active_video_stream_index v :: index_line.active_audio_stream_index a
        :: body) = parse_result.fail_parsing := by
  have hact := parse_index_records_active alloc target_opens opt h buf path format_name
    format_flags v a body (s, line, rest) hrecords
  unfold parse_index
  rw [hrecords]
  show parse_index_tail q rescale alloc opt s line rest = parse_result.fail_parsing
  unfold parse_index_tail
  rcases hincomplete with ⟨hf, hidx, hv, hinc⟩ | ⟨hf, hidx, ha, hinc⟩
  · have hforced : forced_video_incomplete opt s = true := by
      unfold forced_video_incomplete
      have h1 : s.active_video_index ≥ 0 := by rw [hact.1]; exact hv
      have h2 : opt.force_video_index ≠ -1 := by omega
      simp only [hf, h1, h2, decide_True, Bool.and_self, Bool.true_and, ne_eq,
        not_false_eq_true]
      rcases hinc with h3 | h3 | h3 | h3 <;> simp [h3]
    rw [if_pos hforced]
  · have hforced : forced_audio_incomplete opt s = true := by
      unfold forced_audio_incomplete
      have h1 : s.active_audio_index ≥ 0 := by rw [hact.2]; exact ha
      have h2 : opt.force_audio_index ≠ -1 := by omega
      simp only [hf, h1, h2, decide_True, Bool.and_self, Bool.true_and, ne_eq,
        not_false_eq_true]
      rcases hinc with h3 | h3 <;> simp [h3]
    by_cases hvid : forced_video_incomplete opt s = true
    · rw [if_pos hvid]
    · rw [if_neg hvid, if_pos hforced]

/-- Witness of C13 (amended): the index file of an MP4 file with the video
streams 0 and 1 records stream 0 as the active one; with stream 2 forced no
record is accepted and `parse_index` returns -1, with stream 1 forced one
record is accepted and it returns 0. -/
theorem parse_index_forced_stream_incomplete_witness :
    parse_index_records scenario_alloc true (scenario_force_video 2) index_parse_zero
        (index_line.other "") (scenario_index_file scenario_two_streams_scan)
      = parse_result.done (scenario_forced_records 2)
    ∧ (scenario_force_video 2).force_video = true
    ∧ 0 ≤ (scenario_force_video 2).force_video_index
    ∧ 0 ≤ scenario_two_streams_scan.active_video_stream_index
    ∧ (scenario_forced_records 2).1.video_sample_count = 0
    ∧ parse_index insertion_qsort scenario_rescale scenario_alloc true (scenario_force_video 2)
        index_parse_zero (index_line.other "") (scenario_index_file scenario_two_streams_scan)
      = parse_result.fail_parsing
    ∧ (parse_index insertion_qsort scenario_rescale scenario_alloc true (scenario_force_video 1)
        index_parse_zero (index_line.other "")
        (scenario_index_file scenario_two_streams_scan)).and_then
        (fun r => parse_result.done (r.state.video_stream_index, r.state.video_sample_count))
      = parse_result.done (1, 1) :=
  ⟨rfl, rfl, by decide, by decide, rfl,
   parse_index_forced_stream_incomplete insertion_qsort scenario_rescale scenario_alloc true
     (scenario_force_video 2) index_parse_zero (index_line.other "") "a.mp4" "mp4" 0
     scenario_two_streams_scan.active_video_stream_index (-1) _
     (scenario_forced_records 2).1 (scenario_forced_records 2).2.1
     (scenario_forced_records 2).2.2 rfl
     (Or.inl ⟨rfl, by decide, by decide, Or.inl rfl⟩),
   rfl⟩

/-- C13 (counterexample): `force_video` with `force_video_index = 0` on an
index file that records no video stream (marker line -1) and no packet: no
record is accepted, yet `parse_index` returns 0, with stream 0 as the video
stream and the marker lines rewritten. -/
theorem parse_index_forced_video_without_stream :
    (scenario_force_video 0).force_video = true
    ∧ 0 ≤ (scenario_force_video 0).force_video_index
    ∧ (parse_index_records scenario_alloc true (scenario_force_video 0) index_parse_zero
        (index_line.other "") scenario_index_file_without_streams).and_then
        (fun x => parse_result.done (x.1.video_sample_count, x.1.initial_pix_fmt))
      = parse_result.done (0, AV_PIX_FMT_NONE)
    ∧ (parse_index insertion_qsort scenario_rescale scenario_alloc true (scenario_force_video 0)
        index_parse_zero (index_line.other "") scenario_index_file_without_streams).and_then
        (fun r => parse_result.done
          (r.state.video_stream_index, r.state.video_sample_count, r.markers))
      = parse_result.done (0, 0, some (0, -1)) :=
  ⟨rfl, by decide, rfl, rfl⟩

/-- C11 (the code at the failing input): for the packets stream 0 (640x480),
stream 1 (320x240), stream 1 (1920x1080) `create_index` elects stream 1 at the
third packet and holds one record, that of the third packet; `parse_index` on
the index file written for that scan accepts two records of stream 1, the
first of them that of the second packet. -/
theorem create_index_parse_index_reelected :
    (create_index_video scenario_option (video_scan_init "mp4")
        scenario_reelected_packets).map
        (fun s => (s.stream_index, s.video_sample_count, (s.video_info 1).pts,
                   (s.video_info 2).pts))
      = some (1, 1, 80, 0)
    ∧ (parse_index_records scenario_alloc true scenario_option index_parse_zero
        (index_line.other "") (scenario_index_file scenario_reelected_scan)).and_then
        (fun x => parse_result.done
          (x.1.video_stream_index, x.1.video_sample_count,
           x.1.video_info.map (fun info => ((info 1).pts, (info 2).pts))))
      = parse_result.done (1, 2, some (40, 80))
    ∧ (parse_index insertion_qsort scenario_rescale scenario_alloc true scenario_option
        index_parse_zero (index_line.other "")
        (scenario_index_file scenario_reelected_scan)).and_then
        (fun r => parse_result.done (r.vdhp.map (fun v => v.frame_count)))
      = parse_result.done (some 2) :=
  ⟨rfl, rfl, rfl⟩

/-! ## The records of `parse_index` against those of `create_index` -/

theorem parse_video_line_other (alloc : parse_alloc_t) (opt : lwlibav_option_t)
    (p : index_parse_t) (hdr : packet_line_t) (line : index_line) (hdv : p.dv_in_avi ≠ -1)
    (hne : hdr.stream_index ≠ p.video_stream_index) :
    parse_video_line alloc opt p hdr line = parse_result.done p := by
  unfold parse_video_line parse_dv_in_avi
  rw [if_neg (fun h => hdv h.1)]
  show (if hdr.stream_index ≠ p.video_stream_index then parse_result.done p else _) = _
  rw [if_pos hne]

theorem grow_video_info_done (alloc : parse_alloc_t) (s : index_parse_t)
    (hre : ∀ n, alloc.video_realloc n = true) :
    ∃ s1, grow_video_info alloc s = parse_result.done s1
      ∧ s1.video_stream_index = s.video_stream_index ∧ s1.dv_in_avi = s.dv_in_avi
      ∧ s1.video_sample_count = s.video_sample_count
      ∧ s1.last_keyframe_pts = s.last_keyframe_pts
      ∧ s1.video_info = s.video_info := by
  unfold grow_video_info
  by_cases hc : wrap_uint32 (s.video_sample_count + 1) = s.video_info_count
  · rw [if_pos hc, hre, if_pos rfl]
    exact ⟨_, rfl, rfl, rfl, rfl, rfl, rfl⟩
  · rw [if_neg hc]
    exact ⟨_, rfl, rfl, rfl, rfl, rfl, rfl⟩

theorem parse_video_line_record (alloc : parse_alloc_t) (opt : lwlibav_option_t)
    (p : index_parse_t) (hdr : packet_line_t) (pict_type key width height pix_fmt colorspace : Int)
    (info : Nat → video_frame_info_t) (hdv : p.dv_in_avi ≠ -1)
    (heq : hdr.stream_index = p.video_stream_index)
    (hacc : accepts_video_line pict_type key width height colorspace = true)
    (hinfo : p.video_info = some info) (hre : ∀ n, alloc.video_realloc n = true) :
    ∃ p1, parse_video_line alloc opt p hdr
        (index_line.video pict_type key width height pix_fmt colorspace) = parse_result.done p1
      ∧ p1.video_stream_index = p.video_stream_index ∧ p1.dv_in_avi = p.dv_in_avi
      ∧ p1.video_sample_count = wrap_uint32 (p.video_sample_count + 1)
      ∧ p1.last_keyframe_pts = (if key ≠ 0 then hdr.pts else p.last_keyframe_pts)
      ∧ p1.video_info = some (Function.update info (wrap_uint32 (p.video_sample_count + 1))
          { info (wrap_uint32 (p.video_sample_count + 1)) with
            pts := hdr.pts, dts := hdr.dts, file_offset := hdr.pos,
            sample_number := wrap_uint32 (p.video_sample_count + 1),
            extradata_index := hdr.extradata_index, pict_type := pict_type,
            is_leading :=
              if hdr.pts ≠ AV_NOPTS_VALUE ∧ p.last_keyframe_pts ≠ AV_NOPTS_VALUE
                  ∧ hdr.pts < p.last_keyframe_pts then 1
              else (info (wrap_uint32 (p.video_sample_count + 1))).is_leading,
            keyframe := if key ≠ 0 then 1
                        else (info (wrap_uint32 (p.video_sample_count + 1))).keyframe }) := by
  unfold parse_video_line parse_dv_in_avi
  rw [if_neg (fun h => hdv h.1)]
  show ∃ p1, (if hdr.stream_index ≠ p.video_stream_index then parse_result.done p else _) = _ ∧ _
  rw [if_neg (fun h => h heq)]
  dsimp only
  rw [if_pos hacc, hinfo]
  dsimp only
  show ∃ p1, grow_video_info alloc _ = _ ∧ _
  obtain ⟨p1, h1, h2, h3, h4, h5, h6⟩ := grow_video_info_done alloc
    (parse_video_record
      { p with video_codec_id :=
          if p.video_codec_id = AVCodecID.AV_CODEC_ID_NONE then hdr.codec_id
          else p.video_codec_id }
      info hdr pict_type key width height pix_fmt colorspace) hre
  exact ⟨p1, h1, h2, h3, h4, h5, h6⟩

theorem create_index_video_packet_eq (opt : lwlibav_option_t) (s s' : video_scan_t)
    (pkt : video_packet_t) (hforce : opt.force_video = false) (hdv : s.dv_in_avi ≠ -1)
    (hstep : create_index_video_packet opt s pkt = some s') :
    s' = print_index_lines
      (if s.stream_index = -1
          ∨ (pkt.stream_index ≠ s.stream_index ∧ pixel_count pkt > s.video_resolution)
       then set_video_frame_info (update_active_video_stream s pkt) pkt
              (get_picture_type pkt.picture pkt.flags).1 (get_picture_type pkt.picture pkt.flags).2
       else if pkt.stream_index = s.stream_index
       then set_video_frame_info s pkt
              (get_picture_type pkt.picture pkt.flags).1 (get_picture_type pkt.picture pkt.flags).2
       else s)
      (printed_video_lines pkt) := by
  unfold create_index_video_packet at hstep
  by_cases hr : (get_picture_type pkt.picture pkt.flags).1 < 0
  · rw [if_pos hr] at hstep; cases hstep
  rw [if_neg hr] at hstep
  have hel : elect_video_stream opt s pkt
      = if elects_video_stream opt false s pkt = true
        then update_active_video_stream s pkt else s := by
    unfold elect_video_stream
    have hdvf : decide (s.dv_in_avi = -1) = false := by simp [hdv]
    simp only [hdvf, Bool.false_and, Bool.false_eq_true, if_false]
  rw [hel] at hstep
  have hs' := (Option.some.inj hstep).symm
  have hiff : elects_video_stream opt false s pkt = true
      ↔ (s.stream_index = -1
          ∨ (pkt.stream_index ≠ s.stream_index ∧ pixel_count pkt > s.video_resolution)) := by
    unfold elects_video_stream
    simp only [hforce, Bool.false_or, Bool.not_false, Bool.true_and, Bool.false_and,
      Bool.or_false, Bool.or_eq_true, Bool.and_eq_true, decide_eq_true_eq]
  rw [hs']
  unfold printed_video_lines
  by_cases he : elects_video_stream opt false s pkt = true
  · rw [if_pos he, if_pos (hiff.mp he)]
    have hupd : (update_active_video_stream s pkt).stream_index = pkt.stream_index := rfl
    rw [if_pos hupd.symm]
  · rw [if_neg he, if_neg (fun h => he (hiff.mpr h))]

theorem set_video_frame_info_last_keyframe_pts (t : video_scan_t) (pkt : video_packet_t)
    (pict : Int) (flags : Nat) :
    (set_video_frame_info t pkt pict flags).last_keyframe_pts
    = if flags &&& AV_PKT_FLAG_KEY ≠ 0 then pkt.pts else t.last_keyframe_pts := by
  unfold set_video_frame_info
  by_cases hk : flags &&& AV_PKT_FLAG_KEY ≠ 0
  · simp [hk]
  · simp [hk]

theorem set_video_frame_info_video_info (t : video_scan_t) (pkt : video_packet_t)
    (pict : Int) (flags : Nat) :
    (set_video_frame_info t pkt pict flags).video_info
    = Function.update t.video_info (wrap_uint32 (t.video_sample_count + 1))
        { t.video_info (wrap_uint32 (t.video_sample_count + 1)) with
          pts := pkt.pts, dts := pkt.dts, file_offset := pkt.pos,
          sample_number := wrap_uint32 (t.video_sample_count + 1),
          extradata_index := pkt.extradata_index, pict_type := pict,
          is_leading :=
            if pkt.pts ≠ AV_NOPTS_VALUE ∧ t.last_keyframe_pts ≠ AV_NOPTS_VALUE
                ∧ pkt.pts < t.last_keyframe_pts then 1
            else (t.video_info (wrap_uint32 (t.video_sample_count + 1))).is_leading,
          keyframe := if flags &&& AV_PKT_FLAG_KEY ≠ 0 then 1
                      else (t.video_info (wrap_uint32 (t.video_sample_count + 1))).keyframe } := by
  unfold set_video_frame_info
  by_cases hk : flags &&& AV_PKT_FLAG_KEY ≠ 0
  · simp [hk]
  · simp [hk]

theorem create_index_video_packet_fields (opt : lwlibav_option_t) (s s' : video_scan_t)
    (pkt : video_packet_t) (n : Nat) (hforce : opt.force_video = false)
    (hinv : video_scan_inv s n) (hn : n + 1 < 2 ^ 32) (hidx : 0 ≤ pkt.stream_index)
    (hstep : create_index_video_packet opt s pkt = some s') :
    (pkt.stream_index ≠ s.stream_index
      ∧ s'.stream_index = pkt.stream_index ∧ s'.video_sample_count = 1
      ∧ s'.last_keyframe_pts
          = (if (get_picture_type pkt.picture pkt.flags).2 &&& AV_PKT_FLAG_KEY ≠ 0
             then pkt.pts else AV_NOPTS_VALUE)
      ∧ (∀ i, i ≠ 1 → s'.video_info i = video_frame_info_zero)
      ∧ s'.video_info 1
          = { pts := pkt.pts, dts := pkt.dts, file_offset := pkt.pos, sample_number := 1,
              extradata_index := pkt.extradata_index,
              pict_type := (get_picture_type pkt.picture pkt.flags).1,
              keyframe := if (get_picture_type pkt.picture pkt.flags).2 &&& AV_PKT_FLAG_KEY ≠ 0
                          then 1 else 0,
              is_leading := 0 })
    ∨ (pkt.stream_index = s.stream_index
      ∧ s'.stream_index = s.stream_index
      ∧ s'.video_sample_count = s.video_sample_count + 1
      ∧ s'.last_keyframe_pts
          = (if (get_picture_type pkt.picture pkt.flags).2 &&& AV_PKT_FLAG_KEY ≠ 0
             then pkt.pts else s.last_keyframe_pts)
      ∧ s'.video_info = Function.update s.video_info (s.video_sample_count + 1)
          { s.video_info (s.video_sample_count + 1) with
            pts := pkt.pts, dts := pkt.dts, file_offset := pkt.pos,
            sample_number := s.video_sample_count + 1,
            extradata_index := pkt.extradata_index,
            pict_type := (get_picture_type pkt.picture pkt.flags).1,
            is_leading :=
              if pkt.pts ≠ AV_NOPTS_VALUE ∧ s.last_keyframe_pts ≠ AV_NOPTS_VALUE
                  ∧ pkt.pts < s.last_keyframe_pts then 1
              else (s.video_info (s.video_sample_count + 1)).is_leading,
            keyframe := if (get_picture_type pkt.picture pkt.flags).2 &&& AV_PKT_FLAG_KEY ≠ 0
                        then 1 else (s.video_info (s.video_sample_count + 1)).keyframe })
    ∨ (pkt.stream_index ≠ s.stream_index
      ∧ s'.stream_index = s.stream_index
      ∧ s'.video_sample_count = s.video_sample_count
      ∧ s'.last_keyframe_pts = s.last_keyframe_pts
      ∧ s'.video_info = s.video_info) := by
  have heq := create_index_video_packet_eq opt s s' pkt hforce hinv.1 hstep
  have helec := create_index_video_packet_election opt s s' pkt n hforce hinv hn hidx hstep
  obtain ⟨hdv, hsrc, hlow, helected, hcount, hzero⟩ := hinv
  have hw : wrap_uint32 (s.video_sample_count + 1) = s.video_sample_count + 1 := by
    unfold wrap_uint32; exact Nat.mod_eq_of_lt (by omega)
  by_cases hE : s.stream_index = -1
      ∨ (pkt.stream_index ≠ s.stream_index ∧ pixel_count pkt > s.video_resolution)
  · rw [if_pos hE] at heq
    have hne : pkt.stream_index ≠ s.stream_index := by
      rcases hE with h | h
      · rw [h]; omega
      · exact h.1
    have h1 : s'.stream_index = pkt.stream_index := by rw [heq]; rfl
    have hch : s'.stream_index ≠ s.stream_index := by rw [h1]; exact hne
    obtain ⟨_, _, _, hc1, _, hz, hr⟩ := helec.2.2.2.2 hch
    refine Or.inl ⟨hne, h1, hc1, ?_, hz, hr⟩
    rw [heq]
    exact set_video_frame_info_last_keyframe_pts (update_active_video_stream s pkt) pkt
      (get_picture_type pkt.picture pkt.flags).1 (get_picture_type pkt.picture pkt.flags).2
  · rw [if_neg hE] at heq
    by_cases hp : pkt.stream_index = s.stream_index
    · rw [if_pos hp] at heq
      refine Or.inr (Or.inl ⟨hp, by rw [heq]; rfl, ?_, ?_, ?_⟩)
      · rw [heq]
        show wrap_uint32 (s.video_sample_count + 1) = _
        exact hw
      · rw [heq]
        exact set_video_frame_info_last_keyframe_pts s pkt
          (get_picture_type pkt.picture pkt.flags).1 (get_picture_type pkt.picture pkt.flags).2
      · rw [heq]
        have hv := set_video_frame_info_video_info s pkt
          (get_picture_type pkt.picture pkt.flags).1 (get_picture_type pkt.picture pkt.flags).2
        rw [hw] at hv
        exact hv
    · rw [if_neg hp] at heq
      exact Or.inr (Or.inr ⟨hp, by rw [heq]; rfl, by rw [heq]; rfl, by rw [heq]; rfl,
        by rw [heq]; rfl⟩)

theorem printed_video_lines_eq (pkt : video_packet_t) :
    printed_video_lines pkt
    = [ index_line.packet
          { stream_index := pkt.stream_index, codec_type := AVMEDIA_TYPE_VIDEO,
            codec_id := pkt.codec_id, time_base := pkt.time_base, pos := pkt.pos,
            pts := pkt.pts, dts := pkt.dts, extradata_index := pkt.extradata_index },
        index_line.video (get_picture_type pkt.picture pkt.flags).1
          (if (get_picture_type pkt.picture pkt.flags).2 &&& AV_PKT_FLAG_KEY ≠ 0 then 1 else 0)
          pkt.width pkt.height pkt.pix_fmt pkt.colorspace ] := rfl

theorem records_in_step_packet (alloc : parse_alloc_t) (opt : lwlibav_option_t) (e : Int)
    (s s' : video_scan_t) (p : index_parse_t) (pkt : video_packet_t) (n : Nat)
    (hforce : opt.force_video = false) (hre : ∀ k, alloc.video_realloc k = true)
    (hinv : video_scan_inv s n) (hn : n + 1 < 2 ^ 32)
    (hpn : p.video_sample_count ≤ n) (hidx : 0 ≤ pkt.stream_index)
    (hcs : pkt.colorspace ≠ AVCOL_SPC_NB) (hsync : records_in_step e s p)
    (hstep : create_index_video_packet opt s pkt = some s') :
    ∃ p1, parse_video_line alloc opt p
        { stream_index := pkt.stream_index, codec_type := AVMEDIA_TYPE_VIDEO,
          codec_id := pkt.codec_id, time_base := pkt.time_base, pos := pkt.pos,
          pts := pkt.pts, dts := pkt.dts, extradata_index := pkt.extradata_index }
        (index_line.video (get_picture_type pkt.picture pkt.flags).1
          (if (get_picture_type pkt.picture pkt.flags).2 &&& AV_PKT_FLAG_KEY ≠ 0 then 1 else 0)
          pkt.width pkt.height pkt.pix_fmt pkt.colorspace) = parse_result.done p1
      ∧ records_in_step e s' p1 ∧ p1.video_sample_count ≤ n + 1 := by
  obtain ⟨hpe, hpdv, info, hinfo, hzp, hphase⟩ := hsync
  have hfields := create_index_video_packet_fields opt s s' pkt n hforce hinv hn hidx hstep
  have hscount : s.video_sample_count ≤ n := hinv.2.2.2.2.1
  have hszero := hinv.2.2.2.2.2
  have hw : wrap_uint32 (p.video_sample_count + 1) = p.video_sample_count + 1 := by
    unfold wrap_uint32; exact Nat.mod_eq_of_lt (by omega)
  generalize hpict : (get_picture_type pkt.picture pkt.flags).1 = pict at hfields ⊢
  generalize hflags : (get_picture_type pkt.picture pkt.flags).2 = flags at hfields ⊢
  have hkey : ((if flags &&& AV_PKT_FLAG_KEY ≠ 0 then (1 : Int) else 0) ≠ 0)
      ↔ flags &&& AV_PKT_FLAG_KEY ≠ 0 := by
    by_cases hk : flags &&& AV_PKT_FLAG_KEY ≠ 0
    · simp [hk]
    · simp [hk]
  by_cases hpk : pkt.stream_index = e
  · -- the reader accepts the record
    have hacc : accepts_video_line pict
        (if flags &&& AV_PKT_FLAG_KEY ≠ 0 then 1 else 0) pkt.width pkt.height pkt.colorspace
        = true := by
      unfold accepts_video_line
      simp [hcs]
    obtain ⟨p1, hp1, h1e, h1dv, h1c, h1l, h1i⟩ := parse_video_line_record alloc opt p
      { stream_index := pkt.stream_index, codec_type := AVMEDIA_TYPE_VIDEO,
        codec_id := pkt.codec_id, time_base := pkt.time_base, pos := pkt.pos,
        pts := pkt.pts, dts := pkt.dts, extradata_index := pkt.extradata_index }
      pict (if flags &&& AV_PKT_FLAG_KEY ≠ 0 then 1 else 0) pkt.width pkt.height pkt.pix_fmt
      pkt.colorspace info hpdv (by rw [hpe]; exact hpk) hacc hinfo hre
    rw [hw] at h1c h1i
    dsimp only at h1l h1i
    have hzp1 : ∀ i, p1.video_sample_count < i →
        Function.update info (p.video_sample_count + 1)
          { info (p.video_sample_count + 1) with
            pts := pkt.pts, dts := pkt.dts, file_offset := pkt.pos,
            sample_number := p.video_sample_count + 1,
            extradata_index := pkt.extradata_index, pict_type := pict,
            is_leading :=
              if pkt.pts ≠ AV_NOPTS_VALUE ∧ p.last_keyframe_pts ≠ AV_NOPTS_VALUE
                  ∧ pkt.pts < p.last_keyframe_pts then 1
              else (info (p.video_sample_count + 1)).is_leading,
            keyframe := if (if flags &&& AV_PKT_FLAG_KEY ≠ 0 then (1 : Int) else 0) ≠ 0 then 1
                        else (info (p.video_sample_count + 1)).keyframe } i
          = video_frame_info_zero := by
      intro i hi
      rw [h1c] at hi
      rw [Function.update_noteq (by omega)]
      exact hzp i (by omega)
    refine ⟨p1, hp1, ⟨by rw [h1e]; exact hpe, by rw [h1dv]; exact hpdv, _, h1i, hzp1, ?_⟩,
      by rw [h1c]; omega⟩
    rcases hfields with ⟨hne, f1, f2, f3, f4, f5⟩ | ⟨heq, f1, f2, f3, f4⟩ | ⟨hne, f1, f2, f3, f4⟩
    · -- the scan elects the stream of the packet
      have hsne : s.stream_index ≠ e := by rw [← hpk]; exact fun h => hne h.symm
      rcases hphase with ⟨ha, _⟩ | ⟨_, hb1, hb2⟩ | ⟨hc1, _⟩
      · exact absurd ha hsne
      · refine Or.inl ⟨by rw [f1]; exact hpk, by omega, by rw [h1c, f2, hb1], ?_, ?_⟩
        · intro i hi
          by_cases hi1 : i = 1
          · subst hi1
            rw [hb1, f5]
            show Function.update info (0 + 1) _ (0 + 1) = _
            rw [Function.update_same]
            have hz1 : info (0 + 1) = video_frame_info_zero := hzp 1 (by omega)
            rw [hz1, hb2]
            by_cases hk : flags &&& AV_PKT_FLAG_KEY ≠ 0
            · simp [hk, video_frame_info_zero]
            · simp [hk, video_frame_info_zero]
          · rw [f4 i hi1, hb1, Function.update_noteq (by omega)]
            exact hzp i (by omega)
        · rw [h1l, f3, hb2]
          by_cases hk : flags &&& AV_PKT_FLAG_KEY ≠ 0
          · simp [hk]
          · simp [hk]
      · exact Or.inr (Or.inr ⟨by omega, fun _ => by rw [f2, h1c]; omega⟩)
    · -- the scan records the packet for the elected stream
      have hse : s.stream_index = e := by rw [← heq]; exact hpk
      rcases hphase with ⟨_, ha1, ha2, ha3, ha4⟩ | ⟨hb, _⟩ | ⟨hc1, hc2⟩
      · refine Or.inl ⟨by rw [f1]; exact hse, by omega, by rw [h1c, f2, ha2], ?_, ?_⟩
        · intro i hi
          rw [f4, ha2, ha4]
          by_cases hi1 : i = s.video_sample_count + 1
          · subst hi1
            rw [Function.update_same, Function.update_same, ha3 _ (by omega)]
            by_cases hk : flags &&& AV_PKT_FLAG_KEY ≠ 0
            · simp [hk]
            · simp [hk]
          · rw [Function.update_noteq hi1, Function.update_noteq hi1]
            exact ha3 i hi
        · rw [h1l, f3, ha4]
          by_cases hk : flags &&& AV_PKT_FLAG_KEY ≠ 0
          · simp [hk]
          · simp [hk]
      · exact absurd hse hb
      · exact Or.inr (Or.inr ⟨by omega, fun _ => by rw [f2, h1c]; have := hc2 hse; omega⟩)
    · -- the scan passes over the packet
      have hsne : s.stream_index ≠ e := by rw [← hpk]; exact fun h => hne h.symm
      exact Or.inr (Or.inr ⟨by omega, fun h => absurd (f1 ▸ h) hsne⟩)
  · -- the reader passes over the lines
    have hp1 := parse_video_line_other alloc opt p
      { stream_index := pkt.stream_index, codec_type := AVMEDIA_TYPE_VIDEO,
        codec_id := pkt.codec_id, time_base := pkt.time_base, pos := pkt.pos,
        pts := pkt.pts, dts := pkt.dts, extradata_index := pkt.extradata_index }
      (index_line.video pict (if flags &&& AV_PKT_FLAG_KEY ≠ 0 then 1 else 0) pkt.width
        pkt.height pkt.pix_fmt pkt.colorspace) hpdv (by rw [hpe]; exact hpk)
    refine ⟨p, hp1, ⟨hpe, hpdv, info, hinfo, hzp, ?_⟩, by omega⟩
    rcases hfields with ⟨hne, f1, f2, f3, f4, f5⟩ | ⟨heq, f1, f2, f3, f4⟩ | ⟨hne, f1, f2, f3, f4⟩
    · have hs'ne : s'.stream_index ≠ e := by rw [f1]; exact hpk
      rcases hphase with ⟨_, ha1, ha2, _⟩ | ⟨_, hb1, hb2⟩ | ⟨hc1, _⟩
      · exact Or.inr (Or.inr ⟨by omega, fun h => absurd h hs'ne⟩)
      · exact Or.inr (Or.inl ⟨hs'ne, hb1, hb2⟩)
      · exact Or.inr (Or.inr ⟨hc1, fun h => absurd h hs'ne⟩)
    · have hs'ne : s'.stream_index ≠ e := by rw [f1, ← heq]; exact hpk
      have hsne : s.stream_index ≠ e := by rw [← heq]; exact hpk
      rcases hphase with ⟨ha, _⟩ | ⟨_, hb1, hb2⟩ | ⟨hc1, _⟩
      · exact absurd ha hsne
      · exact Or.inr (Or.inl ⟨hs'ne, hb1, hb2⟩)
      · exact Or.inr (Or.inr ⟨hc1, fun h => absurd h hs'ne⟩)
    · rcases hphase with ⟨ha, ha1, ha2, ha3, ha4⟩ | ⟨hb, hb1, hb2⟩ | ⟨hc1, hc2⟩
      · exact Or.inl ⟨by rw [f1]; exact ha, by omega, by rw [f2]; exact ha2,
          by rw [f4]; exact ha3, by rw [f3]; exact ha4⟩
      · exact Or.inr (Or.inl ⟨by rw [f1]; exact hb, hb1, hb2⟩)
      · exact Or.inr (Or.inr ⟨hc1, fun h => by rw [f2]; exact hc2 (f1 ▸ h)⟩)

theorem create_index_video_printed (opt : lwlibav_option_t) (hforce : opt.force_video = false)
    (pkts : List video_packet_t) :
    ∀ (s0 s : video_scan_t), s0.dv_in_avi ≠ -1 →
      s0.active_video_stream_index = s0.stream_index →
      create_index_video opt s0 pkts = some s →
      s.lines = s0.lines ++ pkts.flatMap printed_video_lines
      ∧ s.active_video_stream_index = s.stream_index ∧ s.dv_in_avi ≠ -1 := by
  induction pkts with
  | nil =>
    intro s0 s hdv hact h
    unfold create_index_video at h
    rw [← Option.some.inj h]
    exact ⟨by simp, hact, hdv⟩
  | cons p ps ih =>
    intro s0 s hdv hact h
    unfold create_index_video at h
    cases hp : create_index_video_packet opt s0 p with
    | none => rw [hp] at h; cases h
    | some s1 =>
      rw [hp] at h
      have heq := create_index_video_packet_eq opt s0 s1 p hforce hdv hp
      have hl : s1.lines = s0.lines ++ printed_video_lines p
          ∧ s1.active_video_stream_index = s1.stream_index ∧ s1.dv_in_avi ≠ -1 := by
        rw [heq]
        by_cases hE : s0.stream_index = -1
            ∨ (p.stream_index ≠ s0.stream_index ∧ pixel_count p > s0.video_resolution)
        · rw [if_pos hE]
          exact ⟨rfl, rfl, hdv⟩
        · rw [if_neg hE]
          by_cases hs : p.stream_index = s0.stream_index
          · rw [if_pos hs]
            exact ⟨rfl, hact, hdv⟩
          · rw [if_neg hs]
            exact ⟨rfl, hact, hdv⟩
      obtain ⟨h1, h2, h3⟩ := ih s1 s hl.2.2 hl.2.1 h
      refine ⟨?_, h2, h3⟩
      rw [h1, hl.1, List.flatMap_cons, List.append_assoc]

theorem records_in_step_packets (alloc : parse_alloc_t) (opt : lwlibav_option_t) (e : Int)
    (tail : List index_line) (hforce : opt.force_video = false)
    (hre : ∀ k, alloc.video_realloc k = true) (pkts : List video_packet_t) :
    ∀ (s s' : video_scan_t) (p : index_parse_t) (n : Nat) (buf : index_line),
      video_scan_inv s n → n + pkts.length < 2 ^ 32 → p.video_sample_count ≤ n →
      (∀ q ∈ pkts, 0 ≤ q.stream_index) → (∀ q ∈ pkts, q.colorspace ≠ AVCOL_SPC_NB) →
      records_in_step e s p → create_index_video opt s pkts = some s' →
      ∃ p' buf', parse_packet_lines alloc opt p buf (pkts.flatMap printed_video_lines ++ tail)
          = parse_packet_lines alloc opt p' buf' tail
        ∧ records_in_step e s' p' := by
  induction pkts with
  | nil =>
    intro s s' p n buf _ _ _ _ _ hsync h
    unfold create_index_video at h
    rw [← Option.some.inj h]
    exact ⟨p, buf, rfl, hsync⟩
  | cons q qs ih =>
    intro s s' p n buf hinv hn hpn hidx hcs hsync h
    unfold create_index_video at h
    simp only [List.length_cons] at hn
    cases hq : create_index_video_packet opt s q with
    | none => rw [hq] at h; cases h
    | some s1 =>
      rw [hq] at h
      have hinv1 := (create_index_video_packet_election opt s s1 q n hforce hinv (by omega)
        (hidx q (List.mem_cons_self q qs)) hq).1
      obtain ⟨p1, hp1, hsync1, hpn1⟩ := records_in_step_packet alloc opt e s s1 p q n hforce hre
        hinv (by omega) hpn (hidx q (List.mem_cons_self q qs))
        (hcs q (List.mem_cons_self q qs)) hsync hq
      obtain ⟨p', buf', hrun, hsync'⟩ := ih s1 s' p1 (n + 1)
        (index_line.video (get_picture_type q.picture q.flags).1
          (if (get_picture_type q.picture q.flags).2 &&& AV_PKT_FLAG_KEY ≠ 0 then 1 else 0)
          q.width q.height q.pix_fmt q.colorspace)
        hinv1 (by omega) hpn1
        (fun x hx => hidx x (List.mem_cons_of_mem q hx))
        (fun x hx => hcs x (List.mem_cons_of_mem q hx)) hsync1 h
      refine ⟨p', buf', ?_, hsync'⟩
      rw [List.flatMap_cons, printed_video_lines_eq, List.append_assoc]
      show parse_packet_lines alloc opt p buf (index_line.packet _ :: index_line.video _ _ _ _ _ _
        :: (qs.flatMap printed_video_lines ++ tail)) = _
      rw [parse_packet_lines_packet, if_pos rfl]
      dsimp only
      rw [hp1]
      exact hrun

/-- The record loop of `parse_index` on the index file of a scan.  For a scan of
video packets with no video stream forced, outside the DV-in-AVI case and with
fewer than `2^32` packets, whose packets have a colour space other than
`AVCOL_SPC_NB`: `parse_index` (allocations succeeding) reads the header and the
packet lines that `create_index` has written and collects the records of the
elected stream; it never has fewer records than `create_index` held, and when
it has as many, every record agrees with the record of `create_index` in every
field, as does `last_keyframe_pts`. -/
theorem create_index_parse_index_records (alloc : parse_alloc_t) (opt : lwlibav_option_t)
    (h : index_parse_t) (buf : index_line) (path format_name : String) (format_flags : Nat)
    (active_audio : Int) (pkts : List video_packet_t) (s : video_scan_t)
    (tail : List index_line)
    (hforce : opt.force_video = false) (havi : format_name ≠ "avi")
    (halloc : alloc.file_path = true ∧ alloc.video_info = true ∧ alloc.audio_info = true)
    (hre : ∀ k, alloc.video_realloc k = true)
    (hcount : pkts.length + 1 < 2 ^ 32)
    (hidx : ∀ q ∈ pkts, 0 ≤ q.stream_index)
    (hcs : ∀ q ∈ pkts, q.colorspace ≠ AVCOL_SPC_NB)
    (hscan : create_index_video opt (video_scan_init format_name) pkts = some s) :
    ∃ p, parse_index_records alloc true opt h buf
        (index_line.input_file_path path :: index_line.libav_reader_index format_flags format_name
          :: index_line.active_video_stream_index s.active_video_stream_index
          :: index_line.active_audio_stream_index active_audio
          :: (s.lines ++ index_line.end_libav_reader_index :: tail))
        = parse_result.done (p, index_line.end_libav_reader_index, tail)
      ∧ p.video_stream_index = s.stream_index
      ∧ s.video_sample_count ≤ p.video_sample_count
      ∧ (p.video_sample_count = s.video_sample_count →
          p.last_keyframe_pts = s.last_keyframe_pts
          ∧ ∀ i, 1 ≤ i → i ≤ s.video_sample_count →
              p.video_info.map (fun info => info i) = some (s.video_info i)) := by
  have hinit := video_scan_inv_init format_name havi
  have hinv := create_index_video_inv opt hforce pkts (video_scan_init format_name) s 0 hinit
    (by omega) hidx hscan
  obtain ⟨hlines, hact, _⟩ := create_index_video_printed opt hforce pkts
    (video_scan_init format_name) s hinit.1 rfl hscan
  have hlines' : s.lines = pkts.flatMap printed_video_lines := by
    rw [hlines]; rfl
  have hbreak : ∀ (p : index_parse_t) (b : index_line),
      parse_packet_lines alloc opt p b (index_line.end_libav_reader_index :: tail)
      = parse_result.done (p, index_line.end_libav_reader_index, tail) :=
    fun p b => parse_packet_lines_break alloc opt p b _ tail (fun hdr heq => by cases heq)
  have hheader : parse_index_header alloc true opt h
      (index_line.input_file_path path :: index_line.libav_reader_index format_flags format_name
        :: index_line.active_video_stream_index s.stream_index
        :: index_line.active_audio_stream_index active_audio
        :: (pkts.flatMap printed_video_lines ++ index_line.end_libav_reader_index :: tail))
      = parse_result.done
          (parse_index_init opt h format_flags format_name s.stream_index active_audio,
           pkts.flatMap printed_video_lines ++ index_line.end_libav_reader_index :: tail) := by
    simp only [parse_index_header]
    rw [if_neg (by decide), if_neg (by rw [halloc.1]; decide),
      if_neg (fun hc => by rw [halloc.2.1] at hc; exact Bool.noConfusion hc.2),
      if_neg (fun hc => by rw [halloc.2.2] at hc; exact Bool.noConfusion hc.2)]
  have hvs : (parse_index_init opt h format_flags format_name s.stream_index
      active_audio).video_stream_index = s.stream_index := by
    show (if opt.force_video = true then opt.force_video_index else s.stream_index) = _
    rw [hforce]; rfl
  unfold parse_index_records
  rw [hact, hlines', hheader]
  show ∃ p, parse_packet_lines alloc opt
      (parse_index_init opt h format_flags format_name s.stream_index active_audio) buf
      (pkts.flatMap printed_video_lines ++ index_line.end_libav_reader_index :: tail) = _ ∧ _
  by_cases hne : pkts = []
  · subst hne
    unfold create_index_video at hscan
    have hs := (Option.some.inj hscan).symm
    refine ⟨_, hbreak _ _, hvs, ?_, fun _ => ⟨?_, ?_⟩⟩
    · rw [hs]; exact Nat.le_refl _
    · rw [hs]; rfl
    · intro i h1 h2
      rw [hs] at h2
      exact absurd h2 (by show ¬ i ≤ 0; omega)
  · have hlen : 1 ≤ pkts.length := by
      cases pkts with
      | nil => exact absurd rfl hne
      | cons q qs => simp
    have he : 0 ≤ s.stream_index := hinv.2.2.2.1 (by omega)
    have hsync0 : records_in_step s.stream_index (video_scan_init format_name)
        (parse_index_init opt h format_flags format_name s.stream_index active_audio) := by
      refine ⟨hvs, ?_, fun _ => video_frame_info_zero, ?_, fun _ _ => rfl, ?_⟩
      · show (if format_name = "avi" then (-1 : Int) else 0) ≠ -1
        rw [if_neg havi]; decide
      · show (if (if opt.force_video = true then opt.force_video_index else s.stream_index) ≥ 0
            then some (fun _ => video_frame_info_zero) else none) = _
        rw [hforce]
        show (if s.stream_index ≥ 0 then some (fun _ => video_frame_info_zero) else none) = _
        rw [if_pos he]
      · refine Or.inr (Or.inl ⟨?_, rfl, rfl⟩)
        show (-1 : Int) ≠ s.stream_index
        omega
    obtain ⟨p', buf', hrun, hsync⟩ := records_in_step_packets alloc opt s.stream_index
      (index_line.end_libav_reader_index :: tail) hforce hre pkts (video_scan_init format_name)
      s _ 0 buf hinit (by omega) (Nat.le_refl 0) hidx hcs hsync0 hscan
    refine ⟨p', ?_, hsync.1, ?_, ?_⟩
    · rw [← hbreak p' buf', ← hrun]
    · obtain ⟨_, _, info, _, _, hphase⟩ := hsync
      rcases hphase with ⟨_, _, ha, _⟩ | ⟨hb, _⟩ | ⟨_, hc⟩
      · omega
      · exact absurd rfl hb
      · have := hc rfl; omega
    · intro hc
      obtain ⟨_, _, info, hinfo, _, hphase⟩ := hsync
      rcases hphase with ⟨_, _, _, ha3, ha4⟩ | ⟨hb, _⟩ | ⟨_, hc2⟩
      · refine ⟨ha4, fun i h1 _ => ?_⟩
        rw [hinfo]
        show some (info i) = _
        rw [ha3 i h1]
      · exact absurd rfl hb
      · have := hc2 rfl; omega

/-- Witness of the theorem on the record loop of `parse_index`: for one packet
of stream 0 and one of stream 1, both with 640x480 pixels, `create_index` keeps
stream 0 with one record, and `parse_index` rebuilds that record. -/
theorem create_index_parse_index_records_witness :
    scenario_option.force_video = false ∧ "mp4" ≠ "avi"
    ∧ create_index_video scenario_option (video_scan_init "mp4")
        [scenario_video_packet 0 0 640 480, scenario_video_packet 1 40 640 480]
      = some scenario_two_streams_scan
    ∧ scenario_two_streams_scan.video_sample_count = 1
    ∧ ∃ p, parse_index_records scenario_alloc true scenario_option index_parse_zero
          (index_line.other "")
          (index_line.input_file_path "a.mp4" :: index_line.libav_reader_index 0 "mp4"
            :: index_line.active_video_stream_index
                 scenario_two_streams_scan.active_video_stream_index
            :: index_line.active_audio_stream_index (-1)
            :: (scenario_two_streams_scan.lines ++ index_line.end_libav_reader_index
                  :: [index_line.end_libav_reader_index_file]))
          = parse_result.done
              (p, index_line.end_libav_reader_index, [index_line.end_libav_reader_index_file])
        ∧ p.video_stream_index = scenario_two_streams_scan.stream_index
        ∧ scenario_two_streams_scan.video_sample_count ≤ p.video_sample_count
        ∧ (p.video_sample_count = scenario_two_streams_scan.video_sample_count →
            p.last_keyframe_pts = scenario_two_streams_scan.last_keyframe_pts
            ∧ ∀ i, 1 ≤ i → i ≤ scenario_two_streams_scan.video_sample_count →
                p.video_info.map (fun info => info i)
                  = some (scenario_two_streams_scan.video_info i)) :=
  ⟨rfl, by decide, rfl, rfl,
   create_index_parse_index_records scenario_alloc scenario_option index_parse_zero
     (index_line.other "") "a.mp4" "mp4" 0 (-1)
     [scenario_video_packet 0 0 640 480, scenario_video_packet 1 40 640 480]
     scenario_two_streams_scan [index_line.end_libav_reader_index_file]
     rfl (by decide) ⟨rfl, rfl, rfl⟩ (fun _ => rfl) (by decide)
     (by
       intro q hq
       rcases List.mem_cons.mp hq with h | h
       · rw [h]; decide
       · rw [List.mem_singleton.mp h]; decide)
     (by
       intro q hq
       rcases List.mem_cons.mp hq with h | h
       · rw [h]; decide
       · rw [List.mem_singleton.mp h]; decide)
     rfl⟩

/-! ## The comparison functions of the sorts -/

/-- Where the difference of the two PTS fits in 64 bits, `compare_pts` is the
three-way comparison of the PTS. -/
theorem compare_pts_of_close (a b : video_frame_info_t)
    (h1 : -2 ^ 63 ≤ a.pts - b.pts) (h2 : a.pts - b.pts < 2 ^ 63) :
    compare_pts a b = if a.pts > b.pts then 1 else if a.pts = b.pts then 0 else -1 := by
  unfold compare_pts
  simp only [wrap_int64_eq_self _ h1 h2]
  by_cases hgt : a.pts > b.pts
  · rw [if_pos hgt, if_pos (by omega)]
  · rw [if_neg hgt, if_neg (by omega)]
    by_cases heq : a.pts = b.pts
    · rw [if_pos heq, if_pos (by omega)]
    · rw [if_neg heq, if_neg (by omega)]

/-- Where the difference of the two DTS fits in 64 bits, `compare_dts` is the
three-way comparison of the DTS. -/
theorem compare_dts_of_close (a b : video_timestamp_t)
    (h1 : -2 ^ 63 ≤ a.dts - b.dts) (h2 : a.dts - b.dts < 2 ^ 63) :
    compare_dts a b = if a.dts > b.dts then 1 else if a.dts = b.dts then 0 else -1 := by
  unfold compare_dts
  simp only [wrap_int64_eq_self _ h1 h2]
  by_cases hgt : a.dts > b.dts
  · rw [if_pos hgt, if_pos (by omega)]
  · rw [if_neg hgt, if_neg (by omega)]
    by_cases heq : a.dts = b.dts
    · rw [if_pos heq, if_pos (by omega)]
    · rw [if_neg heq, if_neg (by omega)]

/-- C30 (the code at the failing input). For the PTS `2^63 - 1` and `-2` the
64-bit difference in `compare_pts` wraps around: the function returns -1 for
the greater against the smaller value and 1 the other way round, and
`compare_dts` does the same on DTS; and the order is not transitive: with the
PTS `-2^62`, `2^62` and `2^63 - 1` the first record compares below the second
and the second below the third, yet the first compares above the third. -/
theorem compare_pts_far_apart :
    compare_pts (scenario_record 9223372036854775807 0 100 1 1 1)
        (scenario_record (-2) 10 200 2 1 1) = -1
    ∧ compare_pts (scenario_record (-2) 10 200 2 1 1)
        (scenario_record 9223372036854775807 0 100 1 1 1) = 1
    ∧ compare_dts { pts := 1, dts := 9223372036854775807 } { pts := 2, dts := -2 } = -1
    ∧ compare_dts { pts := 2, dts := -2 } { pts := 1, dts := 9223372036854775807 } = 1
    ∧ compare_pts (scenario_record (-4611686018427387904) 0 100 1 1 1)
        (scenario_record 4611686018427387904 10 200 2 1 1) = -1
    ∧ compare_pts (scenario_record 4611686018427387904 10 200 2 1 1)
        (scenario_record 9223372036854775807 20 300 3 1 1) = -1
    ∧ compare_pts (scenario_record (-4611686018427387904) 0 100 1 1 1)
        (scenario_record 9223372036854775807 20 300 3 1 1) = 1 :=
  ⟨by rfl, by rfl, by rfl, by rfl, by rfl, by rfl, by rfl⟩

/-! ## The choice of the output sample format -/

/-- The result of `select_better_sample_format` is one of its arguments; and
for formats of the ranked list with `b` other than `AV_SAMPLE_FMT_NONE` the
result ranks at least as high as `a`, so it is not `AV_SAMPLE_FMT_NONE` unless
`a` is. -/
theorem select_better_sample_format_of_format (a b : AVSampleFormat) :
    (select_better_sample_format a b = a ∨ select_better_sample_format a b = b)
    ∧ (b ≠ AVSampleFormat.AV_SAMPLE_FMT_NONE →
        ∀ ra rb, sample_format_rank a = some ra → sample_format_rank b = some rb →
          ∃ r, sample_format_rank (select_better_sample_format a b) = some r ∧ ra ≤ r) := by
  constructor
  · cases a <;> cases b <;> simp [select_better_sample_format]
  · intro hb ra rb ha hrb
    cases a <;> cases b <;>
      simp_all [select_better_sample_format, sample_format_rank]
    all_goals omega

/-- C29 (the code at the failing input). With `a = AV_SAMPLE_FMT_S16` and
`b = AV_SAMPLE_FMT_NONE` the function returns `AV_SAMPLE_FMT_NONE`, of rank 0
below the rank 2 of `a`; likewise for `a` one of U8, U8P, S16P, S32 and S32P,
while FLT, FLTP, DBL and DBLP are kept. -/
theorem select_better_sample_format_none :
    select_better_sample_format AVSampleFormat.AV_SAMPLE_FMT_S16
        AVSampleFormat.AV_SAMPLE_FMT_NONE = AVSampleFormat.AV_SAMPLE_FMT_NONE
    ∧ sample_format_rank AVSampleFormat.AV_SAMPLE_FMT_S16 = some 2
    ∧ sample_format_rank (select_better_sample_format AVSampleFormat.AV_SAMPLE_FMT_S16
        AVSampleFormat.AV_SAMPLE_FMT_NONE) = some 0
    ∧ [ AVSampleFormat.AV_SAMPLE_FMT_U8, AVSampleFormat.AV_SAMPLE_FMT_U8P,
        AVSampleFormat.AV_SAMPLE_FMT_S16P, AVSampleFormat.AV_SAMPLE_FMT_S32,
        AVSampleFormat.AV_SAMPLE_FMT_S32P ].map
          (fun a => select_better_sample_format a AVSampleFormat.AV_SAMPLE_FMT_NONE)
        = List.replicate 5 AVSampleFormat.AV_SAMPLE_FMT_NONE
    ∧ [ AVSampleFormat.AV_SAMPLE_FMT_FLT, AVSampleFormat.AV_SAMPLE_FMT_FLTP,
        AVSampleFormat.AV_SAMPLE_FMT_DBL, AVSampleFormat.AV_SAMPLE_FMT_DBLP ].map
          (fun a => select_better_sample_format a AVSampleFormat.AV_SAMPLE_FMT_NONE)
        = [ AVSampleFormat.AV_SAMPLE_FMT_FLT, AVSampleFormat.AV_SAMPLE_FMT_FLTP,
            AVSampleFormat.AV_SAMPLE_FMT_DBL, AVSampleFormat.AV_SAMPLE_FMT_DBLP ] :=
  ⟨by rfl, by rfl, by rfl, by rfl, by rfl⟩

/-! ## Reading the packets of one stream -/

theorem get_av_frame_loop_found (stream_index : Int) (before : List AVPacket) :
    ∀ (p : AVPacket) (after : List AVPacket) (pkt : AVPacket) (freed : List AVPacket),
      (∀ x ∈ before, x.stream_index ≠ stream_index) → p.stream_index = stream_index →
      get_av_frame_loop stream_index (before ++ p :: after) pkt freed
        = (0, p, after, freed ++ before) := by
  induction before with
  | nil =>
    intro p after pkt freed _ hp
    show get_av_frame_loop stream_index (p :: after) pkt freed = _
    rw [get_av_frame_loop]
    show (if p.stream_index ≠ stream_index then _ else (0, p, after, freed)) = _
    rw [if_neg (fun h => h hp), List.append_nil]
  | cons q qs ih =>
    intro p after pkt freed hb hp
    show get_av_frame_loop stream_index (q :: (qs ++ p :: after)) pkt freed = _
    rw [get_av_frame_loop]
    show (if q.stream_index ≠ stream_index then
        get_av_frame_loop stream_index (qs ++ p :: after) (av_free_packet q) (freed ++ [q])
      else _) = _
    rw [if_pos (hb q (List.mem_cons_self q qs)),
      ih p after _ _ (fun x hx => hb x (List.mem_cons_of_mem q hx)) hp, List.append_assoc]
    rfl

theorem get_av_frame_loop_end (stream_index : Int) (remaining : List AVPacket) :
    ∀ (pkt : AVPacket) (freed : List AVPacket),
      (∀ x ∈ remaining, x.stream_index ≠ stream_index) →
      (get_av_frame_loop stream_index remaining pkt freed).1 = 1
      ∧ (get_av_frame_loop stream_index remaining pkt freed).2.1.data = none
      ∧ (get_av_frame_loop stream_index remaining pkt freed).2.1.size = 0
      ∧ (get_av_frame_loop stream_index remaining pkt freed).2.2.1 = []
      ∧ (get_av_frame_loop stream_index remaining pkt freed).2.2.2 = freed ++ remaining := by
  induction remaining with
  | nil =>
    intro pkt freed _
    rw [get_av_frame_loop, List.append_nil]
    exact ⟨rfl, rfl, rfl, rfl, rfl⟩
  | cons q qs ih =>
    intro pkt freed hb
    have heq : get_av_frame_loop stream_index (q :: qs) pkt freed
        = get_av_frame_loop stream_index qs (av_free_packet q) (freed ++ [q]) := by
      rw [get_av_frame_loop]
      exact if_pos (hb q (List.mem_cons_self q qs))
    rw [heq]
    have h := ih (av_free_packet q) (freed ++ [q])
      (fun x hx => hb x (List.mem_cons_of_mem q hx))
    rw [List.append_assoc] at h
    exact h

/-- C25. The function `lwlibav_get_av_frame` on a demuxer that has the packets
`remaining` left: if `p` is the first of them whose `stream_index` is the
requested one, the function returns 0 with `*pkt = p`, the demuxer is left with
the packets behind `p`, and exactly the packets before `p` have been freed; if
no packet has the requested `stream_index`, it returns 1 with a null packet
(`data = NULL`, `size = 0`), the demuxer is left with no packet and all have
been freed. -/
theorem lwlibav_get_av_frame_spec (remaining : List AVPacket) (stream_index : Int)
    (pkt : AVPacket) :
    (∀ before p after, remaining = before ++ p :: after →
        (∀ x ∈ before, x.stream_index ≠ stream_index) → p.stream_index = stream_index →
        lwlibav_get_av_frame remaining stream_index pkt = (0, p, after, before))
    ∧ ((∀ x ∈ remaining, x.stream_index ≠ stream_index) →
        (lwlibav_get_av_frame remaining stream_index pkt).1 = 1
        ∧ (lwlibav_get_av_frame remaining stream_index pkt).2.1.data = none
        ∧ (lwlibav_get_av_frame remaining stream_index pkt).2.1.size = 0
        ∧ (lwlibav_get_av_frame remaining stream_index pkt).2.2.1 = []
        ∧ (lwlibav_get_av_frame remaining stream_index pkt).2.2.2 = remaining) := by
  constructor
  · intro before p after hr hb hp
    unfold lwlibav_get_av_frame
    rw [hr, get_av_frame_loop_found stream_index before p after _ [] hb hp, List.nil_append]
  · intro hb
    unfold lwlibav_get_av_frame
    have h := get_av_frame_loop_end stream_index remaining (av_init_packet pkt) [] hb
    rw [List.nil_append] at h
    exact h

/-- Witness of C25: a demuxer with packets of the streams 1, 0, 1, 0 left; the
request for stream 0 frees the first packet and returns the second, and the
request for stream 2 frees all four and returns a null packet. -/
theorem lwlibav_get_av_frame_spec_witness :
    [scenario_stream_packet 1 7, scenario_stream_packet 0 8, scenario_stream_packet 1 9,
      scenario_stream_packet 0 10]
      = [scenario_stream_packet 1 7] ++ scenario_stream_packet 0 8
          :: [scenario_stream_packet 1 9, scenario_stream_packet 0 10]
    ∧ (∀ x ∈ [scenario_stream_packet 1 7], x.stream_index ≠ 0)
    ∧ (scenario_stream_packet 0 8).stream_index = 0
    ∧ lwlibav_get_av_frame
        [scenario_stream_packet 1 7, scenario_stream_packet 0 8, scenario_stream_packet 1 9,
          scenario_stream_packet 0 10] 0 (scenario_stream_packet 5 0)
      = (0, scenario_stream_packet 0 8,
         [scenario_stream_packet 1 9, scenario_stream_packet 0 10],
         [scenario_stream_packet 1 7])
    ∧ (lwlibav_get_av_frame
        [scenario_stream_packet 1 7, scenario_stream_packet 0 8, scenario_stream_packet 1 9,
          scenario_stream_packet 0 10] 2 (scenario_stream_packet 5 0)).1 = 1 :=
  have hb : ∀ x ∈ [scenario_stream_packet 1 7], x.stream_index ≠ 0 := by
    intro x hx; rw [List.mem_singleton.mp hx]; decide
  ⟨rfl, hb, rfl,
   (lwlibav_get_av_frame_spec
      [scenario_stream_packet 1 7, scenario_stream_packet 0 8, scenario_stream_packet 1 9,
        scenario_stream_packet 0 10] 0 (scenario_stream_packet 5 0)).1
      [scenario_stream_packet 1 7] (scenario_stream_packet 0 8)
      [scenario_stream_packet 1 9, scenario_stream_packet 0 10] rfl hb rfl,
   rfl⟩

/-! ## The worked example of the PTS reconstructor -/

/-- C26. The example of the source comment: for six records in decode order
I, P, P, B, B, P with dts 0, 1, 2, 3, 4, 5 and no PTS,
`mpeg12_video_vc1_genarate_pts` yields the pts 1, 2, 5, 3, 4, 6 in decode order;
sorted into presentation order (by any `qsort`) the records are 1, 2, 4, 5, 3, 6
with pts 1, 2, 3, 4, 5, 6. -/
theorem genarate_pts_ippbbp (q : qsort_t) :
    (mpeg12_video_vc1_genarate_pts scenario_ippbbp).frame_list.map
        (fun r => (r.sample_number, r.pict_type, r.dts, r.pts))
      = [(0, 0, 0, 0), (1, 1, 0, 1), (2, 2, 1, 2), (3, 2, 2, 5), (4, 3, 3, 3), (5, 3, 4, 4),
         (6, 2, 5, 6)]
    ∧ (sort_presentation_order q (mpeg12_video_vc1_genarate_pts scenario_ippbbp).frame_list
        6).map (fun r => (r.sample_number, r.pts))
      = [(0, 0), (1, 1), (2, 2), (4, 3), (5, 4), (3, 5), (6, 6)] := by
  have hgen : (mpeg12_video_vc1_genarate_pts scenario_ippbbp).frame_list
      = [ video_frame_info_zero,
          scenario_record 1 0 1000 1 1 1,
          scenario_record 2 1 2000 2 2 0,
          scenario_record 5 2 3000 3 2 0,
          scenario_record 3 3 4000 4 3 0,
          scenario_record 4 4 5000 5 3 0,
          scenario_record 6 5 6000 6 2 0 ] := by decide
  refine ⟨by rw [hgen]; decide, ?_⟩
  rw [hgen]
  unfold sort_presentation_order
  rw [qsort_from_1_exact q compare_pts _ 6 (by decide)]
  have hrun : q.run compare_pts
      ([ video_frame_info_zero,
          scenario_record 1 0 1000 1 1 1,
          scenario_record 2 1 2000 2 2 0,
          scenario_record 5 2 3000 3 2 0,
          scenario_record 3 3 4000 4 3 0,
          scenario_record 4 4 5000 5 3 0,
          scenario_record 6 5 6000 6 2 0 ].drop 1)
      = [ scenario_record 1 0 1000 1 1 1,
          scenario_record 2 1 2000 2 2 0,
          scenario_record 3 3 4000 4 3 0,
          scenario_record 4 4 5000 5 3 0,
          scenario_record 5 2 3000 3 2 0,
          scenario_record 6 5 6000 6 2 0 ] := by
    apply perm_sorted_unique (fun r => r.pts)
    · refine (q.perm compare_pts _).trans ?_
      decide
    · apply qsort_sorted_key q compare_pts (fun r => r.pts)
      decide
    · decide
  rw [hrun]
  decide

/-! ## The maximal dimensions -/

/-- C24 (the code at the failing input). Two packets of one stream with
1920x1080 and then 1280x720 pixels: `create_index` ends with `max_width` 1920
and `max_height` 1080; `parse_index` on the index file written for that scan
accepts both records and ends with `max_width` 1920 but `max_height` 720, since
it compares `max_height` with the width of the record. -/
theorem parse_index_max_height_shrinks :
    (create_index_video scenario_option (video_scan_init "mp4")
        scenario_shrinking_packets).map
        (fun s => (s.stream_index, s.video_sample_count, s.max_width, s.max_height))
      = some (0, 2, 1920, 1080)
    ∧ (parse_index_records scenario_alloc true scenario_option index_parse_zero
        (index_line.other "") (scenario_index_file_one_stream scenario_shrinking_scan)).and_then
        (fun x => parse_result.done
          (x.1.video_stream_index, x.1.video_sample_count, x.1.max_width, x.1.max_height))
      = parse_result.done (0, 2, 1920, 720)
    ∧ (parse_index insertion_qsort scenario_rescale scenario_alloc true scenario_option
        index_parse_zero (index_line.other "")
        (scenario_index_file_one_stream scenario_shrinking_scan)).and_then
        (fun r => parse_result.done (r.state.max_width, r.state.max_height))
      = parse_result.done (1920, 720) :=
  ⟨rfl, rfl, rfl⟩

/-! ## No start-code emulation in the EBDU -/

theorem getD_append_one (l : List Nat) (x : Nat) (j : Nat) :
    (l ++ [x]).getD j 0 = if j < l.length then l.getD j 0 else if j = l.length then x else 0 := by
  simp only [List.getD_eq_getElem?_getD]
  by_cases h1 : j < l.length
  · rw [if_pos h1, List.getElem?_append_left h1]
  · rw [if_neg h1, List.getElem?_append_right (by omega)]
    by_cases h2 : j = l.length
    · rw [if_pos h2, h2, Nat.sub_self]; rfl
    · rw [if_neg h2]
      have : j - l.length ≠ 0 := by omega
      cases hk : j - l.length with
      | zero => exact absurd hk this
      | succ k => rfl

/-- A list in which no `00 00` from index 1 on is followed by a byte below 3
stays so when a byte is appended that is at least 3 or does not follow
`00 00`. -/
theorem no_emulation_append (l : List Nat) (x : Nat)
    (hl : ∀ j, 1 ≤ j → j + 2 < l.length → l.getD j 0 = 0 → l.getD (j + 1) 0 = 0 →
      3 ≤ l.getD (j + 2) 0)
    (hx : 3 ≤ l.length → l.getD (l.length - 2) 0 = 0 → l.getD (l.length - 1) 0 = 0 → 3 ≤ x) :
    ∀ j, 1 ≤ j → j + 2 < (l ++ [x]).length → (l ++ [x]).getD j 0 = 0 →
      (l ++ [x]).getD (j + 1) 0 = 0 → 3 ≤ (l ++ [x]).getD (j + 2) 0 := by
  intro j hj1 hj2 h0 h1
  rw [List.length_append, List.length_singleton] at hj2
  rw [getD_append_one, if_pos (by omega)] at h0
  rw [getD_append_one, if_pos (by omega)] at h1
  rw [getD_append_one]
  by_cases hlast : j + 2 < l.length
  · rw [if_pos hlast]
    exact hl j hj1 hlast h0 h1
  · rw [if_neg hlast, if_pos (by omega)]
    have e2 : l.length - 2 = j := by omega
    have e1 : l.length - 1 = j + 1 := by omega
    exact hx (by omega) (by rw [e2]; exact h0) (by rw [e1]; exact h1)

/-- The escaped payload behind the start code, up to the payload byte `n`: no
`00 00` from index 1 on is followed by a byte below 3; the last byte is the
payload byte `n - 1`; and where the last two bytes are `00 00` they are the
payload bytes `n - 2` and `n - 1`. -/
theorem escaped_prefix_no_emulation (payload : List Nat) (bdu_type : Nat)
    (htype : bdu_type ≠ 0) (n : Nat) :
    (∀ j, 1 ≤ j →
      j + 2 < ([0x00, 0x00, 0x01, bdu_type] ++ (List.range n).flatMap (fun i =>
          if 2 ≤ i ∧ payload.getD i 0 ≤ 0x03 ∧ payload.getD (i - 1) 0 = 0x00
             ∧ payload.getD (i - 2) 0 = 0x00
          then [0x03, payload.getD i 0] else [payload.getD i 0])).length →
      ([0x00, 0x00, 0x01, bdu_type] ++ (List.range n).flatMap (fun i =>
          if 2 ≤ i ∧ payload.getD i 0 ≤ 0x03 ∧ payload.getD (i - 1) 0 = 0x00
             ∧ payload.getD (i - 2) 0 = 0x00
          then [0x03, payload.getD i 0] else [payload.getD i 0])).getD j 0 = 0 →
      ([0x00, 0x00, 0x01, bdu_type] ++ (List.range n).flatMap (fun i =>
          if 2 ≤ i ∧ payload.getD i 0 ≤ 0x03 ∧ payload.getD (i - 1) 0 = 0x00
             ∧ payload.getD (i - 2) 0 = 0x00
          then [0x03, payload.getD i 0] else [payload.getD i 0])).getD (j + 1) 0 = 0 →
      3 ≤ ([0x00, 0x00, 0x01, bdu_type] ++ (List.range n).flatMap (fun i =>
          if 2 ≤ i ∧ payload.getD i 0 ≤ 0x03 ∧ payload.getD (i - 1) 0 = 0x00
             ∧ payload.getD (i - 2) 0 = 0x00
          then [0x03, payload.getD i 0] else [payload.getD i 0])).getD (j + 2) 0)
    ∧ 4 + n ≤ ([0x00, 0x00, 0x01, bdu_type] ++ (List.range n).flatMap (fun i =>
          if 2 ≤ i ∧ payload.getD i 0 ≤ 0x03 ∧ payload.getD (i - 1) 0 = 0x00
             ∧ payload.getD (i - 2) 0 = 0x00
          then [0x03, payload.getD i 0] else [payload.getD i 0])).length
    ∧ (1 ≤ n →
        ([0x00, 0x00, 0x01, bdu_type] ++ (List.range n).flatMap (fun i =>
          if 2 ≤ i ∧ payload.getD i 0 ≤ 0x03 ∧ payload.getD (i - 1) 0 = 0x00
             ∧ payload.getD (i - 2) 0 = 0x00
          then [0x03, payload.getD i 0] else [payload.getD i 0])).getD
          (([0x00, 0x00, 0x01, bdu_type] ++ (List.range n).flatMap (fun i =>
            if 2 ≤ i ∧ payload.getD i 0 ≤ 0x03 ∧ payload.getD (i - 1) 0 = 0x00
               ∧ payload.getD (i - 2) 0 = 0x00
            then [0x03, payload.getD i 0] else [payload.getD i 0])).length - 1) 0
        = payload.getD (n - 1) 0)
    ∧ (([0x00, 0x00, 0x01, bdu_type] ++ (List.range n).flatMap (fun i =>
          if 2 ≤ i ∧ payload.getD i 0 ≤ 0x03 ∧ payload.getD (i - 1) 0 = 0x00
             ∧ payload.getD (i - 2) 0 = 0x00
          then [0x03, payload.getD i 0] else [payload.getD i 0])).getD
          (([0x00, 0x00, 0x01, bdu_type] ++ (List.range n).flatMap (fun i =>
            if 2 ≤ i ∧ payload.getD i 0 ≤ 0x03 ∧ payload.getD (i - 1) 0 = 0x00
               ∧ payload.getD (i - 2) 0 = 0x00
            then [0x03, payload.getD i 0] else [payload.getD i 0])).length - 1) 0 = 0 →
        1 ≤ n)
    ∧ (([0x00, 0x00, 0x01, bdu_type] ++ (List.range n).flatMap (fun i =>
          if 2 ≤ i ∧ payload.getD i 0 ≤ 0x03 ∧ payload.getD (i - 1) 0 = 0x00
             ∧ payload.getD (i - 2) 0 = 0x00
          then [0x03, payload.getD i 0] else [payload.getD i 0])).getD
          (([0x00, 0x00, 0x01, bdu_type] ++ (List.range n).flatMap (fun i =>
            if 2 ≤ i ∧ payload.getD i 0 ≤ 0x03 ∧ payload.getD (i - 1) 0 = 0x00
               ∧ payload.getD (i - 2) 0 = 0x00
            then [0x03, payload.getD i 0] else [payload.getD i 0])).length - 2) 0 = 0 →
        ([0x00, 0x00, 0x01, bdu_type] ++ (List.range n).flatMap (fun i =>
          if 2 ≤ i ∧ payload.getD i 0 ≤ 0x03 ∧ payload.getD (i - 1) 0 = 0x00
             ∧ payload.getD (i - 2) 0 = 0x00
          then [0x03, payload.getD i 0] else [payload.getD i 0])).getD
          (([0x00, 0x00, 0x01, bdu_type] ++ (List.range n).flatMap (fun i =>
            if 2 ≤ i ∧ payload.getD i 0 ≤ 0x03 ∧ payload.getD (i - 1) 0 = 0x00
               ∧ payload.getD (i - 2) 0 = 0x00
            then [0x03, payload.getD i 0] else [payload.getD i 0])).length - 1) 0 = 0 →
        2 ≤ n ∧ payload.getD (n - 2) 0 = 0) := by
  induction n with
  | zero =>
    simp only [List.range_zero, List.flatMap_nil, List.append_nil]
    refine ⟨?_, by simp, fun h => absurd h (by omega), ?_, ?_⟩
    · intro j hj1 hj2 h0 h1
      have hlen : ([0x00, 0x00, 0x01, bdu_type] : List Nat).length = 4 := rfl
      rw [hlen] at hj2
      have hj : j = 1 := by omega
      subst hj
      exact absurd (h1 : (1 : Nat) = 0) (by decide : ¬ ((1 : Nat) = 0))
    · intro h
      exact absurd h htype
    · intro h
      exact absurd (h : (1 : Nat) = 0) (by decide : ¬ ((1 : Nat) = 0))
  | succ n ih =>
    obtain ⟨ha, hlen, hb, hc, hd⟩ := ih
    rw [ebdu_reference_escape_succ, ← List.append_assoc]
    generalize hL : [0x00, 0x00, 0x01, bdu_type] ++ (List.range n).flatMap (fun i =>
          if 2 ≤ i ∧ payload.getD i 0 ≤ 0x03 ∧ payload.getD (i - 1) 0 = 0x00
             ∧ payload.getD (i - 2) 0 = 0x00
          then [0x03, payload.getD i 0] else [payload.getD i 0]) = L at ha hlen hb hc hd ⊢
    by_cases hcond : 2 ≤ n ∧ payload.getD n 0 ≤ 0x03 ∧ payload.getD (n - 1) 0 = 0x00
        ∧ payload.getD (n - 2) 0 = 0x00
    · rw [if_pos hcond]
      have e : L ++ [0x03, payload.getD n 0] = (L ++ [0x03]) ++ [payload.getD n 0] := by simp
      rw [e]
      have h3 := no_emulation_append L 3 ha (fun _ _ _ => Nat.le_refl 3)
      have hlen3 : (L ++ [3]).length = L.length + 1 := by simp
      have hlast3 : (L ++ [3]).getD ((L ++ [3]).length - 1) 0 = 3 := by
        rw [getD_append_one, hlen3, if_neg (by omega), if_pos (by omega)]
      have hlen' : ((L ++ [3]) ++ [payload.getD n 0]).length = L.length + 2 := by simp
      refine ⟨no_emulation_append (L ++ [3]) _ h3 (fun _ _ h => ?_), by rw [hlen']; omega,
        fun _ => ?_, fun _ => by omega, fun h _ => ?_⟩
      · rw [hlast3] at h
        exact absurd h (by decide)
      · rw [getD_append_one, hlen', hlen3, if_neg (by omega), if_pos (by omega)]
        rfl
      · rw [getD_append_one, hlen', hlen3, if_pos (by omega)] at h
        have e2 : L.length + 2 - 2 = (L ++ [3]).length - 1 := by rw [hlen3]; omega
        rw [e2, hlast3] at h
        exact absurd h (by decide)
    · rw [if_neg hcond]
      have hlen' : (L ++ [payload.getD n 0]).length = L.length + 1 := by simp
      have hlast : (L ++ [payload.getD n 0]).getD ((L ++ [payload.getD n 0]).length - 1) 0
          = payload.getD n 0 := by
        rw [getD_append_one, hlen', if_neg (by omega), if_pos (by omega)]
      have hprev : (L ++ [payload.getD n 0]).getD ((L ++ [payload.getD n 0]).length - 2) 0
          = L.getD (L.length - 1) 0 := by
        rw [getD_append_one, hlen', if_pos (by omega)]
        rfl
      refine ⟨no_emulation_append L _ ha (fun _ h2 h1 => ?_), by rw [hlen']; omega,
        fun _ => hlast, fun _ => by omega, fun h2 h1 => ?_⟩
      · obtain ⟨hn2, hp2⟩ := hd h2 h1
        have hp1 : payload.getD (n - 1) 0 = 0 := by rw [← hb (by omega)]; exact h1
        by_contra hlt
        exact hcond ⟨hn2, by omega, hp1, hp2⟩
      · rw [hprev] at h2
        have hn1 := hc h2
        refine ⟨by omega, ?_⟩
        have e : n + 1 - 2 = n - 1 := by omega
        rw [e, ← hb hn1]
        exact h2

/-- The buffer that `make_vc1_ebdu` works on: when the function returns a
buffer, there is a block `b` of at least the allocated size (the helper's own
buffer, or the block that `av_realloc` returned), and the result is what the
start code, the copy or escape loop and the `memset` leave in it. -/
theorem make_vc1_ebdu_buffer (padding : Nat) (realloc_ok : Bool) (fresh : Nat → Nat)
    (helper : ebdu_helper_t) (pkt : AVPacket) (bdu_type : Nat) (is_vc1 : Bool)
    (hpkt : valid_buffer pkt.data pkt.size)
    (hfit : 2 * (pkt.size + 4) + Int.ofNat padding ≤ Int.ofNat INT32_MAX)
    (hhelper : helper.buffer_size = Int.ofNat helper.buffer.length) :
    (realloc_ok = true →
      (make_vc1_ebdu padding realloc_ok fresh helper pkt bdu_type is_vc1).isSome = true)
    ∧ ∀ data size helper1,
        make_vc1_ebdu padding realloc_ok fresh helper pkt bdu_type is_vc1
          = some (data, size, helper1) →
        ∃ b : List Nat,
          (if is_vc1 = true then 1 else 2)
              * (((pkt.data.getD []).take pkt.size.toNat).length + 4) + padding ≤ b.length
          ∧ data = memset_zero_at
              (if is_vc1 = true then
                  (memcpy_at ((((b.set 0 0x00).set 1 0x00).set 2 0x01).set 3 bdu_type) 4
                    ((pkt.data.getD []).take pkt.size.toNat),
                   ((pkt.data.getD []).take pkt.size.toNat).length + 4)
               else rbdu_to_ebdu ((pkt.data.getD []).take pkt.size.toNat)
                  ((((b.set 0 0x00).set 1 0x00).set 2 0x01).set 3 bdu_type)).1
              (if is_vc1 = true then
                  (memcpy_at ((((b.set 0 0x00).set 1 0x00).set 2 0x01).set 3 bdu_type) 4
                    ((pkt.data.getD []).take pkt.size.toNat),
                   ((pkt.data.getD []).take pkt.size.toNat).length + 4)
               else rbdu_to_ebdu ((pkt.data.getD []).take pkt.size.toNat)
                  ((((b.set 0 0x00).set 1 0x00).set 2 0x01).set 3 bdu_type)).2
              padding
          ∧ size = (if is_vc1 = true then
                  (memcpy_at ((((b.set 0 0x00).set 1 0x00).set 2 0x01).set 3 bdu_type) 4
                    ((pkt.data.getD []).take pkt.size.toNat),
                   ((pkt.data.getD []).take pkt.size.toNat).length + 4)
               else rbdu_to_ebdu ((pkt.data.getD []).take pkt.size.toNat)
                  ((((b.set 0 0x00).set 1 0x00).set 2 0x01).set 3 bdu_type)).2 := by
  have hp1 := hpkt.1
  have hp2 := hpkt.2
  simp only [Int.ofNat_eq_coe] at hp2 hhelper
  have hpl : ((pkt.data.getD []).take pkt.size.toNat).length = pkt.size.toNat := by
    rw [List.length_take]
    omega
  have hsz : (pkt.size + 4).toNat = ((pkt.data.getD []).take pkt.size.toNat).length + 4 := by
    rw [hpl]; omega
  have hbs : ((1 + (if is_vc1 = true then 0 else 1) : Int) * (pkt.size + 4)
        + Int.ofNat padding).toNat
      = (if is_vc1 = true then 1 else 2)
          * (((pkt.data.getD []).take pkt.size.toNat).length + 4) + padding := by
    rw [hpl]
    simp only [Int.ofNat_eq_coe]
    by_cases hv : is_vc1 = true
    · simp only [if_pos hv]; omega
    · simp only [if_neg hv]; omega
  have e1 : wrap_int32 (pkt.size + 4) = pkt.size + 4 := by
    unfold wrap_int32 INT32_MAX at *
    simp only [Int.ofNat_eq_coe] at hfit
    omega
  have e2 : wrap_int32 ((1 + (if is_vc1 = true then 0 else 1) : Int) * (pkt.size + 4))
      = (1 + (if is_vc1 = true then 0 else 1) : Int) * (pkt.size + 4) := by
    unfold wrap_int32 INT32_MAX at *
    simp only [Int.ofNat_eq_coe] at hfit
    by_cases hv : is_vc1 = true
    · simp only [if_pos hv]; omega
    · simp only [if_neg hv]; omega
  have e3 : wrap_int32 ((1 + (if is_vc1 = true then 0 else 1) : Int) * (pkt.size + 4)
        + Int.ofNat padding)
      = (1 + (if is_vc1 = true then 0 else 1) : Int) * (pkt.size + 4) + Int.ofNat padding := by
    unfold wrap_int32 INT32_MAX at *
    simp only [Int.ofNat_eq_coe] at hfit ⊢
    by_cases hv : is_vc1 = true
    · simp only [if_pos hv]; omega
    · simp only [if_neg hv]; omega
  unfold make_vc1_ebdu
  simp only [e1, e2, e3]
  rw [hsz]
  by_cases hsmall : helper.buffer_size
      < (1 + (if is_vc1 = true then 0 else 1) : Int) * (pkt.size + 4) + Int.ofNat padding
  · rw [if_pos hsmall]
    by_cases hr : realloc_ok = true
    · rw [if_pos hr]
      simp only
      refine ⟨fun _ => rfl, ?_⟩
      intro data size helper1 h
      have h1 := (Prod.mk.inj (Option.some.inj h)).1
      have h2 := (Prod.mk.inj (Prod.mk.inj (Option.some.inj h)).2).1
      exact ⟨av_realloc_bytes fresh helper.buffer
          (((1 + (if is_vc1 = true then 0 else 1) : Int) * (pkt.size + 4)
            + Int.ofNat padding).toNat),
        by rw [av_realloc_bytes_length, hbs], h1.symm, h2.symm⟩
    · rw [if_neg hr]
      simp only
      refine ⟨fun h => absurd h hr, ?_⟩
      intro data size helper1 h
      cases h
  · rw [if_neg hsmall]
    simp only
    refine ⟨fun _ => rfl, ?_⟩
    intro data size helper1 h
    have h1 := (Prod.mk.inj (Option.some.inj h)).1
    have h2 := (Prod.mk.inj (Prod.mk.inj (Option.some.inj h)).2).1
    exact ⟨helper.buffer,
      (by
        rw [← hbs]
        simp only [Int.ofNat_eq_coe] at hsmall ⊢
        omega), h1.symm, h2.symm⟩

/-- C28. An escaped EBDU holds no start-code emulation: when `make_vc1_ebdu`
escapes a raw BDU whose `bdu_type` is not zero, it returns a buffer unless
`av_realloc` fails, and in the `*size` bytes of the EBDU every `00 00` behind
the leading start code (from index 1 on) is followed by a byte that is at
least `03`, so that none of `00 00 00`, `00 00 01`, `00 00 02` occurs there;
`*size` is at most twice the payload length plus 4, which is below the
`2 * (size + 4)` the buffer was allocated for, and the buffer holds `*size`
bytes and the padding. -/
theorem make_vc1_ebdu_no_emulation (padding : Nat) (realloc_ok : Bool) (fresh : Nat → Nat)
    (helper : ebdu_helper_t) (pkt : AVPacket) (bdu_type : Nat)
    (hpkt : valid_buffer pkt.data pkt.size)
    (hfit : 2 * (pkt.size + 4) + Int.ofNat padding ≤ Int.ofNat INT32_MAX)
    (hhelper : helper.buffer_size = Int.ofNat helper.buffer.length)
    (htype : bdu_type ≠ 0) :
    (realloc_ok = true →
      (make_vc1_ebdu padding realloc_ok fresh helper pkt bdu_type false).isSome = true)
    ∧ ∀ data size helper1,
        make_vc1_ebdu padding realloc_ok fresh helper pkt bdu_type false
          = some (data, size, helper1) →
        (∀ j, 1 ≤ j → j + 2 < size → data.getD j 0 = 0 → data.getD (j + 1) 0 = 0 →
          3 ≤ data.getD (j + 2) 0)
        ∧ size ≤ 2 * ((pkt.data.getD []).take pkt.size.toNat).length + 4
        ∧ Int.ofNat size ≤ 2 * (pkt.size + 4)
        ∧ size + padding ≤ data.length := by
  obtain ⟨hsome, hres⟩ := make_vc1_ebdu_buffer padding realloc_ok fresh helper pkt bdu_type
    false hpkt hfit hhelper
  refine ⟨hsome, ?_⟩
  intro data size helper1 h
  obtain ⟨b, hb, hdata, hsize⟩ := hres data size helper1 h
  rw [if_neg (by decide)] at hb hdata hsize
  have hpl : ((pkt.data.getD []).take pkt.size.toNat).length = pkt.size.toNat := by
    rw [List.length_take]
    have hp2 := hpkt.2
    simp only [Int.ofNat_eq_coe] at hp2
    omega
  have hp1 := hpkt.1
  generalize hpay : (pkt.data.getD []).take pkt.size.toNat = payload at hb hdata hsize hpl ⊢
  obtain ⟨h0, h0l⟩ := start_code_take b bdu_type (by omega)
  generalize (((b.set 0 0x00).set 1 0x00).set 2 0x01).set 3 bdu_type = data0
    at h0 h0l hdata hsize
  have hr := rbdu_to_ebdu_spec payload data0 _ (by omega) h0
  have hm := memset_zero_at_spec (rbdu_to_ebdu payload data0).1 (rbdu_to_ebdu payload data0).2
    padding (by rw [hr.1]; omega)
  have hlen : data.length = data0.length := by
    rw [hdata]
    unfold memset_zero_at
    rw [(write_seq_getElem? (fun _ => 0) _ _ _).1, hr.1]
  have htake : data.take size = [0x00, 0x00, 0x01, bdu_type]
      ++ (List.range payload.length).flatMap (fun i =>
          if 2 ≤ i ∧ payload.getD i 0 ≤ 0x03 ∧ payload.getD (i - 1) 0 = 0x00
             ∧ payload.getD (i - 2) 0 = 0x00
          then [0x03, payload.getD i 0] else [payload.getD i 0]) := by
    rw [hdata, hsize, hm.1, hr.2.2]
  have hbound : size ≤ 2 * payload.length + 4 := by rw [hsize]; exact hr.2.1
  have hget : ∀ j, j < size → data.getD j 0 = (data.take size).getD j 0 := by
    intro j hj
    simp only [List.getD_eq_getElem?_getD]
    rw [List.getElem?_take, if_pos hj]
  refine ⟨?_, hbound, ?_, by omega⟩
  · intro j hj1 hj2 hz0 hz1
    rw [hget j (by omega)] at hz0
    rw [hget (j + 1) (by omega)] at hz1
    rw [hget (j + 2) hj2]
    have hsl : (data.take size).length = size := by
      rw [List.length_take]; omega
    rw [htake] at hz0 hz1 hsl ⊢
    exact (escaped_prefix_no_emulation payload bdu_type htype payload.length).1 j hj1
      (by rw [hsl]; exact hj2) hz0 hz1
  · simp only [Int.ofNat_eq_coe]
    omega

/-- Witness of C28: the payload `00 00 00 00 01 05 00 00 03` as a raw BDU of
type `0D` gives `00 00 01 0D 00 00 03 00 03 00 03 01 05 00 00 03 03`, in which
each `00 00` behind the start code is followed by `03`. -/
theorem make_vc1_ebdu_no_emulation_witness :
    valid_buffer scenario_rbdu_packet.data scenario_rbdu_packet.size
    ∧ 2 * (scenario_rbdu_packet.size + 4) + Int.ofNat 8 ≤ Int.ofNat INT32_MAX
    ∧ scenario_ebdu_helper.buffer_size = Int.ofNat scenario_ebdu_helper.buffer.length
    ∧ (0x0D : Nat) ≠ 0
    ∧ (make_vc1_ebdu 8 true (fun _ => 255) scenario_ebdu_helper scenario_rbdu_packet
        0x0D false).map (fun r => (r.1.take r.2.1, r.2.1))
        = some ([0, 0, 1, 0x0D, 0, 0, 3, 0, 3, 0, 3, 1, 5, 0, 0, 3, 3], 17)
    ∧ ((true = true →
        (make_vc1_ebdu 8 true (fun _ => 255) scenario_ebdu_helper scenario_rbdu_packet
          0x0D false).isSome = true)
      ∧ ∀ data size helper1,
          make_vc1_ebdu 8 true (fun _ => 255) scenario_ebdu_helper scenario_rbdu_packet
            0x0D false = some (data, size, helper1) →
          (∀ j, 1 ≤ j → j + 2 < size → data.getD j 0 = 0 → data.getD (j + 1) 0 = 0 →
            3 ≤ data.getD (j + 2) 0)
          ∧ size ≤ 2 * ((scenario_rbdu_packet.data.getD []).take
              scenario_rbdu_packet.size.toNat).length + 4
          ∧ Int.ofNat size ≤ 2 * (scenario_rbdu_packet.size + 4)
          ∧ size + 8 ≤ data.length) :=
  have hv : valid_buffer scenario_rbdu_packet.data scenario_rbdu_packet.size := by
    unfold valid_buffer; decide
  ⟨hv, by decide, by decide, by decide, by decide,
   make_vc1_ebdu_no_emulation 8 true (fun _ => 255) scenario_ebdu_helper scenario_rbdu_packet
     0x0D hv (by decide) (by decide) (by decide)⟩

/-! ## Records without a value on the trusted axis -/

/-- A keyframe pass clears the keyframe field of every record it visits whose
axis value is unset; the record visited at index `i` is the one at
`info[i].sample_number`, whatever the order of the list. -/
theorem unique_keyframe_pass_unset (axis : video_frame_info_t → Int) (unset : Int)
    (haxis : ∀ r r' : video_frame_info_t, view_ts r = view_ts r' → axis r = axis r')
    (info : List video_frame_info_t) (n : Nat) (hlen : info.length = n + 1)
    (hrange : ∀ i, 1 ≤ i → i ≤ n → (info_at info i).sample_number ≤ n) :
    ∀ i, 1 ≤ i → i ≤ n →
      axis (info_at info (info_at info i).sample_number) = unset →
      (info_at (unique_keyframe_pass axis unset info n)
        (info_at info i).sample_number).keyframe = 0 := by
  unfold unique_keyframe_pass
  have key := foldl_range'_inv (unique_keyframe_step axis unset)
    (fun k (s : List video_frame_info_t) => s.map view_ts = info.map view_ts ∧
      ∀ i, 1 ≤ i → i < 2 + k → i ≤ n →
        axis (info_at info (info_at info i).sample_number) = unset →
        (info_at s (info_at info i).sample_number).keyframe = 0)
    (unique_keyframe_first axis unset info) 2 (n - 1)
    ⟨by unfold unique_keyframe_first; exact map_view_ts_set_keyframe _ _ _,
     fun i h1 h2 h3 h4 => by
       have hi : i = 1 := by omega
       subst hi
       unfold unique_keyframe_first
       simp only
       rw [info_at_set_keyframe, if_pos ⟨rfl, by have := hrange 1 h1 h3; omega⟩,
         if_neg (fun hc => hc h4)]
       exact Nat.and_zero _⟩
    (by
      intro k s hk hp
      obtain ⟨hmap, hp⟩ := hp
      have hslen : s.length = n + 1 := by
        rw [length_of_map_eq view_ts info s hmap]; exact hlen
      have hv : ∀ j, view_ts (info_at s j) = view_ts (info_at info j) :=
        info_at_of_map_eq view_ts info s hmap
      have hsnj : (info_at s (2 + k)).sample_number = (info_at info (2 + k)).sample_number := by
        have := congrArg (fun v => v.2.2.2.1) (hv (2 + k))
        simp only [view_ts] at this
        exact this
      have hjn := hrange (2 + k) (by omega) (by omega)
      unfold unique_keyframe_step
      simp only [hsnj]
      split
      · refine ⟨by rw [map_view_ts_set_keyframe]; exact hmap, ?_⟩
        intro i h1 h2 h3 h4
        by_cases hi : i = 2 + k
        · rw [hi]; exact keyframe_zero_set_keyframe_self s _ (by omega)
        · exact keyframe_zero_set_keyframe s _ _ (hp i h1 (by omega) h3 h4)
      · split
        · refine ⟨by rw [map_view_ts_set_keyframe, map_view_ts_set_keyframe]; exact hmap, ?_⟩
          intro i h1 h2 h3 h4
          by_cases hi : i = 2 + k
          · rw [hi]
            exact keyframe_zero_set_keyframe_self _ _
              (by rw [length_set_keyframe]; omega)
          · exact keyframe_zero_set_keyframe _ _ _
              (keyframe_zero_set_keyframe s _ _ (hp i h1 (by omega) h3 h4))
        · rename_i hne1 hne2
          refine ⟨hmap, ?_⟩
          intro i h1 h2 h3 h4
          by_cases hi : i = 2 + k
          · exfalso
            apply hne1
            rw [haxis _ _ (hv _), ← hi]
            exact h4
          · exact hp i h1 (by omega) h3 h4)
  intro i h1 h2 h3
  exact key.2 i h1 (by omega) h2 h3

/-- The same for the pass that `decide_video_seek_method` selects. -/
theorem treat_unique_as_keyframe_unset (flags : lw_seek_flags_t)
    (axis : video_frame_info_t → Int) (h : trusted_axis flags = some axis)
    (info : List video_frame_info_t) (n : Nat) (hlen : info.length = n + 1)
    (hrange : ∀ i, 1 ≤ i → i ≤ n → (info_at info i).sample_number ≤ n) :
    ∀ i, 1 ≤ i → i ≤ n →
      axis (info_at info (info_at info i).sample_number)
        = (if flags.SEEK_POS_BASED = true then -1 else AV_NOPTS_VALUE) →
      (info_at (treat_unique_as_keyframe flags info n)
        (info_at info i).sample_number).keyframe = 0 := by
  have haxis := trusted_axis_view_ts flags axis h
  unfold trusted_axis at h
  unfold treat_unique_as_keyframe
  by_cases h1 : flags.SEEK_POS_BASED = true
  · rw [if_pos h1] at h ⊢
    rw [if_pos h1]
    cases h
    exact unique_keyframe_pass_unset _ _ haxis info n hlen hrange
  · rw [if_neg h1] at h ⊢
    rw [if_neg h1]
    by_cases h2 : flags.SEEK_PTS_BASED = true
    · rw [if_pos h2] at h ⊢
      cases h
      exact unique_keyframe_pass_unset _ _ haxis info n hlen hrange
    · rw [if_neg h2] at h ⊢
      by_cases h3 : flags.SEEK_DTS_BASED = true
      · rw [if_pos h3] at h ⊢
        cases h
        exact unique_keyframe_pass_unset _ _ haxis info n hlen hrange
      · rw [if_neg h3] at h
        cases h

/-- A frame list whose static fields are, behind slot 0, a rearrangement of
those of a list in decode order: the sample numbers of its records 1..n are
within 1..n and pairwise different, and each record of the list in decode order
is found in it. -/
theorem decode_numbers_of_perm (l input : List video_frame_info_t) (n : Nat)
    (hlen : input.length = n + 1)
    (hsn : ∀ i, 1 ≤ i → i ≤ n → (info_at input i).sample_number = i)
    (hperm : ((l.drop 1).map view_static).Perm ((input.drop 1).map view_static))
    (hn : 1 ≤ n) :
    l.length = n + 1
    ∧ (∀ p, 1 ≤ p → p ≤ n →
        1 ≤ (info_at l p).sample_number ∧ (info_at l p).sample_number ≤ n)
    ∧ (∀ p p', 1 ≤ p → p ≤ n → 1 ≤ p' → p' ≤ n →
        (info_at l p).sample_number = (info_at l p').sample_number → p = p')
    ∧ (∀ d, 1 ≤ d → d ≤ n →
        ∃ p, 1 ≤ p ∧ p ≤ n ∧ view_static (info_at l p) = view_static (info_at input d)) := by
  have hdl : (l.drop 1).length = n := by
    have := hperm.length_eq
    simp only [List.length_map, List.length_drop] at this
    simp only [List.length_drop]
    omega
  have hll : l.length = n + 1 := by
    simp only [List.length_drop] at hdl
    omega
  have hget : ∀ (m : List video_frame_info_t), m.length = n + 1 → ∀ p, 1 ≤ p → p ≤ n →
      (m.drop 1)[p - 1]? = some (info_at m p) := by
    intro m hm p h1 h2
    unfold info_at
    rw [List.getElem?_drop, List.getD_eq_getElem?_getD]
    have e : 1 + (p - 1) = p := by omega
    rw [e, List.getElem?_eq_getElem (by omega)]
    rfl
  have hsnperm : ((l.drop 1).map (fun r => r.sample_number)).Perm (List.range' 1 n) := by
    have h1 := hperm.map (fun v : Int × Int × Nat × Int × Int => v.2.2.1)
    rw [List.map_map, List.map_map] at h1
    have e : ((fun v : Int × Int × Nat × Int × Int => v.2.2.1) ∘ view_static)
        = (fun r : video_frame_info_t => r.sample_number) := by
      funext r; rfl
    rw [e, map_sample_number_decode_order input n hlen hsn] at h1
    exact h1
  have hmem : ∀ p, 1 ≤ p → p ≤ n → info_at l p ∈ l.drop 1 := by
    intro p h1 h2
    exact List.getElem?_mem (hget l hll p h1 h2)
  refine ⟨hll, ?_, ?_, ?_⟩
  · intro p h1 h2
    have hm : (info_at l p).sample_number ∈ (l.drop 1).map (fun r => r.sample_number) :=
      List.mem_map.mpr ⟨_, hmem p h1 h2, rfl⟩
    have := (hsnperm.mem_iff).mp hm
    rw [List.mem_range'_1] at this
    omega
  · intro p p' h1 h2 h3 h4 heq
    have hnd : ((l.drop 1).map (fun r => r.sample_number)).Nodup :=
      (hsnperm.nodup_iff).mpr (List.nodup_range' 1 n)
    have ha : ((l.drop 1).map (fun r => r.sample_number))[p - 1]?
        = some (info_at l p).sample_number := by
      rw [List.getElem?_map, hget l hll p h1 h2]; rfl
    have hb : ((l.drop 1).map (fun r => r.sample_number))[p' - 1]?
        = some (info_at l p').sample_number := by
      rw [List.getElem?_map, hget l hll p' h3 h4]; rfl
    have hlt : p - 1 < ((l.drop 1).map (fun r => r.sample_number)).length := by
      rw [List.length_map, hdl]; omega
    have hlt' : p' - 1 < ((l.drop 1).map (fun r => r.sample_number)).length := by
      rw [List.length_map, hdl]; omega
    rw [List.getElem?_eq_getElem hlt] at ha
    rw [List.getElem?_eq_getElem hlt'] at hb
    have hidx : p - 1 = p' - 1 := by
      apply (List.Nodup.getElem_inj_iff hnd).mp
      rw [Option.some.inj ha, Option.some.inj hb, heq]
    omega
  · intro d h1 h2
    have hm : view_static (info_at input d) ∈ (input.drop 1).map view_static :=
      List.mem_map.mpr ⟨_, List.getElem?_mem (hget input hlen d h1 h2), rfl⟩
    have hm2 := (hperm.mem_iff).mpr hm
    obtain ⟨r, hr, hrv⟩ := List.mem_map.mp hm2
    obtain ⟨k, hk, hkr⟩ := List.getElem_of_mem hr
    refine ⟨k + 1, by omega, by rw [hdl] at hk; omega, ?_⟩
    have := hget l hll (k + 1) (by omega) (by rw [hdl] at hk; omega)
    rw [Nat.add_sub_cancel, List.getElem?_eq_getElem hk, hkr] at this
    rw [← Option.some.inj this]
    exact hrv

/-- The last loop of `decide_video_seek_method` on a list whose sample numbers
are within 1..n and pairwise different: `keyframe_list` holds at each sample
number the keyframe field of its record. -/
theorem setup_keyframe_list_at (info : List video_frame_info_t) (kl : List Nat) (n : Nat)
    (hkl : kl.length = n + 1)
    (hrange : ∀ i, 1 ≤ i → i ≤ n → (info_at info i).sample_number ≤ n)
    (hinj : ∀ p p', 1 ≤ p → p ≤ n → 1 ≤ p' → p' ≤ n →
        (info_at info p).sample_number = (info_at info p').sample_number → p = p') :
    ∀ p, 1 ≤ p → p ≤ n →
      (setup_keyframe_list info kl n).getD (info_at info p).sample_number 1
        = (info_at info p).keyframe := by
  unfold setup_keyframe_list
  have key := foldl_range'_inv
    (fun (kl : List Nat) i => kl.set (info_at info i).sample_number (info_at info i).keyframe)
    (fun k (s : List Nat) => s.length = n + 1 ∧
      ∀ p, 1 ≤ p → p < 1 + k →
        s.getD (info_at info p).sample_number 1 = (info_at info p).keyframe)
    kl 1 n ⟨hkl, fun i h1 h2 => by omega⟩
    (by
      intro k s hk hp
      obtain ⟨hl, hp⟩ := hp
      refine ⟨by simp [hl], ?_⟩
      intro p h1 h2
      simp only [List.getD_eq_getElem?_getD, List.getElem?_set]
      by_cases hi : p = 1 + k
      · subst hi
        have hlt : (info_at info (1 + k)).sample_number < s.length := by
          have := hrange (1 + k) (by omega) (by omega)
          omega
        rw [if_pos rfl, if_pos hlt]
        rfl
      · have hne : (info_at info (1 + k)).sample_number ≠ (info_at info p).sample_number := by
          intro hc
          exact hi (hinj p (1 + k) h1 (by omega) (by omega) (by omega) hc.symm)
        rw [if_neg hne]
        have := hp p h1 (by omega)
        rw [List.getD_eq_getElem?_getD] at this
        exact this)
  intro p h1 h2
  exact key.2 p h1 (by omega)

/-- C21. After `decide_video_seek_method` returned 0 on a frame list in decode
order, a record without a value on the trusted axis is not a keyframe: where
its offset is -1 (with `SEEK_POS_BASED`), or its PTS or DTS is unset (with the
pass along the PTS or the DTS), its keyframe field is 0 and so is
`keyframe_list` at its sample number; in particular, with `SEEK_POS_BASED` in
the flags, `keyframe_list[d] = 0` for every decode index `d` whose record came
in with offset -1.  This holds for every `qsort`, also when the frame list was
sorted into presentation order. -/
theorem decide_video_seek_method_unset_not_keyframe (q : qsort_t) (a b : Bool)
    (lwhp : lwlibav_file_handler_t) (vdhp : lwlibav_video_decode_handler_t) (n : Nat)
    (hlen : vdhp.frame_list.length = n + 1)
    (hkl : vdhp.keyframe_list.length = n + 1)
    (hsn : ∀ i, 1 ≤ i → i ≤ n → (info_at vdhp.frame_list i).sample_number = i)
    (hret : (decide_video_seek_method q a b lwhp vdhp n).1 = 0) :
    (∀ axis,
      trusted_axis (decide_video_seek_method q a b lwhp vdhp n).2.lw_seek_flags = some axis →
      ∀ p, 1 ≤ p → p ≤ n →
        axis (info_at (decide_video_seek_method q a b lwhp vdhp n).2.frame_list p)
          = (if (decide_video_seek_method q a b lwhp vdhp n).2.lw_seek_flags.SEEK_POS_BASED
                = true
             then -1 else AV_NOPTS_VALUE) →
        (info_at (decide_video_seek_method q a b lwhp vdhp n).2.frame_list p).keyframe = 0
        ∧ (decide_video_seek_method q a b lwhp vdhp n).2.keyframe_list.getD
            (info_at (decide_video_seek_method q a b lwhp vdhp n).2.frame_list p).sample_number
            1 = 0)
    ∧ ((decide_video_seek_method q a b lwhp vdhp n).2.lw_seek_flags.SEEK_POS_BASED = true →
        ∀ d, 1 ≤ d → d ≤ n → (info_at vdhp.frame_list d).file_offset = -1 →
          (decide_video_seek_method q a b lwhp vdhp n).2.keyframe_list.getD d 1 = 0) := by
  obtain ⟨info2, hfl, hkf⟩ := decide_video_seek_method_finish q a b lwhp vdhp n hret
  have hperm := decide_video_seek_method_static q a b lwhp vdhp n
  generalize (decide_video_seek_method q a b lwhp vdhp n).2 = r at hfl hkf hperm ⊢
  have hmap : r.frame_list.map view_ts = info2.map view_ts := by
    rw [hfl]; exact map_treat_unique_as_keyframe view_ts map_view_ts_set_keyframe _ _ _
  have hv : ∀ j, view_ts (info_at r.frame_list j) = view_ts (info_at info2 j) :=
    info_at_of_map_eq view_ts info2 r.frame_list hmap
  have hsn2 : ∀ j, (info_at info2 j).sample_number = (info_at r.frame_list j).sample_number := by
    intro j
    have := congrArg (fun v => v.2.2.2.1) (hv j)
    simp only [view_ts] at this
    exact this.symm
  have part1 : ∀ axis, trusted_axis r.lw_seek_flags = some axis →
      ∀ p, 1 ≤ p → p ≤ n →
        axis (info_at r.frame_list p)
          = (if r.lw_seek_flags.SEEK_POS_BASED = true then -1 else AV_NOPTS_VALUE) →
        (info_at r.frame_list p).keyframe = 0
        ∧ r.keyframe_list.getD (info_at r.frame_list p).sample_number 1 = 0 := by
    intro axis hax p h1 h2 hunset
    obtain ⟨hll, hrange, hinj, hsurj⟩ :=
      decode_numbers_of_perm r.frame_list vdhp.frame_list n hlen hsn hperm (by omega)
    have haxis := trusted_axis_view_ts _ axis hax
    obtain ⟨p0, hp1, hp2, hp3⟩ := hsurj p h1 h2
    have hp0 : (info_at r.frame_list p0).sample_number = p := by
      have := congrArg (fun v => v.2.2.1) hp3
      simp only [view_static] at this
      rw [this]; exact hsn p h1 h2
    have hlen2 : info2.length = n + 1 := by
      rw [← length_of_map_eq view_ts info2 r.frame_list hmap]; exact hll
    have hz := treat_unique_as_keyframe_unset r.lw_seek_flags axis hax info2 n hlen2
      (fun i hi1 hi2 => by rw [hsn2]; exact (hrange i hi1 hi2).2) p0 hp1 hp2
      (by rw [hsn2, hp0, ← haxis _ _ (hv p)]; exact hunset)
    rw [hsn2, hp0, ← hfl] at hz
    refine ⟨hz, ?_⟩
    rw [hkf, setup_keyframe_list_at r.frame_list vdhp.keyframe_list n hkl
      (fun i hi1 hi2 => (hrange i hi1 hi2).2) hinj p h1 h2]
    exact hz
  refine ⟨part1, ?_⟩
  intro hpos d h1 h2 hoff
  obtain ⟨hll, hrange, hinj, hsurj⟩ :=
    decode_numbers_of_perm r.frame_list vdhp.frame_list n hlen hsn hperm (by omega)
  obtain ⟨p0, hp1, hp2, hp3⟩ := hsurj d h1 h2
  have hp0 : (info_at r.frame_list p0).sample_number = d := by
    have := congrArg (fun v => v.2.2.1) hp3
    simp only [view_static] at this
    rw [this]; exact hsn d h1 h2
  have hoff0 : (info_at r.frame_list p0).file_offset = -1 := by
    have := congrArg (fun v => v.2.1) hp3
    simp only [view_static] at this
    rw [this]; exact hoff
  have := (part1 (fun x => x.file_offset) (by unfold trusted_axis; rw [if_pos hpos])
    p0 hp1 hp2 (by rw [if_pos hpos]; exact hoff0)).2
  rw [hp0] at this
  exact this

/-- Witness of C21: an MPEG transport stream in decode order I P B with PTS
10, 30, 20, whose P-picture is flagged as a keyframe but has offset -1.  The
frame list is sorted into the order I B P and the P-picture ends as no
keyframe: `keyframe_list` is `[_, 1, 0, 0]`. -/
theorem decide_video_seek_method_unset_not_keyframe_witness :
    scenario_lost_offset.frame_list.length = 3 + 1
    ∧ scenario_lost_offset.keyframe_list.length = 3 + 1
    ∧ (∀ i, 1 ≤ i → i ≤ 3 → (info_at scenario_lost_offset.frame_list i).sample_number = i)
    ∧ (decide_video_seek_method insertion_qsort true true scenario_mpegts
        scenario_lost_offset 3).1 = 0
    ∧ scenario_lost_offset.keyframe_list = [0, 1, 1, 0]
    ∧ (decide_video_seek_method insertion_qsort true true scenario_mpegts
        scenario_lost_offset 3).2.lw_seek_flags.SEEK_POS_BASED = true
    ∧ (decide_video_seek_method insertion_qsort true true scenario_mpegts
        scenario_lost_offset 3).2.frame_list.map (fun r => (r.sample_number, r.file_offset))
        = [(0, 0), (1, 100), (3, 300), (2, -1)]
    ∧ (decide_video_seek_method insertion_qsort true true scenario_mpegts
        scenario_lost_offset 3).2.keyframe_list = [0, 1, 0, 0]
    ∧ ((∀ axis,
        trusted_axis (decide_video_seek_method insertion_qsort true true scenario_mpegts
          scenario_lost_offset 3).2.lw_seek_flags = some axis →
        ∀ p, 1 ≤ p → p ≤ 3 →
          axis (info_at (decide_video_seek_method insertion_qsort true true scenario_mpegts
              scenario_lost_offset 3).2.frame_list p)
            = (if (decide_video_seek_method insertion_qsort true true scenario_mpegts
                  scenario_lost_offset 3).2.lw_seek_flags.SEEK_POS_BASED = true
               then -1 else AV_NOPTS_VALUE) →
          (info_at (decide_video_seek_method insertion_qsort true true scenario_mpegts
              scenario_lost_offset 3).2.frame_list p).keyframe = 0
          ∧ (decide_video_seek_method insertion_qsort true true scenario_mpegts
              scenario_lost_offset 3).2.keyframe_list.getD
              (info_at (decide_video_seek_method insertion_qsort true true scenario_mpegts
                scenario_lost_offset 3).2.frame_list p).sample_number 1 = 0)
      ∧ ((decide_video_seek_method insertion_qsort true true scenario_mpegts
            scenario_lost_offset 3).2.lw_seek_flags.SEEK_POS_BASED = true →
          ∀ d, 1 ≤ d → d ≤ 3 → (info_at scenario_lost_offset.frame_list d).file_offset = -1 →
            (decide_video_seek_method insertion_qsort true true scenario_mpegts
              scenario_lost_offset 3).2.keyframe_list.getD d 1 = 0)) :=
  ⟨by decide, by decide, by decide, by rfl, by rfl, by rfl, by rfl, by rfl,
   decide_video_seek_method_unset_not_keyframe insertion_qsort true true scenario_mpegts
     scenario_lost_offset 3 (by decide) (by decide) (by decide) (by rfl)⟩

/-! ## The duplicate check of the last anchor -/

/-- C22. The duplicate check of `mpeg12_video_vc1_genarate_pts` misses a
duplicate below the last DTS.  Decode order I P B B P B B with dts 0..6, the
second P-picture (record 5, the last anchor) coming with PTS 5: the main pass
gives the B-picture 6 the PTS 5 as well, but the scan starts at record 7 and
stops there because `5 >= dts[7] = 6` fails, so the last anchor keeps the PTS 5
and is not given the estimate `dts[7] + (dts[7] - dts[6]) = 7`.  With PTS 6
instead, which is the PTS of record 7, the scan finds the duplicate and the
estimate 7 is written.  The duplicate is still there when
`decide_video_seek_method` returns. -/
theorem genarate_pts_last_anchor_duplicate :
    ((List.range' 1 7).foldl genarate_pts_step
        { info := (scenario_last_anchor_pts 5).frame_list, reordered_stream := false,
          num_consecutive_b := 0 }).info.map (fun r => r.pts)
      = [0, 1, 4, 2, 3, 5, 5, 6]
    ∧ (mpeg12_video_vc1_genarate_pts (scenario_last_anchor_pts 5)).frame_list.map
        (fun r => r.pts) = [0, 1, 4, 2, 3, 5, 5, 6]
    ∧ (mpeg12_video_vc1_genarate_pts (scenario_last_anchor_pts 6)).frame_list.map
        (fun r => r.pts) = [0, 1, 4, 2, 3, 7, 5, 6]
    ∧ (decide_video_seek_method insertion_qsort true true scenario_mpeg
        (scenario_last_anchor_pts 5) 7).1 = 0
    ∧ (decide_video_seek_method insertion_qsort true true scenario_mpeg
        (scenario_last_anchor_pts 5) 7).2.lw_seek_flags.SEEK_PTS_GENERATED = true
    ∧ (decide_video_seek_method insertion_qsort true true scenario_mpeg
        (scenario_last_anchor_pts 5) 7).2.frame_list.map (fun r => (r.sample_number, r.pts))
      = [(0, 0), (1, 1), (3, 2), (4, 3), (2, 4), (5, 5), (6, 5), (7, 6)] :=
  ⟨by rfl, by rfl, by rfl, by rfl, by rfl, by rfl⟩

/-! ## The PTS of the anchors -/

theorem set_pts_marks (l : List video_frame_info_t) (i j : Nat) (v : Int) :
    (info_at (set_pts l i v) j).keyframe = (info_at l j).keyframe
    ∧ (info_at (set_pts l i v) j).is_leading = (info_at l j).is_leading := by
  rw [info_at_set_pts]
  split
  · rename_i h; rw [h.1]; exact ⟨rfl, rfl⟩
  · exact ⟨rfl, rfl⟩

theorem anchor_inv_step (info0 : List video_frame_info_t) (n : Nat) (s : genarate_pts_state)
    (hg : gen_inv info0 n s) (h : anchor_inv info0 n s) :
    anchor_inv info0 (n + 1) (genarate_pts_step s (1 + n)) := by
  obtain ⟨hlen, hfix, hle, hrun, hanchor, hB⟩ := hg
  obtain ⟨hnext, hkeep, hmarks, hre⟩ := h
  have e1 : 1 + n = n + 1 := Nat.add_comm 1 n
  rw [e1]
  unfold genarate_pts_step
  by_cases hb : (info_at s.info (n + 1)).pict_type = AV_PICTURE_TYPE_B
  · rw [if_pos hb]
    have hb0 : (info_at info0 (n + 1)).pict_type = AV_PICTURE_TYPE_B := by
      rw [← (hfix (n + 1)).1]; exact hb
    have e : n + 1 - (s.num_consecutive_b + 1) = n - s.num_consecutive_b := by omega
    refine ⟨?_, ?_, ?_, ?_⟩
    · intro j hj1 hj2 hj3 hjA hjne
      simp only at hjne ⊢
      rw [e] at hjne
      have hjn : j ≠ n + 1 := fun hh => hjA (by rw [hh]; exact hb0)
      obtain ⟨i, hi1, hi2, hi3, hi4, hi5⟩ := hnext j hj1 (by omega) hj3 hjA hjne
      refine ⟨i, hi1, by omega, hi3, hi4, ?_⟩
      rw [info_at_set_pts_ne _ _ _ _ (fun hh => hjn hh.symm)]
      exact hi5
    · intro j hj
      simp only at hj ⊢
      rw [e] at hj
      have hjn : n + 1 ≠ j := by omega
      rw [info_at_set_pts_ne _ _ _ _ hjn]
      exact hkeep j (by omega)
    · intro j
      simp only
      have := set_pts_marks s.info (n + 1) j (info_at s.info (n + 1)).dts
      exact ⟨this.1.trans (hmarks j).1, this.2.trans (hmarks j).2⟩
    · simp only
      exact ⟨fun _ => ⟨n + 1, by omega, Nat.le_refl _, hb0⟩, fun _ => trivial⟩
  · rw [if_neg hb]
    have hb0 : (info_at info0 (n + 1)).pict_type ≠ AV_PICTURE_TYPE_B := by
      rw [← (hfix (n + 1)).1]; exact hb
    refine ⟨?_, ?_, ?_, ?_⟩
    · intro j hj1 hj2 hj3 hjA hjne
      simp only at hjne ⊢
      have hjn : j ≤ n := by omega
      by_cases hj : j = n - s.num_consecutive_b
      · refine ⟨n + 1, by omega, Nat.le_refl _, hb0, ?_, ?_⟩
        · intro k hk1 hk2
          exact hrun k (by omega) (by omega)
        · rw [if_pos (by omega)]
          have htarget : n + 1 - s.num_consecutive_b - 1 = j := by omega
          rw [htarget, info_at_set_pts, if_pos ⟨rfl, by rw [hlen]; exact hj3⟩]
          exact (hfix (n + 1)).2
      · obtain ⟨i, hi1, hi2, hi3, hi4, hi5⟩ := hnext j hj1 hjn hj3 hjA hj
        refine ⟨i, hi1, by omega, hi3, hi4, ?_⟩
        split
        · rw [info_at_set_pts_ne _ _ _ _ (by omega)]
          exact hi5
        · exact hi5
    · intro j hj
      simp only at hj ⊢
      split
      · rw [info_at_set_pts_ne _ _ _ _ (by omega)]
        exact hkeep j (by omega)
      · exact hkeep j (by omega)
    · intro j
      simp only
      split
      · have := set_pts_marks s.info (n + 1 - s.num_consecutive_b - 1) j
          (info_at s.info (n + 1)).dts
        exact ⟨this.1.trans (hmarks j).1, this.2.trans (hmarks j).2⟩
      · exact hmarks j
    · simp only
      rw [hre]
      constructor
      · rintro ⟨j, h1, h2, h3⟩
        exact ⟨j, h1, by omega, h3⟩
      · rintro ⟨j, h1, h2, h3⟩
        have hjn : j ≠ n + 1 := fun hh => hb0 (by rw [← hh]; exact h3)
        exact ⟨j, h1, by omega, h3⟩

theorem anchor_inv_loop (info0 : List video_frame_info_t) (n : Nat) :
    gen_inv info0 n ((List.range' 1 n).foldl genarate_pts_step
      { info := info0, reordered_stream := false, num_consecutive_b := 0 })
    ∧ anchor_inv info0 n ((List.range' 1 n).foldl genarate_pts_step
      { info := info0, reordered_stream := false, num_consecutive_b := 0 }) := by
  apply foldl_range'_inv genarate_pts_step (fun k s => gen_inv info0 k s ∧ anchor_inv info0 k s)
  · refine ⟨⟨rfl, fun j => ⟨rfl, rfl⟩, Nat.le_refl 0, ?_, ?_, ?_⟩, ?_, ?_, ?_, ?_⟩
    · intro j h1 h2; omega
    · intro h; simp at h
    · intro j h1 h2; omega
    · intro j h1 h2; omega
    · intro j _; rfl
    · intro j; exact ⟨rfl, rfl⟩
    · constructor
      · intro h; cases h
      · rintro ⟨j, h1, h2, _⟩; omega
  · intro k s _ hp
    exact ⟨gen_inv_step info0 k s hp.1, anchor_inv_step info0 k s hp.1 hp.2⟩

theorem dts_strict_mono (info0 : List video_frame_info_t) (n : Nat)
    (hdts : ∀ i, 1 ≤ i → i < n → (info_at info0 i).dts < (info_at info0 (i + 1)).dts) :
    ∀ b a, 1 ≤ a → a < b → b ≤ n → (info_at info0 a).dts < (info_at info0 b).dts := by
  intro b
  induction b with
  | zero => intro a _ h _; omega
  | succ b ih =>
    intro a h1 h2 h3
    by_cases hab : a = b
    · rw [hab]; exact hdts b (by omega) (by omega)
    · exact Int.lt_trans (ih a h1 (by omega) (by omega)) (hdts b (by omega) (by omega))

/-- The PTS that `mpeg12_video_vc1_genarate_pts` generates when every DTS is
set and greater than the one before and no record comes with a PTS. -/
theorem genarate_pts_list_unset (info0 : List video_frame_info_t) (n : Nat)
    (hlen : info0.length = n + 1)
    (hdts : ∀ i, 1 ≤ i → i < n → (info_at info0 i).dts < (info_at info0 (i + 1)).dts)
    (hrange : ∀ i, 1 ≤ i → i ≤ n →
      -2 ^ 63 < (info_at info0 i).dts ∧ (info_at info0 i).dts < 2 ^ 63)
    (hpts : ∀ i, 1 ≤ i → i ≤ n → (info_at info0 i).pts = AV_NOPTS_VALUE)
    (hfit : 2 ≤ n →
      (info_at info0 n).dts + ((info_at info0 n).dts - (info_at info0 (n - 1)).dts) < 2 ^ 63) :
    (∀ i, 1 ≤ i → i ≤ n →
      (info_at (genarate_pts_list info0 n) i).dts = (info_at info0 i).dts
      ∧ (info_at info0 i).dts ≤ (info_at (genarate_pts_list info0 n) i).pts)
    ∧ (∀ i j, 1 ≤ i → i ≤ n → 1 ≤ j → j ≤ n → i ≠ j →
      (info_at (genarate_pts_list info0 n) i).pts
        ≠ (info_at (genarate_pts_list info0 n) j).pts) := by
  obtain ⟨⟨hl, hfix, hle, hrun, hanchor, hBs⟩, hnext, hkeep, hmarks, hre⟩ :=
    anchor_inv_loop info0 n
  have hmono := dts_strict_mono info0 n hdts
  have hinj : ∀ a b, 1 ≤ a → a ≤ n → 1 ≤ b → b ≤ n →
      (info_at info0 a).dts = (info_at info0 b).dts → a = b := by
    intro a b ha1 ha2 hb1 hb2 heq
    by_contra hne
    rcases Nat.lt_or_gt_of_ne hne with h | h
    · have := hmono b a ha1 h hb2; omega
    · have := hmono a b hb1 h ha2; omega
  have hdout : ∀ i, (info_at (genarate_pts_list info0 n) i).dts = (info_at info0 i).dts := by
    intro i
    have := info_at_of_map_eq view_static info0 _ (map_view_static_genarate_pts_list info0 n) i
    exact congrArg (fun v => v.1) this
  unfold genarate_pts_list at hdout ⊢
  simp only at hdout ⊢
  generalize (List.range' 1 n).foldl genarate_pts_step
      { info := info0, reordered_stream := false, num_consecutive_b := 0 } = s at *
  by_cases hc : s.reordered_stream = true ∧ s.num_consecutive_b ≠ n
  · rw [if_pos hc] at hdout ⊢
    have hf1 : 1 ≤ n - s.num_consecutive_b := by omega
    have hf2 : n - s.num_consecutive_b ≤ n := by omega
    have hfA := hanchor hf1
    obtain ⟨jb, hjb1, hjb2, hjb3⟩ := hre.mp hc.1
    have hn2 : 2 ≤ n := by
      have : jb ≠ n - s.num_consecutive_b := fun hh => hfA (by rw [← hh]; exact hjb3)
      omega
    generalize hf : n - s.num_consecutive_b = f at *
    have hptsf : (info_at s.info f).pts = AV_NOPTS_VALUE := by
      rw [hkeep f (Or.inl rfl)]; exact hpts f hf1 hf2
    have hrn := hrange n (by omega) (Nat.le_refl n)
    have hrn1 := hrange (n - 1) (by omega) (by omega)
    have hlt := hdts (n - 1) (by omega) (by omega)
    have en : n - 1 + 1 = n := by omega
    rw [en] at hlt
    have hfit2 := hfit hn2
    have hE : estimate_last_pts s.info n f
        = set_pts s.info f ((info_at info0 n).dts
            + ((info_at info0 n).dts - (info_at info0 (n - 1)).dts)) := by
      have hnn : ¬ ((info_at s.info f).pts ≠ AV_NOPTS_VALUE) := fun hh => hh hptsf
      unfold estimate_last_pts
      simp only
      have hd : wrap_int64 ((info_at info0 n).dts - (info_at info0 (n - 1)).dts)
          = (info_at info0 n).dts - (info_at info0 (n - 1)).dts :=
        wrap_int64_eq_self _ (by omega) (by omega)
      rw [if_neg hnn, if_pos hptsf, (hfix n).2, (hfix (n - 1)).2, hd,
        wrap_int64_eq_self _ (by omega) (by omega)]
    have hout : ∀ i, (info_at (check_leading (estimate_last_pts s.info n f) n) i).pts
        = if i = f then (info_at info0 n).dts
            + ((info_at info0 n).dts - (info_at info0 (n - 1)).dts)
          else (info_at s.info i).pts := by
      intro i
      rw [(check_leading_fields _ n i).1, hE, info_at_set_pts]
      by_cases hi : i = f
      · rw [if_pos hi, if_pos ⟨hi.symm, by rw [hl, hlen]; omega⟩]
      · rw [if_neg hi, if_neg (fun hh => hi hh.1.symm)]
    have hle_n : ∀ m, 1 ≤ m → m ≤ n → (info_at info0 m).dts ≤ (info_at info0 n).dts := by
      intro m hm1 hm2
      by_cases hmn : m = n
      · rw [hmn]
      · exact Int.le_of_lt (hmono n m hm1 (by omega) (Nat.le_refl n))
    have hcode : ∀ i, 1 ≤ i → i ≤ n → i ≠ f →
        ∃ m, i ≤ m ∧ m ≤ n
          ∧ (info_at (check_leading (estimate_last_pts s.info n f) n) i).pts
              = (info_at info0 m).dts
          ∧ (((info_at info0 i).pict_type = AV_PICTURE_TYPE_B ∧ m = i)
             ∨ ((info_at info0 i).pict_type ≠ AV_PICTURE_TYPE_B ∧ i < m
                ∧ (info_at info0 m).pict_type ≠ AV_PICTURE_TYPE_B
                ∧ ∀ k, i < k → k < m → (info_at info0 k).pict_type = AV_PICTURE_TYPE_B)) := by
      intro i hi1 hi2 hif
      rw [hout, if_neg hif]
      by_cases hB : (info_at info0 i).pict_type = AV_PICTURE_TYPE_B
      · exact ⟨i, Nat.le_refl i, hi2, hBs i hi1 hi2 (by omega) hB, Or.inl ⟨hB, rfl⟩⟩
      · obtain ⟨m, hm1, hm2, hm3, hm4, hm5⟩ := hnext i hi1 hi2 (by omega) hB hif
        exact ⟨m, by omega, hm2, hm5, Or.inr ⟨hB, hm1, hm3, hm4⟩⟩
    constructor
    · intro i hi1 hi2
      refine ⟨hdout i, ?_⟩
      by_cases hif : i = f
      · rw [hout, if_pos hif]
        have := hle_n i hi1 hi2
        omega
      · obtain ⟨m, hm1, hm2, hm3, _⟩ := hcode i hi1 hi2 hif
        rw [hm3]
        by_cases him : i = m
        · rw [him]
        · exact Int.le_of_lt (hmono m i hi1 (by omega) hm2)
    · intro i j hi1 hi2 hj1 hj2 hij heq
      by_cases hif : i = f
      · have hjf : j ≠ f := fun hh => hij (hif.trans hh.symm)
        obtain ⟨m, hm1, hm2, hm3, _⟩ := hcode j hj1 hj2 hjf
        rw [hout i, if_pos hif, hm3] at heq
        have := hle_n m (by omega) hm2
        omega
      · by_cases hjf : j = f
        · obtain ⟨m, hm1, hm2, hm3, _⟩ := hcode i hi1 hi2 hif
          rw [hout j, if_pos hjf, hm3] at heq
          have := hle_n m (by omega) hm2
          omega
        · obtain ⟨m, hm1, hm2, hm3, hm4⟩ := hcode i hi1 hi2 hif
          obtain ⟨m', hm1', hm2', hm3', hm4'⟩ := hcode j hj1 hj2 hjf
          rw [hm3, hm3'] at heq
          have hmm := hinj m m' (by omega) hm2 (by omega) hm2' heq
          subst hmm
          rcases hm4 with ⟨hBi, hmi⟩ | ⟨hAi, him, hAm, hrunm⟩
          · rcases hm4' with ⟨hBj, hmj⟩ | ⟨hAj, hjm, hAm', _⟩
            · omega
            · exact hAm' (by rw [hmi]; exact hBi)
          · rcases hm4' with ⟨hBj, hmj⟩ | ⟨hAj, hjm, hAm', hrunm'⟩
            · exact hAm (by rw [hmj]; exact hBj)
            · rcases Nat.lt_or_gt_of_ne hij with h | h
              · exact hAj (hrunm j h hjm)
              · exact hAi (hrunm' i h him)
  · rw [if_neg hc] at hdout ⊢
    have hcopy : ∀ i, 1 ≤ i → i ≤ n →
        (info_at (copy_dts_to_pts s.info n) i).pts = (info_at info0 i).dts := by
      intro i hi1 hi2
      rw [(copy_dts_to_pts_fields s.info n i).2.2 hi1 hi2 (by rw [hl, hlen]; omega)]
      exact (hfix i).2
    constructor
    · intro i hi1 hi2
      refine ⟨hdout i, ?_⟩
      rw [hcopy i hi1 hi2]
    · intro i j hi1 hi2 hj1 hj2 hij heq
      rw [hcopy i hi1 hi2, hcopy j hj1 hj2] at heq
      exact hij (hinj i j hi1 hi2 hj1 hj2 heq)

/-- C27. When every record comes with a set DTS greater than the one before
and without a PTS, and the estimate for the last anchor fits in 64 bits, then
after `mpeg12_video_vc1_genarate_pts` every PTS is set, no PTS is below the
DTS of its record, and no two records have the same PTS. -/
theorem genarate_pts_set_distinct (vdhp : lwlibav_video_decode_handler_t)
    (hlen : vdhp.frame_list.length = vdhp.frame_count + 1)
    (hdts : ∀ i, 1 ≤ i → i < vdhp.frame_count →
      (info_at vdhp.frame_list i).dts < (info_at vdhp.frame_list (i + 1)).dts)
    (hset : ∀ i, 1 ≤ i → i ≤ vdhp.frame_count →
      (info_at vdhp.frame_list i).dts ≠ AV_NOPTS_VALUE
      ∧ -2 ^ 63 ≤ (info_at vdhp.frame_list i).dts ∧ (info_at vdhp.frame_list i).dts < 2 ^ 63)
    (hpts : ∀ i, 1 ≤ i → i ≤ vdhp.frame_count →
      (info_at vdhp.frame_list i).pts = AV_NOPTS_VALUE)
    (hfit : 2 ≤ vdhp.frame_count →
      (info_at vdhp.frame_list vdhp.frame_count).dts
        + ((info_at vdhp.frame_list vdhp.frame_count).dts
            - (info_at vdhp.frame_list (vdhp.frame_count - 1)).dts) < 2 ^ 63) :
    (∀ i, 1 ≤ i → i ≤ vdhp.frame_count →
      (info_at (mpeg12_video_vc1_genarate_pts vdhp).frame_list i).pts ≠ AV_NOPTS_VALUE
      ∧ (info_at (mpeg12_video_vc1_genarate_pts vdhp).frame_list i).dts
          ≤ (info_at (mpeg12_video_vc1_genarate_pts vdhp).frame_list i).pts)
    ∧ (∀ i j, 1 ≤ i → i ≤ vdhp.frame_count → 1 ≤ j → j ≤ vdhp.frame_count → i ≠ j →
      (info_at (mpeg12_video_vc1_genarate_pts vdhp).frame_list i).pts
        ≠ (info_at (mpeg12_video_vc1_genarate_pts vdhp).frame_list j).pts) := by
  have hrange : ∀ i, 1 ≤ i → i ≤ vdhp.frame_count →
      -2 ^ 63 < (info_at vdhp.frame_list i).dts ∧ (info_at vdhp.frame_list i).dts < 2 ^ 63 := by
    intro i h1 h2
    obtain ⟨ha, hb, hc⟩ := hset i h1 h2
    unfold AV_NOPTS_VALUE at ha
    exact ⟨by omega, hc⟩
  obtain ⟨h1, h2⟩ := genarate_pts_list_unset vdhp.frame_list vdhp.frame_count hlen hdts hrange
    hpts hfit
  show (∀ i, 1 ≤ i → i ≤ vdhp.frame_count →
      (info_at (genarate_pts_list vdhp.frame_list vdhp.frame_count) i).pts ≠ AV_NOPTS_VALUE
      ∧ (info_at (genarate_pts_list vdhp.frame_list vdhp.frame_count) i).dts
          ≤ (info_at (genarate_pts_list vdhp.frame_list vdhp.frame_count) i).pts)
    ∧ (∀ i j, 1 ≤ i → i ≤ vdhp.frame_count → 1 ≤ j → j ≤ vdhp.frame_count → i ≠ j →
      (info_at (genarate_pts_list vdhp.frame_list vdhp.frame_count) i).pts
        ≠ (info_at (genarate_pts_list vdhp.frame_list vdhp.frame_count) j).pts)
  refine ⟨?_, h2⟩
  intro i hi1 hi2
  obtain ⟨ha, hb⟩ := h1 i hi1 hi2
  have hr := (hrange i hi1 hi2).1
  refine ⟨?_, by rw [ha]; exact hb⟩
  unfold AV_NOPTS_VALUE
  omega

set_option maxRecDepth 20000 in
/-- Witness of C27: decode order I P P B B P with dts 0..5 and no PTS; the
generated PTS are 1, 2, 5, 3, 4, 6. -/
theorem genarate_pts_set_distinct_witness :
    scenario_ippbbp.frame_list.length = scenario_ippbbp.frame_count + 1
    ∧ (∀ i, 1 ≤ i → i < scenario_ippbbp.frame_count →
        (info_at scenario_ippbbp.frame_list i).dts
          < (info_at scenario_ippbbp.frame_list (i + 1)).dts)
    ∧ (∀ i, 1 ≤ i → i ≤ scenario_ippbbp.frame_count →
        (info_at scenario_ippbbp.frame_list i).dts ≠ AV_NOPTS_VALUE
        ∧ -2 ^ 63 ≤ (info_at scenario_ippbbp.frame_list i).dts
        ∧ (info_at scenario_ippbbp.frame_list i).dts < 2 ^ 63)
    ∧ (∀ i, 1 ≤ i → i ≤ scenario_ippbbp.frame_count →
        (info_at scenario_ippbbp.frame_list i).pts = AV_NOPTS_VALUE)
    ∧ (2 ≤ scenario_ippbbp.frame_count →
        (info_at scenario_ippbbp.frame_list scenario_ippbbp.frame_count).dts
          + ((info_at scenario_ippbbp.frame_list scenario_ippbbp.frame_count).dts
              - (info_at scenario_ippbbp.frame_list (scenario_ippbbp.frame_count - 1)).dts)
          < 2 ^ 63)
    ∧ (mpeg12_video_vc1_genarate_pts scenario_ippbbp).frame_list.map (fun r => (r.dts, r.pts))
        = [(0, 0), (0, 1), (1, 2), (2, 5), (3, 3), (4, 4), (5, 6)]
    ∧ ((∀ i, 1 ≤ i → i ≤ scenario_ippbbp.frame_count →
        (info_at (mpeg12_video_vc1_genarate_pts scenario_ippbbp).frame_list i).pts
          ≠ AV_NOPTS_VALUE
        ∧ (info_at (mpeg12_video_vc1_genarate_pts scenario_ippbbp).frame_list i).dts
            ≤ (info_at (mpeg12_video_vc1_genarate_pts scenario_ippbbp).frame_list i).pts)
      ∧ (∀ i j, 1 ≤ i → i ≤ scenario_ippbbp.frame_count →
          1 ≤ j → j ≤ scenario_ippbbp.frame_count → i ≠ j →
          (info_at (mpeg12_video_vc1_genarate_pts scenario_ippbbp).frame_list i).pts
            ≠ (info_at (mpeg12_video_vc1_genarate_pts scenario_ippbbp).frame_list j).pts)) :=
  ⟨by decide, by decide, by decide, by decide, by decide, by rfl,
   genarate_pts_set_distinct scenario_ippbbp (by decide) (by decide) (by decide) (by decide)
     (by decide)⟩

/-! ## Leading pictures -/

theorem set_is_leading_fields (l : List video_frame_info_t) (i j : Nat) (v : Nat) :
    (info_at (set_is_leading l i v) j).pts = (info_at l j).pts
    ∧ (info_at (set_is_leading l i v) j).keyframe = (info_at l j).keyframe := by
  rw [info_at_set_is_leading]
  split
  · rename_i h; rw [h.1]; exact ⟨rfl, rfl⟩
  · exact ⟨rfl, rfl⟩

/-- The loop "Check leading B-pictures": the keyframe fields are untouched, a
record that meets `leads_keyframe` is marked, and the mark of every other
record is untouched. -/
theorem check_leading_spec (info : List video_frame_info_t) (n : Nat)
    (hlen : info.length = n + 1) :
    (∀ j, (info_at (check_leading info n) j).keyframe = (info_at info j).keyframe)
    ∧ ∀ i, 1 ≤ i → i ≤ n →
        (leads_keyframe info i → (info_at (check_leading info n) i).is_leading = 1)
        ∧ (¬ leads_keyframe info i →
            (info_at (check_leading info n) i).is_leading = (info_at info i).is_leading) := by
  unfold check_leading
  have key := foldl_range'_inv check_leading_step
    (fun k (s : List video_frame_info_t × Int) =>
      s.1.length = info.length
      ∧ (∀ j, (info_at s.1 j).pts = (info_at info j).pts
            ∧ (info_at s.1 j).keyframe = (info_at info j).keyframe)
      ∧ (∀ j, k < j → (info_at s.1 j).is_leading = (info_at info j).is_leading)
      ∧ ((s.2 = AV_NOPTS_VALUE ∧ ∀ m, 1 ≤ m → m ≤ k → (info_at info m).keyframe = 0)
         ∨ (∃ m, 1 ≤ m ∧ m ≤ k ∧ (info_at info m).keyframe ≠ 0
              ∧ (∀ m', m < m' → m' ≤ k → (info_at info m').keyframe = 0)
              ∧ s.2 = (info_at info m).pts))
      ∧ (∀ i, 1 ≤ i → i ≤ k →
          (leads_keyframe info i → (info_at s.1 i).is_leading = 1)
          ∧ (¬ leads_keyframe info i →
              (info_at s.1 i).is_leading = (info_at info i).is_leading)))
    (info, AV_NOPTS_VALUE) 1 n
    ⟨rfl, fun j => ⟨rfl, rfl⟩, fun j _ => rfl, Or.inl ⟨rfl, fun m h1 h2 => by omega⟩,
      fun i h1 h2 => by omega⟩
    (by
      intro k s hk hp
      obtain ⟨l, lkp⟩ := s
      obtain ⟨hl, hsame, hlater, hlast, hdone⟩ := hp
      simp only at hl hsame hlater hlast hdone
      have e1 : 1 + k = k + 1 := Nat.add_comm 1 k
      rw [e1]
      have htest : ((info_at l (k + 1)).pts ≠ AV_NOPTS_VALUE ∧ lkp ≠ AV_NOPTS_VALUE
            ∧ (info_at l (k + 1)).pts < lkp) ↔ leads_keyframe info (k + 1) := by
        rw [(hsame (k + 1)).1]
        constructor
        · rintro ⟨ha, hb, hc⟩
          rcases hlast with ⟨hnone, _⟩ | ⟨m, hm1, hm2, hm3, hm4, hm5⟩
          · exact absurd hnone hb
          · exact ⟨m, hm1, by omega, hm3, fun m' h1 h2 => hm4 m' h1 (by omega),
              by rw [← hm5]; exact hb, ha, by rw [← hm5]; exact hc⟩
        · rintro ⟨k0, h1, h2, h3, h4, h5, h6, h7⟩
          rcases hlast with ⟨_, hnone⟩ | ⟨m, hm1, hm2, hm3, hm4, hm5⟩
          · exact absurd (hnone k0 h1 (by omega)) h3
          · have hmk : m = k0 := by
              by_contra hne
              rcases Nat.lt_or_gt_of_ne hne with h | h
              · exact h3 (hm4 k0 h (by omega))
              · exact hm3 (h4 m h (by omega))
            rw [hmk] at hm5
            exact ⟨h6, by rw [hm5]; exact h5, by rw [hm5]; exact h7⟩
      unfold check_leading_step
      simp only
      by_cases ht : (info_at l (k + 1)).pts ≠ AV_NOPTS_VALUE ∧ lkp ≠ AV_NOPTS_VALUE
            ∧ (info_at l (k + 1)).pts < lkp
      · rw [if_pos ht]
        have hf := set_is_leading_fields l (k + 1) (k + 1) 1
        rw [hf.1, hf.2, (hsame (k + 1)).1, (hsame (k + 1)).2]
        refine ⟨by unfold set_is_leading; simp [hl], ?_, ?_, ?_, ?_⟩
        · intro j
          have := set_is_leading_fields l (k + 1) j 1
          exact ⟨this.1.trans (hsame j).1, this.2.trans (hsame j).2⟩
        · intro j hj
          rw [info_at_set_is_leading, if_neg (fun hh => by omega)]
          exact hlater j (by omega)
        · by_cases hkf : (info_at info (k + 1)).keyframe ≠ 0
          · rw [if_pos hkf]
            exact Or.inr ⟨k + 1, by omega, Nat.le_refl _, hkf,
              fun m' h1 h2 => by omega, rfl⟩
          · rw [if_neg hkf]
            have hz : (info_at info (k + 1)).keyframe = 0 := Classical.not_not.mp hkf
            rcases hlast with ⟨hnone, hall⟩ | ⟨m, hm1, hm2, hm3, hm4, hm5⟩
            · refine Or.inl ⟨hnone, fun m h1 h2 => ?_⟩
              by_cases hmk : m = k + 1
              · rw [hmk]; exact hz
              · exact hall m h1 (by omega)
            · refine Or.inr ⟨m, hm1, by omega, hm3, fun m' h1 h2 => ?_, hm5⟩
              by_cases hmk : m' = k + 1
              · rw [hmk]; exact hz
              · exact hm4 m' h1 (by omega)
        · intro i hi1 hi2
          by_cases hik : i = k + 1
          · rw [hik]
            refine ⟨fun _ => ?_, fun hn => absurd (htest.mp ht) hn⟩
            rw [info_at_set_is_leading, if_pos ⟨rfl, by rw [hl, hlen]; omega⟩]
          · rw [info_at_set_is_leading, if_neg (fun hh => hik hh.1.symm)]
            exact hdone i hi1 (by omega)
      · rw [if_neg ht]
        rw [(hsame (k + 1)).1, (hsame (k + 1)).2]
        refine ⟨hl, hsame, fun j hj => hlater j (by omega), ?_, ?_⟩
        · by_cases hkf : (info_at info (k + 1)).keyframe ≠ 0
          · rw [if_pos hkf]
            exact Or.inr ⟨k + 1, by omega, Nat.le_refl _, hkf,
              fun m' h1 h2 => by omega, rfl⟩
          · rw [if_neg hkf]
            have hz : (info_at info (k + 1)).keyframe = 0 := Classical.not_not.mp hkf
            rcases hlast with ⟨hnone, hall⟩ | ⟨m, hm1, hm2, hm3, hm4, hm5⟩
            · refine Or.inl ⟨hnone, fun m h1 h2 => ?_⟩
              by_cases hmk : m = k + 1
              · rw [hmk]; exact hz
              · exact hall m h1 (by omega)
            · refine Or.inr ⟨m, hm1, by omega, hm3, fun m' h1 h2 => ?_, hm5⟩
              by_cases hmk : m' = k + 1
              · rw [hmk]; exact hz
              · exact hm4 m' h1 (by omega)
        · intro i hi1 hi2
          by_cases hik : i = k + 1
          · rw [hik]
            refine ⟨fun hc => absurd (htest.mpr hc) ht, fun _ => ?_⟩
            exact hlater (k + 1) (by omega)
          · exact hdone i hi1 (by omega))
  exact ⟨fun j => (key.2.1 j).2, fun i h1 h2 => key.2.2.2.2 i h1 h2⟩

theorem estimate_last_pts_marks (l : List video_frame_info_t) (n flush : Nat) (j : Nat) :
    (info_at (estimate_last_pts l n flush) j).keyframe = (info_at l j).keyframe
    ∧ (info_at (estimate_last_pts l n flush) j).is_leading = (info_at l j).is_leading := by
  have hdup : ∀ (m : Nat) (l : List video_frame_info_t),
      (info_at (check_duplicated_pts flush m l) j).keyframe = (info_at l j).keyframe
      ∧ (info_at (check_duplicated_pts flush m l) j).is_leading = (info_at l j).is_leading := by
    intro m
    induction m with
    | zero => intro l; exact ⟨rfl, rfl⟩
    | succ m ih =>
      intro l
      unfold check_duplicated_pts
      split
      · split
        · have h1 := ih (set_pts l flush AV_NOPTS_VALUE)
          have h2 := set_pts_marks l flush j AV_NOPTS_VALUE
          exact ⟨h1.1.trans h2.1, h1.2.trans h2.2⟩
        · exact ih l
      · exact ⟨rfl, rfl⟩
  have h1 : (info_at (if (info_at l flush).pts ≠ AV_NOPTS_VALUE
      then check_duplicated_pts flush n l else l) j).keyframe = (info_at l j).keyframe
      ∧ (info_at (if (info_at l flush).pts ≠ AV_NOPTS_VALUE
      then check_duplicated_pts flush n l else l) j).is_leading = (info_at l j).is_leading := by
    split
    · exact hdup n l
    · exact ⟨rfl, rfl⟩
  unfold estimate_last_pts
  simp only
  generalize (if (info_at l flush).pts ≠ AV_NOPTS_VALUE
      then check_duplicated_pts flush n l else l) = l1 at h1 ⊢
  split
  · have h2 := set_pts_marks l1 flush j
      (wrap_int64 ((info_at l1 n).dts + wrap_int64 ((info_at l1 n).dts - (info_at l1 (n - 1)).dts)))
    exact ⟨h2.1.trans h1.1, h2.2.trans h1.2⟩
  · exact h1

/-- C23. Leading pictures of a reordered stream (some B-picture, not only
B-pictures) whose records come with `is_leading = 0` and a keyframe field of 0
or 1: after `mpeg12_video_vc1_genarate_pts` the record `i` has `is_leading = 1`
if and only if a record before `i` in decode order has `keyframe = 1` and, for
the latest such record `k`, the PTS of `k` and of `i` are set and
`pts[i] < pts[k]`.  The PTS are those the function leaves, and the keyframe
fields are untouched. -/
theorem genarate_pts_leading (vdhp : lwlibav_video_decode_handler_t)
    (hlen : vdhp.frame_list.length = vdhp.frame_count + 1)
    (hB : ∃ b, 1 ≤ b ∧ b ≤ vdhp.frame_count
      ∧ (info_at vdhp.frame_list b).pict_type = AV_PICTURE_TYPE_B)
    (hA : ∃ a, 1 ≤ a ∧ a ≤ vdhp.frame_count
      ∧ (info_at vdhp.frame_list a).pict_type ≠ AV_PICTURE_TYPE_B)
    (hlead : ∀ i, 1 ≤ i → i ≤ vdhp.frame_count → (info_at vdhp.frame_list i).is_leading = 0)
    (hkf : ∀ i, 1 ≤ i → i ≤ vdhp.frame_count → (info_at vdhp.frame_list i).keyframe ≤ 1) :
    ∀ i, 1 ≤ i → i ≤ vdhp.frame_count →
      ((info_at (mpeg12_video_vc1_genarate_pts vdhp).frame_list i).is_leading = 1 ↔
        ∃ k, 1 ≤ k ∧ k < i
          ∧ (info_at (mpeg12_video_vc1_genarate_pts vdhp).frame_list k).keyframe = 1
          ∧ (∀ m, k < m → m < i →
              (info_at (mpeg12_video_vc1_genarate_pts vdhp).frame_list m).keyframe ≠ 1)
          ∧ (info_at (mpeg12_video_vc1_genarate_pts vdhp).frame_list k).pts ≠ AV_NOPTS_VALUE
          ∧ (info_at (mpeg12_video_vc1_genarate_pts vdhp).frame_list i).pts ≠ AV_NOPTS_VALUE
          ∧ (info_at (mpeg12_video_vc1_genarate_pts vdhp).frame_list i).pts
              < (info_at (mpeg12_video_vc1_genarate_pts vdhp).frame_list k).pts)
      ∧ (info_at (mpeg12_video_vc1_genarate_pts vdhp).frame_list i).keyframe
          = (info_at vdhp.frame_list i).keyframe := by
  obtain ⟨⟨hl, hfix, hle, hrun, hanchor, hBs⟩, hnext, hkeep, hmarks, hre⟩ :=
    anchor_inv_loop vdhp.frame_list vdhp.frame_count
  have hout : (mpeg12_video_vc1_genarate_pts vdhp).frame_list
      = genarate_pts_list vdhp.frame_list vdhp.frame_count := rfl
  rw [hout]
  unfold genarate_pts_list
  simp only
  generalize (List.range' 1 vdhp.frame_count).foldl genarate_pts_step
      { info := vdhp.frame_list, reordered_stream := false, num_consecutive_b := 0 } = s at *
  have hc : s.reordered_stream = true ∧ s.num_consecutive_b ≠ vdhp.frame_count := by
    refine ⟨hre.mpr hB, ?_⟩
    intro hh
    obtain ⟨a, ha1, ha2, ha3⟩ := hA
    exact ha3 (hrun a (by omega) ha2)
  rw [if_pos hc]
  generalize hE : estimate_last_pts s.info vdhp.frame_count
    (vdhp.frame_count - s.num_consecutive_b) = info1
  have hElen : info1.length = vdhp.frame_count + 1 := by
    rw [← hE, length_of_map_eq view_static s.info _
      (map_view_static_estimate_last_pts s.info _ _), hl, hlen]
  have hEmarks : ∀ j, (info_at info1 j).keyframe = (info_at vdhp.frame_list j).keyframe
      ∧ (info_at info1 j).is_leading = (info_at vdhp.frame_list j).is_leading := by
    intro j
    rw [← hE]
    have := estimate_last_pts_marks s.info vdhp.frame_count
      (vdhp.frame_count - s.num_consecutive_b) j
    exact ⟨this.1.trans (hmarks j).1, this.2.trans (hmarks j).2⟩
  obtain ⟨hkeyf, hspec⟩ := check_leading_spec info1 vdhp.frame_count hElen
  have hpts : ∀ j, (info_at (check_leading info1 vdhp.frame_count) j).pts
      = (info_at info1 j).pts := fun j => (check_leading_fields info1 vdhp.frame_count j).1
  intro i hi1 hi2
  refine ⟨?_, (hkeyf i).trans (hEmarks i).1⟩
  constructor
  · intro h1
    have hlk : leads_keyframe info1 i := by
      by_contra hn
      have := (hspec i hi1 hi2).2 hn
      rw [h1, (hEmarks i).2, hlead i hi1 hi2] at this
      exact absurd this (by decide)
    obtain ⟨k, hk1, hk2, hk3, hk4, hk5, hk6, hk7⟩ := hlk
    refine ⟨k, hk1, hk2, ?_, ?_, ?_, ?_, ?_⟩
    · rw [hkeyf k]
      have := hkf k hk1 (by omega)
      rw [← (hEmarks k).1] at this
      omega
    · intro m hm1 hm2
      rw [hkeyf m, hk4 m hm1 hm2]
      decide
    · rw [hpts k]; exact hk5
    · rw [hpts i]; exact hk6
    · rw [hpts i, hpts k]; exact hk7
  · rintro ⟨k, hk1, hk2, hk3, hk4, hk5, hk6, hk7⟩
    apply (hspec i hi1 hi2).1
    refine ⟨k, hk1, hk2, ?_, ?_, ?_, ?_, ?_⟩
    · rw [hkeyf k] at hk3
      rw [hk3]; decide
    · intro m hm1 hm2
      have h1 := hk4 m hm1 hm2
      rw [hkeyf m] at h1
      have h2 := hkf m (by omega) (by omega)
      rw [← (hEmarks m).1] at h2
      omega
    · rw [← hpts k]; exact hk5
    · rw [← hpts i]; exact hk6
    · rw [← hpts i, ← hpts k]; exact hk7

/-- Witness of C23: an open GOP in decode order I B B P with dts 0..3; the
generated PTS are 3, 1, 2, 4, and the two B-pictures, which follow the
keyframe and are displayed before it, are the leading pictures. -/
theorem genarate_pts_leading_witness :
    scenario_open_gop.frame_list.length = scenario_open_gop.frame_count + 1
    ∧ (∃ b, 1 ≤ b ∧ b ≤ scenario_open_gop.frame_count
        ∧ (info_at scenario_open_gop.frame_list b).pict_type = AV_PICTURE_TYPE_B)
    ∧ (∃ a, 1 ≤ a ∧ a ≤ scenario_open_gop.frame_count
        ∧ (info_at scenario_open_gop.frame_list a).pict_type ≠ AV_PICTURE_TYPE_B)
    ∧ (∀ i, 1 ≤ i → i ≤ scenario_open_gop.frame_count →
        (info_at scenario_open_gop.frame_list i).is_leading = 0)
    ∧ (∀ i, 1 ≤ i → i ≤ scenario_open_gop.frame_count →
        (info_at scenario_open_gop.frame_list i).keyframe ≤ 1)
    ∧ (mpeg12_video_vc1_genarate_pts scenario_open_gop).frame_list.map
        (fun r => (r.pts, r.keyframe, r.is_leading))
        = [(0, 0, 0), (3, 1, 0), (1, 0, 1), (2, 0, 1), (4, 0, 0)]
    ∧ ∀ i, 1 ≤ i → i ≤ scenario_open_gop.frame_count →
      ((info_at (mpeg12_video_vc1_genarate_pts scenario_open_gop).frame_list i).is_leading = 1 ↔
        ∃ k, 1 ≤ k ∧ k < i
          ∧ (info_at (mpeg12_video_vc1_genarate_pts scenario_open_gop).frame_list k).keyframe = 1
          ∧ (∀ m, k < m → m < i →
              (info_at (mpeg12_video_vc1_genarate_pts scenario_open_gop).frame_list m).keyframe
                ≠ 1)
          ∧ (info_at (mpeg12_video_vc1_genarate_pts scenario_open_gop).frame_list k).pts
              ≠ AV_NOPTS_VALUE
          ∧ (info_at (mpeg12_video_vc1_genarate_pts scenario_open_gop).frame_list i).pts
              ≠ AV_NOPTS_VALUE
          ∧ (info_at (mpeg12_video_vc1_genarate_pts scenario_open_gop).frame_list i).pts
              < (info_at (mpeg12_video_vc1_genarate_pts scenario_open_gop).frame_list k).pts)
      ∧ (info_at (mpeg12_video_vc1_genarate_pts scenario_open_gop).frame_list i).keyframe
          = (info_at scenario_open_gop.frame_list i).keyframe :=
  have hB : ∃ b, 1 ≤ b ∧ b ≤ scenario_open_gop.frame_count
      ∧ (info_at scenario_open_gop.frame_list b).pict_type = AV_PICTURE_TYPE_B :=
    ⟨2, by decide, by decide, by decide⟩
  have hA : ∃ a, 1 ≤ a ∧ a ≤ scenario_open_gop.frame_count
      ∧ (info_at scenario_open_gop.frame_list a).pict_type ≠ AV_PICTURE_TYPE_B :=
    ⟨1, by decide, by decide, by decide⟩
  ⟨by decide, hB, hA, by decide, by decide, by rfl,
   genarate_pts_leading scenario_open_gop (by decide) hB hA (by decide) (by decide)⟩

end Lwindex
